import Mathlib

/-!
# Jitter buffer: a shallow embedding of `video_coding::JitterBufferImpl`

The embedding follows the C++ sources:

* `common/result_code.h`, `common/exception_impl.h`, `common/exception_dispatcher.h`
* `video_coding/jitter_buffer/source/frame_fragment.cc`
* `video_coding/jitter_buffer/source/frame_buffer.cc`
* `video_coding/jitter_buffer/source/jitter_buffer_impl.cc`, `jitter_buffer.cc`
* `video_coding/jitter_buffer/tests/stubs/stub_decoder.h`, `stub_renderer.h`

Modelling conventions.

* C `int` values are `Int`.  The two `int` variables that add up byte counts, the member
  `m_currentFrameSize` and the local `currentPos`, wrap around at 32 bits (`int.wrap`); frame
  and fragment numbers are only compared and incremented by one.
* A `const char*` is `Option (Nat → Byte)`: `none` is the null pointer and `some mem` gives
  the byte found at every offset from the pointer.
* A heap array is the list of the bytes it holds.
* `std::map<int, FrameBufferPtr>` is an association list kept in ascending key order, which
  is the order in which the recycler iterates over it.
* The two worker threads are modelled in two ways.  `RecycleExistingFrames` and
  `ProcessCompletedFrames` give the effect of one whole loop iteration that nothing
  interrupts, and `World` with `Step` is the system whose steps are whole iterations; the laws
  on the store, the watermark, the worker flags and the error latch are stated there.
  `System` with `Action` cuts the two thread routines at their locked blocks and at their
  calls to the collaborators, keeps the three ways a collaborator call can end apart, and has
  the destructor as an action; the laws on the ready queue, on the record of collaborator
  calls, on a failing collaborator and on destruction are stated there.
* An allocation `new char[n]` throws `std::bad_alloc` when `n` is negative
  (`FrameBuffer.AppendFragment.call`, `JitterBufferImpl.ProcessCompletedFrames.decode`);
  running out of memory is not modelled.
-/

set_option maxRecDepth 100000

namespace JitterBuffer

/-! ## `common/result_code.h` -/

/-- The enum of `namespace result_code`. -/
inductive result_code
  | sOk
  | eFail
  | eNotFound
  | eNotReady
  | eOutOfSpace
  | eInvalidArgument
  | eUnexpected
  deriving DecidableEq, Repr

abbrev result_t := result_code

/-! ## `common/exception_impl.h`, `common/exception_dispatcher.h` -/

/-- The class `exception::internal::BasicException`: a result code and a message. -/
structure BasicException where
  m_resultCode : result_t
  m_errorMessage : String
  deriving DecidableEq, Repr

/-- The `operator<<` of `BasicException`: appends text to the message. -/
def BasicException.shl (e : BasicException) (obj : String) : BasicException :=
  { e with m_errorMessage := e.m_errorMessage ++ obj }

/-- The conversion `operator result_t()`. -/
def BasicException.toResult (e : BasicException) : result_t := e.m_resultCode

/-- What a `catch (const std::exception&)` can see: a `BasicException` or another
`std::exception`. -/
inductive StdException
  | basic (ex : BasicException)
  | other (what : String)
  deriving DecidableEq, Repr

/-- The macro `THROW_BASIC_EXCEPTION(resultCode)`: the exception it builds (file, line and
function name are left out of the message). -/
def THROW_BASIC_EXCEPTION (resultCode : result_t) : BasicException :=
  { m_resultCode := resultCode, m_errorMessage := "BasicException: error message: " }

/-- The macro `THROW_INVALID_ARGUMENT`. -/
def THROW_INVALID_ARGUMENT : BasicException :=
  THROW_BASIC_EXCEPTION result_code.eInvalidArgument

/-- The macro `CHECK_ARGUMENT(booleanExpression, msg)`: throws when the expression is false. -/
def CHECK_ARGUMENT (booleanExpression : Bool) (msg : String) : Except StdException Unit :=
  if !booleanExpression then
    .error (.basic (THROW_INVALID_ARGUMENT.shl msg))
  else
    .ok ()

/-- The function `ExceptionDispatcher::Dispatch`, applied to the exception being handled. -/
def ExceptionDispatcher.Dispatch (ex : StdException) : result_t :=
  match ex with
  | .basic ex => ex.toResult
  | .other _ => result_code.eUnexpected

/-! ## Memory -/

abbrev Byte := UInt8

/-- The value an `int` (32 bits, two's complement) holds after an addition whose exact result
is `n`. -/
def int.wrap (n : Int) : Int := (n + 2 ^ 31) % 2 ^ 32 - 2 ^ 31

/-- A `const char*` argument. -/
abbrev CharPtr := Option (Nat → Byte)

/-- The call `::memcpy(dst + pos, src, n)` on an array `dst`. -/
def memcpy (dst : List Byte) (pos : Int) (src : List Byte) (n : Int) : List Byte :=
  dst.take pos.toNat ++ src.take n.toNat ++ dst.drop (pos.toNat + n.toNat)

/-! ## `frame_fragment.cc` -/

structure FrameFragment where
  m_fragmentNumber : Int
  m_bufferLength : Int
  m_bufferData : List Byte
  deriving DecidableEq, Repr

/-- The constructor `FrameFragment::FrameFragment`: copies `length` bytes from `buffer`. -/
def FrameFragment.new (buffer : Nat → Byte) (length : Int) (fragmentNumber : Int) :
    FrameFragment :=
  { m_fragmentNumber := fragmentNumber
    m_bufferLength := length
    m_bufferData := (List.range length.toNat).map buffer }

def FrameFragment.GetFragmentNumber (f : FrameFragment) : Int := f.m_fragmentNumber

def FrameFragment.GetBufferData (f : FrameFragment) : List Byte := f.m_bufferData

def FrameFragment.GetBufferLength (f : FrameFragment) : Int := f.m_bufferLength

/-- The member `FrameFragment::operator<`. -/
def FrameFragment.lt (lhs rhs : FrameFragment) : Bool :=
  decide (lhs.m_fragmentNumber < rhs.m_fragmentNumber)

/-- The member `FrameFragment::operator==` (against an `int`). -/
def FrameFragment.eqInt (lhs : FrameFragment) (fragmentNumber : Int) : Bool :=
  decide (lhs.m_fragmentNumber = fragmentNumber)

/-! ## `frame_buffer.cc` -/

def FragmentCompareLess (lhs rhs : FrameFragment) : Bool := lhs.lt rhs

def FragmentCompareEqual (fragmentNumber : Int) (rhs : FrameFragment) : Bool :=
  rhs.eqInt fragmentNumber

structure FrameBuffer where
  m_frameNumber : Int
  m_numFragmentsInThisFrame : Int
  m_frameIsComplete : Bool
  m_currentFrameSize : Int
  m_frameFragments : List FrameFragment
  deriving DecidableEq, Repr

/-- The member `FrameBuffer::AppendFragment`, for a call that returns.  The call that ends
in an exception is added by `FrameBuffer.AppendFragment.call`. -/
def FrameBuffer.AppendFragment (fb : FrameBuffer) (buffer : Nat → Byte) (length : Int)
    (fragmentNumber : Int) : FrameBuffer :=
  if fb.m_frameIsComplete then
    fb
  else
    let count := fb.m_frameFragments.countP (FragmentCompareEqual fragmentNumber)
    if count ≠ 0 then
      fb
    else
      let newFragment := FrameFragment.new buffer length fragmentNumber
      let frameFragments := fb.m_frameFragments ++ [newFragment]
      { fb with
        m_currentFrameSize := int.wrap (fb.m_currentFrameSize + length)
        m_frameFragments := frameFragments
        m_frameIsComplete :=
          if (frameFragments.length : Int) = fb.m_numFragmentsInThisFrame then true
          else fb.m_frameIsComplete }

/-- The constructor `FrameBuffer::FrameBuffer`: initialises the members and appends the first
fragment. -/
def FrameBuffer.new (buffer : Nat → Byte) (length frameNumber fragmentNumber
    numFragmentsInThisFrame : Int) : FrameBuffer :=
  FrameBuffer.AppendFragment
    { m_frameNumber := frameNumber
      m_numFragmentsInThisFrame := numFragmentsInThisFrame
      m_frameIsComplete := false
      m_currentFrameSize := 0
      m_frameFragments := [] }
    buffer length fragmentNumber

/-- One insertion step of the sort of `GetAssembledData`, ordered by `FragmentCompareLess`. -/
def sortInsert (x : FrameFragment) : List FrameFragment → List FrameFragment
  | [] => [x]
  | y :: ys => if FragmentCompareLess y x then y :: sortInsert x ys else x :: y :: ys

/-- The call `std::sort(begin, end, FragmentCompareLess)`, as an insertion sort.  (`std::sort`
leaves the relative order of equal elements unspecified; fragment numbers inside a
`FrameBuffer` are pairwise distinct.) -/
def stdSort (l : List FrameFragment) : List FrameFragment :=
  l.foldr sortInsert []

/-- The `for` loop of `FrameBuffer::GetAssembledData`: returns the output array and the final
value of `currentPos`. -/
def FrameBuffer.GetAssembledData.loop :
    List FrameFragment → List Byte → Int → List Byte × Int
  | [], outputBuffer, currentPos => (outputBuffer, currentPos)
  | f :: fs, outputBuffer, currentPos =>
    let bufferLength := f.GetBufferLength
    FrameBuffer.GetAssembledData.loop fs
      (memcpy outputBuffer currentPos f.GetBufferData bufferLength)
      (int.wrap (currentPos + bufferLength))

/-- The member `FrameBuffer::GetAssembledData`: the content of `outputBuffer` after the call. -/
def FrameBuffer.GetAssembledData (fb : FrameBuffer) (outputBuffer : List Byte) : List Byte :=
  (FrameBuffer.GetAssembledData.loop (stdSort fb.m_frameFragments) outputBuffer 0).1

def FrameBuffer.GetFrameNumber (fb : FrameBuffer) : Int := fb.m_frameNumber

def FrameBuffer.GetCurrentFrameSize (fb : FrameBuffer) : Int := fb.m_currentFrameSize

def FrameBuffer.IsFrameComplete (fb : FrameBuffer) : Bool := fb.m_frameIsComplete

/-! ## `std::map<int, FrameBufferPtr>` -/

abbrev FrameBuffers := List (Int × FrameBuffer)

abbrev FrameList := List FrameBuffer

/-- The member `std::map::find`. -/
def FrameBuffers.find (m : FrameBuffers) (k : Int) : Option FrameBuffer :=
  match m with
  | [] => none
  | (k', v) :: rest => if k' = k then some v else FrameBuffers.find rest k

/-- The assignment `m[k] = v`. -/
def FrameBuffers.assign (m : FrameBuffers) (k : Int) (v : FrameBuffer) : FrameBuffers :=
  match m with
  | [] => [(k, v)]
  | (k', v') :: rest =>
    if k < k' then (k, v) :: (k', v') :: rest
    else if k = k' then (k, v) :: rest
    else (k', v') :: FrameBuffers.assign rest k v

/-- The member `std::map::erase(key)`. -/
def FrameBuffers.erase (m : FrameBuffers) (k : Int) : FrameBuffers :=
  m.filter (fun e => decide (e.1 ≠ k))

/-- A call of a member function through the pointer stored under key `k`
(`it->second->AppendFragment(...)`): the pointed-to object is updated in place. -/
def FrameBuffers.update (m : FrameBuffers) (k : Int) (f : FrameBuffer → FrameBuffer) :
    FrameBuffers :=
  match m with
  | [] => []
  | (k', v) :: rest =>
    if k' = k then (k', f v) :: FrameBuffers.update rest k f
    else (k', v) :: FrameBuffers.update rest k f

/-! ## `jitter_buffer_impl.cc` -/

def MaxFrameNumber : Int := 100

def MaxDecodedBufferSize : Int := 1024 * 1024

/-- A `boost::thread` object: its routine is still looping, or has returned. -/
inductive Thread
  | running
  | finished
  deriving DecidableEq, Repr

/-- The data members of `JitterBufferImpl` (the decoder and renderer pointers are passed to
the functions that use them). -/
structure JitterBufferImpl where
  m_unsortedFrameBuffers : FrameBuffers
  m_sortedFrameBuffers : FrameList
  m_lastDecodedFrameNumber : Int
  m_recycleTaskLaunched : Bool
  m_dataProcessingTaskLaunched : Bool
  m_recyclerThread : Option Thread
  m_dataProcessingThread : Option Thread
  m_shutdownRequested : Bool
  m_frameProcessingIsBlocked : Bool
  deriving DecidableEq, Repr

/-- A call made by the dispatcher to a collaborator.  `DecodeFrame` records the frame number
of the frame handed over, the input bytes and the length; `RenderFrame` records the content
of the decoded-data array and the length passed. -/
inductive Call
  | DecodeFrame (frameNumber : Int) (buffer : List Byte) (length : Int)
  | RenderFrame (buffer : List Byte) (length : Int)
  deriving DecidableEq, Repr

/-- The interface `video_engine::IDecoder`, as the whole-iteration view of the dispatcher
uses it.  `DecodeFrame history buffer length outputBuffer` is `none` when the call throws a
`std::exception`, else the new content of `outputBuffer` and the returned size.  The first
argument is the list of collaborator calls made before, standing for any state the decoder
keeps.  (`video_engine.IDecoder` below keeps apart the exceptions the dispatcher does not
catch.) -/
structure IDecoder where
  DecodeFrame : List Call → List Byte → Int → List Byte → Option (List Byte × Int)

/-- The interface `video_engine::IRenderer`, as the whole-iteration view of the dispatcher
uses it.  `RenderFrame history buffer length` is `none` when the call throws a
`std::exception`. -/
structure IRenderer where
  RenderFrame : List Call → List Byte → Int → Option Unit

/-- The member initialisers of the constructor `JitterBufferImpl::JitterBufferImpl`. -/
def JitterBufferImpl.init : JitterBufferImpl :=
  { m_unsortedFrameBuffers := []
    m_sortedFrameBuffers := []
    m_lastDecodedFrameNumber := -1
    m_recycleTaskLaunched := false
    m_dataProcessingTaskLaunched := false
    m_recyclerThread := none
    m_dataProcessingThread := none
    m_shutdownRequested := false
    m_frameProcessingIsBlocked := false }

/-- The constructor `JitterBufferImpl::JitterBufferImpl(decoder, renderer)`; a null pointer
is `none`. -/
def JitterBufferImpl.new (decoder : Option IDecoder) (renderer : Option IRenderer) :
    Except StdException JitterBufferImpl := do
  CHECK_ARGUMENT (decoder.isSome) "Decoder is zero!"
  CHECK_ARGUMENT (renderer.isSome) "Renderer is zero!"
  return JitterBufferImpl.init

/-- The factory `CreateJitterBuffer` of `jitter_buffer.cc`. -/
def CreateJitterBuffer (decoder : Option IDecoder) (renderer : Option IRenderer) :
    Except StdException JitterBufferImpl :=
  JitterBufferImpl.new decoder renderer

/-- The test fixture's `CreateJB`: the result code observed by the caller. -/
def CreateJB (decoder : Option IDecoder) (renderer : Option IRenderer) : result_t :=
  match CreateJitterBuffer decoder renderer with
  | .ok _ => result_code.sOk
  | .error ex => ExceptionDispatcher.Dispatch ex

/-- The argument checks and the latch check at the head of `ReceivePacket`. -/
def JitterBufferImpl.ReceivePacket.checks (jb : JitterBufferImpl) (buffer : CharPtr)
    (length frameNumber fragmentNumber numFragmentsInThisFrame : Int) :
    Except StdException Unit := do
  CHECK_ARGUMENT (buffer.isSome) "Buffer data is zero!"
  CHECK_ARGUMENT (decide (length > 0)) "Buffer data is empty!"
  CHECK_ARGUMENT (decide (frameNumber ≥ 0)) "Frame number must be non-negative!"
  CHECK_ARGUMENT (decide (fragmentNumber ≥ 0)) "Fragment number must be non-negative!"
  CHECK_ARGUMENT (decide (numFragmentsInThisFrame > 0)) "Frame must have at least 1 fragment!"
  if jb.m_frameProcessingIsBlocked then
    throw (.basic ((THROW_BASIC_EXCEPTION result_code.eFail).shl "Frame processing is blocked!"))

/-- The tail of `ReceivePacket`, after the locked section: starts the two workers if they
were not started yet. -/
def JitterBufferImpl.ReceivePacket.launch (jb : JitterBufferImpl) : JitterBufferImpl :=
  let jb1 :=
    if !jb.m_recycleTaskLaunched then
      { jb with m_recyclerThread := some Thread.running, m_recycleTaskLaunched := true }
    else jb
  if !jb1.m_dataProcessingTaskLaunched then
    { jb1 with m_dataProcessingThread := some Thread.running
               m_dataProcessingTaskLaunched := true }
  else jb1

/-- The member `JitterBufferImpl::ReceivePacket`: the state after the call and the exception
it (re)throws, if any. -/
def JitterBufferImpl.ReceivePacket (jb : JitterBufferImpl) (buffer : CharPtr)
    (length frameNumber fragmentNumber numFragmentsInThisFrame : Int) :
    JitterBufferImpl × Except StdException Unit :=
  match JitterBufferImpl.ReceivePacket.checks jb buffer length frameNumber fragmentNumber
      numFragmentsInThisFrame with
  | .error ex => (jb, .error ex)
  | .ok () =>
    if frameNumber ≤ jb.m_lastDecodedFrameNumber then
      (jb, .ok ())
    else if (jb.m_unsortedFrameBuffers.length : Int) = MaxFrameNumber then
      (jb, .error (.basic ((THROW_BASIC_EXCEPTION result_code.eOutOfSpace).shl
        "Jitter Buffer is full")))
    else
      let mem : Nat → Byte := buffer.getD (fun _ => 0)
      let unsorted :=
        match jb.m_unsortedFrameBuffers.find frameNumber with
        | none =>
          let frameBuffer :=
            FrameBuffer.new mem length frameNumber fragmentNumber numFragmentsInThisFrame
          jb.m_unsortedFrameBuffers.assign frameNumber frameBuffer
        | some _ =>
          jb.m_unsortedFrameBuffers.update frameNumber
            (fun fb => fb.AppendFragment mem length fragmentNumber)
      (JitterBufferImpl.ReceivePacket.launch { jb with m_unsortedFrameBuffers := unsorted },
        .ok ())

/-- The test fixture's `CheckReceiverFunction`: the result code observed by the caller. -/
def CheckReceiverFunction (r : Except StdException Unit) : result_t :=
  match r with
  | .ok _ => result_code.sOk
  | .error ex => ExceptionDispatcher.Dispatch ex

/-- The inner `while` loop of `RecycleExistingFrames`: `it` is what the iterator has not
visited yet; returns the map, the watermark and `tempArray`. -/
def JitterBufferImpl.RecycleExistingFrames.loop :
    List (Int × FrameBuffer) → FrameBuffers → Int → FrameList → FrameBuffers × Int × FrameList
  | [], unsorted, last, tempArray => (unsorted, last, tempArray)
  | (frameNumber, frameBuffer) :: it, unsorted, last, tempArray =>
    if frameBuffer.IsFrameComplete && decide (frameNumber = last + 1) then
      JitterBufferImpl.RecycleExistingFrames.loop it (unsorted.erase frameNumber) (last + 1)
        (tempArray ++ [frameBuffer])
    else
      JitterBufferImpl.RecycleExistingFrames.loop it unsorted last tempArray

/-- One iteration of the outer loop of `RecycleExistingFrames` (a recycler pass), taken as a
whole: the effect of its two locked blocks when nothing runs between them. -/
def JitterBufferImpl.RecycleExistingFrames (jb : JitterBufferImpl) : JitterBufferImpl :=
  if jb.m_recyclerThread = some Thread.running ∧ jb.m_shutdownRequested = false then
    let r := JitterBufferImpl.RecycleExistingFrames.loop jb.m_unsortedFrameBuffers
      jb.m_unsortedFrameBuffers jb.m_lastDecodedFrameNumber []
    { jb with
      m_unsortedFrameBuffers := r.1
      m_lastDecodedFrameNumber := r.2.1
      m_sortedFrameBuffers :=
        if r.2.2.isEmpty then jb.m_sortedFrameBuffers else jb.m_sortedFrameBuffers ++ r.2.2 }
  else jb

/-- The instance together with what the dispatcher thread owns and the record of the calls
made to the decoder and the renderer.  `decodedData` lists the bytes the decoder has written
to the decoded-data array. -/
structure World where
  jb : JitterBufferImpl
  decodedData : List Byte
  calls : List Call
  deriving DecidableEq, Repr

/-- The `catch` block of `ProcessCompletedFrames`: latch the error, the routine returns. -/
def JitterBufferImpl.ProcessCompletedFrames.caught (jb : JitterBufferImpl) : JitterBufferImpl :=
  { jb with m_frameProcessingIsBlocked := true, m_dataProcessingThread := some Thread.finished }

/-- One iteration of the loop of `ProcessCompletedFrames` (a dispatcher step), taken as a
whole, for a frame whose size is not negative and collaborators that return or throw a
`std::exception`.  `JitterBufferImpl.ProcessCompletedFrames.next` below goes through the
iteration one critical section and one collaborator call at a time. -/
def JitterBufferImpl.ProcessCompletedFrames (decoder : IDecoder) (renderer : IRenderer)
    (w : World) : World :=
  if w.jb.m_dataProcessingThread = some Thread.running ∧ w.jb.m_shutdownRequested = false then
    match w.jb.m_sortedFrameBuffers with
    | [] => w
    | frameBuffer :: rest =>
      let jb := { w.jb with m_sortedFrameBuffers := rest }
      let currentFrameSize := frameBuffer.GetCurrentFrameSize
      let frameData := frameBuffer.GetAssembledData (List.replicate currentFrameSize.toNat 0)
      let calls := w.calls ++ [Call.DecodeFrame frameBuffer.GetFrameNumber frameData
        currentFrameSize]
      match decoder.DecodeFrame w.calls frameData currentFrameSize w.decodedData with
      | none =>
        { w with jb := JitterBufferImpl.ProcessCompletedFrames.caught jb, calls := calls }
      | some (decodedData, decodedBufferSize) =>
        let calls2 := calls ++ [Call.RenderFrame decodedData decodedBufferSize]
        match renderer.RenderFrame calls decodedData decodedBufferSize with
        | none =>
          { w with jb := JitterBufferImpl.ProcessCompletedFrames.caught jb
                   decodedData := decodedData, calls := calls2 }
        | some _ =>
          { w with jb := jb, decodedData := decodedData, calls := calls2 }
  else w

/-! ## The system: an instance, its two workers and its callers

A step of this system is a `ReceivePacket` call or one whole loop iteration of a worker. -/

/-- A step of the system. -/
inductive Step
  | ReceivePacket (buffer : CharPtr)
      (length frameNumber fragmentNumber numFragmentsInThisFrame : Int)
  | RecycleExistingFrames
  | ProcessCompletedFrames

/-- The state right after a successful `CreateJitterBuffer`. -/
def World.init : World :=
  { jb := JitterBufferImpl.init, decodedData := [], calls := [] }

/-- The effect of one step on the state. -/
def World.step (decoder : IDecoder) (renderer : IRenderer) (w : World) : Step → World
  | .ReceivePacket buffer length frameNumber fragmentNumber numFragmentsInThisFrame =>
    { w with jb := (w.jb.ReceivePacket buffer length frameNumber fragmentNumber
        numFragmentsInThisFrame).1 }
  | .RecycleExistingFrames => { w with jb := w.jb.RecycleExistingFrames }
  | .ProcessCompletedFrames => JitterBufferImpl.ProcessCompletedFrames decoder renderer w

/-- The effect of a trace of steps. -/
def World.run (decoder : IDecoder) (renderer : IRenderer) (w : World) (t : List Step) : World :=
  t.foldl (World.step decoder renderer) w

/-! ## `tests/stubs` -/

def DecoderMaxOutputSize : Int := 1024 * 1024

/-- The test stub `StubDecoder::DecodeFrame`. -/
def StubDecoder.DecodeFrame (buffer : List Byte) (length : Int) (outputBuffer : List Byte) :
    List Byte × Int :=
  let outputSize := if length < DecoderMaxOutputSize then length else DecoderMaxOutputSize
  (memcpy outputBuffer 0 buffer outputSize, length)

def StubDecoder : IDecoder :=
  { DecodeFrame := fun _ buffer length outputBuffer =>
      some (StubDecoder.DecodeFrame buffer length outputBuffer) }

/-- The data members of the test stub `StubRenderer`. -/
structure StubRendererData where
  m_renderData : List Byte
  m_dataLength : Int
  deriving DecidableEq, Repr

def StubRenderer : IRenderer :=
  { RenderFrame := fun _ _ _ => some () }

/-! ## Vocabulary of the specification -/

/-- The preconditions of `receive_packet` on its arguments. -/
def ValidArgs (buffer : CharPtr) (length frameNumber fragmentNumber
    numFragmentsInThisFrame : Int) : Prop :=
  buffer ≠ none ∧ 0 < length ∧ 0 ≤ frameNumber ∧ 0 ≤ fragmentNumber ∧
    0 < numFragmentsInThisFrame

/-- The `FrameBuffer` objects that exist: built by the constructor and then changed by
`AppendFragment` calls only, every call with a non-negative `length` (the only caller,
`ReceivePacket`, passes `length > 0`). -/
inductive FrameBuffer.Built : FrameBuffer → Prop
  | new (buffer : Nat → Byte) (length frameNumber fragmentNumber numFragmentsInThisFrame : Int)
      (hlength : 0 ≤ length) :
      FrameBuffer.Built
        (FrameBuffer.new buffer length frameNumber fragmentNumber numFragmentsInThisFrame)
  | append (fb : FrameBuffer) (buffer : Nat → Byte) (length fragmentNumber : Int)
      (hlength : 0 ≤ length) (hfb : FrameBuffer.Built fb) :
      FrameBuffer.Built (fb.AppendFragment buffer length fragmentNumber)

/-- Consistency of the members of a `FrameBuffer`: fragment numbers are pairwise distinct,
every fragment holds as many bytes as its recorded length, and the recorded frame size is the
sum of the fragment lengths, as an `int` holds it. -/
def FrameBuffer.Consistent (fb : FrameBuffer) : Prop :=
  (fb.m_frameFragments.map FrameFragment.m_fragmentNumber).Nodup ∧
  (∀ f ∈ fb.m_frameFragments, f.m_bufferLength = (f.m_bufferData.length : Int)) ∧
  fb.m_currentFrameSize = int.wrap (fb.m_frameFragments.map FrameFragment.m_bufferLength).sum

/-- The number of entries at the head of the store that form a run of complete frames
numbered `last + 1`, `last + 2`, ... -/
def readyRun : List (Int × FrameBuffer) → Int → Nat
  | [], _ => 0
  | (k, fb) :: rest, last =>
    if fb.IsFrameComplete && decide (k = last + 1) then readyRun rest (last + 1) + 1 else 0

/-- The structural invariant of an instance: the store is in ascending key order, every
entry is filed under its own frame number and above the watermark, the ready queue holds the
frames that end at the watermark, and a worker thread exists only if its flag is set. -/
structure JitterBufferImpl.Inv (jb : JitterBufferImpl) : Prop where
  sorted : (jb.m_unsortedFrameBuffers.map Prod.fst).Pairwise (fun a b => a < b)
  keyEq : ∀ e ∈ jb.m_unsortedFrameBuffers, e.2.m_frameNumber = e.1
  above : ∀ e ∈ jb.m_unsortedFrameBuffers, jb.m_lastDecodedFrameNumber < e.1
  queue : jb.m_sortedFrameBuffers.map FrameBuffer.m_frameNumber =
    (List.range jb.m_sortedFrameBuffers.length).map
      (fun (i : Nat) =>
        jb.m_lastDecodedFrameNumber + 1 - (jb.m_sortedFrameBuffers.length : Int) + (i : Int))
  lastLB : (jb.m_sortedFrameBuffers.length : Int) ≤ jb.m_lastDecodedFrameNumber + 1
  flagR : jb.m_recycleTaskLaunched = false → jb.m_recyclerThread = none
  flagD : jb.m_dataProcessingTaskLaunched = false → jb.m_dataProcessingThread = none

/-- The record of calls reduced to its shape: `some n` for a `DecodeFrame` call handed frame
`n`, `none` for a `RenderFrame` call. -/
def callShape (calls : List Call) : List (Option Int) :=
  calls.map (fun c =>
    match c with
    | .DecodeFrame frameNumber _ _ => some frameNumber
    | .RenderFrame _ _ => none)

/-- The frame numbers of the frames handed to `DecodeFrame`, in call order. -/
def decodedFrameNumbers (calls : List Call) : List Int :=
  (callShape calls).reduceOption

/-- The shape of a record in which the frames `0 .. k-1` were each decoded and then
rendered. -/
def expectedShape (k : Nat) : List (Option Int) :=
  (List.range k).flatMap (fun (i : Nat) => [some (i : Int), none])

/-- The invariant of the system: the structural invariant of the instance, and the record of
calls has the expected shape for the frames that left the ready queue.  Once the dispatcher
has stopped on an exception the latch is set and the record ends either after a complete
decode and render pair or with a `DecodeFrame` call that raised. -/
structure World.Inv (decoder : IDecoder) (w : World) : Prop where
  jb : w.jb.Inv
  running : w.jb.m_dataProcessingThread ≠ some Thread.finished →
    w.jb.m_frameProcessingIsBlocked = false ∧
    callShape w.calls = expectedShape
      (w.jb.m_lastDecodedFrameNumber + 1 - (w.jb.m_sortedFrameBuffers.length : Int)).toNat
  finished : w.jb.m_dataProcessingThread = some Thread.finished →
    w.jb.m_frameProcessingIsBlocked = true ∧
    ∃ k : Nat, callShape w.calls = expectedShape (k + 1) ∨
      (callShape w.calls = expectedShape k ++ [some (k : Int)] ∧
        ∃ buffer length, w.calls.getLast? = some (Call.DecodeFrame (k : Int) buffer length) ∧
          decoder.DecodeFrame w.calls.dropLast buffer length w.decodedData = none)

/-- A decoder whose `DecodeFrame` always throws. -/
def throwingDecoder : IDecoder :=
  { DecodeFrame := fun _ _ _ _ => none }

/-- The caller memory that holds the bytes of `c` (and zeros after them). -/
def ptrOf (c : List Byte) : CharPtr := some (fun i => c.getD i 0)

/-- The packet step that delivers chunk `c` as fragment `fragmentNumber` of frame
`frameNumber`. -/
def packet (c : List Byte) (frameNumber fragmentNumber numFragmentsInThisFrame : Int) : Step :=
  .ReceivePacket (ptrOf c) c.length frameNumber fragmentNumber numFragmentsInThisFrame

/-! ### Vocabulary of the round-trip and ordering laws

A stream is a list of frames, frame `i` being the list of its chunks (fragment `j` of frame
`i` carries chunk `j`).  A packet is named by the pair `(i, j)`. -/

/-- The arguments of the `DecodeFrame` calls of a record, in order. -/
def decodeCalls (calls : List Call) : List (Int × List Byte × Int) :=
  calls.filterMap (fun c =>
    match c with
    | .DecodeFrame frameNumber buffer length => some (frameNumber, buffer, length)
    | .RenderFrame _ _ => none)

/-- The capacity scenario of the specification: fragment 0 of each of the frames `1..100`,
every frame announcing `numFragments` fragments; frame 0 never arrives. -/
def capacityTrace (numFragments : Int) : List Step :=
  (List.range 100).map (fun i => packet [7] ((i : Int) + 1) 0 numFragments)

/-- The state reached by the capacity scenario on a fresh instance with the test stubs. -/
def capacityWorld (numFragments : Int) : World :=
  World.run StubDecoder StubRenderer World.init (capacityTrace numFragments)

/-- The state reached when frame 0 (one fragment) is received, promoted and dispatched, and
then fragment 0 of each of the frames `1..100` (two fragments each) is received. -/
def staleCapacityWorld : World :=
  World.run StubDecoder StubRenderer World.init
    (packet [7] 0 0 1 :: Step.RecycleExistingFrames :: Step.ProcessCompletedFrames ::
      capacityTrace 2)

/-! ### Vocabulary of the invariants -/

/-- The number of `RenderFrame` invocations in a record of calls. -/
def renderCount (calls : List Call) : Nat :=
  calls.countP (fun c =>
    match c with
    | .RenderFrame _ _ => true
    | .DecodeFrame _ _ _ => false)

/-- The `tempArray` of a recycler pass at the end of its inner loop: the frames the pass
promotes, in promotion order. -/
def JitterBufferImpl.RecycleExistingFrames.tempArray (jb : JitterBufferImpl) : FrameList :=
  if jb.m_recyclerThread = some Thread.running ∧ jb.m_shutdownRequested = false then
    (JitterBufferImpl.RecycleExistingFrames.loop jb.m_unsortedFrameBuffers
      jb.m_unsortedFrameBuffers jb.m_lastDecodedFrameNumber []).2.2
  else []

/-- A sequence of `AppendFragment` calls made on a `FrameBuffer`, in order; each call is given
by its buffer, its length and its fragment number. -/
def FrameBuffer.AppendFragments (fb : FrameBuffer) (calls : List ((Nat → Byte) × Int × Int)) :
    FrameBuffer :=
  calls.foldl (fun fb c => fb.AppendFragment c.1 c.2.1 c.2.2) fb

/-- The state reached when frame 0 (one fragment) is received and promoted and the decoder
raises on it: the error latch is set. -/
def latchedWorld : World :=
  World.run throwingDecoder StubRenderer World.init
    [packet [7] 0 0 1, Step.RecycleExistingFrames, Step.ProcessCompletedFrames]

/-- What the dispatcher hands to `DecodeFrame` for a frame: its number, its assembled bytes
and its size. -/
def FrameBuffer.decodeArgs (fb : FrameBuffer) : Int × List Byte × Int :=
  (fb.GetFrameNumber,
    fb.GetAssembledData (List.replicate fb.GetCurrentFrameSize.toNat 0),
    fb.GetCurrentFrameSize)

/-! ### The specification's `drain_sequential`

These two definitions follow the words of the specification (section 4.3), not the code; they
are compared with the inner loop of `RecycleExistingFrames`. -/

/-- One scan of `drain_sequential`: the entries are visited in the order `entries`; for each
entry whose assembler is complete and whose frame number equals `last_emitted_frame + 1`, the
entry is removed from the store, appended to `into`, and `last_emitted_frame` is
incremented. -/
def Spec.scan : List (Int × FrameBuffer) → FrameBuffers → Int → FrameList →
    FrameBuffers × Int × FrameList
  | [], store, last_emitted_frame, into => (store, last_emitted_frame, into)
  | (frame_number, assembler) :: entries, store, last_emitted_frame, into =>
    if assembler.IsFrameComplete = true ∧ frame_number = last_emitted_frame + 1 then
      Spec.scan entries (store.erase frame_number) (last_emitted_frame + 1)
        (into ++ [assembler])
    else
      Spec.scan entries store last_emitted_frame into

/-- The operation `drain_sequential`: the scan repeats until no progress is made in a pass.
The specification does not fix the order in which a scan visits the entries of the mapping:
`order store` is that order; `fuel` bounds the number of scans. -/
def Spec.drain_sequential (order : FrameBuffers → List (Int × FrameBuffer)) :
    Nat → FrameBuffers → Int → FrameList → FrameBuffers × Int × FrameList
  | 0, store, last_emitted_frame, into => (store, last_emitted_frame, into)
  | fuel + 1, store, last_emitted_frame, into =>
    if (Spec.scan (order store) store last_emitted_frame into).2.1 = last_emitted_frame then
      Spec.scan (order store) store last_emitted_frame into
    else
      Spec.drain_sequential order fuel
        (Spec.scan (order store) store last_emitted_frame into).1
        (Spec.scan (order store) store last_emitted_frame into).2.1
        (Spec.scan (order store) store last_emitted_frame into).2.2

/-! ### Locks

The events of one thread of control, in program order: what it does to the two mutexes, which
data members it reads and writes, and its calls to the collaborators.  A scoped lock object
(`LOCK`, `boost::unique_lock`) takes its mutex where it is declared and releases it where its
block is left, also when the block is left by `return`, `continue` or an exception;
`timed_wait` releases the mutex of its lock while it waits and takes it again before it
returns. -/

/-- The two mutexes of `JitterBufferImpl`. -/
inductive Mutex
  | m_unsortedFrameBuffersGuard
  | m_sortedFrameBuffersGuard
  deriving DecidableEq, Repr

/-- The data members of `JitterBufferImpl` that the threads share. -/
inductive Member
  | m_unsortedFrameBuffers
  | m_sortedFrameBuffers
  | m_lastDecodedFrameNumber
  | m_recycleTaskLaunched
  | m_dataProcessingTaskLaunched
  | m_recyclerThread
  | m_dataProcessingThread
  | m_shutdownRequested
  | m_frameProcessingIsBlocked
  deriving DecidableEq, Repr

/-- An event of a thread of control. -/
inductive Event
  | lock (m : Mutex)
  | unlock (m : Mutex)
  | read (x : Member)
  | write (x : Member)
  | DecodeFrame
  | RenderFrame
  deriving DecidableEq, Repr

/-- The events of one `ReceivePacket` call.  The argument checks touch no member; the latch
is read before the locked block; the block holds the stale test, the capacity test, the
lookup and the insertion or the `AppendFragment` call; the two flags are tested and set after
the block. -/
def JitterBufferImpl.ReceivePacket.events (jb : JitterBufferImpl) (buffer : CharPtr)
    (length frameNumber fragmentNumber numFragmentsInThisFrame : Int) : List Event :=
  if buffer.isSome = true ∧ length > 0 ∧ frameNumber ≥ 0 ∧ fragmentNumber ≥ 0 ∧
      numFragmentsInThisFrame > 0 then
    Event.read Member.m_frameProcessingIsBlocked ::
      (if jb.m_frameProcessingIsBlocked = true then []
      else
        Event.lock Mutex.m_unsortedFrameBuffersGuard ::
        Event.read Member.m_lastDecodedFrameNumber ::
          (if frameNumber ≤ jb.m_lastDecodedFrameNumber then
            [Event.unlock Mutex.m_unsortedFrameBuffersGuard]
          else
            Event.read Member.m_unsortedFrameBuffers ::
              (if (jb.m_unsortedFrameBuffers.length : Int) = MaxFrameNumber then
                [Event.unlock Mutex.m_unsortedFrameBuffersGuard]
              else
                [Event.read Member.m_unsortedFrameBuffers,
                  Event.write Member.m_unsortedFrameBuffers,
                  Event.unlock Mutex.m_unsortedFrameBuffersGuard,
                  Event.read Member.m_recycleTaskLaunched] ++
                (if jb.m_recycleTaskLaunched = true then []
                  else [Event.write Member.m_recyclerThread,
                    Event.write Member.m_recycleTaskLaunched]) ++
                [Event.read Member.m_dataProcessingTaskLaunched] ++
                (if jb.m_dataProcessingTaskLaunched = true then []
                  else [Event.write Member.m_dataProcessingThread,
                    Event.write Member.m_dataProcessingTaskLaunched]))))
  else []

/-- The events of the inner `while` loop of `RecycleExistingFrames`, which runs inside the
locked block; the watermark is read only for a complete frame (`&&`). -/
def JitterBufferImpl.RecycleExistingFrames.loopEvents :
    List (Int × FrameBuffer) → Int → List Event
  | [], _ => []
  | (frameNumber, frameBuffer) :: it, last =>
    Event.read Member.m_unsortedFrameBuffers ::
      (if frameBuffer.IsFrameComplete = true then
        Event.read Member.m_lastDecodedFrameNumber ::
          (if frameNumber = last + 1 then
            Event.write Member.m_unsortedFrameBuffers ::
            Event.write Member.m_lastDecodedFrameNumber ::
              JitterBufferImpl.RecycleExistingFrames.loopEvents it (last + 1)
          else JitterBufferImpl.RecycleExistingFrames.loopEvents it last)
      else JitterBufferImpl.RecycleExistingFrames.loopEvents it last)

/-- The events of one iteration of the outer loop of `RecycleExistingFrames`: the shutdown
test, the first block (lock, `timed_wait`, inner loop), and the second block, entered when
`tempArray` is not empty. -/
def JitterBufferImpl.RecycleExistingFrames.events (jb : JitterBufferImpl) : List Event :=
  if jb.m_recyclerThread = some Thread.running then
    Event.read Member.m_shutdownRequested ::
      (if jb.m_shutdownRequested = false then
        [Event.lock Mutex.m_unsortedFrameBuffersGuard,
          Event.unlock Mutex.m_unsortedFrameBuffersGuard,
          Event.lock Mutex.m_unsortedFrameBuffersGuard,
          Event.read Member.m_unsortedFrameBuffers] ++
        JitterBufferImpl.RecycleExistingFrames.loopEvents jb.m_unsortedFrameBuffers
          jb.m_lastDecodedFrameNumber ++
        [Event.unlock Mutex.m_unsortedFrameBuffersGuard] ++
        (if (JitterBufferImpl.RecycleExistingFrames.tempArray jb).isEmpty = true then []
          else [Event.lock Mutex.m_sortedFrameBuffersGuard,
            Event.write Member.m_sortedFrameBuffers,
            Event.unlock Mutex.m_sortedFrameBuffersGuard])
      else [])
  else []

/-- The events of one iteration of the loop of `ProcessCompletedFrames`: the shutdown test,
the locked block (lock, `timed_wait`, emptiness test, `front` and `pop_front`), then, outside
the block, the calls to the decoder and the renderer; the `catch` block writes the latch. -/
def JitterBufferImpl.ProcessCompletedFrames.events (decoder : IDecoder) (renderer : IRenderer)
    (w : World) : List Event :=
  if w.jb.m_dataProcessingThread = some Thread.running then
    Event.read Member.m_shutdownRequested ::
      (if w.jb.m_shutdownRequested = false then
        [Event.lock Mutex.m_sortedFrameBuffersGuard,
          Event.unlock Mutex.m_sortedFrameBuffersGuard,
          Event.lock Mutex.m_sortedFrameBuffersGuard,
          Event.read Member.m_sortedFrameBuffers] ++
        (match w.jb.m_sortedFrameBuffers with
          | [] => [Event.unlock Mutex.m_sortedFrameBuffersGuard]
          | frameBuffer :: _ =>
            [Event.read Member.m_sortedFrameBuffers,
              Event.write Member.m_sortedFrameBuffers,
              Event.unlock Mutex.m_sortedFrameBuffersGuard,
              Event.DecodeFrame] ++
            (match decoder.DecodeFrame w.calls
                (frameBuffer.GetAssembledData
                  (List.replicate frameBuffer.GetCurrentFrameSize.toNat 0))
                frameBuffer.GetCurrentFrameSize w.decodedData with
              | none => [Event.write Member.m_frameProcessingIsBlocked]
              | some (decodedData, decodedBufferSize) =>
                Event.RenderFrame ::
                  (match renderer.RenderFrame
                      (w.calls ++ [Call.DecodeFrame frameBuffer.GetFrameNumber
                        (frameBuffer.GetAssembledData
                          (List.replicate frameBuffer.GetCurrentFrameSize.toNat 0))
                        frameBuffer.GetCurrentFrameSize])
                      decodedData decodedBufferSize with
                    | none => [Event.write Member.m_frameProcessingIsBlocked]
                    | some _ => [])))
      else [])
  else []

/-- The mutexes a thread holds after an event, given the ones it held before it. -/
def Event.held (held : List Mutex) : Event → List Mutex
  | .lock m => m :: held
  | .unlock m => held.erase m
  | .read _ => held
  | .write _ => held
  | .DecodeFrame => held
  | .RenderFrame => held

/-- The mutexes a thread holds at the end of a trace of events. -/
def heldAfter (held : List Mutex) (es : List Event) : List Mutex :=
  es.foldl Event.held held

/-- The events of a trace, each with the mutexes the thread holds when the event happens. -/
def heldAt : List Mutex → List Event → List (List Mutex × Event)
  | _, [] => []
  | held, e :: es => (held, e) :: heldAt (e.held held) es

/-- The sets of mutexes a thread holds along a trace: before its first event and after each
of its events. -/
def heldAlong : List Mutex → List Event → List (List Mutex)
  | held, [] => [held]
  | held, e :: es => held :: heldAlong (e.held held) es

/-- The lock discipline of a thread of control that starts with no mutex held: it never
holds the two mutexes at the same time, it holds none while the decoder or the renderer
runs, and it does not hold `m_unsortedFrameBuffersGuard` when it takes
`m_sortedFrameBuffersGuard`. -/
def LockDiscipline (es : List Event) : Prop :=
  (∀ h ∈ heldAlong [] es,
    ¬ (Mutex.m_unsortedFrameBuffersGuard ∈ h ∧ Mutex.m_sortedFrameBuffersGuard ∈ h)) ∧
  (∀ p ∈ heldAt [] es, (p.2 = Event.DecodeFrame ∨ p.2 = Event.RenderFrame) → p.1 = []) ∧
  (∀ p ∈ heldAt [] es, p.2 = Event.lock Mutex.m_sortedFrameBuffersGuard →
    Mutex.m_unsortedFrameBuffersGuard ∉ p.1)

/-- Every read and every write of the member `x` in a trace of events happens while the
thread holds the mutex `m`. -/
def GuardedBy (m : Mutex) (x : Member) (es : List Event) : Prop :=
  ∀ p ∈ heldAt [] es, (p.2 = Event.read x ∨ p.2 = Event.write x) → m ∈ p.1

/-- Every read and every write of the member `x` in a trace of events happens while the
thread holds no mutex. -/
def Unguarded (x : Member) (es : List Event) : Prop :=
  ∀ p ∈ heldAt [] es, (p.2 = Event.read x ∨ p.2 = Event.write x) → p.1 = []

/-! ## `tests/test_jitter_buffer.cc` -/

/-- Arithmetic on `size_t` (64 bits) wraps around. -/
def size_t.wrap (n : Nat) : Nat := n % 2 ^ 64

/-- The member `std::string::substr(pos, count)` for `pos <= size()`: the characters from
position `pos` on, `count` of them at most. -/
def substr (s : List Byte) (pos count : Nat) : List Byte :=
  (s.drop pos).take count

/-- The `for` loop of the test helper `FragmentData`, entered with the value `i` of the loop
variable; `fuel` bounds the number of iterations. -/
def FragmentData.loop (inputData : List Byte) (blockSize : Nat) :
    Nat → Nat → List (List Byte) → List (List Byte)
  | 0, _, fragmentedData => fragmentedData
  | fuel + 1, i, fragmentedData =>
    if i < inputData.length then
      let count := min blockSize (size_t.wrap (inputData.length - i + 1))
      let tempBlock := substr inputData i count
      FragmentData.loop inputData blockSize fuel (size_t.wrap (i + blockSize))
        (fragmentedData ++ [tempBlock])
    else fragmentedData

/-- The test helper `FragmentData(inputData, blockSize, fragmentedData)`: the content of
`fragmentedData` after the call. -/
def FragmentData (fuel : Nat) (inputData : List Byte) (blockSize : Nat)
    (fragmentedData : List (List Byte)) : List (List Byte) :=
  FragmentData.loop inputData blockSize fuel 0 fragmentedData

/-- The clean partition of a string into blocks of `blockSize` bytes, the last one holding
what is left. -/
def blocksOf (inputData : List Byte) (blockSize : Nat) : List (List Byte) :=
  (List.range ((inputData.length + blockSize - 1) / blockSize)).map
    (fun j => (inputData.drop (j * blockSize)).take blockSize)

/-! ## `frame_buffer.cc`: a call of `AppendFragment` and the way it ends -/

/-- The member `FrameBuffer::AppendFragment` with the way the call ends.  The allocation
`new char[length]` in the `FrameFragment` constructor throws (`std::bad_alloc`) for a
negative `length`; line 79 has already added `length` to `m_currentFrameSize` then, and no
fragment is stored.  A call that returns is `FrameBuffer.AppendFragment`. -/
def FrameBuffer.AppendFragment.call (fb : FrameBuffer) (buffer : Nat → Byte) (length : Int)
    (fragmentNumber : Int) : FrameBuffer × Except StdException Unit :=
  if fb.m_frameIsComplete then
    (fb, .ok ())
  else if fb.m_frameFragments.countP (FragmentCompareEqual fragmentNumber) ≠ 0 then
    (fb, .ok ())
  else if length < 0 then
    ({ fb with m_currentFrameSize := int.wrap (fb.m_currentFrameSize + length) },
      .error (.other "std::bad_alloc"))
  else
    (fb.AppendFragment buffer length fragmentNumber, .ok ())

/-- A sequence of `AppendFragment` calls made on an object, whatever the way each ends: the
object after them and the exceptions that were thrown, in order. -/
def FrameBuffer.AppendFragments.call (fb : FrameBuffer) :
    List ((Nat → Byte) × Int × Int) → FrameBuffer × List StdException
  | [] => (fb, [])
  | c :: calls =>
    match FrameBuffer.AppendFragment.call fb c.1 c.2.1 c.2.2 with
    | (fb1, .ok _) => FrameBuffer.AppendFragments.call fb1 calls
    | (fb1, .error ex) =>
      ((FrameBuffer.AppendFragments.call fb1 calls).1,
        ex :: (FrameBuffer.AppendFragments.call fb1 calls).2)

/-- The sum of the payload lengths of the fragments a `FrameBuffer` stores. -/
def FrameBuffer.storedLength (fb : FrameBuffer) : Int :=
  (fb.m_frameFragments.map FrameFragment.GetBufferLength).sum

/-- A frame of two fragments of `2^30` bytes each. -/
def twoGiBFrame : FrameBuffer :=
  (FrameBuffer.new (fun _ => 0) (2 ^ 30) 0 0 2).AppendFragment (fun _ => 0) (2 ^ 30) 1

/-! ## The worker threads, critical section by critical section

`RecycleExistingFrames` and `ProcessCompletedFrames` above give the net effect of one whole
loop iteration.  Below, the two thread routines are cut where the other threads can see the
shared members in between: at the loop-head test of `m_shutdownRequested`, at each locked
block, and at each call to a collaborator.  Each worker has a position in its routine and
the local variables that live across the cuts.

A `ReceivePacket` call stays one step.  Its locked block is the only place where it touches
the store and the watermark, the latch is read before it and the flags are handled after it;
the workers started in the call exist from its end on.  Calls are made one at a time. -/

/-- The way a call to a collaborator ends: it returns, it throws an exception derived from
`std::exception`, or it throws something else. -/
inductive Outcome (α : Type)
  | returns (a : α)
  | throwsStd
  | throwsOther

namespace video_engine

/-- The interface `video_engine::IDecoder`.  In `DecodeFrame history buffer length
outputBuffer`, `buffer` is the array handed over, `outputBuffer` is the memory at the output
pointer (the byte at every offset from it), and `history` is the list of collaborator calls
made before, standing for any state the decoder keeps.  A call that returns gives the memory
at the output pointer after the call and the returned size. -/
structure IDecoder where
  DecodeFrame : List Call → List Byte → Int → (Nat → Byte) → Outcome ((Nat → Byte) × Int)

/-- The interface `video_engine::IRenderer`.  In `RenderFrame history buffer length`,
`buffer` is the memory at the pointer passed. -/
structure IRenderer where
  RenderFrame : List Call → (Nat → Byte) → Int → Outcome Unit

end video_engine

/-- The call `::memcpy(dst, src, n)` on the memory at the pointer `dst`. -/
def memcpy.mem (dst : Nat → Byte) (src : List Byte) (n : Int) : Nat → Byte :=
  fun i => if (i : Int) < n then src.getD i 0 else dst i

/-- The `length` bytes found at a pointer. -/
def bytesAt (buffer : Nat → Byte) (length : Int) : List Byte :=
  (List.range length.toNat).map buffer

/-- The position of the recycler thread in `RecycleExistingFrames`, with `tempArray` where it
is not empty. -/
inductive Recycler
  | test
  | block1
  | block2 (tempArray : FrameList)
  deriving DecidableEq, Repr

/-- The position of the dispatcher thread in `ProcessCompletedFrames`, with the frame it has
taken from the ready queue and the size `DecodeFrame` returned. -/
inductive Dispatcher
  | test
  | block
  | decode (frameBuffer : FrameBuffer)
  | render (frameBuffer : FrameBuffer) (decodedBufferSize : Int)
  deriving DecidableEq, Repr

/-- The local `tempArray` of the recycler. -/
def Recycler.tempArray : Recycler → FrameList
  | .test => []
  | .block1 => []
  | .block2 tempArray => tempArray

/-- The frame the dispatcher holds, taken from the ready queue and not rendered yet. -/
def Dispatcher.frameBuffer : Dispatcher → Option FrameBuffer
  | .test => none
  | .block => none
  | .decode frameBuffer => some frameBuffer
  | .render frameBuffer _ => some frameBuffer

/-- The frame the dispatcher holds and has not handed to `DecodeFrame` yet. -/
def Dispatcher.undecoded : Dispatcher → FrameList
  | .test => []
  | .block => []
  | .decode frameBuffer => [frameBuffer]
  | .render _ _ => []

/-- The state of the process: the instance, the two workers, the memory at `decodedData.get()`
(the array of `MaxDecodedBufferSize` bytes from offset 0 on, and whatever follows it), the
record of the calls made to the collaborators, and whether `std::terminate` was called. -/
structure System where
  jb : JitterBufferImpl
  recycler : Recycler
  dispatcher : Dispatcher
  decodedData : Nat → Byte
  calls : List Call
  terminated : Bool

/-- The state right after a successful `CreateJitterBuffer`; `memory` is what the memory
holds where the dispatcher will allocate its array (`new char[...]` does not initialise
it). -/
def System.init (memory : Nat → Byte) : System :=
  { jb := JitterBufferImpl.init
    recycler := Recycler.test
    dispatcher := Dispatcher.test
    decodedData := memory
    calls := []
    terminated := false }

/-- The recycler at `while (!m_shutdownRequested)`: the routine returns when the shutdown was
requested. -/
def JitterBufferImpl.RecycleExistingFrames.test (s : System) : System :=
  if s.jb.m_shutdownRequested then
    { s with jb := { s.jb with m_recyclerThread := some Thread.finished } }
  else
    { s with recycler := Recycler.block1 }

/-- The first locked block of the recycler (lines 147-165): under
`m_unsortedFrameBuffersGuard` the ready frames leave the store for `tempArray` and the
watermark advances. -/
def JitterBufferImpl.RecycleExistingFrames.block1 (s : System) : System :=
  let r := JitterBufferImpl.RecycleExistingFrames.loop s.jb.m_unsortedFrameBuffers
    s.jb.m_unsortedFrameBuffers s.jb.m_lastDecodedFrameNumber []
  { s with
    jb := { s.jb with m_unsortedFrameBuffers := r.1, m_lastDecodedFrameNumber := r.2.1 }
    recycler := if r.2.2.isEmpty then Recycler.test else Recycler.block2 r.2.2 }

/-- The second locked block of the recycler (lines 168-176): under
`m_sortedFrameBuffersGuard` the frames of `tempArray` are appended to the ready queue; then
`tempArray` is cleared. -/
def JitterBufferImpl.RecycleExistingFrames.block2 (s : System) (tempArray : FrameList) :
    System :=
  { s with
    jb := { s.jb with m_sortedFrameBuffers := s.jb.m_sortedFrameBuffers ++ tempArray }
    recycler := Recycler.test }

/-- The next step of the recycler thread. -/
def JitterBufferImpl.RecycleExistingFrames.next (s : System) : System :=
  if s.jb.m_recyclerThread = some Thread.running then
    match s.recycler with
    | .test => JitterBufferImpl.RecycleExistingFrames.test s
    | .block1 => JitterBufferImpl.RecycleExistingFrames.block1 s
    | .block2 tempArray => JitterBufferImpl.RecycleExistingFrames.block2 s tempArray
  else s

/-- The dispatcher at `while (!m_shutdownRequested)`. -/
def JitterBufferImpl.ProcessCompletedFrames.test (s : System) : System :=
  if s.jb.m_shutdownRequested then
    { s with jb := { s.jb with m_dataProcessingThread := some Thread.finished } }
  else
    { s with dispatcher := Dispatcher.block }

/-- The locked block of the dispatcher (lines 201-210): under `m_sortedFrameBuffersGuard`
the front of the ready queue is taken, or the iteration ends (`continue`) when the queue is
empty. -/
def JitterBufferImpl.ProcessCompletedFrames.block (s : System) : System :=
  match s.jb.m_sortedFrameBuffers with
  | [] => { s with dispatcher := Dispatcher.test }
  | frameBuffer :: rest =>
    { s with
      jb := { s.jb with m_sortedFrameBuffers := rest }
      dispatcher := Dispatcher.decode frameBuffer }

/-- The `catch (const std::exception&)` block of `ProcessCompletedFrames`: the latch is set
and the routine returns; its local variables are gone. -/
def JitterBufferImpl.ProcessCompletedFrames.handler (s : System) : System :=
  { s with
    jb := JitterBufferImpl.ProcessCompletedFrames.caught s.jb
    dispatcher := Dispatcher.test }

/-- Lines 212-221 of the dispatcher, with no mutex held: the frame is assembled in a new
array of `GetCurrentFrameSize()` bytes and handed to `DecodeFrame`.  `new char[...]` throws
(`std::bad_alloc`) for a negative size.  An exception that is not a `std::exception` is not
caught in the thread routine: the process is terminated. -/
def JitterBufferImpl.ProcessCompletedFrames.decode (decoder : video_engine.IDecoder)
    (s : System) (frameBuffer : FrameBuffer) : System :=
  let currentFrameSize := frameBuffer.GetCurrentFrameSize
  if currentFrameSize < 0 then
    JitterBufferImpl.ProcessCompletedFrames.handler s
  else
    let frameData := frameBuffer.GetAssembledData (List.replicate currentFrameSize.toNat 0)
    let calls := s.calls ++ [Call.DecodeFrame frameBuffer.GetFrameNumber frameData
      currentFrameSize]
    match decoder.DecodeFrame s.calls frameData currentFrameSize s.decodedData with
    | .returns (decodedData, decodedBufferSize) =>
      { s with
        decodedData := decodedData
        calls := calls
        dispatcher := Dispatcher.render frameBuffer decodedBufferSize }
    | .throwsStd =>
      JitterBufferImpl.ProcessCompletedFrames.handler { s with calls := calls }
    | .throwsOther =>
      { s with calls := calls, terminated := true }

/-- Line 223 of the dispatcher: `RenderFrame(decodedData.get(), decodedBufferSize)`.  The
record keeps the `decodedBufferSize` bytes found at the pointer. -/
def JitterBufferImpl.ProcessCompletedFrames.render (renderer : video_engine.IRenderer)
    (s : System) (decodedBufferSize : Int) : System :=
  let calls := s.calls ++ [Call.RenderFrame (bytesAt s.decodedData decodedBufferSize)
    decodedBufferSize]
  match renderer.RenderFrame s.calls s.decodedData decodedBufferSize with
  | .returns _ => { s with calls := calls, dispatcher := Dispatcher.test }
  | .throwsStd => JitterBufferImpl.ProcessCompletedFrames.handler { s with calls := calls }
  | .throwsOther => { s with calls := calls, terminated := true }

/-- The next step of the dispatcher thread. -/
def JitterBufferImpl.ProcessCompletedFrames.next (decoder : video_engine.IDecoder)
    (renderer : video_engine.IRenderer) (s : System) : System :=
  if s.jb.m_dataProcessingThread = some Thread.running then
    match s.dispatcher with
    | .test => JitterBufferImpl.ProcessCompletedFrames.test s
    | .block => JitterBufferImpl.ProcessCompletedFrames.block s
    | .decode frameBuffer =>
      JitterBufferImpl.ProcessCompletedFrames.decode decoder s frameBuffer
    | .render _ decodedBufferSize =>
      JitterBufferImpl.ProcessCompletedFrames.render renderer s decodedBufferSize
  else s

/-- The destructor `JitterBufferImpl::~JitterBufferImpl` up to its joins: it requests the
shutdown.  The joins wait until the two routines have returned and change no member; a
worker leaves its loop at its next loop-head test, so an iteration in progress is carried
through. -/
def JitterBufferImpl.Destructor (jb : JitterBufferImpl) : JitterBufferImpl :=
  { jb with m_shutdownRequested := true }

/-- What can happen next in the process: a call from outside, the destructor, or the next
step of one of the workers. -/
inductive Action
  | ReceivePacket (buffer : CharPtr)
      (length frameNumber fragmentNumber numFragmentsInThisFrame : Int)
  | Destructor
  | RecycleExistingFrames
  | ProcessCompletedFrames

/-- The effect of an action on the state.  Nothing happens in a terminated process. -/
def System.step (decoder : video_engine.IDecoder) (renderer : video_engine.IRenderer)
    (s : System) (a : Action) : System :=
  if s.terminated then s
  else
    match a with
    | .ReceivePacket buffer length frameNumber fragmentNumber numFragmentsInThisFrame =>
      { s with jb := (s.jb.ReceivePacket buffer length frameNumber fragmentNumber
          numFragmentsInThisFrame).1 }
    | .Destructor => { s with jb := s.jb.Destructor }
    | .RecycleExistingFrames => JitterBufferImpl.RecycleExistingFrames.next s
    | .ProcessCompletedFrames => JitterBufferImpl.ProcessCompletedFrames.next decoder renderer s

/-- The effect of a sequence of actions. -/
def System.run (decoder : video_engine.IDecoder) (renderer : video_engine.IRenderer)
    (s : System) (t : List Action) : System :=
  t.foldl (System.step decoder renderer) s

/-- The action that delivers chunk `c` as fragment `fragmentNumber` of frame
`frameNumber`. -/
def Action.packet (c : List Byte) (frameNumber fragmentNumber numFragmentsInThisFrame : Int) :
    Action :=
  .ReceivePacket (ptrOf c) c.length frameNumber fragmentNumber numFragmentsInThisFrame

/-- One whole iteration of the recycler that finds something to promote: test, first block,
second block. -/
def Action.recyclerPass : List Action :=
  [Action.RecycleExistingFrames, Action.RecycleExistingFrames, Action.RecycleExistingFrames]

/-- One whole iteration of the dispatcher that finds a frame: test, locked block,
`DecodeFrame`, `RenderFrame`. -/
def Action.dispatcherPass : List Action :=
  [Action.ProcessCompletedFrames, Action.ProcessCompletedFrames,
    Action.ProcessCompletedFrames, Action.ProcessCompletedFrames]

/-! ### `tests/stubs` on memory -/

namespace test

/-- The test stub `StubDecoder::DecodeFrame`: copies `min(length, DecoderMaxOutputSize)`
bytes to the output pointer and returns `length`. -/
def StubDecoder.DecodeFrame (buffer : List Byte) (length : Int) (outputBuffer : Nat → Byte) :
    (Nat → Byte) × Int :=
  let outputSize := if length < DecoderMaxOutputSize then length else DecoderMaxOutputSize
  (memcpy.mem outputBuffer buffer outputSize, length)

/-- The test stub `StubDecoder`. -/
def StubDecoder : video_engine.IDecoder :=
  { DecodeFrame := fun _ buffer length outputBuffer =>
      Outcome.returns (StubDecoder.DecodeFrame buffer length outputBuffer) }

/-- The test stub `StubRenderer::RenderFrame`: `assign(buffer, length)` reads `length` bytes
at the pointer, and they are appended to `m_renderData`. -/
def StubRenderer.RenderFrame (r : StubRendererData) (buffer : Nat → Byte) (length : Int) :
    StubRendererData :=
  { m_renderData := r.m_renderData ++ bytesAt buffer length
    m_dataLength := int.wrap (r.m_dataLength + length) }

/-- The test stub `StubRenderer`. -/
def StubRenderer : video_engine.IRenderer :=
  { RenderFrame := fun _ _ _ => Outcome.returns () }

/-- The state of a `StubRenderer` after it has served the `RenderFrame` calls of a record
(a record keeps the bytes found at the pointer of each call). -/
def StubRenderer.after (calls : List Call) : StubRendererData :=
  calls.foldl (fun r c =>
    match c with
    | .RenderFrame buffer length => StubRenderer.RenderFrame r (fun i => buffer.getD i 0) length
    | .DecodeFrame _ _ _ => r) { m_renderData := [], m_dataLength := 0 }

/-- The test stub `StubRenderer::GetRenderedData`, after the calls of a record. -/
def GetRenderedData (calls : List Call) : List Byte :=
  (StubRenderer.after calls).m_renderData

end test

/-- A decoder whose `DecodeFrame` always throws a `std::exception`. -/
def raisingDecoder : video_engine.IDecoder :=
  { DecodeFrame := fun _ _ _ _ => Outcome.throwsStd }

/-- A decoder whose `DecodeFrame` always throws something that is not a `std::exception`. -/
def foreignDecoder : video_engine.IDecoder :=
  { DecodeFrame := fun _ _ _ _ => Outcome.throwsOther }

/-- A renderer whose `RenderFrame` always throws a `std::exception`. -/
def raisingRenderer : video_engine.IRenderer :=
  { RenderFrame := fun _ _ _ => Outcome.throwsStd }

/-! ### Vocabulary of the claims on the threads -/

/-- The instance as it is once the recycler has appended what it holds in `tempArray`. -/
def System.settled (s : System) : JitterBufferImpl :=
  { s.jb with m_sortedFrameBuffers := s.jb.m_sortedFrameBuffers ++ s.recycler.tempArray }

/-- The number of frames in transit: taken out of the store by the recycler and not yet in
the ready queue, or taken from the ready queue by the dispatcher and not yet rendered. -/
def System.inTransit (s : System) : Nat :=
  s.recycler.tempArray.length + s.dispatcher.frameBuffer.toList.length

/-- The number of frames the dispatcher has taken from the ready queue so far. -/
def System.taken (s : System) : Nat :=
  (s.jb.m_lastDecodedFrameNumber + 1 - (s.jb.m_sortedFrameBuffers.length : Int) -
    (s.recycler.tempArray.length : Int)).toNat

/-- The frames that have left the store and were not handed to `DecodeFrame` yet, in the
order in which they will be: the one the dispatcher holds, the ready queue, the recycler's
`tempArray`. -/
def System.pending (s : System) : FrameList :=
  s.dispatcher.undecoded ++ s.jb.m_sortedFrameBuffers ++ s.recycler.tempArray

/-- No worker has failed: the error latch is clear and the process was not terminated. -/
def System.NoFailure (s : System) : Prop :=
  s.jb.m_frameProcessingIsBlocked = false ∧ s.terminated = false

/-- The dispatcher makes no call any more: the process was terminated or the routine of the
dispatcher has returned. -/
def System.Stopped (s : System) : Prop :=
  s.terminated = true ∨
    (s.jb.m_dataProcessingThread = some Thread.finished ∧
      s.jb.m_dataProcessingTaskLaunched = true)

/-- The record of calls that goes with a position of the dispatcher, when it has taken
`taken` frames from the ready queue and no worker has failed: the frames before the one it
holds were decoded and rendered, and the one it holds was handed to `DecodeFrame` if the
dispatcher stands before `RenderFrame`. -/
def Dispatcher.Record (d : Dispatcher) (calls : List Call) (taken : Nat) : Prop :=
  match d with
  | .test => callShape calls = expectedShape taken
  | .block => callShape calls = expectedShape taken
  | .decode frameBuffer =>
    1 ≤ taken ∧ frameBuffer.m_frameNumber = (taken : Int) - 1 ∧
      callShape calls = expectedShape (taken - 1)
  | .render frameBuffer _ =>
    1 ≤ taken ∧ frameBuffer.m_frameNumber = (taken : Int) - 1 ∧
      callShape calls = expectedShape (taken - 1) ++ [some ((taken : Int) - 1)]

/-- The invariant of the process.  The structural invariant holds of the settled instance;
a set latch means the routine of the dispatcher has returned; while no worker has failed,
the record of calls is the one that goes with the position of the dispatcher; in any case
the record is made of decode and render pairs for the frames `0, 1, ...`, with at most one
`DecodeFrame` call at its end that has no `RenderFrame` call, and then either the dispatcher
stands before that `RenderFrame` call or it makes no call any more. -/
structure System.Inv (s : System) : Prop where
  jb : s.settled.Inv
  latch : s.jb.m_frameProcessingIsBlocked = true →
    s.jb.m_dataProcessingThread = some Thread.finished
  live : s.NoFailure → s.dispatcher.Record s.calls s.taken
  shape : ∃ k : Nat, callShape s.calls = expectedShape k ∨
    callShape s.calls = expectedShape k ++ [some (k : Int)]
  pendingRender : (∃ k : Nat, callShape s.calls = expectedShape k ++ [some (k : Int)]) →
    s.Stopped ∨ ∃ frameBuffer decodedBufferSize,
      s.dispatcher = Dispatcher.render frameBuffer decodedBufferSize ∧
      s.jb.m_dataProcessingThread = some Thread.running ∧ s.terminated = false

/-- The store is saturated: it holds `MaxFrameNumber` entries and the frame that follows the
watermark is absent from it or incomplete. -/
def JitterBufferImpl.Saturated (jb : JitterBufferImpl) : Prop :=
  (jb.m_unsortedFrameBuffers.length : Int) = MaxFrameNumber ∧
  (jb.m_unsortedFrameBuffers.find (jb.m_lastDecodedFrameNumber + 1)).map
    FrameBuffer.IsFrameComplete ≠ some true

/-- The capacity scenario as actions: fragment 0 of each of the frames `1..100`, every frame
announcing two fragments. -/
def Action.capacity : List Action :=
  (List.range 100).map (fun i => Action.packet [7] ((i : Int) + 1) 0 2)

/-- A saturating trace: frame 0 (one fragment) is received and the recycler goes through its
loop-head test and its first locked block, which takes frame 0 out of the store; then
fragment 0 of each of the two-fragment frames `1..100` is received.  The store then holds
100 incomplete frames, and frame 0 is in the recycler's `tempArray`, not yet in the ready
queue. -/
def saturatingTrace : List Action :=
  Action.packet [7] 0 0 1 ::
    ([Action.RecycleExistingFrames, Action.RecycleExistingFrames] ++ Action.capacity)

/-- A frame payload one byte larger than the decoded-data array: `1 MiB` zero bytes followed
by a last byte `last`. -/
def oversizePayload (last : Byte) : List Byte :=
  List.replicate 1048576 0 ++ [last]

/-- The trace that delivers one frame in a single packet and lets the workers handle it. -/
def singleFrameTrace (B : List Byte) : List Action :=
  Action.packet B 0 0 1 :: (Action.recyclerPass ++ Action.dispatcherPass)

/-- The trace that delivers frame 1 and then frame 0, each in a single packet, and lets the
workers handle the two frames. -/
def twoFrameTrace (B0 B1 : List Byte) : List Action :=
  Action.packet B1 1 0 1 :: Action.packet B0 0 0 1 ::
    (Action.recyclerPass ++ Action.dispatcherPass ++ Action.dispatcherPass)

/-- A trace that leaves a frame between the two locked blocks of the recycler: frame 0 (one
fragment) is received and promoted to the ready queue, then frame 1 (one fragment) is
received and the recycler goes through its loop-head test and its first locked block only.
Frame 1 has left the store and the watermark is 1, the ready queue still holds frame 0
alone. -/
def overlapTrace : List Action :=
  Action.packet [7] 0 0 1 :: (Action.recyclerPass ++
    [Action.packet [8] 1 0 1, Action.RecycleExistingFrames, Action.RecycleExistingFrames])

end JitterBuffer

namespace JitterBuffer

/-! ## Ingress: the checks at the head of `ReceivePacket` -/

theorem checks_of_invalid (jb : JitterBufferImpl) (buffer : CharPtr)
    (length frameNumber fragmentNumber num : Int)
    (h : ¬ ValidArgs buffer length frameNumber fragmentNumber num) :
    ∃ ex : BasicException, ex.m_resultCode = result_code.eInvalidArgument ∧
      JitterBufferImpl.ReceivePacket.checks jb buffer length frameNumber fragmentNumber num
        = .error (.basic ex) := by
  unfold ValidArgs at h
  unfold JitterBufferImpl.ReceivePacket.checks CHECK_ARGUMENT
  cases buffer with
  | none => exact ⟨_, rfl, rfl⟩
  | some mem =>
    by_cases h1 : 0 < length
    · by_cases h2 : 0 ≤ frameNumber
      · by_cases h3 : 0 ≤ fragmentNumber
        · by_cases h4 : 0 < num
          · exact absurd ⟨by simp, h1, h2, h3, h4⟩ h
          · refine ⟨THROW_INVALID_ARGUMENT.shl "Frame must have at least 1 fragment!", rfl, ?_⟩
            simp [h1, h2, h3, h4, bind, Except.bind]
        · refine ⟨THROW_INVALID_ARGUMENT.shl "Fragment number must be non-negative!", rfl, ?_⟩
          simp [h1, h2, h3, bind, Except.bind]
      · refine ⟨THROW_INVALID_ARGUMENT.shl "Frame number must be non-negative!", rfl, ?_⟩
        simp [h1, h2, bind, Except.bind]
    · refine ⟨THROW_INVALID_ARGUMENT.shl "Buffer data is empty!", rfl, ?_⟩
      simp [h1, bind, Except.bind]

theorem checks_of_blocked (jb : JitterBufferImpl) (buffer : CharPtr)
    (length frameNumber fragmentNumber num : Int)
    (h : ValidArgs buffer length frameNumber fragmentNumber num)
    (hb : jb.m_frameProcessingIsBlocked = true) :
    ∃ ex : BasicException, ex.m_resultCode = result_code.eFail ∧
      JitterBufferImpl.ReceivePacket.checks jb buffer length frameNumber fragmentNumber num
        = .error (.basic ex) := by
  obtain ⟨h0, h1, h2, h3, h4⟩ := h
  cases buffer with
  | none => exact absurd rfl h0
  | some mem =>
    refine ⟨(THROW_BASIC_EXCEPTION result_code.eFail).shl "Frame processing is blocked!", rfl, ?_⟩
    simp [JitterBufferImpl.ReceivePacket.checks, CHECK_ARGUMENT, h1, h2, h3, h4, hb, bind,
      Except.bind, throw, throwThe, MonadExceptOf.throw]

theorem checks_of_valid (jb : JitterBufferImpl) (buffer : CharPtr)
    (length frameNumber fragmentNumber num : Int)
    (h : ValidArgs buffer length frameNumber fragmentNumber num)
    (hb : jb.m_frameProcessingIsBlocked = false) :
    JitterBufferImpl.ReceivePacket.checks jb buffer length frameNumber fragmentNumber num
      = .ok () := by
  obtain ⟨h0, h1, h2, h3, h4⟩ := h
  cases buffer with
  | none => exact absurd rfl h0
  | some mem =>
    simp [JitterBufferImpl.ReceivePacket.checks, CHECK_ARGUMENT, h1, h2, h3, h4, hb, bind,
      Except.bind, pure, Except.pure]

end JitterBuffer

namespace JitterBuffer

/-! ## Ingress: the six outcomes of `ReceivePacket` -/

theorem ReceivePacket_of_invalid (jb : JitterBufferImpl) (buffer : CharPtr)
    (length frameNumber fragmentNumber num : Int)
    (h : ¬ ValidArgs buffer length frameNumber fragmentNumber num) :
    ∃ ex : BasicException, ex.m_resultCode = result_code.eInvalidArgument ∧
      jb.ReceivePacket buffer length frameNumber fragmentNumber num
        = (jb, .error (.basic ex)) := by
  obtain ⟨ex, hex, hc⟩ := checks_of_invalid jb buffer length frameNumber fragmentNumber num h
  exact ⟨ex, hex, by simp [JitterBufferImpl.ReceivePacket, hc]⟩

theorem ReceivePacket_of_blocked (jb : JitterBufferImpl) (buffer : CharPtr)
    (length frameNumber fragmentNumber num : Int)
    (h : ValidArgs buffer length frameNumber fragmentNumber num)
    (hb : jb.m_frameProcessingIsBlocked = true) :
    ∃ ex : BasicException, ex.m_resultCode = result_code.eFail ∧
      jb.ReceivePacket buffer length frameNumber fragmentNumber num
        = (jb, .error (.basic ex)) := by
  obtain ⟨ex, hex, hc⟩ := checks_of_blocked jb buffer length frameNumber fragmentNumber num h hb
  exact ⟨ex, hex, by simp [JitterBufferImpl.ReceivePacket, hc]⟩

theorem ReceivePacket_of_stale (jb : JitterBufferImpl) (buffer : CharPtr)
    (length frameNumber fragmentNumber num : Int)
    (h : ValidArgs buffer length frameNumber fragmentNumber num)
    (hb : jb.m_frameProcessingIsBlocked = false)
    (hs : frameNumber ≤ jb.m_lastDecodedFrameNumber) :
    jb.ReceivePacket buffer length frameNumber fragmentNumber num = (jb, .ok ()) := by
  simp [JitterBufferImpl.ReceivePacket,
    checks_of_valid jb buffer length frameNumber fragmentNumber num h hb, hs]

theorem ReceivePacket_of_full (jb : JitterBufferImpl) (buffer : CharPtr)
    (length frameNumber fragmentNumber num : Int)
    (h : ValidArgs buffer length frameNumber fragmentNumber num)
    (hb : jb.m_frameProcessingIsBlocked = false)
    (hs : jb.m_lastDecodedFrameNumber < frameNumber)
    (hfull : (jb.m_unsortedFrameBuffers.length : Int) = MaxFrameNumber) :
    ∃ ex : BasicException, ex.m_resultCode = result_code.eOutOfSpace ∧
      jb.ReceivePacket buffer length frameNumber fragmentNumber num
        = (jb, .error (.basic ex)) := by
  refine ⟨(THROW_BASIC_EXCEPTION result_code.eOutOfSpace).shl "Jitter Buffer is full", rfl, ?_⟩
  simp [JitterBufferImpl.ReceivePacket,
    checks_of_valid jb buffer length frameNumber fragmentNumber num h hb, not_le.mpr hs, hfull]

theorem ReceivePacket_of_absent (jb : JitterBufferImpl) (mem : Nat → Byte)
    (length frameNumber fragmentNumber num : Int)
    (h : ValidArgs (some mem) length frameNumber fragmentNumber num)
    (hb : jb.m_frameProcessingIsBlocked = false)
    (hs : jb.m_lastDecodedFrameNumber < frameNumber)
    (hfull : (jb.m_unsortedFrameBuffers.length : Int) ≠ MaxFrameNumber)
    (hfind : jb.m_unsortedFrameBuffers.find frameNumber = none) :
    jb.ReceivePacket (some mem) length frameNumber fragmentNumber num =
      (JitterBufferImpl.ReceivePacket.launch
        { jb with m_unsortedFrameBuffers := (jb.m_unsortedFrameBuffers.assign frameNumber
            (FrameBuffer.new mem length frameNumber fragmentNumber num)) }, .ok ()) := by
  simp [JitterBufferImpl.ReceivePacket,
    checks_of_valid jb (some mem) length frameNumber fragmentNumber num h hb, not_le.mpr hs,
    hfull, hfind]

theorem ReceivePacket_of_resident (jb : JitterBufferImpl) (mem : Nat → Byte)
    (length frameNumber fragmentNumber num : Int) (fb : FrameBuffer)
    (h : ValidArgs (some mem) length frameNumber fragmentNumber num)
    (hb : jb.m_frameProcessingIsBlocked = false)
    (hs : jb.m_lastDecodedFrameNumber < frameNumber)
    (hfull : (jb.m_unsortedFrameBuffers.length : Int) ≠ MaxFrameNumber)
    (hfind : jb.m_unsortedFrameBuffers.find frameNumber = some fb) :
    jb.ReceivePacket (some mem) length frameNumber fragmentNumber num =
      (JitterBufferImpl.ReceivePacket.launch
        { jb with m_unsortedFrameBuffers := (jb.m_unsortedFrameBuffers.update frameNumber
            (fun fb => fb.AppendFragment mem length fragmentNumber)) }, .ok ()) := by
  simp [JitterBufferImpl.ReceivePacket,
    checks_of_valid jb (some mem) length frameNumber fragmentNumber num h hb, not_le.mpr hs,
    hfull, hfind]

/-- The result code of a call with valid arguments on an instance whose latch is clear is
`sOk` or `eOutOfSpace`, the latter exactly when the frame is not stale and the store is
full. -/
theorem ReceivePacket_result_of_valid (jb : JitterBufferImpl) (buffer : CharPtr)
    (length frameNumber fragmentNumber num : Int)
    (h : ValidArgs buffer length frameNumber fragmentNumber num)
    (hb : jb.m_frameProcessingIsBlocked = false) :
    CheckReceiverFunction (jb.ReceivePacket buffer length frameNumber fragmentNumber num).2 =
      if jb.m_lastDecodedFrameNumber < frameNumber ∧
          (jb.m_unsortedFrameBuffers.length : Int) = MaxFrameNumber
      then result_code.eOutOfSpace else result_code.sOk := by
  by_cases hs : jb.m_lastDecodedFrameNumber < frameNumber
  · by_cases hfull : (jb.m_unsortedFrameBuffers.length : Int) = MaxFrameNumber
    · obtain ⟨ex, hex, hr⟩ :=
        ReceivePacket_of_full jb buffer length frameNumber fragmentNumber num h hb hs hfull
      simp [hr, hs, hfull, CheckReceiverFunction, ExceptionDispatcher.Dispatch,
        BasicException.toResult, hex]
    · cases buffer with
      | none => exact absurd rfl h.1
      | some mem =>
        cases hfind : jb.m_unsortedFrameBuffers.find frameNumber with
        | none =>
          simp [ReceivePacket_of_absent jb mem length frameNumber fragmentNumber num h hb hs
            hfull hfind, hs, hfull, CheckReceiverFunction]
        | some fb =>
          simp [ReceivePacket_of_resident jb mem length frameNumber fragmentNumber num fb h hb
            hs hfull hfind, hs, hfull, CheckReceiverFunction]
  · simp [ReceivePacket_of_stale jb buffer length frameNumber fragmentNumber num h hb
      (not_lt.mp hs), hs, CheckReceiverFunction]

theorem find_update (m : FrameBuffers) (k : Int) (f : FrameBuffer → FrameBuffer) (k' : Int) :
    (m.update k f).find k' = if k' = k then (m.find k').map f else m.find k' := by
  induction m with
  | nil => simp [FrameBuffers.update, FrameBuffers.find]
  | cons e rest ih =>
    obtain ⟨a, b⟩ := e
    by_cases hak : a = k
    · by_cases hk : k' = k
      · subst hak; subst hk; simp [FrameBuffers.find, FrameBuffers.update]
      · have h1 : ¬ a = k' := fun h => hk (h ▸ hak)
        simp [FrameBuffers.find, FrameBuffers.update, hak, hk, ih]
        simp [← hak, h1]
    · by_cases hak' : a = k'
      · have hk : ¬ k' = k := fun h => hak (hak'.trans h)
        simp [FrameBuffers.find, FrameBuffers.update, hak, hk, hak']
      · simp [FrameBuffers.find, FrameBuffers.update, hak, hak', ih]

end JitterBuffer

namespace JitterBuffer

/-! ## Claims on the ingress contract -/

/-- C1: a `ReceivePacket` call fails with result code `InvalidArgument` if and only if the
buffer is null, or `length <= 0`, or `frameNumber < 0`, or `fragmentNumber < 0`, or
`numFragmentsInThisFrame <= 0`; this holds on every instance state. -/
theorem C1_invalid_argument_iff (jb : JitterBufferImpl) (buffer : CharPtr)
    (length frameNumber fragmentNumber numFragmentsInThisFrame : Int) :
    CheckReceiverFunction
        (jb.ReceivePacket buffer length frameNumber fragmentNumber numFragmentsInThisFrame).2
      = result_code.eInvalidArgument ↔
    (buffer = none ∨ length ≤ 0 ∨ frameNumber < 0 ∨ fragmentNumber < 0 ∨
      numFragmentsInThisFrame ≤ 0) := by
  by_cases hv : ValidArgs buffer length frameNumber fragmentNumber numFragmentsInThisFrame
  · have hright : ¬ (buffer = none ∨ length ≤ 0 ∨ frameNumber < 0 ∨ fragmentNumber < 0 ∨
        numFragmentsInThisFrame ≤ 0) := by
      obtain ⟨h0, h1, h2, h3, h4⟩ := hv
      rintro (h | h | h | h | h)
      · exact h0 h
      all_goals omega
    cases hb : jb.m_frameProcessingIsBlocked with
    | true =>
      obtain ⟨ex, hex, hr⟩ := ReceivePacket_of_blocked jb buffer length frameNumber
        fragmentNumber numFragmentsInThisFrame hv hb
      simp [hr, CheckReceiverFunction, ExceptionDispatcher.Dispatch, BasicException.toResult,
        hex, hright]
    | false =>
      rw [ReceivePacket_result_of_valid jb buffer length frameNumber fragmentNumber
        numFragmentsInThisFrame hv hb]
      split <;> simp [hright]
  · obtain ⟨ex, hex, hr⟩ := ReceivePacket_of_invalid jb buffer length frameNumber
      fragmentNumber numFragmentsInThisFrame hv
    have hright : buffer = none ∨ length ≤ 0 ∨ frameNumber < 0 ∨ fragmentNumber < 0 ∨
        numFragmentsInThisFrame ≤ 0 := by
      unfold ValidArgs at hv
      by_contra hcon
      push_neg at hcon
      exact hv ⟨hcon.1, by omega, by omega, by omega, by omega⟩
    simp [hr, CheckReceiverFunction, ExceptionDispatcher.Dispatch, BasicException.toResult,
      hex, hright]

/-- C2: `CreateJitterBuffer(decoder, renderer)` fails with `InvalidArgument` if and only if
the decoder or the renderer is null; otherwise it succeeds, and the instance it yields has
last emitted frame number -1, a clear error latch, an empty unsorted store, an empty ready
queue, and neither worker started. -/
theorem C2_create_jitter_buffer (decoder : Option IDecoder) (renderer : Option IRenderer) :
    (CreateJB decoder renderer = result_code.eInvalidArgument ↔
      (decoder = none ∨ renderer = none)) ∧
    (CreateJB decoder renderer = result_code.sOk ↔ (decoder ≠ none ∧ renderer ≠ none)) ∧
    (∀ (d : IDecoder) (r : IRenderer), ∃ jb : JitterBufferImpl,
      CreateJitterBuffer (some d) (some r) = .ok jb ∧
      jb.m_lastDecodedFrameNumber = -1 ∧
      jb.m_frameProcessingIsBlocked = false ∧
      jb.m_unsortedFrameBuffers = [] ∧
      jb.m_sortedFrameBuffers = [] ∧
      jb.m_recycleTaskLaunched = false ∧ jb.m_dataProcessingTaskLaunched = false ∧
      jb.m_recyclerThread = none ∧ jb.m_dataProcessingThread = none) := by
  refine ⟨?_, ?_, ?_⟩
  · cases decoder <;> cases renderer <;>
      simp [CreateJB, CreateJitterBuffer, JitterBufferImpl.new, CHECK_ARGUMENT, bind,
        Except.bind, pure, Except.pure, ExceptionDispatcher.Dispatch, BasicException.toResult,
        THROW_INVALID_ARGUMENT, THROW_BASIC_EXCEPTION, BasicException.shl]
  · cases decoder <;> cases renderer <;>
      simp [CreateJB, CreateJitterBuffer, JitterBufferImpl.new, CHECK_ARGUMENT, bind,
        Except.bind, pure, Except.pure, ExceptionDispatcher.Dispatch, BasicException.toResult,
        THROW_INVALID_ARGUMENT, THROW_BASIC_EXCEPTION, BasicException.shl]
  · intro d r
    refine ⟨JitterBufferImpl.init, ?_, rfl, rfl, rfl, rfl, rfl, rfl, rfl, rfl⟩
    simp [CreateJitterBuffer, JitterBufferImpl.new, CHECK_ARGUMENT, bind, Except.bind, pure,
      Except.pure]

/-- C7 (as amended): if `MAX_FRAMES` (100) distinct incomplete frame numbers are resident in
the unsorted store and the error latch is clear, then a `ReceivePacket` call with valid
arguments for a frame number that is not resident and is greater than the last emitted frame
number fails with `OutOfSpace`. -/
theorem C7_out_of_space_when_saturated (jb : JitterBufferImpl) (buffer : CharPtr)
    (length frameNumber fragmentNumber numFragmentsInThisFrame : Int)
    (_hdistinct : (jb.m_unsortedFrameBuffers.map Prod.fst).Nodup)
    (hcount : (jb.m_unsortedFrameBuffers.length : Int) = MaxFrameNumber)
    (_hincomplete : ∀ e ∈ jb.m_unsortedFrameBuffers, e.2.IsFrameComplete = false)
    (hvalid : ValidArgs buffer length frameNumber fragmentNumber numFragmentsInThisFrame)
    (_hnew : frameNumber ∉ jb.m_unsortedFrameBuffers.map Prod.fst)
    (hclear : jb.m_frameProcessingIsBlocked = false)
    (hfresh : jb.m_lastDecodedFrameNumber < frameNumber) :
    CheckReceiverFunction
        (jb.ReceivePacket buffer length frameNumber fragmentNumber numFragmentsInThisFrame).2
      = result_code.eOutOfSpace := by
  rw [ReceivePacket_result_of_valid jb buffer length frameNumber fragmentNumber
    numFragmentsInThisFrame hvalid hclear]
  simp [hfresh, hcount]

/-- C7, witness: the capacity scenario (frames 1..100, one of two fragments each, frame 0
missing); the packet for frame 0 is refused with `OutOfSpace`. -/
theorem C7_out_of_space_when_saturated_witness :
    CheckReceiverFunction
        ((capacityWorld 2).jb.ReceivePacket (ptrOf [7]) 1 0 0 1).2 = result_code.eOutOfSpace :=
  C7_out_of_space_when_saturated (capacityWorld 2).jb (ptrOf [7]) 1 0 0 1
    (by decide) (by decide) (by decide)
    ⟨by simp [ptrOf], by decide, by decide, by decide, by decide⟩
    (by decide) (by decide) (by decide)

/-- C7, counterexample to the claim as stated: after frame 0 was emitted, the frames 1..100
are resident and incomplete (100 distinct frame numbers); a valid packet for frame 0, which
is not among the resident ones, returns success rather than `OutOfSpace`. -/
theorem C7_counterexample :
    (staleCapacityWorld.jb.m_unsortedFrameBuffers.map Prod.fst).Nodup ∧
    (staleCapacityWorld.jb.m_unsortedFrameBuffers.length : Int) = MaxFrameNumber ∧
    (∀ e ∈ staleCapacityWorld.jb.m_unsortedFrameBuffers, e.2.IsFrameComplete = false) ∧
    ValidArgs (ptrOf [7]) 1 0 0 1 ∧
    (0 : Int) ∉ staleCapacityWorld.jb.m_unsortedFrameBuffers.map Prod.fst ∧
    staleCapacityWorld.jb.m_frameProcessingIsBlocked = false ∧
    CheckReceiverFunction (staleCapacityWorld.jb.ReceivePacket (ptrOf [7]) 1 0 0 1).2
      = result_code.sOk ∧
    CheckReceiverFunction (staleCapacityWorld.jb.ReceivePacket (ptrOf [7]) 1 0 0 1).2
      ≠ result_code.eOutOfSpace := by
  refine ⟨by decide, by decide, by decide,
    ⟨by simp [ptrOf], by decide, by decide, by decide, by decide⟩, by decide, by decide,
    by decide, by decide⟩

end JitterBuffer

namespace JitterBuffer

/-- C8 (as amended): for every valid, non-stale packet whose frame number already has a
`FrameBuffer` in the unsorted store, with the error latch clear and the store holding fewer
than `MAX_FRAMES` entries, `ReceivePacket` delegates to `AppendFragment` on that
`FrameBuffer` and returns success; `OutOfSpace` is raised exactly when the arguments are
valid, the latch is clear, the frame is not stale and the store holds `MAX_FRAMES` entries,
whether or not the frame number is resident. -/
theorem C8_resident_frame_delegates (jb : JitterBufferImpl) (mem : Nat → Byte)
    (length frameNumber fragmentNumber numFragmentsInThisFrame : Int) (fb : FrameBuffer)
    (hvalid : ValidArgs (some mem) length frameNumber fragmentNumber numFragmentsInThisFrame)
    (hclear : jb.m_frameProcessingIsBlocked = false)
    (hfresh : jb.m_lastDecodedFrameNumber < frameNumber)
    (hresident : jb.m_unsortedFrameBuffers.find frameNumber = some fb)
    (hroom : (jb.m_unsortedFrameBuffers.length : Int) ≠ MaxFrameNumber) :
    (CheckReceiverFunction
        (jb.ReceivePacket (some mem) length frameNumber fragmentNumber
          numFragmentsInThisFrame).2 = result_code.sOk ∧
      (jb.ReceivePacket (some mem) length frameNumber fragmentNumber
          numFragmentsInThisFrame).1.m_unsortedFrameBuffers =
        jb.m_unsortedFrameBuffers.update frameNumber
          (fun fb => fb.AppendFragment mem length fragmentNumber) ∧
      (jb.ReceivePacket (some mem) length frameNumber fragmentNumber
          numFragmentsInThisFrame).1.m_unsortedFrameBuffers.find frameNumber =
        some (fb.AppendFragment mem length fragmentNumber)) ∧
    (∀ (jb2 : JitterBufferImpl) (buffer2 : CharPtr) (l2 f2 g2 n2 : Int),
      CheckReceiverFunction (jb2.ReceivePacket buffer2 l2 f2 g2 n2).2 = result_code.eOutOfSpace ↔
        (ValidArgs buffer2 l2 f2 g2 n2 ∧ jb2.m_frameProcessingIsBlocked = false ∧
          jb2.m_lastDecodedFrameNumber < f2 ∧
          (jb2.m_unsortedFrameBuffers.length : Int) = MaxFrameNumber)) := by
  have hr := ReceivePacket_of_resident jb mem length frameNumber fragmentNumber
    numFragmentsInThisFrame fb hvalid hclear hfresh hroom hresident
  refine ⟨⟨?_, ?_, ?_⟩, ?_⟩
  · simp [hr, CheckReceiverFunction]
  · rw [hr]
    simp only [JitterBufferImpl.ReceivePacket.launch]
    split <;> split <;> rfl
  · have : (jb.ReceivePacket (some mem) length frameNumber fragmentNumber
        numFragmentsInThisFrame).1.m_unsortedFrameBuffers =
        jb.m_unsortedFrameBuffers.update frameNumber
          (fun fb => fb.AppendFragment mem length fragmentNumber) := by
      rw [hr]
      simp only [JitterBufferImpl.ReceivePacket.launch]
      split <;> split <;> rfl
    rw [this, find_update, hresident]
    simp
  · intro jb2 buffer2 l2 f2 g2 n2
    by_cases hv : ValidArgs buffer2 l2 f2 g2 n2
    · cases hb : jb2.m_frameProcessingIsBlocked with
      | true =>
        obtain ⟨ex, hex, hr2⟩ := ReceivePacket_of_blocked jb2 buffer2 l2 f2 g2 n2 hv hb
        simp [hr2, CheckReceiverFunction, ExceptionDispatcher.Dispatch,
          BasicException.toResult, hex]
      | false =>
        rw [ReceivePacket_result_of_valid jb2 buffer2 l2 f2 g2 n2 hv hb]
        by_cases hc : jb2.m_lastDecodedFrameNumber < f2 ∧
            (jb2.m_unsortedFrameBuffers.length : Int) = MaxFrameNumber
        · simp [hc, hv]
        · rw [if_neg hc]
          constructor
          · intro h; cases h
          · intro h; exact absurd ⟨h.2.2.1, h.2.2.2⟩ hc
    · obtain ⟨ex, hex, hr2⟩ := ReceivePacket_of_invalid jb2 buffer2 l2 f2 g2 n2 hv
      simp [hr2, CheckReceiverFunction, ExceptionDispatcher.Dispatch, BasicException.toResult,
        hex, hv]

/-- C8, witness: frame 1 of the capacity scenario cut after its first packet; the second
fragment of frame 1 is appended to the resident `FrameBuffer`. -/
theorem C8_resident_frame_delegates_witness :
    CheckReceiverFunction
        (((World.run StubDecoder StubRenderer World.init [packet [7] 1 0 2]).jb).ReceivePacket
          (some (fun _ => 9)) 1 1 1 2).2 = result_code.sOk :=
  (C8_resident_frame_delegates
    (World.run StubDecoder StubRenderer World.init [packet [7] 1 0 2]).jb (fun _ => 9) 1 1 1 2
    (FrameBuffer.new (fun i => [7].getD i 0) 1 1 0 2)
    ⟨by simp, by decide, by decide, by decide, by decide⟩
    (by decide) (by decide) (by decide) (by decide)).1.1

/-- C8, counterexample to the claim as stated: in the capacity scenario the store holds
exactly `MAX_FRAMES` entries; a valid, non-stale packet for the resident frame 1 (its second
fragment) is refused with `OutOfSpace` and the store is left as it was. -/
theorem C8_counterexample :
    ValidArgs (ptrOf [7]) 1 1 1 2 ∧
    (capacityWorld 2).jb.m_frameProcessingIsBlocked = false ∧
    (capacityWorld 2).jb.m_lastDecodedFrameNumber < 1 ∧
    ((capacityWorld 2).jb.m_unsortedFrameBuffers.find 1).isSome = true ∧
    (((capacityWorld 2).jb.m_unsortedFrameBuffers.length : Int) = MaxFrameNumber) ∧
    CheckReceiverFunction ((capacityWorld 2).jb.ReceivePacket (ptrOf [7]) 1 1 1 2).2
      = result_code.eOutOfSpace ∧
    ((capacityWorld 2).jb.ReceivePacket (ptrOf [7]) 1 1 1 2).1 = (capacityWorld 2).jb := by
  refine ⟨⟨by simp [ptrOf], by decide, by decide, by decide, by decide⟩, by decide, by decide,
    by decide, by decide, by decide, by decide⟩

/-- C9 (as amended): on every state with the error latch clear, a valid packet for a stale
frame number returns success, and a valid packet that is a duplicate fragment of a resident
frame, or that is for a resident frame that is already complete, returns success provided
the unsorted store holds fewer than `MAX_FRAMES` entries (or the frame is stale). -/
theorem C9_benign_packets_succeed (jb : JitterBufferImpl) (buffer : CharPtr)
    (length frameNumber fragmentNumber numFragmentsInThisFrame : Int)
    (hclear : jb.m_frameProcessingIsBlocked = false)
    (hvalid : ValidArgs buffer length frameNumber fragmentNumber numFragmentsInThisFrame)
    (hcase : frameNumber ≤ jb.m_lastDecodedFrameNumber ∨
      ((jb.m_unsortedFrameBuffers.length : Int) ≠ MaxFrameNumber ∧
        ∃ fb, jb.m_unsortedFrameBuffers.find frameNumber = some fb ∧
          ((∃ f ∈ fb.m_frameFragments, f.m_fragmentNumber = fragmentNumber) ∨
            fb.IsFrameComplete = true))) :
    CheckReceiverFunction
        (jb.ReceivePacket buffer length frameNumber fragmentNumber numFragmentsInThisFrame).2
      = result_code.sOk := by
  rw [ReceivePacket_result_of_valid jb buffer length frameNumber fragmentNumber
    numFragmentsInThisFrame hvalid hclear]
  rcases hcase with hs | ⟨hroom, _⟩
  · simp [not_lt.mpr hs]
  · simp [hroom]

/-- C9, witness: a duplicate of the only fragment received so far for frame 1. -/
theorem C9_benign_packets_succeed_witness :
    CheckReceiverFunction
        (((World.run StubDecoder StubRenderer World.init [packet [7] 1 0 2]).jb).ReceivePacket
          (ptrOf [8]) 1 1 0 2).2 = result_code.sOk :=
  C9_benign_packets_succeed
    (World.run StubDecoder StubRenderer World.init [packet [7] 1 0 2]).jb (ptrOf [8]) 1 1 0 2
    (by decide) ⟨by simp [ptrOf], by decide, by decide, by decide, by decide⟩
    (Or.inr ⟨by decide, FrameBuffer.new (fun i => [7].getD i 0) 1 1 0 2, by decide,
      Or.inl ⟨FrameFragment.new (fun i => [7].getD i 0) 1 0, by decide, by decide⟩⟩)

/-- C9, counterexample to the claim as stated: in the capacity scenario with single-fragment
frames, the frames 1..100 are resident and complete and the latch is clear; a valid packet
that repeats fragment 0 of frame 1 (a duplicate fragment of a complete resident frame) is
refused with `OutOfSpace`. -/
theorem C9_counterexample :
    (capacityWorld 1).jb.m_frameProcessingIsBlocked = false ∧
    ValidArgs (ptrOf [7]) 1 1 0 1 ∧
    (∃ fb, (capacityWorld 1).jb.m_unsortedFrameBuffers.find 1 = some fb ∧
      fb.IsFrameComplete = true ∧ ∃ f ∈ fb.m_frameFragments, f.m_fragmentNumber = 0) ∧
    CheckReceiverFunction ((capacityWorld 1).jb.ReceivePacket (ptrOf [7]) 1 1 0 1).2
      = result_code.eOutOfSpace := by
  refine ⟨by decide, ⟨by simp [ptrOf], by decide, by decide, by decide, by decide⟩,
    ⟨FrameBuffer.new (fun i => [7].getD i 0) 1 1 0 1, by decide, by decide,
      FrameFragment.new (fun i => [7].getD i 0) 1 0, by decide, by decide⟩, by decide⟩

/-- C10: on every state with the error latch clear, a valid packet whose frame number is at
most the last emitted frame number (equal included) returns success and leaves the instance
as it was (unsorted store, ready queue and last emitted frame number included), whatever the
occupancy of the store; hence every later trace decodes and renders exactly what it would
have without the packet. -/
theorem C10_stale_packet_is_noop (decoder : IDecoder) (renderer : IRenderer) (w : World)
    (buffer : CharPtr) (length frameNumber fragmentNumber numFragmentsInThisFrame : Int)
    (hclear : w.jb.m_frameProcessingIsBlocked = false)
    (hvalid : ValidArgs buffer length frameNumber fragmentNumber numFragmentsInThisFrame)
    (hstale : frameNumber ≤ w.jb.m_lastDecodedFrameNumber) :
    CheckReceiverFunction
        (w.jb.ReceivePacket buffer length frameNumber fragmentNumber
          numFragmentsInThisFrame).2 = result_code.sOk ∧
    (w.jb.ReceivePacket buffer length frameNumber fragmentNumber
        numFragmentsInThisFrame).1 = w.jb ∧
    (∀ t : List Step,
      World.run decoder renderer w
        (Step.ReceivePacket buffer length frameNumber fragmentNumber
          numFragmentsInThisFrame :: t) = World.run decoder renderer w t) := by
  have hr := ReceivePacket_of_stale w.jb buffer length frameNumber fragmentNumber
    numFragmentsInThisFrame hvalid hclear hstale
  refine ⟨by simp [hr, CheckReceiverFunction], by rw [hr], ?_⟩
  intro t
  simp [World.run, World.step, hr]

/-- C10, witness: in the state where frame 0 was emitted and the store is full, a packet for
frame 0 (the last emitted frame) changes nothing. -/
theorem C10_stale_packet_is_noop_witness :
    (staleCapacityWorld.jb.ReceivePacket (ptrOf [7]) 1 0 0 1).1 = staleCapacityWorld.jb :=
  (C10_stale_packet_is_noop StubDecoder StubRenderer staleCapacityWorld (ptrOf [7]) 1 0 0 1
    (by decide) ⟨by simp [ptrOf], by decide, by decide, by decide, by decide⟩
    (by decide)).2.1

end JitterBuffer
namespace JitterBuffer

/-! ## Frame assembly -/

theorem sortInsert_perm (x : FrameFragment) (l : List FrameFragment) :
    (sortInsert x l).Perm (x :: l) := by
  induction l with
  | nil => simp [sortInsert]
  | cons y ys ih =>
    simp only [sortInsert]
    split
    · exact (List.Perm.cons y ih).trans (List.Perm.swap x y ys)
    · exact List.Perm.refl _

theorem stdSort_perm (l : List FrameFragment) : (stdSort l).Perm l := by
  induction l with
  | nil => simp [stdSort]
  | cons x xs ih =>
    have h := sortInsert_perm x (stdSort xs)
    simp only [stdSort, List.foldr_cons] at h ⊢
    exact h.trans (List.Perm.cons x ih)

theorem sortInsert_sorted (x : FrameFragment) (l : List FrameFragment)
    (h : l.Pairwise (fun a b => a.m_fragmentNumber ≤ b.m_fragmentNumber)) :
    (sortInsert x l).Pairwise (fun a b => a.m_fragmentNumber ≤ b.m_fragmentNumber) := by
  induction l with
  | nil => simp [sortInsert]
  | cons y ys ih =>
    simp only [sortInsert]
    rw [List.pairwise_cons] at h
    split
    · rename_i hlt
      simp only [FragmentCompareLess, FrameFragment.lt, decide_eq_true_eq] at hlt
      rw [List.pairwise_cons]
      refine ⟨?_, ih h.2⟩
      intro z hz
      rcases List.mem_cons.mp ((List.Perm.mem_iff (sortInsert_perm x ys)).mp hz) with hz | hz
      · subst hz; exact le_of_lt hlt
      · exact h.1 z hz
    · rename_i hlt
      simp only [FragmentCompareLess, FrameFragment.lt, decide_eq_true_eq, not_lt] at hlt
      rw [List.pairwise_cons]
      refine ⟨?_, List.pairwise_cons.mpr h⟩
      intro z hz
      rcases List.mem_cons.mp hz with hz | hz
      · subst hz; exact hlt
      · exact le_trans hlt (h.1 z hz)

theorem stdSort_sorted (l : List FrameFragment) :
    (stdSort l).Pairwise (fun a b => a.m_fragmentNumber ≤ b.m_fragmentNumber) := by
  induction l with
  | nil => simp [stdSort]
  | cons x xs ih =>
    have h := sortInsert_sorted x (stdSort xs) ih
    simpa [stdSort] using h

/-- With pairwise distinct fragment numbers the sorted list is strictly ascending. -/
theorem stdSort_strict (l : List FrameFragment)
    (hnd : (l.map FrameFragment.m_fragmentNumber).Nodup) :
    (stdSort l).Pairwise (fun a b => a.m_fragmentNumber < b.m_fragmentNumber) := by
  have hnd2 : ((stdSort l).map FrameFragment.m_fragmentNumber).Nodup :=
    ((stdSort_perm l).map _).nodup_iff.mpr hnd
  have hne : (stdSort l).Pairwise (fun a b => a.m_fragmentNumber ≠ b.m_fragmentNumber) :=
    List.pairwise_map.mp hnd2
  exact ((stdSort_sorted l).and hne).imp (fun h => lt_of_le_of_ne h.1 h.2)

/-- Two strictly ascending lists with the same elements are equal. -/
theorem strict_sorted_unique (l1 l2 : List FrameFragment)
    (h1 : l1.Pairwise (fun a b => a.m_fragmentNumber < b.m_fragmentNumber))
    (h2 : l2.Pairwise (fun a b => a.m_fragmentNumber < b.m_fragmentNumber))
    (hp : l1.Perm l2) : l1 = l2 := by
  haveI : IsAntisymm FrameFragment (fun a b => a.m_fragmentNumber < b.m_fragmentNumber) :=
    ⟨fun a b hab hba => absurd hab (not_lt.mpr (le_of_lt hba))⟩
  exact List.eq_of_perm_of_sorted hp h1 h2

end JitterBuffer
namespace JitterBuffer

theorem int.wrap_of_range (n : Int) (h0 : -2 ^ 31 ≤ n) (h1 : n < 2 ^ 31) : int.wrap n = n := by
  unfold int.wrap
  norm_num at h0 h1 ⊢
  omega

theorem int.wrap_add_wrap (a b : Int) : int.wrap (int.wrap a + b) = int.wrap (a + b) := by
  unfold int.wrap
  norm_num
  omega

theorem int.wrap_range (n : Int) : -2 ^ 31 ≤ int.wrap n ∧ int.wrap n < 2 ^ 31 := by
  unfold int.wrap
  norm_num
  omega

theorem FrameFragment.new_length (buffer : Nat → Byte) (length fragmentNumber : Int)
    (h : 0 ≤ length) :
    (FrameFragment.new buffer length fragmentNumber).m_bufferLength =
      ((FrameFragment.new buffer length fragmentNumber).m_bufferData.length : Int) := by
  simp [FrameFragment.new, Int.toNat_of_nonneg h]

theorem AppendFragment_of_complete (fb : FrameBuffer) (buffer : Nat → Byte)
    (length fragmentNumber : Int) (h : fb.m_frameIsComplete = true) :
    fb.AppendFragment buffer length fragmentNumber = fb := by
  simp [FrameBuffer.AppendFragment, h]

theorem AppendFragment_of_duplicate (fb : FrameBuffer) (buffer : Nat → Byte)
    (length fragmentNumber : Int)
    (h : ∃ f ∈ fb.m_frameFragments, f.m_fragmentNumber = fragmentNumber) :
    fb.AppendFragment buffer length fragmentNumber = fb := by
  unfold FrameBuffer.AppendFragment
  split
  · rfl
  · have hc : fb.m_frameFragments.countP (FragmentCompareEqual fragmentNumber) ≠ 0 := by
      intro h0
      rw [List.countP_eq_zero] at h0
      obtain ⟨f, hf, hn⟩ := h
      exact h0 f hf (by simp [FragmentCompareEqual, FrameFragment.eqInt, hn])
    simp [hc]

theorem AppendFragment_of_new (fb : FrameBuffer) (buffer : Nat → Byte)
    (length fragmentNumber : Int) (hc : fb.m_frameIsComplete = false)
    (h : ∀ f ∈ fb.m_frameFragments, f.m_fragmentNumber ≠ fragmentNumber) :
    fb.AppendFragment buffer length fragmentNumber =
      { fb with
        m_currentFrameSize := int.wrap (fb.m_currentFrameSize + length)
        m_frameFragments :=
          fb.m_frameFragments ++ [FrameFragment.new buffer length fragmentNumber]
        m_frameIsComplete :=
          decide (((fb.m_frameFragments.length + 1 : Nat) : Int) =
            fb.m_numFragmentsInThisFrame) } := by
  have h0 : fb.m_frameFragments.countP (FragmentCompareEqual fragmentNumber) = 0 := by
    rw [List.countP_eq_zero]
    intro f hf
    simpa [FragmentCompareEqual, FrameFragment.eqInt] using h f hf
  unfold FrameBuffer.AppendFragment
  simp only [hc, h0, ne_eq, not_true_eq_false, if_false, Bool.false_eq_true]
  congr 1
  simp [hc]

theorem AppendFragment_consistent (fb : FrameBuffer) (buffer : Nat → Byte)
    (length fragmentNumber : Int) (hl : 0 ≤ length) (h : fb.Consistent) :
    (fb.AppendFragment buffer length fragmentNumber).Consistent := by
  by_cases hc : fb.m_frameIsComplete = true
  · rw [AppendFragment_of_complete fb buffer length fragmentNumber hc]; exact h
  · by_cases hd : ∃ f ∈ fb.m_frameFragments, f.m_fragmentNumber = fragmentNumber
    · rw [AppendFragment_of_duplicate fb buffer length fragmentNumber hd]; exact h
    · push_neg at hd
      rw [AppendFragment_of_new fb buffer length fragmentNumber (by simpa using hc) hd]
      obtain ⟨h1, h2, h3⟩ := h
      refine ⟨?_, ?_, ?_⟩
      · simp only [List.map_append, List.map_cons, List.map_nil]
        rw [List.nodup_append]
        refine ⟨h1, by simp, ?_⟩
        intro a ha hb
        simp only [List.mem_singleton] at hb
        obtain ⟨f, hf, hfa⟩ := List.mem_map.mp ha
        exact hd f hf (by rw [hfa, hb]; rfl)
      · intro f hf
        rcases List.mem_append.mp hf with hf | hf
        · exact h2 f hf
        · simp only [List.mem_singleton] at hf
          subst hf
          exact FrameFragment.new_length buffer length fragmentNumber hl
      · simp only [List.map_append, List.map_cons, List.map_nil, List.sum_append,
          List.sum_cons, List.sum_nil, add_zero, h3]
        exact int.wrap_add_wrap _ _

theorem Built.consistent {fb : FrameBuffer} (h : fb.Built) : fb.Consistent := by
  induction h with
  | new buffer length frameNumber fragmentNumber num hl =>
    exact AppendFragment_consistent _ buffer length fragmentNumber hl
      ⟨by simp, by simp, by simp [int.wrap]⟩
  | append fb buffer length fragmentNumber hl _ ih =>
    exact AppendFragment_consistent fb buffer length fragmentNumber hl ih

/-- The copy loop of `GetAssembledData`, started at offset `p` of an array with room for the
fragments: it overwrites the array from `p` on with the payloads, back to back. -/
theorem GetAssembledData_loop_spec (fs : List FrameFragment) (out : List Byte) (p : Nat)
    (hlen : ∀ f ∈ fs, f.m_bufferLength = (f.m_bufferData.length : Int))
    (hout : out.length = p + (fs.map (fun f => f.m_bufferData.length)).sum)
    (hsmall : out.length < 2 ^ 31) :
    FrameBuffer.GetAssembledData.loop fs out (p : Int) =
      (out.take p ++ (fs.map FrameFragment.m_bufferData).flatten,
        ((p + (fs.map (fun f => f.m_bufferData.length)).sum : Nat) : Int)) := by
  induction fs generalizing out p with
  | nil =>
    simp only [List.map_nil, List.sum_nil, add_zero] at hout
    simp [FrameBuffer.GetAssembledData.loop, ← hout]
  | cons f fs ih =>
    have hf := hlen f (List.mem_cons_self _ _)
    simp only [List.map_cons, List.sum_cons] at hout
    simp only [FrameBuffer.GetAssembledData.loop, FrameFragment.GetBufferLength,
      FrameFragment.GetBufferData, hf]
    have hcast : int.wrap ((p : Int) + (f.m_bufferData.length : Int)) =
        ((p + f.m_bufferData.length : Nat) : Int) := by
      rw [int.wrap_of_range _ (by norm_num; omega) (by norm_num; omega)]
      push_cast; rfl
    rw [hcast]
    have hmem : memcpy out (p : Int) f.m_bufferData (f.m_bufferData.length : Int) =
        out.take p ++ f.m_bufferData ++ out.drop (p + f.m_bufferData.length) := by
      simp [memcpy]
    rw [hmem, ih _ _ (fun g hg => hlen g (List.mem_cons_of_mem _ hg))]
    · have htake : (out.take p ++ f.m_bufferData ++ out.drop (p + f.m_bufferData.length)).take
          (p + f.m_bufferData.length) = out.take p ++ f.m_bufferData := by
        rw [List.take_append_of_le_length (by simp; omega)]
        rw [List.take_of_length_le (by simp)]
      rw [htake]
      simp [List.append_assoc, Nat.add_assoc]
    · simp
      omega
    · simp
      omega

end JitterBuffer
namespace JitterBuffer

/-- What `GetAssembledData` leaves in a zeroed array of `GetCurrentFrameSize()` bytes, for a
consistent `FrameBuffer`: the payloads in the order produced by the sort, and the final
write position. -/
theorem GetAssembledData_of_consistent (fb : FrameBuffer) (h : fb.Consistent)
    (hsmall : (fb.m_frameFragments.map FrameFragment.m_bufferLength).sum < 2 ^ 31) :
    FrameBuffer.GetAssembledData.loop (stdSort fb.m_frameFragments)
        (List.replicate fb.GetCurrentFrameSize.toNat 0) 0 =
      (((stdSort fb.m_frameFragments).map FrameFragment.m_bufferData).flatten,
        fb.GetCurrentFrameSize) ∧
    ((((stdSort fb.m_frameFragments).map FrameFragment.m_bufferData).flatten.length : Nat)
        : Int) = fb.GetCurrentFrameSize := by
  obtain ⟨_, h2, h3⟩ := h
  have hperm := stdSort_perm fb.m_frameFragments
  have hlen : ∀ f ∈ stdSort fb.m_frameFragments,
      f.m_bufferLength = (f.m_bufferData.length : Int) :=
    fun f hf => h2 f ((List.Perm.mem_iff hperm).mp hf)
  have hnat : ∀ l : List FrameFragment,
      (∀ f ∈ l, f.m_bufferLength = (f.m_bufferData.length : Int)) →
      (l.map FrameFragment.m_bufferLength).sum =
        (((l.map (fun f => f.m_bufferData.length)).sum : Nat) : Int) := by
    intro l
    induction l with
    | nil => simp
    | cons a l ih =>
      intro hl
      simp only [List.map_cons, List.sum_cons, Nat.cast_add]
      rw [ih (fun f hf => hl f (List.mem_cons_of_mem _ hf)), hl a (List.mem_cons_self _ _)]
  have hsum : fb.m_currentFrameSize =
      (((stdSort fb.m_frameFragments).map (fun f => f.m_bufferData.length)).sum : Nat) := by
    rw [h3, int.wrap_of_range _
      (by rw [hnat _ h2]; exact le_trans (by norm_num) (Int.natCast_nonneg _)) hsmall,
      ← (hperm.map FrameFragment.m_bufferLength).sum_eq]
    exact hnat _ hlen
  have hspec := GetAssembledData_loop_spec (stdSort fb.m_frameFragments)
    (List.replicate fb.GetCurrentFrameSize.toNat 0) 0 hlen
    (by rw [List.length_replicate, FrameBuffer.GetCurrentFrameSize, hsum, Int.toNat_ofNat,
      Nat.zero_add])
    (by
      rw [List.length_replicate, FrameBuffer.GetCurrentFrameSize, hsum, Int.toNat_ofNat]
      have h4 := hsmall
      rw [← (hperm.map FrameFragment.m_bufferLength).sum_eq, hnat _ hlen] at h4
      exact_mod_cast h4)
  simp only [Nat.cast_zero, List.take_zero, List.nil_append, Nat.zero_add] at hspec
  refine ⟨?_, ?_⟩
  · rw [hspec, FrameBuffer.GetCurrentFrameSize, hsum]
  · rw [FrameBuffer.GetCurrentFrameSize, hsum, List.length_flatten, List.map_map]
    rfl

end JitterBuffer
namespace JitterBuffer

/-! ## The recycler pass -/

theorem erase_head (k : Int) (fb : FrameBuffer) (rest : List (Int × FrameBuffer))
    (h : ∀ e ∈ rest, k < e.1) :
    FrameBuffers.erase ((k, fb) :: rest) k = rest := by
  simp only [FrameBuffers.erase, List.filter_cons, ne_eq, not_true_eq_false, decide_False,
    Bool.false_eq_true, if_false]
  rw [List.filter_eq_self]
  intro e he
  simpa using ne_of_gt (h e he)

/-- The loop changes nothing when no entry left to visit can be promoted. -/
theorem recycle_loop_idle (it : List (Int × FrameBuffer)) (m : FrameBuffers) (last : Int)
    (temp : FrameList) (h : ∀ e ∈ it, last + 1 < e.1) :
    JitterBufferImpl.RecycleExistingFrames.loop it m last temp = (m, last, temp) := by
  induction it with
  | nil => rfl
  | cons e it ih =>
    obtain ⟨k, fb⟩ := e
    have hk : ¬ k = last + 1 := ne_of_gt (h (k, fb) (List.mem_cons_self _ _))
    simp only [JitterBufferImpl.RecycleExistingFrames.loop, hk, decide_False, Bool.and_false,
      Bool.false_eq_true, if_false]
    exact ih (fun e he => h e (List.mem_cons_of_mem _ he))

/-- On a store in ascending key order whose keys are above the watermark, the loop promotes
exactly the ready run at the head of the store. -/
theorem recycle_loop_eq (m : FrameBuffers) (last : Int) (temp : FrameList)
    (hs : (m.map Prod.fst).Pairwise (fun a b => a < b))
    (ha : ∀ e ∈ m, last < e.1) :
    JitterBufferImpl.RecycleExistingFrames.loop m m last temp =
      (m.drop (readyRun m last), last + (readyRun m last : Int),
        temp ++ (m.take (readyRun m last)).map Prod.snd) := by
  induction m generalizing last temp with
  | nil => simp [JitterBufferImpl.RecycleExistingFrames.loop, readyRun]
  | cons e rest ih =>
    obtain ⟨k, fb⟩ := e
    simp only [List.map_cons, List.pairwise_cons] at hs
    have hrest : ∀ e ∈ rest, k < e.1 := fun e he => hs.1 e.1 (List.mem_map_of_mem _ he)
    by_cases hp : (fb.IsFrameComplete && decide (k = last + 1)) = true
    · have hk : k = last + 1 := by
        simp only [Bool.and_eq_true, decide_eq_true_eq] at hp; exact hp.2
      simp only [JitterBufferImpl.RecycleExistingFrames.loop, readyRun, hp, if_true]
      rw [erase_head k fb rest hrest, ih (last + 1) (temp ++ [fb]) hs.2
        (fun e he => hk ▸ hrest e he)]
      simp only [List.drop_succ_cons, List.take_succ_cons, List.map_cons, Nat.cast_add,
        Nat.cast_one, List.append_assoc, List.singleton_append]
      congr 2
      omega
    · have hk : last + 1 ≤ k := ha (k, fb) (List.mem_cons_self _ _)
      simp only [JitterBufferImpl.RecycleExistingFrames.loop, readyRun, hp, if_false,
        Bool.false_eq_true]
      rw [recycle_loop_idle rest _ last temp (fun e he => lt_of_le_of_lt hk (hrest e he))]
      simp

/-- The frames of the ready run are complete and numbered consecutively from `last + 1`. -/
theorem readyRun_spec (m : FrameBuffers) (last : Int) :
    readyRun m last ≤ m.length ∧
    (∀ e ∈ m.take (readyRun m last), e.2.IsFrameComplete = true) ∧
    (m.take (readyRun m last)).map Prod.fst =
      (List.range (readyRun m last)).map (fun (i : Nat) => last + 1 + (i : Int)) := by
  induction m generalizing last with
  | nil => simp [readyRun]
  | cons e rest ih =>
    obtain ⟨k, fb⟩ := e
    by_cases hp : (fb.IsFrameComplete && decide (k = last + 1)) = true
    · obtain ⟨h1, h2, h3⟩ := ih (last + 1)
      have hp2 := hp
      simp only [Bool.and_eq_true, decide_eq_true_eq] at hp2
      simp only [readyRun, hp, if_true, List.take_succ_cons, List.map_cons, List.length_cons]
      refine ⟨by omega, ?_, ?_⟩
      · intro e he
        rcases List.mem_cons.mp he with he | he
        · subst he; exact hp2.1
        · exact h2 e he
      · rw [h3, List.range_succ_eq_map, List.map_cons, List.map_map]
        simp only [Nat.cast_zero, add_zero, hp2.2, List.cons.injEq, true_and]
        apply List.map_congr_left
        intro i _
        simp only [Function.comp, Nat.cast_succ]
        omega
    · simp [readyRun, hp]

end JitterBuffer
namespace JitterBuffer

/-! ## The store as a map -/

theorem assign_keys_sorted (m : FrameBuffers) (k : Int) (v : FrameBuffer)
    (hs : (m.map Prod.fst).Pairwise (fun a b => a < b)) :
    ((m.assign k v).map Prod.fst).Pairwise (fun a b => a < b) ∧
    (∀ e ∈ m.assign k v, e = (k, v) ∨ e ∈ m) := by
  induction m with
  | nil => simp [FrameBuffers.assign]
  | cons e rest ih =>
    obtain ⟨k', v'⟩ := e
    simp only [List.map_cons, List.pairwise_cons] at hs
    obtain ⟨ih1, ih2⟩ := ih hs.2
    simp only [FrameBuffers.assign]
    by_cases h1 : k < k'
    · simp only [h1, if_true, List.map_cons, List.pairwise_cons]
      refine ⟨⟨?_, hs⟩, ?_⟩
      · intro a ha
        rcases List.mem_cons.mp ha with ha | ha
        · rw [ha]; exact h1
        · exact lt_trans h1 (hs.1 a ha)
      · intro e he
        rcases List.mem_cons.mp he with he | he
        · exact Or.inl he
        · exact Or.inr he
    · by_cases h2 : k = k'
      · subst h2
        simp only [lt_self_iff_false, if_false, if_true, List.map_cons, List.pairwise_cons]
        refine ⟨hs, ?_⟩
        intro e he
        rcases List.mem_cons.mp he with he | he
        · exact Or.inl he
        · exact Or.inr (List.mem_cons_of_mem _ he)
      · simp only [h1, h2, if_false, List.map_cons, List.pairwise_cons]
        refine ⟨⟨?_, ih1⟩, ?_⟩
        · intro a ha
          obtain ⟨e, he, hea⟩ := List.mem_map.mp ha
          rcases ih2 e he with he | he
          · subst he; simp only at hea; subst hea
            exact lt_of_le_of_ne (not_lt.mp h1) (Ne.symm h2)
          · exact hs.1 a (hea ▸ List.mem_map_of_mem _ he)
        · intro e he
          rcases List.mem_cons.mp he with he | he
          · exact Or.inr (he ▸ List.mem_cons_self _ _)
          · rcases ih2 e he with he | he
            · exact Or.inl he
            · exact Or.inr (List.mem_cons_of_mem _ he)

theorem update_keys (m : FrameBuffers) (k : Int) (f : FrameBuffer → FrameBuffer) :
    (m.update k f).map Prod.fst = m.map Prod.fst ∧
    (m.update k f).length = m.length ∧
    (∀ e ∈ m.update k f, ∃ e' ∈ m, e.1 = e'.1 ∧ (e.2 = e'.2 ∨ e.2 = f e'.2)) := by
  induction m with
  | nil => simp [FrameBuffers.update]
  | cons e rest ih =>
    obtain ⟨k', v'⟩ := e
    obtain ⟨ih1, ih2, ih3⟩ := ih
    simp only [FrameBuffers.update]
    split
    · refine ⟨by simp [ih1], by simp [ih2], ?_⟩
      intro e he
      rcases List.mem_cons.mp he with he | he
      · exact ⟨(k', v'), List.mem_cons_self _ _, by rw [he], Or.inr (by rw [he])⟩
      · obtain ⟨e', he', h⟩ := ih3 e he
        exact ⟨e', List.mem_cons_of_mem _ he', h⟩
    · refine ⟨by simp [ih1], by simp [ih2], ?_⟩
      intro e he
      rcases List.mem_cons.mp he with he | he
      · exact ⟨(k', v'), List.mem_cons_self _ _, by rw [he], Or.inl (by rw [he])⟩
      · obtain ⟨e', he', h⟩ := ih3 e he
        exact ⟨e', List.mem_cons_of_mem _ he', h⟩

theorem find_some_mem (m : FrameBuffers) (k : Int) (fb : FrameBuffer)
    (h : m.find k = some fb) : (k, fb) ∈ m := by
  induction m with
  | nil => simp [FrameBuffers.find] at h
  | cons e rest ih =>
    obtain ⟨k', v'⟩ := e
    simp only [FrameBuffers.find] at h
    split at h
    · rename_i hk
      simp only [Option.some.injEq] at h
      subst hk; subst h
      exact List.mem_cons_self _ _
    · exact List.mem_cons_of_mem _ (ih h)

theorem AppendFragment_frameNumber (fb : FrameBuffer) (buffer : Nat → Byte)
    (length fragmentNumber : Int) :
    (fb.AppendFragment buffer length fragmentNumber).m_frameNumber = fb.m_frameNumber ∧
    (fb.AppendFragment buffer length fragmentNumber).m_numFragmentsInThisFrame =
      fb.m_numFragmentsInThisFrame := by
  by_cases hc : fb.m_frameIsComplete = true
  · rw [AppendFragment_of_complete fb buffer length fragmentNumber hc]; exact ⟨rfl, rfl⟩
  · by_cases hd : ∃ f ∈ fb.m_frameFragments, f.m_fragmentNumber = fragmentNumber
    · rw [AppendFragment_of_duplicate fb buffer length fragmentNumber hd]; exact ⟨rfl, rfl⟩
    · push_neg at hd
      rw [AppendFragment_of_new fb buffer length fragmentNumber (by simpa using hc) hd]
      exact ⟨rfl, rfl⟩

theorem FrameBuffer.new_frameNumber (buffer : Nat → Byte)
    (length frameNumber fragmentNumber num : Int) :
    (FrameBuffer.new buffer length frameNumber fragmentNumber num).m_frameNumber =
      frameNumber :=
  (AppendFragment_frameNumber _ buffer length fragmentNumber).1

/-! ## Preservation of the structural invariant -/

theorem launch_fields (jb : JitterBufferImpl) :
    (JitterBufferImpl.ReceivePacket.launch jb).m_unsortedFrameBuffers =
      jb.m_unsortedFrameBuffers ∧
    (JitterBufferImpl.ReceivePacket.launch jb).m_sortedFrameBuffers =
      jb.m_sortedFrameBuffers ∧
    (JitterBufferImpl.ReceivePacket.launch jb).m_lastDecodedFrameNumber =
      jb.m_lastDecodedFrameNumber ∧
    (JitterBufferImpl.ReceivePacket.launch jb).m_frameProcessingIsBlocked =
      jb.m_frameProcessingIsBlocked ∧
    (JitterBufferImpl.ReceivePacket.launch jb).m_shutdownRequested = jb.m_shutdownRequested ∧
    (JitterBufferImpl.ReceivePacket.launch jb).m_recycleTaskLaunched = true ∧
    (JitterBufferImpl.ReceivePacket.launch jb).m_dataProcessingTaskLaunched = true ∧
    (JitterBufferImpl.ReceivePacket.launch jb).m_recyclerThread =
      (if jb.m_recycleTaskLaunched then jb.m_recyclerThread else some Thread.running) ∧
    (JitterBufferImpl.ReceivePacket.launch jb).m_dataProcessingThread =
      (if jb.m_dataProcessingTaskLaunched then jb.m_dataProcessingThread
        else some Thread.running) := by
  unfold JitterBufferImpl.ReceivePacket.launch
  cases h1 : jb.m_recycleTaskLaunched <;> cases h2 : jb.m_dataProcessingTaskLaunched <;>
    simp [h1, h2]

/-- The state after `ReceivePacket`: unchanged, or the store gained a new `FrameBuffer`, or a
resident `FrameBuffer` received the fragment; in the last two cases the workers are
launched. -/
theorem ReceivePacket_state (jb : JitterBufferImpl) (buffer : CharPtr)
    (length frameNumber fragmentNumber num : Int) :
    (jb.ReceivePacket buffer length frameNumber fragmentNumber num).1 = jb ∨
    (∃ mem, buffer = some mem ∧ ValidArgs buffer length frameNumber fragmentNumber num ∧
      jb.m_frameProcessingIsBlocked = false ∧
      jb.m_lastDecodedFrameNumber < frameNumber ∧
      (jb.m_unsortedFrameBuffers.length : Int) ≠ MaxFrameNumber ∧
      ((jb.m_unsortedFrameBuffers.find frameNumber = none ∧
        (jb.ReceivePacket buffer length frameNumber fragmentNumber num).1 =
          JitterBufferImpl.ReceivePacket.launch
            { jb with m_unsortedFrameBuffers := (jb.m_unsortedFrameBuffers.assign frameNumber
                (FrameBuffer.new mem length frameNumber fragmentNumber num)) }) ∨
       (∃ fb, jb.m_unsortedFrameBuffers.find frameNumber = some fb ∧
        (jb.ReceivePacket buffer length frameNumber fragmentNumber num).1 =
          JitterBufferImpl.ReceivePacket.launch
            { jb with m_unsortedFrameBuffers := (jb.m_unsortedFrameBuffers.update frameNumber
                (fun fb => fb.AppendFragment mem length fragmentNumber)) }))) := by
  by_cases hv : ValidArgs buffer length frameNumber fragmentNumber num
  · by_cases hb' : jb.m_frameProcessingIsBlocked = true
    · obtain ⟨ex, _, hr⟩ := ReceivePacket_of_blocked jb buffer length frameNumber
        fragmentNumber num hv hb'
      exact Or.inl (by rw [hr])
    · have hb : jb.m_frameProcessingIsBlocked = false := by simpa using hb'
      by_cases hs : jb.m_lastDecodedFrameNumber < frameNumber
      · by_cases hfull : (jb.m_unsortedFrameBuffers.length : Int) = MaxFrameNumber
        · obtain ⟨ex, _, hr⟩ := ReceivePacket_of_full jb buffer length frameNumber
            fragmentNumber num hv hb hs hfull
          exact Or.inl (by rw [hr])
        · cases buffer with
          | none => exact absurd rfl hv.1
          | some mem =>
            refine Or.inr ⟨mem, rfl, hv, hb, hs, hfull, ?_⟩
            cases hfind : jb.m_unsortedFrameBuffers.find frameNumber with
            | none =>
              exact Or.inl ⟨rfl, by rw [ReceivePacket_of_absent jb mem length frameNumber
                fragmentNumber num hv hb hs hfull hfind]⟩
            | some fb =>
              exact Or.inr ⟨fb, rfl, by rw [ReceivePacket_of_resident jb mem length frameNumber
                fragmentNumber num fb hv hb hs hfull hfind]⟩
      · exact Or.inl (by rw [ReceivePacket_of_stale jb buffer length frameNumber
          fragmentNumber num hv hb (not_lt.mp hs)])
  · obtain ⟨ex, _, hr⟩ := ReceivePacket_of_invalid jb buffer length frameNumber
      fragmentNumber num hv
    exact Or.inl (by rw [hr])

theorem launch_inv (jb : JitterBufferImpl) (h : jb.Inv) :
    (JitterBufferImpl.ReceivePacket.launch jb).Inv := by
  obtain ⟨h1, h2, h3, h4, h5, h6, h7, h8, h9⟩ := launch_fields jb
  constructor
  · rw [h1]; exact h.sorted
  · rw [h1]; exact h.keyEq
  · rw [h1, h3]; exact h.above
  · rw [h2, h3]; exact h.queue
  · rw [h2, h3]; exact h.lastLB
  · rw [h6]; intro hc; cases hc
  · rw [h7]; intro hc; cases hc

theorem ReceivePacket_inv (jb : JitterBufferImpl) (buffer : CharPtr)
    (length frameNumber fragmentNumber num : Int) (h : jb.Inv) :
    (jb.ReceivePacket buffer length frameNumber fragmentNumber num).1.Inv := by
  rcases ReceivePacket_state jb buffer length frameNumber fragmentNumber num with
    hr | ⟨mem, _, _, _, hs, _, ⟨_, hr⟩ | ⟨fb, _, hr⟩⟩
  · rw [hr]; exact h
  · rw [hr]
    apply launch_inv
    obtain ⟨a1, a2⟩ := assign_keys_sorted jb.m_unsortedFrameBuffers frameNumber
      (FrameBuffer.new mem length frameNumber fragmentNumber num) h.sorted
    constructor
    · exact a1
    · intro e he
      rcases a2 e he with he | he
      · subst he; exact FrameBuffer.new_frameNumber _ _ _ _ _
      · exact h.keyEq e he
    · intro e he
      rcases a2 e he with he | he
      · subst he; exact hs
      · exact h.above e he
    · exact h.queue
    · exact h.lastLB
    · exact h.flagR
    · exact h.flagD
  · rw [hr]
    apply launch_inv
    obtain ⟨u1, _, u3⟩ := update_keys jb.m_unsortedFrameBuffers frameNumber
      (fun fb => fb.AppendFragment mem length fragmentNumber)
    constructor
    · show (List.map Prod.fst (jb.m_unsortedFrameBuffers.update frameNumber _)).Pairwise _
      rw [u1]; exact h.sorted
    · intro e he
      obtain ⟨e', he', hk, hv⟩ := u3 e he
      rcases hv with hv | hv
      · rw [hv, hk]; exact h.keyEq e' he'
      · rw [hv, hk, (AppendFragment_frameNumber _ _ _ _).1]; exact h.keyEq e' he'
    · intro e he
      obtain ⟨e', he', hk, _⟩ := u3 e he
      rw [hk]; exact h.above e' he'
    · exact h.queue
    · exact h.lastLB
    · exact h.flagR
    · exact h.flagD

end JitterBuffer
namespace JitterBuffer

theorem RecycleExistingFrames_of_idle (jb : JitterBufferImpl)
    (h : ¬ (jb.m_recyclerThread = some Thread.running ∧ jb.m_shutdownRequested = false)) :
    jb.RecycleExistingFrames = jb := by
  simp only [JitterBufferImpl.RecycleExistingFrames, h, if_false]

/-- A recycler pass on an instance that satisfies the structural invariant: the ready run at
the head of the store moves to the back of the ready queue and the watermark advances by its
length. -/
theorem RecycleExistingFrames_of_running (jb : JitterBufferImpl) (h : jb.Inv)
    (hr : jb.m_recyclerThread = some Thread.running) (hs : jb.m_shutdownRequested = false) :
    jb.RecycleExistingFrames =
      { jb with
        m_unsortedFrameBuffers :=
          jb.m_unsortedFrameBuffers.drop
            (readyRun jb.m_unsortedFrameBuffers jb.m_lastDecodedFrameNumber)
        m_lastDecodedFrameNumber := jb.m_lastDecodedFrameNumber +
          (readyRun jb.m_unsortedFrameBuffers jb.m_lastDecodedFrameNumber : Int)
        m_sortedFrameBuffers := jb.m_sortedFrameBuffers ++
          (jb.m_unsortedFrameBuffers.take
            (readyRun jb.m_unsortedFrameBuffers jb.m_lastDecodedFrameNumber)).map Prod.snd } := by
  simp only [JitterBufferImpl.RecycleExistingFrames, hr, hs, and_self, if_true]
  rw [recycle_loop_eq _ _ _ h.sorted h.above]
  simp only [List.nil_append]
  congr 1
  split
  · rename_i he
    rw [List.isEmpty_iff] at he
    rw [he, List.append_nil]
  · rfl

theorem range_map_succ (n : Nat) (f : Nat → Int) :
    (List.range (n + 1)).map f = (List.range n).map f ++ [f n] := by
  rw [List.range_succ, List.map_append, List.map_singleton]

theorem range_map_append (a b : Nat) (f : Nat → Int) :
    (List.range (a + b)).map f =
      (List.range a).map f ++ (List.range b).map (fun i => f (a + i)) := by
  induction b with
  | zero => simp
  | succ b ih =>
    rw [← Nat.add_assoc, range_map_succ, ih, range_map_succ, List.append_assoc]

theorem RecycleExistingFrames_inv (jb : JitterBufferImpl) (h : jb.Inv) :
    jb.RecycleExistingFrames.Inv := by
  by_cases hrun : jb.m_recyclerThread = some Thread.running ∧ jb.m_shutdownRequested = false
  · rw [RecycleExistingFrames_of_running jb h hrun.1 hrun.2]
    obtain ⟨hn, hcomp, hkeys⟩ :=
      readyRun_spec jb.m_unsortedFrameBuffers jb.m_lastDecodedFrameNumber
    generalize hN : readyRun jb.m_unsortedFrameBuffers jb.m_lastDecodedFrameNumber = n
      at hn hcomp hkeys
    have hsplit : jb.m_unsortedFrameBuffers =
        jb.m_unsortedFrameBuffers.take n ++ jb.m_unsortedFrameBuffers.drop n :=
      (List.take_append_drop n _).symm
    have hsorted := h.sorted
    rw [hsplit, List.map_append, List.pairwise_append] at hsorted
    constructor
    · exact hsorted.2.1
    · intro e he
      exact h.keyEq e (List.mem_of_mem_drop he)
    · intro e he
      show jb.m_lastDecodedFrameNumber + (n : Int) < e.1
      cases n with
      | zero => simpa using h.above e (List.mem_of_mem_drop he)
      | succ n =>
        have hmem : jb.m_lastDecodedFrameNumber + 1 + (n : Int) ∈
            (jb.m_unsortedFrameBuffers.take (n + 1)).map Prod.fst := by
          rw [hkeys]
          exact List.mem_map.mpr ⟨n, List.mem_range.mpr (Nat.lt_succ_self n), rfl⟩
        have := hsorted.2.2 _ hmem e.1 (List.mem_map_of_mem _ he)
        push_cast
        omega
    · show List.map FrameBuffer.m_frameNumber (jb.m_sortedFrameBuffers ++
        (jb.m_unsortedFrameBuffers.take n).map Prod.snd) = _
      have hlen : (jb.m_sortedFrameBuffers ++
          (jb.m_unsortedFrameBuffers.take n).map Prod.snd).length =
          jb.m_sortedFrameBuffers.length + n := by
        simp [List.length_take, Nat.min_eq_left hn]
      have hfn : ((jb.m_unsortedFrameBuffers.take n).map Prod.snd).map
          FrameBuffer.m_frameNumber = (jb.m_unsortedFrameBuffers.take n).map Prod.fst := by
        rw [List.map_map]
        apply List.map_congr_left
        intro e he
        exact h.keyEq e (List.mem_of_mem_take he)
      simp only [hlen]
      rw [List.map_append, h.queue, hfn, hkeys, range_map_append]
      congr 1
      · apply List.map_congr_left
        intro i _
        push_cast
        omega
      · apply List.map_congr_left
        intro i _
        push_cast
        omega
    · show ((jb.m_sortedFrameBuffers ++
        (jb.m_unsortedFrameBuffers.take n).map Prod.snd).length : Int) ≤ _
      have := h.lastLB
      simp only [List.length_append, List.length_map, List.length_take, Nat.min_eq_left hn]
      push_cast
      omega
    · exact h.flagR
    · exact h.flagD
  · rw [RecycleExistingFrames_of_idle jb hrun]; exact h

end JitterBuffer
namespace JitterBuffer

/-! ## The dispatcher step -/

theorem ProcessCompletedFrames_of_idle (decoder : IDecoder) (renderer : IRenderer) (w : World)
    (h : ¬ (w.jb.m_dataProcessingThread = some Thread.running ∧
      w.jb.m_shutdownRequested = false) ∨ w.jb.m_sortedFrameBuffers = []) :
    JitterBufferImpl.ProcessCompletedFrames decoder renderer w = w := by
  unfold JitterBufferImpl.ProcessCompletedFrames
  rcases h with h | h
  · simp only [h, if_false]
  · split
    · simp only [h]
    · rfl

/-- The three outcomes of a dispatcher step that finds a frame in the ready queue. -/
theorem ProcessCompletedFrames_of_front (decoder : IDecoder) (renderer : IRenderer) (w : World)
    (fb : FrameBuffer) (rest : FrameList)
    (hrun : w.jb.m_dataProcessingThread = some Thread.running)
    (hshut : w.jb.m_shutdownRequested = false)
    (hq : w.jb.m_sortedFrameBuffers = fb :: rest) :
    (decoder.DecodeFrame w.calls
        (fb.GetAssembledData (List.replicate fb.GetCurrentFrameSize.toNat 0))
        fb.GetCurrentFrameSize w.decodedData = none ∧
      JitterBufferImpl.ProcessCompletedFrames decoder renderer w =
        { w with
          jb := JitterBufferImpl.ProcessCompletedFrames.caught
            { w.jb with m_sortedFrameBuffers := rest }
          calls := w.calls ++ [Call.DecodeFrame fb.GetFrameNumber
            (fb.GetAssembledData (List.replicate fb.GetCurrentFrameSize.toNat 0))
            fb.GetCurrentFrameSize] }) ∨
    (∃ out n, decoder.DecodeFrame w.calls
        (fb.GetAssembledData (List.replicate fb.GetCurrentFrameSize.toNat 0))
        fb.GetCurrentFrameSize w.decodedData = some (out, n) ∧
      renderer.RenderFrame (w.calls ++ [Call.DecodeFrame fb.GetFrameNumber
            (fb.GetAssembledData (List.replicate fb.GetCurrentFrameSize.toNat 0))
            fb.GetCurrentFrameSize]) out n = none ∧
      JitterBufferImpl.ProcessCompletedFrames decoder renderer w =
        { jb := JitterBufferImpl.ProcessCompletedFrames.caught
            { w.jb with m_sortedFrameBuffers := rest }
          decodedData := out
          calls := w.calls ++ [Call.DecodeFrame fb.GetFrameNumber
            (fb.GetAssembledData (List.replicate fb.GetCurrentFrameSize.toNat 0))
            fb.GetCurrentFrameSize] ++ [Call.RenderFrame out n] }) ∨
    (∃ out n, decoder.DecodeFrame w.calls
        (fb.GetAssembledData (List.replicate fb.GetCurrentFrameSize.toNat 0))
        fb.GetCurrentFrameSize w.decodedData = some (out, n) ∧
      renderer.RenderFrame (w.calls ++ [Call.DecodeFrame fb.GetFrameNumber
            (fb.GetAssembledData (List.replicate fb.GetCurrentFrameSize.toNat 0))
            fb.GetCurrentFrameSize]) out n = some () ∧
      JitterBufferImpl.ProcessCompletedFrames decoder renderer w =
        { jb := { w.jb with m_sortedFrameBuffers := rest }
          decodedData := out
          calls := w.calls ++ [Call.DecodeFrame fb.GetFrameNumber
            (fb.GetAssembledData (List.replicate fb.GetCurrentFrameSize.toNat 0))
            fb.GetCurrentFrameSize] ++ [Call.RenderFrame out n] }) := by
  unfold JitterBufferImpl.ProcessCompletedFrames
  simp only [hrun, hshut, and_self, if_true, hq]
  cases hd : decoder.DecodeFrame w.calls
      (fb.GetAssembledData (List.replicate fb.GetCurrentFrameSize.toNat 0))
      fb.GetCurrentFrameSize w.decodedData with
  | none => exact Or.inl ⟨rfl, rfl⟩
  | some r =>
    obtain ⟨out, n⟩ := r
    cases hr : renderer.RenderFrame (w.calls ++ [Call.DecodeFrame fb.GetFrameNumber
            (fb.GetAssembledData (List.replicate fb.GetCurrentFrameSize.toNat 0))
            fb.GetCurrentFrameSize]) out n with
    | none => exact Or.inr (Or.inl ⟨out, n, rfl, hr, by simp [hr]⟩)
    | some u => exact Or.inr (Or.inr ⟨out, n, rfl, hr, by simp [hr]⟩)

theorem expectedShape_succ (k : Nat) :
    expectedShape (k + 1) = expectedShape k ++ [some (k : Int), none] := by
  simp [expectedShape, List.range_succ, List.flatMap_append]

theorem callShape_append (a b : List Call) :
    callShape (a ++ b) = callShape a ++ callShape b := by
  simp [callShape]

/-- Popping the front of a ready queue that satisfies the structural invariant. -/
theorem pop_inv (jb : JitterBufferImpl) (fb : FrameBuffer) (rest : FrameList) (h : jb.Inv)
    (hq : jb.m_sortedFrameBuffers = fb :: rest) :
    fb.m_frameNumber = jb.m_lastDecodedFrameNumber + 1 - ((rest.length : Int) + 1) ∧
    JitterBufferImpl.Inv { jb with m_sortedFrameBuffers := rest } := by
  have hqueue := h.queue
  have hlb := h.lastLB
  rw [hq] at hqueue hlb
  simp only [List.map_cons, List.length_cons, List.range_succ_eq_map, List.map_map,
    Nat.cast_zero, add_zero, List.cons.injEq, Nat.cast_add, Nat.cast_one] at hqueue hlb
  refine ⟨hqueue.1, ?_⟩
  constructor
  · exact h.sorted
  · exact h.keyEq
  · exact h.above
  · show rest.map FrameBuffer.m_frameNumber = _
    rw [hqueue.2]
    apply List.map_congr_left
    intro i _
    simp only [Function.comp]
    push_cast
    omega
  · show (rest.length : Int) ≤ jb.m_lastDecodedFrameNumber + 1
    omega
  · exact h.flagR
  · exact h.flagD

theorem caught_inv (jb : JitterBufferImpl) (h : jb.Inv)
    (hrun : jb.m_dataProcessingThread = some Thread.running) :
    (JitterBufferImpl.ProcessCompletedFrames.caught jb).Inv := by
  constructor
  · exact h.sorted
  · exact h.keyEq
  · exact h.above
  · exact h.queue
  · exact h.lastLB
  · exact h.flagR
  · intro hf
    have := h.flagD hf
    rw [hrun] at this
    cases this

end JitterBuffer
namespace JitterBuffer

/-! ## Preservation of the system invariant -/

/-- What `ReceivePacket` never changes, and how it may change the dispatcher thread. -/
theorem ReceivePacket_frame (jb : JitterBufferImpl) (buffer : CharPtr)
    (length frameNumber fragmentNumber num : Int) :
    (jb.ReceivePacket buffer length frameNumber fragmentNumber num).1.m_sortedFrameBuffers =
      jb.m_sortedFrameBuffers ∧
    (jb.ReceivePacket buffer length frameNumber fragmentNumber num).1.m_lastDecodedFrameNumber =
      jb.m_lastDecodedFrameNumber ∧
    (jb.ReceivePacket buffer length frameNumber fragmentNumber num).1.m_frameProcessingIsBlocked
      = jb.m_frameProcessingIsBlocked ∧
    (jb.ReceivePacket buffer length frameNumber fragmentNumber num).1.m_shutdownRequested =
      jb.m_shutdownRequested ∧
    ((jb.ReceivePacket buffer length frameNumber fragmentNumber num).1.m_dataProcessingThread =
        jb.m_dataProcessingThread ∨
      (jb.m_dataProcessingTaskLaunched = false ∧
        (jb.ReceivePacket buffer length frameNumber fragmentNumber
          num).1.m_dataProcessingThread = some Thread.running)) := by
  have key : ∀ jb2 : JitterBufferImpl,
      jb2.m_sortedFrameBuffers = jb.m_sortedFrameBuffers →
      jb2.m_lastDecodedFrameNumber = jb.m_lastDecodedFrameNumber →
      jb2.m_frameProcessingIsBlocked = jb.m_frameProcessingIsBlocked →
      jb2.m_shutdownRequested = jb.m_shutdownRequested →
      jb2.m_dataProcessingTaskLaunched = jb.m_dataProcessingTaskLaunched →
      jb2.m_dataProcessingThread = jb.m_dataProcessingThread →
      (JitterBufferImpl.ReceivePacket.launch jb2).m_sortedFrameBuffers =
        jb.m_sortedFrameBuffers ∧
      (JitterBufferImpl.ReceivePacket.launch jb2).m_lastDecodedFrameNumber =
        jb.m_lastDecodedFrameNumber ∧
      (JitterBufferImpl.ReceivePacket.launch jb2).m_frameProcessingIsBlocked =
        jb.m_frameProcessingIsBlocked ∧
      (JitterBufferImpl.ReceivePacket.launch jb2).m_shutdownRequested =
        jb.m_shutdownRequested ∧
      ((JitterBufferImpl.ReceivePacket.launch jb2).m_dataProcessingThread =
          jb.m_dataProcessingThread ∨
        (jb.m_dataProcessingTaskLaunched = false ∧
          (JitterBufferImpl.ReceivePacket.launch jb2).m_dataProcessingThread =
            some Thread.running)) := by
    intro jb2 e1 e2 e3 e4 e5 e6
    obtain ⟨_, h2, h3, h4, h5, _, _, _, h9⟩ := launch_fields jb2
    refine ⟨h2.trans e1, h3.trans e2, h4.trans e3, h5.trans e4, ?_⟩
    rw [h9, e5, e6]
    cases hf : jb.m_dataProcessingTaskLaunched
    · exact Or.inr ⟨rfl, by simp⟩
    · exact Or.inl (by simp)
  rcases ReceivePacket_state jb buffer length frameNumber fragmentNumber num with
    hr | ⟨mem, _, _, _, _, _, ⟨_, hr⟩ | ⟨fb, _, hr⟩⟩
  · rw [hr]; exact ⟨rfl, rfl, rfl, rfl, Or.inl rfl⟩
  · rw [hr]; exact key _ rfl rfl rfl rfl rfl rfl
  · rw [hr]; exact key _ rfl rfl rfl rfl rfl rfl

theorem World.init_inv (decoder : IDecoder) : World.Inv decoder World.init := by
  constructor
  · constructor <;> simp [World.init, JitterBufferImpl.init]
  · intro _
    exact ⟨rfl, by simp [World.init, JitterBufferImpl.init, callShape, expectedShape]⟩
  · intro h
    simp [World.init, JitterBufferImpl.init] at h

theorem World.step_inv (decoder : IDecoder) (renderer : IRenderer) (w : World) (s : Step)
    (h : World.Inv decoder w) : World.Inv decoder (w.step decoder renderer s) := by
  cases s with
  | ReceivePacket buffer length frameNumber fragmentNumber num =>
    obtain ⟨f1, f2, f3, f4, f5⟩ :=
      ReceivePacket_frame w.jb buffer length frameNumber fragmentNumber num
    have hth : (w.jb.ReceivePacket buffer length frameNumber fragmentNumber
        num).1.m_dataProcessingThread = some Thread.finished ↔
        w.jb.m_dataProcessingThread = some Thread.finished := by
      rcases f5 with f5 | ⟨hflag, f5⟩
      · rw [f5]
      · rw [f5, h.jb.flagD hflag]; simp
    constructor
    · exact ReceivePacket_inv w.jb buffer length frameNumber fragmentNumber num h.jb
    · intro hne
      show (w.jb.ReceivePacket buffer length frameNumber fragmentNumber
        num).1.m_frameProcessingIsBlocked = false ∧ callShape w.calls = expectedShape
          ((w.jb.ReceivePacket buffer length frameNumber fragmentNumber
            num).1.m_lastDecodedFrameNumber + 1 -
            ((w.jb.ReceivePacket buffer length frameNumber fragmentNumber
              num).1.m_sortedFrameBuffers.length : Int)).toNat
      rw [f1, f2, f3]
      exact h.running (fun hc => hne (hth.mpr hc))
    · intro hfin
      show (w.jb.ReceivePacket buffer length frameNumber fragmentNumber
        num).1.m_frameProcessingIsBlocked = true ∧ _
      rw [f3]
      exact h.finished (hth.mp hfin)
  | RecycleExistingFrames =>
    show World.Inv decoder { w with jb := w.jb.RecycleExistingFrames }
    by_cases hrun : w.jb.m_recyclerThread = some Thread.running ∧
        w.jb.m_shutdownRequested = false
    · have hinv := RecycleExistingFrames_inv w.jb h.jb
      have heq := RecycleExistingFrames_of_running w.jb h.jb hrun.1 hrun.2
      obtain ⟨hn, _, _⟩ :=
        readyRun_spec w.jb.m_unsortedFrameBuffers w.jb.m_lastDecodedFrameNumber
      have hK : w.jb.RecycleExistingFrames.m_lastDecodedFrameNumber + 1 -
          (w.jb.RecycleExistingFrames.m_sortedFrameBuffers.length : Int) =
          w.jb.m_lastDecodedFrameNumber + 1 - (w.jb.m_sortedFrameBuffers.length : Int) := by
        rw [heq]
        simp only [List.length_append, List.length_map, List.length_take, Nat.min_eq_left hn]
        push_cast
        omega
      have hth : w.jb.RecycleExistingFrames.m_dataProcessingThread =
          w.jb.m_dataProcessingThread := by rw [heq]
      have hbl : w.jb.RecycleExistingFrames.m_frameProcessingIsBlocked =
          w.jb.m_frameProcessingIsBlocked := by rw [heq]
      constructor
      · exact hinv
      · intro hne
        show w.jb.RecycleExistingFrames.m_frameProcessingIsBlocked = false ∧
          callShape w.calls = expectedShape
            (w.jb.RecycleExistingFrames.m_lastDecodedFrameNumber + 1 -
              (w.jb.RecycleExistingFrames.m_sortedFrameBuffers.length : Int)).toNat
        rw [hK, hbl]
        exact h.running (fun hc => hne (hth.trans hc))
      · intro hfin
        show w.jb.RecycleExistingFrames.m_frameProcessingIsBlocked = true ∧ _
        rw [hbl]
        exact h.finished (hth.symm.trans hfin)
    · rw [RecycleExistingFrames_of_idle w.jb hrun]
      exact h
  | ProcessCompletedFrames =>
    show World.Inv decoder (JitterBufferImpl.ProcessCompletedFrames decoder renderer w)
    by_cases hrun : w.jb.m_dataProcessingThread = some Thread.running ∧
        w.jb.m_shutdownRequested = false
    · cases hq : w.jb.m_sortedFrameBuffers with
      | nil => rw [ProcessCompletedFrames_of_idle decoder renderer w (Or.inr hq)]; exact h
      | cons fb rest =>
        obtain ⟨hfn, hpop⟩ := pop_inv w.jb fb rest h.jb hq
        have hlb := h.jb.lastLB
        obtain ⟨_, hshape⟩ := h.running (by rw [hrun.1]; simp)
        rw [hq] at hshape hlb
        simp only [List.length_cons, Nat.cast_add, Nat.cast_one] at hshape hlb
        obtain ⟨K, hK⟩ : ∃ K : Nat, w.jb.m_lastDecodedFrameNumber + 1 -
            ((rest.length : Int) + 1) = (K : Int) :=
          ⟨_, (Int.toNat_of_nonneg (by omega)).symm⟩
        rw [hK] at hfn
        rw [hK, Int.toNat_ofNat] at hshape
        rcases ProcessCompletedFrames_of_front decoder renderer w fb rest hrun.1 hrun.2 hq with
          ⟨hd, heq⟩ | ⟨out, n, hd, hr, heq⟩ | ⟨out, n, hd, hr, heq⟩
        · rw [heq]
          constructor
          · exact caught_inv _ hpop hrun.1
          · intro hne; exact absurd rfl hne
          · intro _
            refine ⟨rfl, K, Or.inr ⟨?_,
              fb.GetAssembledData (List.replicate fb.GetCurrentFrameSize.toNat 0),
              fb.GetCurrentFrameSize, ?_, ?_⟩⟩
            · show callShape (w.calls ++ _) = _
              rw [callShape_append, hshape]
              simp [callShape, FrameBuffer.GetFrameNumber, hfn]
            · show (w.calls ++ [Call.DecodeFrame fb.GetFrameNumber _ _]).getLast? = _
              rw [List.getLast?_append, List.getLast?_singleton]
              simp only [FrameBuffer.GetFrameNumber, hfn]
              rfl
            · show decoder.DecodeFrame (w.calls ++ [_]).dropLast _ _ w.decodedData = none
              rw [List.dropLast_concat]
              exact hd
        · rw [heq]
          constructor
          · exact caught_inv _ hpop hrun.1
          · intro hne; exact absurd rfl hne
          · intro _
            refine ⟨rfl, K, Or.inl ?_⟩
            show callShape (w.calls ++ _ ++ _) = _
            rw [callShape_append, callShape_append, hshape, expectedShape_succ]
            simp [callShape, FrameBuffer.GetFrameNumber, hfn]
        · rw [heq]
          obtain ⟨hbl, _⟩ := h.running (by rw [hrun.1]; simp)
          constructor
          · exact hpop
          · intro _
            refine ⟨hbl, ?_⟩
            show callShape (w.calls ++ _ ++ _) = expectedShape
              (w.jb.m_lastDecodedFrameNumber + 1 - (rest.length : Int)).toNat
            have hK2 : w.jb.m_lastDecodedFrameNumber + 1 - (rest.length : Int) =
                ((K + 1 : Nat) : Int) := by push_cast; omega
            rw [hK2, Int.toNat_ofNat, callShape_append, callShape_append, hshape,
              expectedShape_succ]
            simp [callShape, FrameBuffer.GetFrameNumber, hfn]
          · intro hfin
            have : w.jb.m_dataProcessingThread = some Thread.finished := hfin
            rw [hrun.1] at this
            cases this
    · rw [ProcessCompletedFrames_of_idle decoder renderer w (Or.inl hrun)]; exact h

theorem World.run_inv (decoder : IDecoder) (renderer : IRenderer) (t : List Step) (w : World)
    (h : World.Inv decoder w) : World.Inv decoder (w.run decoder renderer t) := by
  induction t generalizing w with
  | nil => exact h
  | cons s t ih => exact ih _ (World.step_inv decoder renderer w s h)

end JitterBuffer
namespace JitterBuffer

/-! ## Claims on the order of decoding -/

theorem expectedShape_length (k : Nat) : (expectedShape k).length = 2 * k := by
  induction k with
  | zero => simp [expectedShape]
  | succ k ih => rw [expectedShape_succ, List.length_append, ih]; simp; omega

theorem expectedShape_reduceOption (k : Nat) :
    (expectedShape k).reduceOption = (List.range k).map (fun (i : Nat) => (i : Int)) := by
  induction k with
  | zero => simp [expectedShape]
  | succ k ih =>
    rw [expectedShape_succ, List.reduceOption_append, ih, List.range_succ, List.map_append]
    simp [List.reduceOption]

end JitterBuffer
namespace JitterBuffer

/-! ## Streams: fragments and frames -/

theorem ptrOf_copy (c : List Byte) :
    (List.range c.length).map (fun i => c.getD i 0) = c := by
  apply List.ext_getElem
  · simp
  · intro n h1 h2
    simp [List.getD_eq_getElem?_getD, List.getElem?_eq_getElem h2]

end JitterBuffer
namespace JitterBuffer

theorem find_of_mem (m : FrameBuffers) (k : Int) (fb : FrameBuffer)
    (hs : (m.map Prod.fst).Pairwise (fun a b => a < b)) (h : (k, fb) ∈ m) :
    m.find k = some fb := by
  induction m with
  | nil => simp at h
  | cons e rest ih =>
    obtain ⟨a, b⟩ := e
    simp only [List.map_cons, List.pairwise_cons] at hs
    rcases List.mem_cons.mp h with h | h
    · simp only [Prod.mk.injEq] at h
      simp [FrameBuffers.find, h.1, h.2]
    · have : a < k := hs.1 k (List.mem_map_of_mem Prod.fst h)
      simp [FrameBuffers.find, ne_of_lt this, ih hs.2 h]

/-! ## Streams: the packets delivered so far -/

end JitterBuffer
namespace JitterBuffer

/-! ## Delivery of a stream: the state under any schedule -/

end JitterBuffer
namespace JitterBuffer

theorem decodeCalls_append (a b : List Call) :
    decodeCalls (a ++ b) = decodeCalls a ++ decodeCalls b := by
  simp [decodeCalls, List.filterMap_append]

end JitterBuffer
namespace JitterBuffer

/-! ## Quiescence -/

/-- The ready run is maximal: right after a pass the head of the store cannot be promoted. -/
theorem readyRun_drop (m : FrameBuffers) (last : Int) :
    readyRun (m.drop (readyRun m last)) (last + (readyRun m last : Int)) = 0 := by
  induction m generalizing last with
  | nil => simp [readyRun]
  | cons e rest ih =>
    obtain ⟨k, fb⟩ := e
    by_cases hp : (fb.IsFrameComplete && decide (k = last + 1)) = true
    · have h := ih (last + 1)
      simp only [readyRun, hp, if_true, List.drop_succ_cons, Nat.cast_add, Nat.cast_one]
      have : last + ((readyRun rest (last + 1) : Int) + 1) =
          last + 1 + (readyRun rest (last + 1) : Int) := by omega
      rw [this]; exact h
    · simp [readyRun, hp]

end JitterBuffer
namespace JitterBuffer

/-! ## Claims on the round trip and on the output order -/

end JitterBuffer

namespace JitterBuffer

/-! ## Claims on the error latch and on failed ingress -/

theorem ReceivePacket_of_accepted (jb : JitterBufferImpl) (buffer : CharPtr)
    (length frameNumber fragmentNumber num : Int)
    (h : ValidArgs buffer length frameNumber fragmentNumber num)
    (hb : jb.m_frameProcessingIsBlocked = false)
    (hfull : ¬ (jb.m_lastDecodedFrameNumber < frameNumber ∧
      (jb.m_unsortedFrameBuffers.length : Int) = MaxFrameNumber)) :
    (jb.ReceivePacket buffer length frameNumber fragmentNumber num).2 = .ok () := by
  by_cases hs : jb.m_lastDecodedFrameNumber < frameNumber
  · have hne : (jb.m_unsortedFrameBuffers.length : Int) ≠ MaxFrameNumber :=
      fun hc => hfull ⟨hs, hc⟩
    cases buffer with
    | none => exact absurd rfl h.1
    | some mem =>
      cases hfind : jb.m_unsortedFrameBuffers.find frameNumber with
      | none =>
        rw [ReceivePacket_of_absent jb mem length frameNumber fragmentNumber num h hb hs hne
          hfind]
      | some fb =>
        rw [ReceivePacket_of_resident jb mem length frameNumber fragmentNumber num fb h hb hs
          hne hfind]
  · rw [ReceivePacket_of_stale jb buffer length frameNumber fragmentNumber num h hb
      (not_lt.mp hs)]

/-- C11: whenever the error latch (`m_frameProcessingIsBlocked`) is set, every
`ReceivePacket` call with valid arguments fails with result code `Fail`, for every frame
number (stale, resident or new) and every store occupancy; the instance is left as it was,
so the latch stays set. -/
theorem C11_latched_ingress_fails (jb : JitterBufferImpl) (buffer : CharPtr)
    (length frameNumber fragmentNumber numFragmentsInThisFrame : Int)
    (hvalid : ValidArgs buffer length frameNumber fragmentNumber numFragmentsInThisFrame)
    (hlatch : jb.m_frameProcessingIsBlocked = true) :
    CheckReceiverFunction
        (jb.ReceivePacket buffer length frameNumber fragmentNumber numFragmentsInThisFrame).2
      = result_code.eFail ∧
    (jb.ReceivePacket buffer length frameNumber fragmentNumber numFragmentsInThisFrame).1
      = jb := by
  obtain ⟨ex, hex, hr⟩ := ReceivePacket_of_blocked jb buffer length frameNumber fragmentNumber
    numFragmentsInThisFrame hvalid hlatch
  rw [hr]
  exact ⟨hex, rfl⟩

/-- C11, witness: after the decoder raised on frame 0 the latch is set; a valid packet for
the new frame 1 is answered `Fail`. -/
theorem C11_latched_ingress_fails_witness :
    latchedWorld.jb.m_frameProcessingIsBlocked = true ∧
    CheckReceiverFunction (latchedWorld.jb.ReceivePacket (ptrOf [7]) 1 1 0 1).2
      = result_code.eFail :=
  ⟨by decide, (C11_latched_ingress_fails latchedWorld.jb (ptrOf [7]) 1 1 0 1
    ⟨by simp [ptrOf], by decide, by decide, by decide, by decide⟩ (by decide)).1⟩

/-- C12: error atomicity of ingress.  Every `ReceivePacket` call that fails leaves the whole
instance as it was: the unsorted store and every `FrameBuffer` in it, the ready queue, the
last emitted frame number, the error latch, the two worker-launched flags and the two worker
threads; the result code of a failing call is `InvalidArgument`, `Fail` or `OutOfSpace`. -/
theorem C12_failed_ingress_leaves_state (jb : JitterBufferImpl) (buffer : CharPtr)
    (length frameNumber fragmentNumber numFragmentsInThisFrame : Int)
    (hfail : (jb.ReceivePacket buffer length frameNumber fragmentNumber
      numFragmentsInThisFrame).2 ≠ .ok ()) :
    (jb.ReceivePacket buffer length frameNumber fragmentNumber numFragmentsInThisFrame).1
      = jb ∧
    (CheckReceiverFunction (jb.ReceivePacket buffer length frameNumber fragmentNumber
        numFragmentsInThisFrame).2 = result_code.eInvalidArgument ∨
      CheckReceiverFunction (jb.ReceivePacket buffer length frameNumber fragmentNumber
        numFragmentsInThisFrame).2 = result_code.eFail ∨
      CheckReceiverFunction (jb.ReceivePacket buffer length frameNumber fragmentNumber
        numFragmentsInThisFrame).2 = result_code.eOutOfSpace) := by
  by_cases hv : ValidArgs buffer length frameNumber fragmentNumber numFragmentsInThisFrame
  · by_cases hb : jb.m_frameProcessingIsBlocked = true
    · obtain ⟨ex, hex, hr⟩ := ReceivePacket_of_blocked jb buffer length frameNumber
        fragmentNumber numFragmentsInThisFrame hv hb
      rw [hr]
      exact ⟨rfl, Or.inr (Or.inl hex)⟩
    · have hb2 : jb.m_frameProcessingIsBlocked = false := by simpa using hb
      by_cases hfull : jb.m_lastDecodedFrameNumber < frameNumber ∧
          (jb.m_unsortedFrameBuffers.length : Int) = MaxFrameNumber
      · obtain ⟨ex, hex, hr⟩ := ReceivePacket_of_full jb buffer length frameNumber
          fragmentNumber numFragmentsInThisFrame hv hb2 hfull.1 hfull.2
        rw [hr]
        exact ⟨rfl, Or.inr (Or.inr hex)⟩
      · exact absurd (ReceivePacket_of_accepted jb buffer length frameNumber fragmentNumber
          numFragmentsInThisFrame hv hb2 hfull) hfail
  · obtain ⟨ex, hex, hr⟩ := ReceivePacket_of_invalid jb buffer length frameNumber
      fragmentNumber numFragmentsInThisFrame hv
    rw [hr]
    exact ⟨rfl, Or.inl hex⟩

/-- C12, witness: a call with a null buffer on a fresh instance fails and starts no worker:
the instance is still the fresh one. -/
theorem C12_failed_ingress_leaves_state_witness :
    (JitterBufferImpl.init.ReceivePacket none 1 0 0 1).1 = JitterBufferImpl.init ∧
    (JitterBufferImpl.init.ReceivePacket none 1 0 0 1).1.m_recyclerThread = none ∧
    (JitterBufferImpl.init.ReceivePacket none 1 0 0 1).1.m_dataProcessingThread = none :=
  ⟨(C12_failed_ingress_leaves_state JitterBufferImpl.init none 1 0 0 1
    (fun h => Except.noConfusion h)).1,
    by decide, by decide⟩

end JitterBuffer

namespace JitterBuffer

/-! ## Claims on the store and on the watermark -/

theorem assign_length_le (m : FrameBuffers) (k : Int) (v : FrameBuffer) :
    (m.assign k v).length ≤ m.length + 1 := by
  induction m with
  | nil => simp [FrameBuffers.assign]
  | cons e rest ih =>
    obtain ⟨k', v'⟩ := e
    unfold FrameBuffers.assign
    by_cases h1 : k < k'
    · simp [h1]
    · by_cases h2 : k = k'
      · simp [h2]
      · simp only [h1, h2, if_false, List.length_cons]
        omega

/-- The inner loop of a recycler pass: it appends the promoted frames to `tempArray`, advances
the watermark by one per promoted frame and never makes the store larger. -/
theorem recycle_loop_batch (it : List (Int × FrameBuffer)) (unsorted : FrameBuffers)
    (last : Int) (temp : FrameList) :
    ∃ promoted : FrameList,
      (JitterBufferImpl.RecycleExistingFrames.loop it unsorted last temp).2.2 =
        temp ++ promoted ∧
      (JitterBufferImpl.RecycleExistingFrames.loop it unsorted last temp).2.1 =
        last + (promoted.length : Int) ∧
      (JitterBufferImpl.RecycleExistingFrames.loop it unsorted last temp).1.length ≤
        unsorted.length := by
  induction it generalizing unsorted last temp with
  | nil => exact ⟨[], by simp [JitterBufferImpl.RecycleExistingFrames.loop]⟩
  | cons e it ih =>
    obtain ⟨frameNumber, frameBuffer⟩ := e
    unfold JitterBufferImpl.RecycleExistingFrames.loop
    by_cases hc : (frameBuffer.IsFrameComplete && decide (frameNumber = last + 1)) = true
    · rw [if_pos hc]
      obtain ⟨p, h1, h2, h3⟩ := ih (unsorted.erase frameNumber) (last + 1)
        (temp ++ [frameBuffer])
      refine ⟨frameBuffer :: p, ?_, ?_, ?_⟩
      · rw [h1]; simp
      · rw [h2]; simp only [List.length_cons, Nat.cast_add, Nat.cast_one]; omega
      · refine le_trans h3 ?_
        unfold FrameBuffers.erase
        exact List.length_filter_le _ _
    · rw [if_neg hc]
      exact ih unsorted last temp

theorem ProcessCompletedFrames_frame (decoder : IDecoder) (renderer : IRenderer) (w : World) :
    (JitterBufferImpl.ProcessCompletedFrames decoder renderer w).jb.m_unsortedFrameBuffers =
      w.jb.m_unsortedFrameBuffers ∧
    (JitterBufferImpl.ProcessCompletedFrames decoder renderer w).jb.m_lastDecodedFrameNumber =
      w.jb.m_lastDecodedFrameNumber := by
  by_cases hrun : w.jb.m_dataProcessingThread = some Thread.running ∧
      w.jb.m_shutdownRequested = false
  · cases hq : w.jb.m_sortedFrameBuffers with
    | nil =>
      rw [ProcessCompletedFrames_of_idle decoder renderer w (Or.inr hq)]
      exact ⟨rfl, rfl⟩
    | cons fb rest =>
      rcases ProcessCompletedFrames_of_front decoder renderer w fb rest hrun.1 hrun.2 hq with
        ⟨_, h⟩ | ⟨out, n, _, _, h⟩ | ⟨out, n, _, _, h⟩
      · rw [h]; exact ⟨rfl, rfl⟩
      · rw [h]; exact ⟨rfl, rfl⟩
      · rw [h]; exact ⟨rfl, rfl⟩
  · rw [ProcessCompletedFrames_of_idle decoder renderer w (Or.inl hrun)]
    exact ⟨rfl, rfl⟩

theorem store_bounded_step (decoder : IDecoder) (renderer : IRenderer) (w : World) (s : Step)
    (h : (w.jb.m_unsortedFrameBuffers.length : Int) ≤ MaxFrameNumber) :
    ((w.step decoder renderer s).jb.m_unsortedFrameBuffers.length : Int) ≤ MaxFrameNumber := by
  cases s with
  | ReceivePacket buffer length frameNumber fragmentNumber num =>
    show (((w.jb.ReceivePacket buffer length frameNumber fragmentNumber
      num).1.m_unsortedFrameBuffers.length : Nat) : Int) ≤ MaxFrameNumber
    rcases ReceivePacket_state w.jb buffer length frameNumber fragmentNumber num with
      hr | ⟨mem, _, _, _, _, hne, ⟨_, hr⟩ | ⟨fb, _, hr⟩⟩
    · rw [hr]; exact h
    · rw [hr, (launch_fields _).1]
      have := assign_length_le w.jb.m_unsortedFrameBuffers frameNumber
        (FrameBuffer.new mem length frameNumber fragmentNumber num)
      show (((w.jb.m_unsortedFrameBuffers.assign frameNumber
        (FrameBuffer.new mem length frameNumber fragmentNumber num)).length : Nat) : Int) ≤ _
      omega
    · rw [hr, (launch_fields _).1]
      show (((w.jb.m_unsortedFrameBuffers.update frameNumber
        (fun fb => fb.AppendFragment mem length fragmentNumber)).length : Nat) : Int) ≤ _
      rw [(update_keys _ _ _).2.1]
      exact h
  | RecycleExistingFrames =>
    show ((w.jb.RecycleExistingFrames.m_unsortedFrameBuffers.length : Nat) : Int) ≤
      MaxFrameNumber
    unfold JitterBufferImpl.RecycleExistingFrames
    by_cases hrun : w.jb.m_recyclerThread = some Thread.running ∧
        w.jb.m_shutdownRequested = false
    · rw [if_pos hrun]
      obtain ⟨_, _, _, h3⟩ := recycle_loop_batch w.jb.m_unsortedFrameBuffers
        w.jb.m_unsortedFrameBuffers w.jb.m_lastDecodedFrameNumber []
      show (((JitterBufferImpl.RecycleExistingFrames.loop w.jb.m_unsortedFrameBuffers
        w.jb.m_unsortedFrameBuffers w.jb.m_lastDecodedFrameNumber []).1.length : Nat) : Int) ≤ _
      omega
    · rw [if_neg hrun]; exact h
  | ProcessCompletedFrames =>
    show (((JitterBufferImpl.ProcessCompletedFrames decoder renderer
      w).jb.m_unsortedFrameBuffers.length : Nat) : Int) ≤ MaxFrameNumber
    rw [(ProcessCompletedFrames_frame decoder renderer w).1]
    exact h

theorem store_bounded_run (decoder : IDecoder) (renderer : IRenderer) (t : List Step)
    (w : World) (h : (w.jb.m_unsortedFrameBuffers.length : Int) ≤ MaxFrameNumber) :
    ((w.run decoder renderer t).jb.m_unsortedFrameBuffers.length : Int) ≤ MaxFrameNumber := by
  induction t generalizing w with
  | nil => exact h
  | cons s t ih => exact ih _ (store_bounded_step decoder renderer w s h)

/-- C13: in every reachable state (after any sequence of `ReceivePacket` calls, recycler
passes and dispatcher steps on a fresh instance, with any decoder and renderer) the unsorted
store holds at most `MAX_FRAMES` = 100 entries. -/
theorem C13_store_bounded (decoder : IDecoder) (renderer : IRenderer) (t : List Step) :
    ((World.run decoder renderer World.init t).jb.m_unsortedFrameBuffers.length : Int) ≤
      MaxFrameNumber ∧
    (World.run decoder renderer World.init t).jb.m_unsortedFrameBuffers.length ≤ 100 := by
  have h := store_bounded_run decoder renderer t World.init (by decide)
  refine ⟨h, ?_⟩
  unfold MaxFrameNumber at h
  omega

/-- C14: in every reachable state (after any sequence of `ReceivePacket` calls, recycler
passes and dispatcher steps) every frame number present in the unsorted store is strictly
greater than the last emitted frame number, and the `FrameBuffer` filed under a frame number
carries that number. -/
theorem C14_store_above_watermark (decoder : IDecoder) (renderer : IRenderer)
    (t : List Step) :
    ∀ e ∈ (World.run decoder renderer World.init t).jb.m_unsortedFrameBuffers,
      (World.run decoder renderer World.init t).jb.m_lastDecodedFrameNumber < e.1 ∧
      e.2.GetFrameNumber = e.1 := by
  have hinv := (World.run_inv decoder renderer t World.init (World.init_inv decoder)).jb
  intro e he
  exact ⟨hinv.above e he, hinv.keyEq e he⟩

/-- C14, witness: after fragment 0 of frame 3 (two fragments) was received by a fresh
instance, the store holds frame 3, above the last emitted frame number -1. -/
theorem C14_store_above_watermark_witness :
    (World.run StubDecoder StubRenderer World.init
      [packet [7] 3 0 2]).jb.m_lastDecodedFrameNumber < 3 ∧
    (FrameBuffer.new (fun i => [7].getD i 0) 1 3 0 2).GetFrameNumber = 3 :=
  C14_store_above_watermark StubDecoder StubRenderer [packet [7] 3 0 2]
    (3, FrameBuffer.new (fun i => [7].getD i 0) 1 3 0 2) (by decide)

end JitterBuffer

namespace JitterBuffer

theorem RecycleExistingFrames_batch (jb : JitterBufferImpl) :
    jb.RecycleExistingFrames.m_lastDecodedFrameNumber =
      jb.m_lastDecodedFrameNumber +
        ((JitterBufferImpl.RecycleExistingFrames.tempArray jb).length : Int) ∧
    jb.RecycleExistingFrames.m_sortedFrameBuffers =
      jb.m_sortedFrameBuffers ++ JitterBufferImpl.RecycleExistingFrames.tempArray jb := by
  unfold JitterBufferImpl.RecycleExistingFrames JitterBufferImpl.RecycleExistingFrames.tempArray
  by_cases hrun : jb.m_recyclerThread = some Thread.running ∧ jb.m_shutdownRequested = false
  · rw [if_pos hrun, if_pos hrun]
    obtain ⟨p, h1, h2, _⟩ := recycle_loop_batch jb.m_unsortedFrameBuffers
      jb.m_unsortedFrameBuffers jb.m_lastDecodedFrameNumber []
    rw [List.nil_append] at h1
    refine ⟨?_, ?_⟩
    · show (JitterBufferImpl.RecycleExistingFrames.loop jb.m_unsortedFrameBuffers
        jb.m_unsortedFrameBuffers jb.m_lastDecodedFrameNumber []).2.1 = _
      rw [h2, h1]
    · show (if (JitterBufferImpl.RecycleExistingFrames.loop jb.m_unsortedFrameBuffers
          jb.m_unsortedFrameBuffers jb.m_lastDecodedFrameNumber []).2.2.isEmpty = true
        then jb.m_sortedFrameBuffers
        else jb.m_sortedFrameBuffers ++ (JitterBufferImpl.RecycleExistingFrames.loop
          jb.m_unsortedFrameBuffers jb.m_unsortedFrameBuffers
          jb.m_lastDecodedFrameNumber []).2.2) = _
      rw [h1]
      cases p with
      | nil => simp
      | cons a p => simp
  · rw [if_neg hrun, if_neg hrun]
    simp

/-- In a state that satisfies the structural invariant, the frames a recycler pass promotes
are the frames it removes from the store: the store before the pass holds the promoted
frames followed by the frames that stay. -/
theorem RecycleExistingFrames_moves (jb : JitterBufferImpl) (h : jb.Inv) :
    jb.m_unsortedFrameBuffers.map Prod.snd =
      JitterBufferImpl.RecycleExistingFrames.tempArray jb ++
        jb.RecycleExistingFrames.m_unsortedFrameBuffers.map Prod.snd := by
  by_cases hrun : jb.m_recyclerThread = some Thread.running ∧ jb.m_shutdownRequested = false
  · rw [RecycleExistingFrames_of_running jb h hrun.1 hrun.2]
    unfold JitterBufferImpl.RecycleExistingFrames.tempArray
    rw [if_pos hrun, recycle_loop_eq jb.m_unsortedFrameBuffers jb.m_lastDecodedFrameNumber []
      h.sorted h.above]
    show _ = ([] ++ (jb.m_unsortedFrameBuffers.take _).map Prod.snd) ++
      (jb.m_unsortedFrameBuffers.drop _).map Prod.snd
    rw [List.nil_append, ← List.map_append, List.take_append_drop]
  · rw [RecycleExistingFrames_of_idle jb hrun]
    unfold JitterBufferImpl.RecycleExistingFrames.tempArray
    rw [if_neg hrun, List.nil_append]

theorem watermark_step (decoder : IDecoder) (renderer : IRenderer) (w : World) (s : Step) :
    w.jb.m_lastDecodedFrameNumber ≤ (w.step decoder renderer s).jb.m_lastDecodedFrameNumber := by
  cases s with
  | ReceivePacket buffer length frameNumber fragmentNumber num =>
    show _ ≤ (w.jb.ReceivePacket buffer length frameNumber fragmentNumber
      num).1.m_lastDecodedFrameNumber
    rw [(ReceivePacket_frame w.jb buffer length frameNumber fragmentNumber num).2.1]
  | RecycleExistingFrames =>
    show _ ≤ w.jb.RecycleExistingFrames.m_lastDecodedFrameNumber
    rw [(RecycleExistingFrames_batch w.jb).1]
    omega
  | ProcessCompletedFrames =>
    show _ ≤ (JitterBufferImpl.ProcessCompletedFrames decoder renderer
      w).jb.m_lastDecodedFrameNumber
    rw [(ProcessCompletedFrames_frame decoder renderer w).2]

theorem watermark_run (decoder : IDecoder) (renderer : IRenderer) (t : List Step) (w : World) :
    w.jb.m_lastDecodedFrameNumber ≤ (w.run decoder renderer t).jb.m_lastDecodedFrameNumber := by
  induction t generalizing w with
  | nil => exact le_refl _
  | cons s t ih => exact le_trans (watermark_step decoder renderer w s) (ih _)

/-- C15: the last emitted frame number starts at -1 and never decreases along a trace;
`ReceivePacket` and the dispatcher step never change it; a recycler pass increases it by
exactly the number of frames it promotes in that pass, the promoted frames being the ones
the pass appends to the ready queue and, in every reachable state, the ones it removes from
the unsorted store. -/
theorem C15_watermark (decoder : IDecoder) (renderer : IRenderer) :
    World.init.jb.m_lastDecodedFrameNumber = -1 ∧
    (∀ (w : World) (t : List Step),
      w.jb.m_lastDecodedFrameNumber ≤
        (World.run decoder renderer w t).jb.m_lastDecodedFrameNumber) ∧
    (∀ (jb : JitterBufferImpl) (buffer : CharPtr)
        (length frameNumber fragmentNumber numFragmentsInThisFrame : Int),
      (jb.ReceivePacket buffer length frameNumber fragmentNumber
        numFragmentsInThisFrame).1.m_lastDecodedFrameNumber = jb.m_lastDecodedFrameNumber) ∧
    (∀ w : World,
      (JitterBufferImpl.ProcessCompletedFrames decoder renderer w).jb.m_lastDecodedFrameNumber
        = w.jb.m_lastDecodedFrameNumber) ∧
    (∀ jb : JitterBufferImpl,
      jb.RecycleExistingFrames.m_lastDecodedFrameNumber =
        jb.m_lastDecodedFrameNumber +
          ((JitterBufferImpl.RecycleExistingFrames.tempArray jb).length : Int) ∧
      jb.RecycleExistingFrames.m_sortedFrameBuffers =
        jb.m_sortedFrameBuffers ++ JitterBufferImpl.RecycleExistingFrames.tempArray jb) ∧
    (∀ t : List Step,
      (World.run decoder renderer World.init t).jb.m_unsortedFrameBuffers.map Prod.snd =
        JitterBufferImpl.RecycleExistingFrames.tempArray
            (World.run decoder renderer World.init t).jb ++
          (World.run decoder renderer World.init
            t).jb.RecycleExistingFrames.m_unsortedFrameBuffers.map Prod.snd) := by
  refine ⟨rfl, fun w t => watermark_run decoder renderer t w, ?_, ?_, ?_, ?_⟩
  · intro jb buffer length frameNumber fragmentNumber num
    exact (ReceivePacket_frame jb buffer length frameNumber fragmentNumber num).2.1
  · intro w
    exact (ProcessCompletedFrames_frame decoder renderer w).2
  · intro jb
    exact RecycleExistingFrames_batch jb
  · intro t
    exact RecycleExistingFrames_moves _
      (World.run_inv decoder renderer t World.init (World.init_inv decoder)).jb

end JitterBuffer

namespace JitterBuffer

/-! ## Claims on the renderer count and on the ready queue -/

theorem renderCount_eq_count (calls : List Call) :
    renderCount calls = (callShape calls).count none := by
  induction calls with
  | nil => rfl
  | cons c calls ih =>
    have hc : renderCount (c :: calls) = renderCount calls +
        (match c with
          | .RenderFrame _ _ => 1
          | .DecodeFrame _ _ _ => 0) := by
      unfold renderCount
      cases c <;> simp [List.countP_cons]
    rw [hc, ih]
    cases c <;> simp [callShape]

theorem expectedShape_count (k : Nat) : (expectedShape k).count none = k := by
  induction k with
  | zero => simp [expectedShape]
  | succ k ih =>
    rw [expectedShape_succ, List.count_append, ih]
    simp

theorem RecycleExistingFrames_latch (jb : JitterBufferImpl) :
    jb.RecycleExistingFrames.m_frameProcessingIsBlocked = jb.m_frameProcessingIsBlocked := by
  unfold JitterBufferImpl.RecycleExistingFrames
  split <;> rfl

end JitterBuffer

namespace JitterBuffer

/-! ## Claims on the members of a `FrameBuffer` -/

theorem AppendFragments_cons (fb : FrameBuffer) (c : (Nat → Byte) × Int × Int)
    (calls : List ((Nat → Byte) × Int × Int)) :
    fb.AppendFragments (c :: calls) =
      (fb.AppendFragment c.1 c.2.1 c.2.2).AppendFragments calls := rfl

/-- A property of `FrameBuffer` objects that every `AppendFragment` call preserves holds
after any sequence of calls. -/
theorem AppendFragments_preserves (P : FrameBuffer → Prop)
    (hstep : ∀ fb buffer length fragmentNumber, P fb →
      P (fb.AppendFragment buffer length fragmentNumber))
    (calls : List ((Nat → Byte) × Int × Int)) (fb : FrameBuffer) (h : P fb) :
    P (fb.AppendFragments calls) := by
  induction calls generalizing fb with
  | nil => exact h
  | cons c calls ih =>
    rw [AppendFragments_cons]
    exact ih _ (hstep fb c.1 c.2.1 c.2.2 h)

theorem AppendFragment_count (fb : FrameBuffer) (buffer : Nat → Byte)
    (length fragmentNumber : Int)
    (h : (fb.m_frameFragments.length : Int) ≤ fb.m_numFragmentsInThisFrame ∧
      (fb.m_frameIsComplete = true ↔
        (fb.m_frameFragments.length : Int) = fb.m_numFragmentsInThisFrame)) :
    ((fb.AppendFragment buffer length fragmentNumber).m_frameFragments.length : Int) ≤
      (fb.AppendFragment buffer length fragmentNumber).m_numFragmentsInThisFrame ∧
    ((fb.AppendFragment buffer length fragmentNumber).m_frameIsComplete = true ↔
      ((fb.AppendFragment buffer length fragmentNumber).m_frameFragments.length : Int) =
        (fb.AppendFragment buffer length fragmentNumber).m_numFragmentsInThisFrame) := by
  by_cases hc : fb.m_frameIsComplete = true
  · rw [AppendFragment_of_complete fb buffer length fragmentNumber hc]; exact h
  · by_cases hd : ∃ f ∈ fb.m_frameFragments, f.m_fragmentNumber = fragmentNumber
    · rw [AppendFragment_of_duplicate fb buffer length fragmentNumber hd]; exact h
    · push_neg at hd
      rw [AppendFragment_of_new fb buffer length fragmentNumber (by simpa using hc) hd]
      obtain ⟨h1, h2⟩ := h
      have hne : (fb.m_frameFragments.length : Int) ≠ fb.m_numFragmentsInThisFrame :=
        fun he => hc (h2.mpr he)
      simp only [List.length_append, List.length_singleton, decide_eq_true_eq, Nat.cast_add,
        Nat.cast_one]
      exact ⟨by omega, trivial⟩

/-- C20: for every `FrameBuffer` constructed with `numFragmentsInThisFrame >= 1` and then
subjected to any sequence of `AppendFragment` calls, the number of stored fragments never
exceeds `numFragmentsInThisFrame`, and `IsFrameComplete()` is true if and only if the number
of stored fragments equals `numFragmentsInThisFrame`. -/
theorem C20_complete_iff_count (buffer : Nat → Byte)
    (length frameNumber fragmentNumber numFragmentsInThisFrame : Int)
    (calls : List ((Nat → Byte) × Int × Int))
    (hnum : 1 ≤ numFragmentsInThisFrame) :
    ((((FrameBuffer.new buffer length frameNumber fragmentNumber
        numFragmentsInThisFrame).AppendFragments calls).m_frameFragments.length : Int) ≤
      numFragmentsInThisFrame) ∧
    (((FrameBuffer.new buffer length frameNumber fragmentNumber
        numFragmentsInThisFrame).AppendFragments calls).IsFrameComplete = true ↔
      (((FrameBuffer.new buffer length frameNumber fragmentNumber
        numFragmentsInThisFrame).AppendFragments calls).m_frameFragments.length : Int) =
        numFragmentsInThisFrame) := by
  have hinv := AppendFragments_preserves
    (fun fb => fb.m_numFragmentsInThisFrame = numFragmentsInThisFrame ∧
      (fb.m_frameFragments.length : Int) ≤ fb.m_numFragmentsInThisFrame ∧
      (fb.m_frameIsComplete = true ↔
        (fb.m_frameFragments.length : Int) = fb.m_numFragmentsInThisFrame))
    (fun fb b l f h =>
      ⟨(AppendFragment_frameNumber fb b l f).2.trans h.1, AppendFragment_count fb b l f h.2⟩)
    calls
    (FrameBuffer.new buffer length frameNumber fragmentNumber numFragmentsInThisFrame)
    ⟨(AppendFragment_frameNumber _ buffer length fragmentNumber).2,
      AppendFragment_count _ buffer length fragmentNumber
        ⟨by simp; omega, by simp; omega⟩⟩
  generalize (FrameBuffer.new buffer length frameNumber fragmentNumber
    numFragmentsInThisFrame).AppendFragments calls = fb at hinv
  obtain ⟨hn, hle, hiff⟩ := hinv
  rw [hn] at hle hiff
  exact ⟨hle, hiff⟩

/-- C20, witness: a frame of two fragments that receives fragment 0, fragment 0 again,
fragment 1 and then a third fragment: it holds two fragments and is complete. -/
theorem C20_complete_iff_count_witness :
    ((FrameBuffer.new (fun _ => 1) 1 0 0 2).AppendFragments
      [(fun _ => 1, 1, 0), (fun _ => 2, 1, 1), (fun _ => 3, 1, 2)]).m_frameFragments.length
        = 2 ∧
    (((FrameBuffer.new (fun _ => 1) 1 0 0 2).AppendFragments
      [(fun _ => 1, 1, 0), (fun _ => 2, 1, 1), (fun _ => 3, 1, 2)]).IsFrameComplete = true ↔
      (((FrameBuffer.new (fun _ => 1) 1 0 0 2).AppendFragments
        [(fun _ => 1, 1, 0), (fun _ => 2, 1, 1),
          (fun _ => 3, 1, 2)]).m_frameFragments.length : Int) = 2) :=
  ⟨by decide, (C20_complete_iff_count (fun _ => 1) 1 0 0 2
    [(fun _ => 1, 1, 0), (fun _ => 2, 1, 1), (fun _ => 3, 1, 2)] (by decide)).2⟩

end JitterBuffer

namespace JitterBuffer

/-! ## Claims on complete frames, duplicates and fragments -/

theorem AppendFragments_of_complete (fb : FrameBuffer) (hc : fb.m_frameIsComplete = true)
    (calls : List ((Nat → Byte) × Int × Int)) : fb.AppendFragments calls = fb := by
  induction calls with
  | nil => rfl
  | cons c calls ih =>
    rw [AppendFragments_cons, AppendFragment_of_complete fb c.1 c.2.1 c.2.2 hc]
    exact ih

/-- C21: once a `FrameBuffer` is complete, `AppendFragment` with any payload, any length and
any fragment number is a no-op: the object, hence its stored fragments,
`GetCurrentFrameSize()` and `IsFrameComplete()`, is unchanged, after one call and after any
sequence of calls; so a frame never becomes incomplete again. -/
theorem C21_complete_frame_is_closed (fb : FrameBuffer) (hc : fb.IsFrameComplete = true) :
    (∀ (buffer : Nat → Byte) (length fragmentNumber : Int),
      fb.AppendFragment buffer length fragmentNumber = fb) ∧
    (∀ calls : List ((Nat → Byte) × Int × Int),
      fb.AppendFragments calls = fb ∧
      (fb.AppendFragments calls).m_frameFragments = fb.m_frameFragments ∧
      (fb.AppendFragments calls).GetCurrentFrameSize = fb.GetCurrentFrameSize ∧
      (fb.AppendFragments calls).IsFrameComplete = true) := by
  refine ⟨fun buffer length fragmentNumber =>
    AppendFragment_of_complete fb buffer length fragmentNumber hc, ?_⟩
  intro calls
  rw [AppendFragments_of_complete fb hc calls]
  exact ⟨rfl, rfl, rfl, hc⟩

/-- C21, witness: a frame of one fragment is complete after its construction; a further
fragment, with a new fragment number, leaves it as it is. -/
theorem C21_complete_frame_is_closed_witness :
    (FrameBuffer.new (fun _ => 1) 1 0 0 1).AppendFragment (fun _ => 2) 1 1 =
      FrameBuffer.new (fun _ => 1) 1 0 0 1 :=
  (C21_complete_frame_is_closed (FrameBuffer.new (fun _ => 1) 1 0 0 1) (by decide)).1
    (fun _ => 2) 1 1

theorem AppendFragment_nodup (fb : FrameBuffer) (buffer : Nat → Byte)
    (length fragmentNumber : Int)
    (h : (fb.m_frameFragments.map FrameFragment.m_fragmentNumber).Nodup) :
    ((fb.AppendFragment buffer length fragmentNumber).m_frameFragments.map
      FrameFragment.m_fragmentNumber).Nodup := by
  by_cases hc : fb.m_frameIsComplete = true
  · rw [AppendFragment_of_complete fb buffer length fragmentNumber hc]; exact h
  · by_cases hd : ∃ f ∈ fb.m_frameFragments, f.m_fragmentNumber = fragmentNumber
    · rw [AppendFragment_of_duplicate fb buffer length fragmentNumber hd]; exact h
    · push_neg at hd
      rw [AppendFragment_of_new fb buffer length fragmentNumber (by simpa using hc) hd]
      show ((fb.m_frameFragments ++ [FrameFragment.new buffer length fragmentNumber]).map
        FrameFragment.m_fragmentNumber).Nodup
      rw [List.map_append, List.nodup_append]
      refine ⟨h, by simp, ?_⟩
      intro a ha hb
      obtain ⟨f, hf, hfa⟩ := List.mem_map.mp ha
      simp only [List.map_cons, List.map_nil, List.mem_singleton] at hb
      exact hd f hf (hfa.trans hb)

/-- C22: for every `FrameBuffer` that already stores a fragment with fragment number `k`,
`AppendFragment(payload2, length2, k)` leaves the `FrameBuffer` unchanged whatever the
payload and the length are (duplication is decided by the fragment number alone), so the
bytes assembled later are those of the first copy; and the stored fragment numbers stay
pairwise distinct: they are so in every `FrameBuffer` reached by construction followed by
any sequence of `AppendFragment` calls. -/
theorem C22_first_copy_wins (fb : FrameBuffer) (k : Int)
    (hk : k ∈ fb.m_frameFragments.map FrameFragment.GetFragmentNumber) :
    (∀ (buffer2 : Nat → Byte) (length2 : Int),
      fb.AppendFragment buffer2 length2 k = fb ∧
      (∀ outputBuffer : List Byte,
        (fb.AppendFragment buffer2 length2 k).GetAssembledData outputBuffer =
          fb.GetAssembledData outputBuffer) ∧
      ((fb.m_frameFragments.map FrameFragment.GetFragmentNumber).Nodup →
        ((fb.AppendFragment buffer2 length2 k).m_frameFragments.map
          FrameFragment.GetFragmentNumber).Nodup)) ∧
    (∀ (buffer : Nat → Byte) (length frameNumber fragmentNumber numFragmentsInThisFrame : Int)
        (calls : List ((Nat → Byte) × Int × Int)),
      (((FrameBuffer.new buffer length frameNumber fragmentNumber
        numFragmentsInThisFrame).AppendFragments calls).m_frameFragments.map
          FrameFragment.GetFragmentNumber).Nodup) := by
  refine ⟨?_, ?_⟩
  · intro buffer2 length2
    obtain ⟨f, hf, hfk⟩ := List.mem_map.mp hk
    have h := AppendFragment_of_duplicate fb buffer2 length2 k ⟨f, hf, hfk⟩
    rw [h]
    exact ⟨rfl, fun _ => rfl, fun hn => hn⟩
  · intro buffer length frameNumber fragmentNumber num calls
    exact AppendFragments_preserves
      (fun fb => (fb.m_frameFragments.map FrameFragment.m_fragmentNumber).Nodup)
      AppendFragment_nodup calls _ (AppendFragment_nodup _ buffer length fragmentNumber
        (by simp))

/-- C22, witness: a frame of two fragments holds fragment 0 with the byte 1; fragment 0 sent
again with the bytes 9, 9 changes nothing. -/
theorem C22_first_copy_wins_witness :
    (FrameBuffer.new (fun _ => 1) 1 0 0 2).AppendFragment (fun _ => 9) 2 0 =
      FrameBuffer.new (fun _ => 1) 1 0 0 2 :=
  ((C22_first_copy_wins (FrameBuffer.new (fun _ => 1) 1 0 0 2) 0 (by decide)).1
    (fun _ => 9) 2).1

/-- C29: a `FrameFragment` constructed from `(buffer, length, fragmentNumber)` holds a private
copy: `GetBufferLength()` is `length`, `GetBufferData()` is an array of `length` bytes equal
to the first `length` bytes of `buffer` at construction and to nothing else (a memory that
agrees with `buffer` on these bytes gives the same fragment), `GetFragmentNumber()` is
`fragmentNumber`; `operator==` compares the fragment number with an integer and `operator<`
orders fragments by fragment number only, whatever the content. -/
theorem C29_fragment_copy (buffer : Nat → Byte) (length fragmentNumber : Int)
    (hlength : 0 ≤ length) :
    (FrameFragment.new buffer length fragmentNumber).GetBufferLength = length ∧
    ((FrameFragment.new buffer length fragmentNumber).GetBufferData.length : Int) = length ∧
    (∀ i : Nat, (i : Int) < length →
      (FrameFragment.new buffer length fragmentNumber).GetBufferData.get? i =
        some (buffer i)) ∧
    (∀ buffer2 : Nat → Byte, (∀ i : Nat, (i : Int) < length → buffer2 i = buffer i) →
      FrameFragment.new buffer2 length fragmentNumber =
        FrameFragment.new buffer length fragmentNumber) ∧
    (FrameFragment.new buffer length fragmentNumber).GetFragmentNumber = fragmentNumber ∧
    (∀ (f : FrameFragment) (n : Int), f.eqInt n = decide (f.GetFragmentNumber = n)) ∧
    (∀ lhs rhs : FrameFragment,
      lhs.lt rhs = decide (lhs.GetFragmentNumber < rhs.GetFragmentNumber)) := by
  refine ⟨rfl, ?_, ?_, ?_, rfl, fun _ _ => rfl, fun _ _ => rfl⟩
  · simp [FrameFragment.new, FrameFragment.GetBufferData, Int.toNat_of_nonneg hlength]
  · intro i hi
    have hi2 : i < length.toNat := by omega
    simp [FrameFragment.new, FrameFragment.GetBufferData, hi2]
  · intro buffer2 h2
    unfold FrameFragment.new
    congr 1
    apply List.map_congr_left
    intro i hi
    exact h2 i (by have := List.mem_range.mp hi; omega)

/-- C29, witness: a fragment built from the first two bytes of a memory holding 5, 6, 7. -/
theorem C29_fragment_copy_witness :
    (FrameFragment.new (fun i => [5, 6, 7].getD i 0) 2 4).GetBufferData.get? 1 = some 6 :=
  (C29_fragment_copy (fun i => [5, 6, 7].getD i 0) 2 4 (by decide)).2.2.1 1 (by decide)

end JitterBuffer

namespace JitterBuffer

/-! ## Claims on the error latch, on dispatcher failures and on the worker start -/

theorem RecycleExistingFrames_fields (jb : JitterBufferImpl) :
    jb.RecycleExistingFrames.m_recycleTaskLaunched = jb.m_recycleTaskLaunched ∧
    jb.RecycleExistingFrames.m_dataProcessingTaskLaunched = jb.m_dataProcessingTaskLaunched ∧
    jb.RecycleExistingFrames.m_recyclerThread = jb.m_recyclerThread ∧
    jb.RecycleExistingFrames.m_dataProcessingThread = jb.m_dataProcessingThread ∧
    jb.RecycleExistingFrames.m_shutdownRequested = jb.m_shutdownRequested := by
  unfold JitterBufferImpl.RecycleExistingFrames
  split <;> exact ⟨rfl, rfl, rfl, rfl, rfl⟩

theorem ProcessCompletedFrames_fields (decoder : IDecoder) (renderer : IRenderer) (w : World) :
    (JitterBufferImpl.ProcessCompletedFrames decoder renderer w).jb.m_recycleTaskLaunched =
      w.jb.m_recycleTaskLaunched ∧
    (JitterBufferImpl.ProcessCompletedFrames decoder renderer
      w).jb.m_dataProcessingTaskLaunched = w.jb.m_dataProcessingTaskLaunched ∧
    (JitterBufferImpl.ProcessCompletedFrames decoder renderer w).jb.m_recyclerThread =
      w.jb.m_recyclerThread ∧
    (JitterBufferImpl.ProcessCompletedFrames decoder renderer w).jb.m_shutdownRequested =
      w.jb.m_shutdownRequested ∧
    (w.jb.m_frameProcessingIsBlocked = true →
      (JitterBufferImpl.ProcessCompletedFrames decoder renderer
        w).jb.m_frameProcessingIsBlocked = true) := by
  by_cases hrun : w.jb.m_dataProcessingThread = some Thread.running ∧
      w.jb.m_shutdownRequested = false
  · cases hq : w.jb.m_sortedFrameBuffers with
    | nil =>
      rw [ProcessCompletedFrames_of_idle decoder renderer w (Or.inr hq)]
      exact ⟨rfl, rfl, rfl, rfl, fun h => h⟩
    | cons fb rest =>
      rcases ProcessCompletedFrames_of_front decoder renderer w fb rest hrun.1 hrun.2 hq with
        ⟨_, h⟩ | ⟨out, n, _, _, h⟩ | ⟨out, n, _, _, h⟩
      · rw [h]; exact ⟨rfl, rfl, rfl, rfl, fun _ => rfl⟩
      · rw [h]; exact ⟨rfl, rfl, rfl, rfl, fun _ => rfl⟩
      · rw [h]; exact ⟨rfl, rfl, rfl, rfl, fun h => h⟩
  · rw [ProcessCompletedFrames_of_idle decoder renderer w (Or.inl hrun)]
    exact ⟨rfl, rfl, rfl, rfl, fun h => h⟩

theorem latch_step (decoder : IDecoder) (renderer : IRenderer) (w : World) (s : Step)
    (h : w.jb.m_frameProcessingIsBlocked = true) :
    (w.step decoder renderer s).jb.m_frameProcessingIsBlocked = true := by
  cases s with
  | ReceivePacket buffer length frameNumber fragmentNumber num =>
    show (w.jb.ReceivePacket buffer length frameNumber fragmentNumber
      num).1.m_frameProcessingIsBlocked = true
    rw [(ReceivePacket_frame w.jb buffer length frameNumber fragmentNumber num).2.2.1]
    exact h
  | RecycleExistingFrames =>
    show w.jb.RecycleExistingFrames.m_frameProcessingIsBlocked = true
    rw [RecycleExistingFrames_latch]
    exact h
  | ProcessCompletedFrames =>
    exact (ProcessCompletedFrames_fields decoder renderer w).2.2.2.2 h

theorem latch_run (decoder : IDecoder) (renderer : IRenderer) (t : List Step) (w : World)
    (h : w.jb.m_frameProcessingIsBlocked = true) :
    (w.run decoder renderer t).jb.m_frameProcessingIsBlocked = true := by
  induction t generalizing w with
  | nil => exact h
  | cons s t ih => exact ih _ (latch_step decoder renderer w s h)

/-- C25: the error latch is sticky.  It is false after construction, and no operation
(`ReceivePacket`, recycler pass, dispatcher step, with any decoder and renderer) changes it
from true to false, so once set it stays set in every later state of the instance. -/
theorem C25_latch_sticky (decoder : IDecoder) (renderer : IRenderer) :
    World.init.jb.m_frameProcessingIsBlocked = false ∧
    (∀ (w : World) (s : Step), w.jb.m_frameProcessingIsBlocked = true →
      (w.step decoder renderer s).jb.m_frameProcessingIsBlocked = true) ∧
    (∀ (w : World) (t : List Step), w.jb.m_frameProcessingIsBlocked = true →
      (w.run decoder renderer t).jb.m_frameProcessingIsBlocked = true) :=
  ⟨rfl, fun w s h => latch_step decoder renderer w s h,
    fun w t h => latch_run decoder renderer t w h⟩

theorem flags_step (decoder : IDecoder) (renderer : IRenderer) (w : World) (s : Step)
    (hinv : w.jb.Inv)
    (h : (w.jb.m_recycleTaskLaunched = true ∧ w.jb.m_dataProcessingTaskLaunched = true) ∨
      (w.jb.m_recycleTaskLaunched = false ∧ w.jb.m_dataProcessingTaskLaunched = false ∧
        w.jb.m_lastDecodedFrameNumber = -1)) :
    ((w.step decoder renderer s).jb.m_recycleTaskLaunched = true ∧
        (w.step decoder renderer s).jb.m_dataProcessingTaskLaunched = true) ∨
      ((w.step decoder renderer s).jb.m_recycleTaskLaunched = false ∧
        (w.step decoder renderer s).jb.m_dataProcessingTaskLaunched = false ∧
        (w.step decoder renderer s).jb.m_lastDecodedFrameNumber = -1) := by
  cases s with
  | ReceivePacket buffer length frameNumber fragmentNumber num =>
    show ((w.jb.ReceivePacket buffer length frameNumber fragmentNumber
        num).1.m_recycleTaskLaunched = true ∧
      (w.jb.ReceivePacket buffer length frameNumber fragmentNumber
        num).1.m_dataProcessingTaskLaunched = true) ∨
      ((w.jb.ReceivePacket buffer length frameNumber fragmentNumber
        num).1.m_recycleTaskLaunched = false ∧
      (w.jb.ReceivePacket buffer length frameNumber fragmentNumber
        num).1.m_dataProcessingTaskLaunched = false ∧
      (w.jb.ReceivePacket buffer length frameNumber fragmentNumber
        num).1.m_lastDecodedFrameNumber = -1)
    rcases ReceivePacket_state w.jb buffer length frameNumber fragmentNumber num with
      hr | ⟨mem, _, _, _, _, _, ⟨_, hr⟩ | ⟨fb, _, hr⟩⟩
    · rw [hr]; exact h
    · rw [hr]
      exact Or.inl ⟨(launch_fields _).2.2.2.2.2.1, (launch_fields _).2.2.2.2.2.2.1⟩
    · rw [hr]
      exact Or.inl ⟨(launch_fields _).2.2.2.2.2.1, (launch_fields _).2.2.2.2.2.2.1⟩
  | RecycleExistingFrames =>
    show (w.jb.RecycleExistingFrames.m_recycleTaskLaunched = true ∧
      w.jb.RecycleExistingFrames.m_dataProcessingTaskLaunched = true) ∨
      (w.jb.RecycleExistingFrames.m_recycleTaskLaunched = false ∧
      w.jb.RecycleExistingFrames.m_dataProcessingTaskLaunched = false ∧
      w.jb.RecycleExistingFrames.m_lastDecodedFrameNumber = -1)
    rcases h with h | h
    · rw [(RecycleExistingFrames_fields w.jb).1, (RecycleExistingFrames_fields w.jb).2.1]
      exact Or.inl h
    · rw [RecycleExistingFrames_of_idle w.jb
        (fun hr => by rw [hinv.flagR h.1] at hr; cases hr.1)]
      exact Or.inr h
  | ProcessCompletedFrames =>
    show ((JitterBufferImpl.ProcessCompletedFrames decoder renderer
        w).jb.m_recycleTaskLaunched = true ∧
      (JitterBufferImpl.ProcessCompletedFrames decoder renderer
        w).jb.m_dataProcessingTaskLaunched = true) ∨
      ((JitterBufferImpl.ProcessCompletedFrames decoder renderer
        w).jb.m_recycleTaskLaunched = false ∧
      (JitterBufferImpl.ProcessCompletedFrames decoder renderer
        w).jb.m_dataProcessingTaskLaunched = false ∧
      (JitterBufferImpl.ProcessCompletedFrames decoder renderer
        w).jb.m_lastDecodedFrameNumber = -1)
    rw [(ProcessCompletedFrames_fields decoder renderer w).1,
      (ProcessCompletedFrames_fields decoder renderer w).2.1,
      (ProcessCompletedFrames_frame decoder renderer w).2]
    exact h

theorem flags_run (decoder : IDecoder) (renderer : IRenderer) (t : List Step) (w : World)
    (hinv : World.Inv decoder w)
    (h : (w.jb.m_recycleTaskLaunched = true ∧ w.jb.m_dataProcessingTaskLaunched = true) ∨
      (w.jb.m_recycleTaskLaunched = false ∧ w.jb.m_dataProcessingTaskLaunched = false ∧
        w.jb.m_lastDecodedFrameNumber = -1)) :
    ((w.run decoder renderer t).jb.m_recycleTaskLaunched = true ∧
        (w.run decoder renderer t).jb.m_dataProcessingTaskLaunched = true) ∨
      ((w.run decoder renderer t).jb.m_recycleTaskLaunched = false ∧
        (w.run decoder renderer t).jb.m_dataProcessingTaskLaunched = false ∧
        (w.run decoder renderer t).jb.m_lastDecodedFrameNumber = -1) := by
  induction t generalizing w with
  | nil => exact h
  | cons s t ih =>
    exact ih _ (World.step_inv decoder renderer w s hinv)
      (flags_step decoder renderer w s hinv.jb h)

/-- After a `ReceivePacket` call that returns normally from a state in which the flags are
both set or the instance has emitted nothing, both flags are set. -/
theorem ReceivePacket_launched (jb : JitterBufferImpl) (buffer : CharPtr)
    (length frameNumber fragmentNumber num : Int)
    (h : (jb.m_recycleTaskLaunched = true ∧ jb.m_dataProcessingTaskLaunched = true) ∨
      (jb.m_recycleTaskLaunched = false ∧ jb.m_dataProcessingTaskLaunched = false ∧
        jb.m_lastDecodedFrameNumber = -1))
    (hok : (jb.ReceivePacket buffer length frameNumber fragmentNumber num).2 = .ok ()) :
    (jb.ReceivePacket buffer length frameNumber fragmentNumber num).1.m_recycleTaskLaunched
      = true ∧
    (jb.ReceivePacket buffer length frameNumber fragmentNumber
      num).1.m_dataProcessingTaskLaunched = true := by
  by_cases hv : ValidArgs buffer length frameNumber fragmentNumber num
  · by_cases hb : jb.m_frameProcessingIsBlocked = true
    · obtain ⟨ex, _, hr⟩ := ReceivePacket_of_blocked jb buffer length frameNumber
        fragmentNumber num hv hb
      rw [hr] at hok; cases hok
    · have hb2 : jb.m_frameProcessingIsBlocked = false := by simpa using hb
      by_cases hs : jb.m_lastDecodedFrameNumber < frameNumber
      · rcases ReceivePacket_state jb buffer length frameNumber fragmentNumber num with
          hr | ⟨mem, _, _, _, _, _, ⟨_, hr⟩ | ⟨fb, _, hr⟩⟩
        · by_cases hfull : (jb.m_unsortedFrameBuffers.length : Int) = MaxFrameNumber
          · obtain ⟨ex, _, hr2⟩ := ReceivePacket_of_full jb buffer length frameNumber
              fragmentNumber num hv hb2 hs hfull
            rw [hr2] at hok; cases hok
          · cases buffer with
            | none => exact absurd rfl hv.1
            | some mem =>
              cases hfind : jb.m_unsortedFrameBuffers.find frameNumber with
              | none =>
                rw [ReceivePacket_of_absent jb mem length frameNumber fragmentNumber num hv
                  hb2 hs hfull hfind]
                exact ⟨(launch_fields _).2.2.2.2.2.1, (launch_fields _).2.2.2.2.2.2.1⟩
              | some fb =>
                rw [ReceivePacket_of_resident jb mem length frameNumber fragmentNumber num fb
                  hv hb2 hs hfull hfind]
                exact ⟨(launch_fields _).2.2.2.2.2.1, (launch_fields _).2.2.2.2.2.2.1⟩
        · rw [hr]
          exact ⟨(launch_fields _).2.2.2.2.2.1, (launch_fields _).2.2.2.2.2.2.1⟩
        · rw [hr]
          exact ⟨(launch_fields _).2.2.2.2.2.1, (launch_fields _).2.2.2.2.2.2.1⟩
      · rw [ReceivePacket_of_stale jb buffer length frameNumber fragmentNumber num hv hb2
          (not_lt.mp hs)]
        rcases h with h | h
        · exact h
        · have := hv.2.2.1
          omega
  · obtain ⟨ex, _, hr⟩ := ReceivePacket_of_invalid jb buffer length frameNumber
      fragmentNumber num hv
    rw [hr] at hok; cases hok

/-- C28: lazy, once-only worker start.  Both worker-launched flags are false after
construction (and no worker thread exists); in every reachable state, after a
`ReceivePacket` call that returns success (also one that returns early because the frame is
stale) both flags are true; no step resets a flag that is true; and a `ReceivePacket` call
made while a flag is true leaves the thread of that worker as it is: the worker is not
started a second time. -/
theorem C28_lazy_worker_start (decoder : IDecoder) (renderer : IRenderer) :
    (World.init.jb.m_recycleTaskLaunched = false ∧
      World.init.jb.m_dataProcessingTaskLaunched = false ∧
      World.init.jb.m_recyclerThread = none ∧
      World.init.jb.m_dataProcessingThread = none) ∧
    (∀ (t : List Step) (buffer : CharPtr)
        (length frameNumber fragmentNumber numFragmentsInThisFrame : Int),
      ((World.run decoder renderer World.init t).jb.ReceivePacket buffer length frameNumber
        fragmentNumber numFragmentsInThisFrame).2 = .ok () →
      ((World.run decoder renderer World.init t).jb.ReceivePacket buffer length frameNumber
        fragmentNumber numFragmentsInThisFrame).1.m_recycleTaskLaunched = true ∧
      ((World.run decoder renderer World.init t).jb.ReceivePacket buffer length frameNumber
        fragmentNumber numFragmentsInThisFrame).1.m_dataProcessingTaskLaunched = true) ∧
    (∀ (w : World) (s : Step),
      (w.jb.m_recycleTaskLaunched = true →
        (w.step decoder renderer s).jb.m_recycleTaskLaunched = true) ∧
      (w.jb.m_dataProcessingTaskLaunched = true →
        (w.step decoder renderer s).jb.m_dataProcessingTaskLaunched = true)) ∧
    (∀ (jb : JitterBufferImpl) (buffer : CharPtr)
        (length frameNumber fragmentNumber numFragmentsInThisFrame : Int),
      (jb.m_recycleTaskLaunched = true →
        (jb.ReceivePacket buffer length frameNumber fragmentNumber
          numFragmentsInThisFrame).1.m_recyclerThread = jb.m_recyclerThread) ∧
      (jb.m_dataProcessingTaskLaunched = true →
        (jb.ReceivePacket buffer length frameNumber fragmentNumber
          numFragmentsInThisFrame).1.m_dataProcessingThread = jb.m_dataProcessingThread)) := by
  have hlaunch : ∀ (jb : JitterBufferImpl) (buffer : CharPtr)
      (length frameNumber fragmentNumber num : Int),
      ((jb.m_recycleTaskLaunched = true →
        (jb.ReceivePacket buffer length frameNumber fragmentNumber num).1.m_recycleTaskLaunched
          = true) ∧
      (jb.m_dataProcessingTaskLaunched = true →
        (jb.ReceivePacket buffer length frameNumber fragmentNumber
          num).1.m_dataProcessingTaskLaunched = true)) ∧
      ((jb.m_recycleTaskLaunched = true →
        (jb.ReceivePacket buffer length frameNumber fragmentNumber num).1.m_recyclerThread =
          jb.m_recyclerThread) ∧
      (jb.m_dataProcessingTaskLaunched = true →
        (jb.ReceivePacket buffer length frameNumber fragmentNumber
          num).1.m_dataProcessingThread = jb.m_dataProcessingThread)) := by
    intro jb buffer length frameNumber fragmentNumber num
    rcases ReceivePacket_state jb buffer length frameNumber fragmentNumber num with
      hr | ⟨mem, _, _, _, _, _, ⟨_, hr⟩ | ⟨fb, _, hr⟩⟩
    · rw [hr]; exact ⟨⟨fun h => h, fun h => h⟩, ⟨fun _ => rfl, fun _ => rfl⟩⟩
    · rw [hr]
      refine ⟨⟨fun _ => (launch_fields _).2.2.2.2.2.1,
        fun _ => (launch_fields _).2.2.2.2.2.2.1⟩, ⟨?_, ?_⟩⟩
      · intro h
        rw [(launch_fields _).2.2.2.2.2.2.2.1]
        show (if jb.m_recycleTaskLaunched = true then jb.m_recyclerThread
          else some Thread.running) = _
        rw [if_pos h]
      · intro h
        rw [(launch_fields _).2.2.2.2.2.2.2.2]
        show (if jb.m_dataProcessingTaskLaunched = true then jb.m_dataProcessingThread
          else some Thread.running) = _
        rw [if_pos h]
    · rw [hr]
      refine ⟨⟨fun _ => (launch_fields _).2.2.2.2.2.1,
        fun _ => (launch_fields _).2.2.2.2.2.2.1⟩, ⟨?_, ?_⟩⟩
      · intro h
        rw [(launch_fields _).2.2.2.2.2.2.2.1]
        show (if jb.m_recycleTaskLaunched = true then jb.m_recyclerThread
          else some Thread.running) = _
        rw [if_pos h]
      · intro h
        rw [(launch_fields _).2.2.2.2.2.2.2.2]
        show (if jb.m_dataProcessingTaskLaunched = true then jb.m_dataProcessingThread
          else some Thread.running) = _
        rw [if_pos h]
  refine ⟨⟨rfl, rfl, rfl, rfl⟩, ?_, ?_, ?_⟩
  · intro t buffer length frameNumber fragmentNumber num hok
    exact ReceivePacket_launched _ buffer length frameNumber fragmentNumber num
      (flags_run decoder renderer t World.init (World.init_inv decoder)
        (Or.inr ⟨rfl, rfl, rfl⟩)) hok
  · intro w s
    cases s with
    | ReceivePacket buffer length frameNumber fragmentNumber num =>
      exact (hlaunch w.jb buffer length frameNumber fragmentNumber num).1
    | RecycleExistingFrames =>
      show (_ → w.jb.RecycleExistingFrames.m_recycleTaskLaunched = true) ∧
        (_ → w.jb.RecycleExistingFrames.m_dataProcessingTaskLaunched = true)
      rw [(RecycleExistingFrames_fields w.jb).1, (RecycleExistingFrames_fields w.jb).2.1]
      exact ⟨fun h => h, fun h => h⟩
    | ProcessCompletedFrames =>
      show (_ → (JitterBufferImpl.ProcessCompletedFrames decoder renderer
          w).jb.m_recycleTaskLaunched = true) ∧
        (_ → (JitterBufferImpl.ProcessCompletedFrames decoder renderer
          w).jb.m_dataProcessingTaskLaunched = true)
      rw [(ProcessCompletedFrames_fields decoder renderer w).1,
        (ProcessCompletedFrames_fields decoder renderer w).2.1]
      exact ⟨fun h => h, fun h => h⟩
  · intro jb buffer length frameNumber fragmentNumber num
    exact (hlaunch jb buffer length frameNumber fragmentNumber num).2

end JitterBuffer

namespace JitterBuffer

/-! ## Claim on the completeness of dispatched frames -/

/-- The inner loop of a recycler pass takes the frames it promotes from the entries it
visits, complete ones only, and leaves in the store entries that were in it. -/
theorem recycle_loop_members (it : List (Int × FrameBuffer)) (unsorted : FrameBuffers)
    (last : Int) (temp : FrameList) :
    (∀ fb ∈ (JitterBufferImpl.RecycleExistingFrames.loop it unsorted last temp).2.2,
      fb ∈ temp ∨ (fb.IsFrameComplete = true ∧ ∃ k, (k, fb) ∈ it)) ∧
    (∀ e ∈ (JitterBufferImpl.RecycleExistingFrames.loop it unsorted last temp).1,
      e ∈ unsorted) := by
  induction it generalizing unsorted last temp with
  | nil => exact ⟨fun fb h => Or.inl h, fun e h => h⟩
  | cons e0 it ih =>
    obtain ⟨frameNumber, frameBuffer⟩ := e0
    unfold JitterBufferImpl.RecycleExistingFrames.loop
    by_cases hc : (frameBuffer.IsFrameComplete && decide (frameNumber = last + 1)) = true
    · rw [if_pos hc]
      obtain ⟨h1, h2⟩ := ih (unsorted.erase frameNumber) (last + 1) (temp ++ [frameBuffer])
      refine ⟨?_, ?_⟩
      · intro fb hfb
        rcases h1 fb hfb with h | ⟨h, k, hk⟩
        · rcases List.mem_append.mp h with h | h
          · exact Or.inl h
          · rw [List.mem_singleton.mp h]
            refine Or.inr ⟨?_, frameNumber, List.mem_cons_self _ _⟩
            simp only [Bool.and_eq_true] at hc
            exact hc.1
        · exact Or.inr ⟨h, k, List.mem_cons_of_mem _ hk⟩
      · intro e he
        have := h2 e he
        unfold FrameBuffers.erase at this
        exact (List.mem_filter.mp this).1
    · rw [if_neg hc]
      obtain ⟨h1, h2⟩ := ih unsorted last temp
      refine ⟨?_, h2⟩
      intro fb hfb
      rcases h1 fb hfb with h | ⟨h, k, hk⟩
      · exact Or.inl h
      · exact Or.inr ⟨h, k, List.mem_cons_of_mem _ hk⟩

theorem RecycleExistingFrames_members (jb : JitterBufferImpl) :
    (∀ fb ∈ JitterBufferImpl.RecycleExistingFrames.tempArray jb,
      fb.IsFrameComplete = true ∧ ∃ k, (k, fb) ∈ jb.m_unsortedFrameBuffers) ∧
    (∀ e ∈ jb.RecycleExistingFrames.m_unsortedFrameBuffers, e ∈ jb.m_unsortedFrameBuffers) := by
  unfold JitterBufferImpl.RecycleExistingFrames JitterBufferImpl.RecycleExistingFrames.tempArray
  by_cases hrun : jb.m_recyclerThread = some Thread.running ∧ jb.m_shutdownRequested = false
  · rw [if_pos hrun, if_pos hrun]
    obtain ⟨h1, h2⟩ := recycle_loop_members jb.m_unsortedFrameBuffers
      jb.m_unsortedFrameBuffers jb.m_lastDecodedFrameNumber []
    refine ⟨?_, h2⟩
    intro fb hfb
    rcases h1 fb hfb with h | h
    · simp at h
    · exact h
  · rw [if_neg hrun, if_neg hrun]
    exact ⟨fun fb h => by simp at h, fun e h => h⟩

end JitterBuffer

namespace JitterBuffer

/-! ## Claims on the recycler pass -/

/-- In reachable states nothing has requested the shutdown, a launched recycler is running,
and the store is empty as long as the recycler is not launched.  Each step keeps this. -/
theorem recycler_step (decoder : IDecoder) (renderer : IRenderer) (w : World) (s : Step)
    (h : w.jb.m_shutdownRequested = false ∧
      (w.jb.m_recycleTaskLaunched = true → w.jb.m_recyclerThread = some Thread.running) ∧
      (w.jb.m_recycleTaskLaunched = false → w.jb.m_unsortedFrameBuffers = [])) :
    (w.step decoder renderer s).jb.m_shutdownRequested = false ∧
    ((w.step decoder renderer s).jb.m_recycleTaskLaunched = true →
      (w.step decoder renderer s).jb.m_recyclerThread = some Thread.running) ∧
    ((w.step decoder renderer s).jb.m_recycleTaskLaunched = false →
      (w.step decoder renderer s).jb.m_unsortedFrameBuffers = []) := by
  obtain ⟨h1, h2, h3⟩ := h
  cases s with
  | ReceivePacket buffer length frameNumber fragmentNumber num =>
    show (w.jb.ReceivePacket buffer length frameNumber fragmentNumber
        num).1.m_shutdownRequested = false ∧
      ((w.jb.ReceivePacket buffer length frameNumber fragmentNumber
        num).1.m_recycleTaskLaunched = true →
        (w.jb.ReceivePacket buffer length frameNumber fragmentNumber
          num).1.m_recyclerThread = some Thread.running) ∧
      ((w.jb.ReceivePacket buffer length frameNumber fragmentNumber
        num).1.m_recycleTaskLaunched = false →
        (w.jb.ReceivePacket buffer length frameNumber fragmentNumber
          num).1.m_unsortedFrameBuffers = [])
    have key : ∀ jb2 : JitterBufferImpl, jb2.m_shutdownRequested = false →
        (jb2.m_recycleTaskLaunched = true → jb2.m_recyclerThread = some Thread.running) →
        (JitterBufferImpl.ReceivePacket.launch jb2).m_shutdownRequested = false ∧
        ((JitterBufferImpl.ReceivePacket.launch jb2).m_recycleTaskLaunched = true →
          (JitterBufferImpl.ReceivePacket.launch jb2).m_recyclerThread =
            some Thread.running) ∧
        ((JitterBufferImpl.ReceivePacket.launch jb2).m_recycleTaskLaunched = false →
          (JitterBufferImpl.ReceivePacket.launch jb2).m_unsortedFrameBuffers = []) := by
      intro jb2 g1 g2
      refine ⟨by rw [(launch_fields jb2).2.2.2.2.1]; exact g1, ?_, ?_⟩
      · intro _
        rw [(launch_fields jb2).2.2.2.2.2.2.2.1]
        cases hl : jb2.m_recycleTaskLaunched with
        | false => simp
        | true => simpa using g2 hl
      · intro hf
        rw [(launch_fields jb2).2.2.2.2.2.1] at hf
        cases hf
    rcases ReceivePacket_state w.jb buffer length frameNumber fragmentNumber num with
      hr | ⟨mem, _, _, _, _, _, ⟨_, hr⟩ | ⟨fb, _, hr⟩⟩
    · rw [hr]; exact ⟨h1, h2, h3⟩
    · rw [hr]; exact key _ h1 h2
    · rw [hr]; exact key _ h1 h2
  | RecycleExistingFrames =>
    show w.jb.RecycleExistingFrames.m_shutdownRequested = false ∧
      (w.jb.RecycleExistingFrames.m_recycleTaskLaunched = true →
        w.jb.RecycleExistingFrames.m_recyclerThread = some Thread.running) ∧
      (w.jb.RecycleExistingFrames.m_recycleTaskLaunched = false →
        w.jb.RecycleExistingFrames.m_unsortedFrameBuffers = [])
    rw [(RecycleExistingFrames_fields w.jb).1, (RecycleExistingFrames_fields w.jb).2.2.1,
      (RecycleExistingFrames_fields w.jb).2.2.2.2]
    refine ⟨h1, h2, ?_⟩
    intro hf
    apply List.eq_nil_iff_forall_not_mem.mpr
    intro e he
    have := (RecycleExistingFrames_members w.jb).2 e he
    rw [h3 hf] at this
    simp at this
  | ProcessCompletedFrames =>
    show (JitterBufferImpl.ProcessCompletedFrames decoder renderer
        w).jb.m_shutdownRequested = false ∧
      ((JitterBufferImpl.ProcessCompletedFrames decoder renderer
        w).jb.m_recycleTaskLaunched = true →
        (JitterBufferImpl.ProcessCompletedFrames decoder renderer
          w).jb.m_recyclerThread = some Thread.running) ∧
      ((JitterBufferImpl.ProcessCompletedFrames decoder renderer
        w).jb.m_recycleTaskLaunched = false →
        (JitterBufferImpl.ProcessCompletedFrames decoder renderer
          w).jb.m_unsortedFrameBuffers = [])
    rw [(ProcessCompletedFrames_fields decoder renderer w).1,
      (ProcessCompletedFrames_fields decoder renderer w).2.2.1,
      (ProcessCompletedFrames_fields decoder renderer w).2.2.2.1,
      (ProcessCompletedFrames_frame decoder renderer w).1]
    exact ⟨h1, h2, h3⟩

theorem recycler_run (decoder : IDecoder) (renderer : IRenderer) (t : List Step) (w : World)
    (h : w.jb.m_shutdownRequested = false ∧
      (w.jb.m_recycleTaskLaunched = true → w.jb.m_recyclerThread = some Thread.running) ∧
      (w.jb.m_recycleTaskLaunched = false → w.jb.m_unsortedFrameBuffers = [])) :
    (w.run decoder renderer t).jb.m_shutdownRequested = false ∧
    ((w.run decoder renderer t).jb.m_recycleTaskLaunched = true →
      (w.run decoder renderer t).jb.m_recyclerThread = some Thread.running) ∧
    ((w.run decoder renderer t).jb.m_recycleTaskLaunched = false →
      (w.run decoder renderer t).jb.m_unsortedFrameBuffers = []) := by
  induction t generalizing w with
  | nil => exact h
  | cons s t ih => exact ih _ (recycler_step decoder renderer w s h)

/-- The run of ready frames at the head of the store is maximal: the frame that would
continue it is absent from the store or incomplete. -/
theorem readyRun_maximal (m : FrameBuffers) (last : Int)
    (hs : (m.map Prod.fst).Pairwise (fun a b => a < b))
    (ha : ∀ e ∈ m, last < e.1) :
    ¬ ∃ fb, m.find (last + (readyRun m last : Int) + 1) = some fb ∧
      fb.IsFrameComplete = true := by
  induction m generalizing last with
  | nil => simp [FrameBuffers.find]
  | cons e rest ih =>
    obtain ⟨k, fb0⟩ := e
    simp only [List.map_cons, List.pairwise_cons] at hs
    by_cases hp : (fb0.IsFrameComplete && decide (k = last + 1)) = true
    · have hk : k = last + 1 := by
        simp only [Bool.and_eq_true, decide_eq_true_eq] at hp
        exact hp.2
      have hrest : ∀ e ∈ rest, last + 1 < e.1 := by
        intro e he
        have := hs.1 e.1 (List.mem_map_of_mem _ he)
        omega
      have h := ih (last + 1) hs.2 hrest
      simp only [readyRun, hp, if_true, Nat.cast_add, Nat.cast_one]
      rintro ⟨fb, hfind, hc⟩
      apply h
      refine ⟨fb, ?_, hc⟩
      have hne : ¬ k = last + ((readyRun rest (last + 1) : Int) + 1) + 1 := by omega
      simp only [FrameBuffers.find, hne, if_false] at hfind
      rw [← hfind]
      congr 1
      omega
    · simp only [readyRun, hp, Bool.false_eq_true, if_false, Nat.cast_zero, add_zero]
      rintro ⟨fb, hfind, hc⟩
      by_cases hk : k = last + 1
      · simp only [FrameBuffers.find, hk, if_true, Option.some.injEq] at hfind
        rw [hfind] at hp
        simp [hc, hk] at hp
      · simp only [FrameBuffers.find, hk, if_false] at hfind
        have hmem := find_some_mem rest (last + 1) fb hfind
        have h1 := hs.1 (last + 1) (List.mem_map_of_mem Prod.fst hmem)
        have h2 := ha (k, fb0) (List.mem_cons_self _ _)
        simp only at h1 h2
        omega

/-- C23: one recycler pass over a reachable state with watermark `L` promotes exactly the
maximal run of frames `L+1, ..., L+m` that are present in the unsorted store and complete:
these are the first `m` entries of the store; the pass removes them from the store, appends
them to the ready queue in ascending frame-number order and sets the watermark to `L+m`;
every other store entry stays in the store, unchanged; frame `L+m+1` is absent from the
store or incomplete; and if frame `L+1` is absent or incomplete the pass changes nothing. -/
theorem C23_recycler_pass (decoder : IDecoder) (renderer : IRenderer) (t : List Step) :
    ∃ m : Nat,
      m ≤ (World.run decoder renderer World.init t).jb.m_unsortedFrameBuffers.length ∧
      ((World.run decoder renderer World.init t).jb.m_unsortedFrameBuffers.take m).map
          Prod.fst =
        (List.range m).map (fun (i : Nat) =>
          (World.run decoder renderer World.init t).jb.m_lastDecodedFrameNumber + 1 +
            (i : Int)) ∧
      (∀ e ∈ (World.run decoder renderer World.init t).jb.m_unsortedFrameBuffers.take m,
        e.2.IsFrameComplete = true ∧
        (World.run decoder renderer World.init t).jb.m_unsortedFrameBuffers.find e.1 =
          some e.2) ∧
      (¬ ∃ fb, (World.run decoder renderer World.init t).jb.m_unsortedFrameBuffers.find
          ((World.run decoder renderer World.init t).jb.m_lastDecodedFrameNumber +
            (m : Int) + 1) = some fb ∧ fb.IsFrameComplete = true) ∧
      (World.run decoder renderer World.init t).jb.RecycleExistingFrames =
        { (World.run decoder renderer World.init t).jb with
          m_unsortedFrameBuffers :=
            (World.run decoder renderer World.init t).jb.m_unsortedFrameBuffers.drop m
          m_lastDecodedFrameNumber :=
            (World.run decoder renderer World.init t).jb.m_lastDecodedFrameNumber + (m : Int)
          m_sortedFrameBuffers :=
            (World.run decoder renderer World.init t).jb.m_sortedFrameBuffers ++
              ((World.run decoder renderer World.init t).jb.m_unsortedFrameBuffers.take
                m).map Prod.snd } ∧
      ((¬ ∃ fb, (World.run decoder renderer World.init t).jb.m_unsortedFrameBuffers.find
          ((World.run decoder renderer World.init t).jb.m_lastDecodedFrameNumber + 1) =
            some fb ∧ fb.IsFrameComplete = true) →
        (World.run decoder renderer World.init t).jb.RecycleExistingFrames =
          (World.run decoder renderer World.init t).jb) := by
  have hinv := (World.run_inv decoder renderer t World.init (World.init_inv decoder)).jb
  have hrec := recycler_run decoder renderer t World.init
    ⟨rfl, fun h => by simp [World.init, JitterBufferImpl.init] at h, fun _ => rfl⟩
  generalize (World.run decoder renderer World.init t).jb = jb at hinv hrec
  obtain ⟨hshut, hthread, hempty⟩ := hrec
  obtain ⟨hn, hcomp, hkeys⟩ := readyRun_spec jb.m_unsortedFrameBuffers
    jb.m_lastDecodedFrameNumber
  have hpass : jb.RecycleExistingFrames =
      { jb with
        m_unsortedFrameBuffers := jb.m_unsortedFrameBuffers.drop
          (readyRun jb.m_unsortedFrameBuffers jb.m_lastDecodedFrameNumber)
        m_lastDecodedFrameNumber := jb.m_lastDecodedFrameNumber +
          (readyRun jb.m_unsortedFrameBuffers jb.m_lastDecodedFrameNumber : Int)
        m_sortedFrameBuffers := jb.m_sortedFrameBuffers ++
          (jb.m_unsortedFrameBuffers.take
            (readyRun jb.m_unsortedFrameBuffers jb.m_lastDecodedFrameNumber)).map
              Prod.snd } := by
    by_cases hl : jb.m_recycleTaskLaunched = true
    · exact RecycleExistingFrames_of_running jb hinv (hthread hl) hshut
    · have hl2 : jb.m_recycleTaskLaunched = false := by simpa using hl
      have h0 : readyRun jb.m_unsortedFrameBuffers jb.m_lastDecodedFrameNumber = 0 := by
        rw [hempty hl2]; rfl
      rw [RecycleExistingFrames_of_idle jb
        (fun hr => by rw [hinv.flagR hl2] at hr; cases hr.1), h0]
      cases jb
      simp
  refine ⟨readyRun jb.m_unsortedFrameBuffers jb.m_lastDecodedFrameNumber, hn, ?_, ?_,
    readyRun_maximal _ _ hinv.sorted hinv.above, hpass, ?_⟩
  · rw [hkeys]
  · intro e he
    refine ⟨hcomp e he, ?_⟩
    exact find_of_mem _ e.1 e.2 hinv.sorted (List.mem_of_mem_take he)
  · intro hno
    have h0 : readyRun jb.m_unsortedFrameBuffers jb.m_lastDecodedFrameNumber = 0 := by
      by_contra hne
      have hpos : 0 < readyRun jb.m_unsortedFrameBuffers jb.m_lastDecodedFrameNumber :=
        Nat.pos_of_ne_zero hne
      cases hm : jb.m_unsortedFrameBuffers with
      | nil => rw [hm] at hpos; simp [readyRun] at hpos
      | cons e rest =>
        obtain ⟨k, fb⟩ := e
        rw [hm] at hpos
        by_cases hp : (fb.IsFrameComplete && decide (k = jb.m_lastDecodedFrameNumber + 1))
            = true
        · simp only [Bool.and_eq_true, decide_eq_true_eq] at hp
          apply hno
          refine ⟨fb, ?_, hp.1⟩
          rw [hm]
          simp [FrameBuffers.find, hp.2]
        · simp [readyRun, hp] at hpos
    rw [hpass, h0]
    cases jb
    simp

end JitterBuffer

namespace JitterBuffer

/-! ## The recycler pass against the specification's `drain_sequential` -/

/-- Visited in the same order, a scan of the specification is the inner loop of the code. -/
theorem scan_eq_loop (it : List (Int × FrameBuffer)) (store : FrameBuffers) (last : Int)
    (into : FrameList) :
    Spec.scan it store last into =
      JitterBufferImpl.RecycleExistingFrames.loop it store last into := by
  induction it generalizing store last into with
  | nil => rfl
  | cons e it ih =>
    obtain ⟨k, fb⟩ := e
    unfold Spec.scan JitterBufferImpl.RecycleExistingFrames.loop
    by_cases hc : fb.IsFrameComplete = true ∧ k = last + 1
    · rw [if_pos hc, if_pos (by simp [hc.1, hc.2]), ih]
    · rw [if_neg hc, if_neg (by simpa using hc), ih]

/-- Entry `j` of the store, for `j` inside the ready run, is the complete frame
`last + j + 1`. -/
theorem readyRun_head (m : FrameBuffers) (last : Int) (j : Nat) (hj : j < readyRun m last) :
    ∃ k fb, m.drop j = (k, fb) :: m.drop (j + 1) ∧ fb.IsFrameComplete = true ∧
      k = last + (j : Int) + 1 := by
  induction m generalizing last j with
  | nil => simp [readyRun] at hj
  | cons e rest ih =>
    obtain ⟨k0, fb0⟩ := e
    by_cases hp : (fb0.IsFrameComplete && decide (k0 = last + 1)) = true
    · have hp2 := hp
      simp only [Bool.and_eq_true, decide_eq_true_eq] at hp2
      simp only [readyRun, hp, if_true] at hj
      cases j with
      | zero => exact ⟨k0, fb0, rfl, hp2.1, by simp [hp2.2]⟩
      | succ j =>
        obtain ⟨k, fb, h1, h2, h3⟩ := ih (last + 1) j (by omega)
        refine ⟨k, fb, h1, h2, ?_⟩
        rw [h3]; push_cast; ring
    · simp [readyRun, hp] at hj

/-- A complete entry of the store numbered `last + j + 1`, with `j` not beyond the ready
run, is entry `j` of the store and belongs to the ready run. -/
theorem ready_entry (m : FrameBuffers) (last : Int) (j : Nat)
    (hs : (m.map Prod.fst).Pairwise (fun a b => a < b))
    (ha : ∀ e ∈ m, last < e.1) (hj : j ≤ readyRun m last)
    (k : Int) (fb : FrameBuffer) (hmem : (k, fb) ∈ m) (hc : fb.IsFrameComplete = true)
    (hk : k = last + (j : Int) + 1) :
    j < readyRun m last ∧ m.drop j = (k, fb) :: m.drop (j + 1) := by
  induction m generalizing last j with
  | nil => simp at hmem
  | cons e rest ih =>
    obtain ⟨k0, fb0⟩ := e
    simp only [List.map_cons, List.pairwise_cons] at hs
    have hk0 := ha (k0, fb0) (List.mem_cons_self _ _)
    simp only at hk0
    cases j with
    | zero =>
      simp only [Nat.cast_zero, add_zero] at hk
      rcases List.mem_cons.mp hmem with h | h
      · cases h
        refine ⟨?_, rfl⟩
        simp [readyRun, hc, hk]
      · have := hs.1 k (List.mem_map_of_mem Prod.fst h)
        omega
    | succ j =>
      by_cases hp : (fb0.IsFrameComplete && decide (k0 = last + 1)) = true
      · have hp2 := hp
        simp only [Bool.and_eq_true, decide_eq_true_eq] at hp2
        simp only [readyRun, hp, if_true] at hj ⊢
        have hrest : ∀ e ∈ rest, last + 1 < e.1 := by
          intro e he
          have := hs.1 e.1 (List.mem_map_of_mem _ he)
          omega
        rcases List.mem_cons.mp hmem with h | h
        · cases h
          push_cast at hk
          omega
        · obtain ⟨g1, g2⟩ := ih (last + 1) j hs.2 hrest (by omega) h
            (by rw [hk]; push_cast; ring)
          exact ⟨by omega, g2⟩
      · simp [readyRun, hp] at hj

/-- What is left of the store after the first `j` frames of the ready run lies above
`last + j`. -/
theorem drop_above (m : FrameBuffers) (last : Int) (j : Nat)
    (hs : (m.map Prod.fst).Pairwise (fun a b => a < b))
    (ha : ∀ e ∈ m, last < e.1) (hj : j ≤ readyRun m last) :
    ∀ e ∈ m.drop j, last + (j : Int) < e.1 := by
  induction m generalizing last j with
  | nil => simp
  | cons e0 rest ih =>
    obtain ⟨k0, fb0⟩ := e0
    simp only [List.map_cons, List.pairwise_cons] at hs
    cases j with
    | zero => simpa using ha
    | succ j =>
      by_cases hp : (fb0.IsFrameComplete && decide (k0 = last + 1)) = true
      · have hp2 := hp
        simp only [Bool.and_eq_true, decide_eq_true_eq] at hp2
        simp only [readyRun, hp, if_true] at hj
        have hrest : ∀ e ∈ rest, last + 1 < e.1 := by
          intro e he
          have := hs.1 e.1 (List.mem_map_of_mem _ he)
          omega
        intro e he
        have := ih (last + 1) j hs.2 hrest (by omega) e (by simpa using he)
        push_cast
        omega
      · simp [readyRun, hp] at hj

theorem drop_sorted (m : FrameBuffers) (j : Nat)
    (hs : (m.map Prod.fst).Pairwise (fun a b => a < b)) :
    ((m.drop j).map Prod.fst).Pairwise (fun a b => a < b) := by
  rw [List.map_drop]
  exact hs.sublist (List.drop_sublist _ _)

theorem readyRun_drop_sub (m : FrameBuffers) (last : Int) (j : Nat)
    (hj : j ≤ readyRun m last) :
    readyRun (m.drop j) (last + (j : Int)) = readyRun m last - j := by
  induction m generalizing last j with
  | nil => simp [readyRun]
  | cons e0 rest ih =>
    obtain ⟨k0, fb0⟩ := e0
    cases j with
    | zero => simp
    | succ j =>
      by_cases hp : (fb0.IsFrameComplete && decide (k0 = last + 1)) = true
      · simp only [readyRun, hp, if_true] at hj ⊢
        have := ih (last + 1) j (by omega)
        simp only [List.drop_succ_cons]
        rw [show last + ((j + 1 : Nat) : Int) = last + 1 + (j : Int) by push_cast; ring, this]
        omega
      · simp [readyRun, hp] at hj

/-- A scan of the specification that visits entries of the store in any order, started when
the first `j` frames of the ready run are already drained: it drains the ready run further,
up to some `j2`; and it makes progress if it visits the next frame of the run. -/
theorem scan_any_order (m : FrameBuffers) (last : Int)
    (hs : (m.map Prod.fst).Pairwise (fun a b => a < b))
    (ha : ∀ e ∈ m, last < e.1)
    (it : List (Int × FrameBuffer)) (hit : ∀ e ∈ it, e ∈ m) (j : Nat)
    (hj : j ≤ readyRun m last) (into : FrameList) :
    ∃ j2, j ≤ j2 ∧ j2 ≤ readyRun m last ∧
      Spec.scan it (m.drop j) (last + (j : Int)) (into ++ (m.take j).map Prod.snd) =
        (m.drop j2, last + (j2 : Int), into ++ (m.take j2).map Prod.snd) ∧
      (j < readyRun m last → (∀ e ∈ (m.drop j).head?, e ∈ it) → j < j2) := by
  induction it generalizing j with
  | nil =>
    refine ⟨j, le_refl _, hj, rfl, ?_⟩
    intro hlt hhead
    obtain ⟨k, fb, h1, _, _⟩ := readyRun_head m last j hlt
    have := hhead (k, fb) (by rw [h1]; rfl)
    simp at this
  | cons e it ih =>
    obtain ⟨k, fb⟩ := e
    have hit2 : ∀ e ∈ it, e ∈ m := fun e he => hit e (List.mem_cons_of_mem _ he)
    unfold Spec.scan
    by_cases hc : fb.IsFrameComplete = true ∧ k = last + (j : Int) + 1
    · rw [if_pos hc]
      obtain ⟨hlt, hdrop⟩ := ready_entry m last j hs ha hj k fb
        (hit _ (List.mem_cons_self _ _)) hc.1 hc.2
      have herase : FrameBuffers.erase (m.drop j) k = m.drop (j + 1) := by
        rw [hdrop]
        apply erase_head
        intro e he
        have hsd := drop_sorted m j hs
        rw [hdrop] at hsd
        simp only [List.map_cons, List.pairwise_cons] at hsd
        exact hsd.1 e.1 (List.mem_map_of_mem _ he)
      have htake : m.take (j + 1) = m.take j ++ [(k, fb)] := by
        have h1 : m.take (j + 1) = m.take j ++ (m.drop j).take 1 := by
          rw [List.take_add]
        rw [h1, hdrop]
        rfl
      obtain ⟨j2, g1, g2, g3, _⟩ := ih hit2 (j + 1) (by omega)
      refine ⟨j2, by omega, g2, ?_, fun _ _ => by omega⟩
      rw [herase, ← g3, htake]
      simp only [List.map_append, List.map_cons, List.map_nil, List.append_assoc,
        Nat.cast_add, Nat.cast_one]
      congr 1
      ring
    · rw [if_neg hc]
      obtain ⟨j2, g1, g2, g3, g4⟩ := ih hit2 j hj
      refine ⟨j2, g1, g2, g3, ?_⟩
      intro hlt hhead
      apply g4 hlt
      intro e he
      have hmem := hhead e he
      rcases List.mem_cons.mp hmem with h | h
      · exfalso
        obtain ⟨k2, fb2, h1, h2, h3⟩ := readyRun_head m last j hlt
        rw [h1] at he
        simp only [List.head?_cons, Option.mem_def, Option.some.injEq] at he
        rw [← he] at h
        cases h
        exact hc ⟨h2, h3⟩
      · exact h

/-- With enough fuel, `drain_sequential` drains exactly the ready run, whatever the order in
which its scans visit the entries. -/
theorem drain_sequential_eq (order : FrameBuffers → List (Int × FrameBuffer))
    (horder : ∀ store, (order store).Perm store) (fuel : Nat) (m : FrameBuffers) (last : Int)
    (into : FrameList)
    (hs : (m.map Prod.fst).Pairwise (fun a b => a < b))
    (ha : ∀ e ∈ m, last < e.1) (hfuel : readyRun m last < fuel) :
    Spec.drain_sequential order fuel m last into =
      (m.drop (readyRun m last), last + (readyRun m last : Int),
        into ++ (m.take (readyRun m last)).map Prod.snd) := by
  induction fuel generalizing m last into with
  | zero => omega
  | succ fuel ih =>
    obtain ⟨j2, _, g2, g3, g4⟩ := scan_any_order m last hs ha (order m)
      (fun e he => (horder m).mem_iff.mp he) 0 (Nat.zero_le _) into
    simp only [List.drop_zero, Nat.cast_zero, add_zero, List.take_zero, List.map_nil,
      List.append_nil] at g3 g4
    unfold Spec.drain_sequential
    rw [g3]
    by_cases hprog : last + (j2 : Int) = last
    · rw [if_pos hprog]
      have hj0 : j2 = 0 := by omega
      have hn0 : readyRun m last = 0 := by
        by_contra hne
        have := g4 (Nat.pos_of_ne_zero hne)
          (fun e he => (horder m).mem_iff.mpr (List.mem_of_mem_head? he))
        omega
      rw [hj0, hn0]
    · rw [if_neg hprog]
      have hj1 : 0 < j2 := by
        rcases Nat.eq_zero_or_pos j2 with h | h
        · rw [h] at hprog; simp at hprog
        · exact h
      have hsub := readyRun_drop_sub m last j2 g2
      rw [ih (m.drop j2) (last + (j2 : Int)) _ (drop_sorted m j2 hs)
        (drop_above m last j2 hs ha g2) (by omega), hsub]
      have hsum : j2 + (readyRun m last - j2) = readyRun m last := by omega
      refine Prod.ext ?_ (Prod.ext ?_ ?_)
      · show (m.drop j2).drop (readyRun m last - j2) = m.drop (readyRun m last)
        rw [List.drop_drop, hsum]
      · show last + (j2 : Int) + ((readyRun m last - j2 : Nat) : Int) =
          last + (readyRun m last : Int)
        omega
      · show into ++ (m.take j2).map Prod.snd ++
          ((m.drop j2).take (readyRun m last - j2)).map Prod.snd =
            into ++ (m.take (readyRun m last)).map Prod.snd
        rw [List.append_assoc, ← List.map_append, ← List.take_add, hsum]

/-- A recycler pass in a state that satisfies the invariants of the reachable states: the new
state and the batch, in terms of the ready run. -/
theorem pass_of_reachable (jb : JitterBufferImpl) (hinv : jb.Inv)
    (hshut : jb.m_shutdownRequested = false)
    (hthread : jb.m_recycleTaskLaunched = true → jb.m_recyclerThread = some Thread.running)
    (hempty : jb.m_recycleTaskLaunched = false → jb.m_unsortedFrameBuffers = []) :
    jb.RecycleExistingFrames =
      { jb with
        m_unsortedFrameBuffers := jb.m_unsortedFrameBuffers.drop
          (readyRun jb.m_unsortedFrameBuffers jb.m_lastDecodedFrameNumber)
        m_lastDecodedFrameNumber := jb.m_lastDecodedFrameNumber +
          (readyRun jb.m_unsortedFrameBuffers jb.m_lastDecodedFrameNumber : Int)
        m_sortedFrameBuffers := jb.m_sortedFrameBuffers ++
          (jb.m_unsortedFrameBuffers.take
            (readyRun jb.m_unsortedFrameBuffers jb.m_lastDecodedFrameNumber)).map
              Prod.snd } ∧
    JitterBufferImpl.RecycleExistingFrames.tempArray jb =
      (jb.m_unsortedFrameBuffers.take
        (readyRun jb.m_unsortedFrameBuffers jb.m_lastDecodedFrameNumber)).map Prod.snd := by
  by_cases hl : jb.m_recycleTaskLaunched = true
  · refine ⟨RecycleExistingFrames_of_running jb hinv (hthread hl) hshut, ?_⟩
    unfold JitterBufferImpl.RecycleExistingFrames.tempArray
    rw [if_pos ⟨hthread hl, hshut⟩, recycle_loop_eq jb.m_unsortedFrameBuffers
      jb.m_lastDecodedFrameNumber [] hinv.sorted hinv.above]
    exact List.nil_append _
  · have hl2 : jb.m_recycleTaskLaunched = false := by simpa using hl
    have hidle : ¬ (jb.m_recyclerThread = some Thread.running ∧
        jb.m_shutdownRequested = false) :=
      fun hr => by rw [hinv.flagR hl2] at hr; cases hr.1
    have h0 : readyRun jb.m_unsortedFrameBuffers jb.m_lastDecodedFrameNumber = 0 := by
      rw [hempty hl2]; rfl
    refine ⟨?_, ?_⟩
    · rw [RecycleExistingFrames_of_idle jb hidle, h0]
      cases jb
      simp
    · unfold JitterBufferImpl.RecycleExistingFrames.tempArray
      rw [if_neg hidle, h0]
      rfl

/-- C24: the recycler's scan drains to a fixpoint.  In every reachable state, the single
ascending-key pass over the store performed by `RecycleExistingFrames` yields the same store,
the same watermark and the same batch as the specification's `drain_sequential`, that is as
repeating the specified scan until a pass makes no progress, whatever the order in which the
scans visit the entries and given enough fuel (more scans than the store has entries).
Immediately after a recycler pass no store entry is both complete and numbered
`last_emitted_frame + 1`, and a second pass with no intervening ingress promotes nothing and
changes nothing. -/
theorem C24_pass_is_fixpoint (decoder : IDecoder) (renderer : IRenderer) (t : List Step)
    (order : FrameBuffers → List (Int × FrameBuffer))
    (horder : ∀ store, (order store).Perm store) (fuel : Nat)
    (hfuel : (World.run decoder renderer World.init t).jb.m_unsortedFrameBuffers.length
      < fuel) :
    Spec.drain_sequential order fuel
        (World.run decoder renderer World.init t).jb.m_unsortedFrameBuffers
        (World.run decoder renderer World.init t).jb.m_lastDecodedFrameNumber [] =
      ((World.run decoder renderer World.init t).jb.RecycleExistingFrames.m_unsortedFrameBuffers,
        (World.run decoder renderer World.init
          t).jb.RecycleExistingFrames.m_lastDecodedFrameNumber,
        JitterBufferImpl.RecycleExistingFrames.tempArray
          (World.run decoder renderer World.init t).jb) ∧
    (∀ e ∈ (World.run decoder renderer World.init
        t).jb.RecycleExistingFrames.m_unsortedFrameBuffers,
      ¬ (e.2.IsFrameComplete = true ∧
        e.1 = (World.run decoder renderer World.init
          t).jb.RecycleExistingFrames.m_lastDecodedFrameNumber + 1)) ∧
    JitterBufferImpl.RecycleExistingFrames.tempArray
      (World.run decoder renderer World.init t).jb.RecycleExistingFrames = [] ∧
    (World.run decoder renderer World.init t).jb.RecycleExistingFrames.RecycleExistingFrames =
      (World.run decoder renderer World.init t).jb.RecycleExistingFrames := by
  have hinv := (World.run_inv decoder renderer t World.init (World.init_inv decoder)).jb
  have hrec := recycler_run decoder renderer t World.init
    ⟨rfl, fun h => by simp [World.init, JitterBufferImpl.init] at h, fun _ => rfl⟩
  generalize World.run decoder renderer World.init t = w at hinv hrec hfuel
  have hinv2 := RecycleExistingFrames_inv w.jb hinv
  have hrec2 := recycler_step decoder renderer w Step.RecycleExistingFrames hrec
  have hstep : (w.step decoder renderer Step.RecycleExistingFrames).jb =
      w.jb.RecycleExistingFrames := rfl
  rw [hstep] at hrec2
  obtain ⟨hpass, htemp⟩ := pass_of_reachable w.jb hinv hrec.1 hrec.2.1 hrec.2.2
  obtain ⟨hpass2, htemp2⟩ := pass_of_reachable w.jb.RecycleExistingFrames hinv2 hrec2.1
    hrec2.2.1 hrec2.2.2
  have hn := (readyRun_spec w.jb.m_unsortedFrameBuffers w.jb.m_lastDecodedFrameNumber).1
  have hstore : w.jb.RecycleExistingFrames.m_unsortedFrameBuffers =
      w.jb.m_unsortedFrameBuffers.drop
        (readyRun w.jb.m_unsortedFrameBuffers w.jb.m_lastDecodedFrameNumber) := by
    rw [hpass]
  have hlast : w.jb.RecycleExistingFrames.m_lastDecodedFrameNumber =
      w.jb.m_lastDecodedFrameNumber +
        (readyRun w.jb.m_unsortedFrameBuffers w.jb.m_lastDecodedFrameNumber : Int) := by
    rw [hpass]
  have hzero : readyRun w.jb.RecycleExistingFrames.m_unsortedFrameBuffers
      w.jb.RecycleExistingFrames.m_lastDecodedFrameNumber = 0 := by
    rw [hstore, hlast]
    exact readyRun_drop _ _
  refine ⟨?_, ?_, ?_, ?_⟩
  · rw [drain_sequential_eq order horder fuel _ _ [] hinv.sorted hinv.above (by omega),
      hstore, hlast, htemp]
    rfl
  · rintro e he ⟨hc, hk⟩
    have hmax := readyRun_maximal _ _ hinv2.sorted hinv2.above
    rw [hzero] at hmax
    apply hmax
    refine ⟨e.2, ?_, hc⟩
    have := find_of_mem _ e.1 e.2 hinv2.sorted he
    rw [hk] at this
    simpa using this
  · rw [htemp2, hzero]
    rfl
  · rw [hpass2, hzero]
    cases w.jb.RecycleExistingFrames
    simp

/-- C24, witness: frames 0 and 1 are complete in the store; `drain_sequential` visiting the
entries in descending order, with three scans allowed, gives what the recycler pass gives. -/
theorem C24_pass_is_fixpoint_witness :
    Spec.drain_sequential List.reverse 3
        (World.run StubDecoder StubRenderer World.init
          [packet [7] 1 0 1, packet [8] 0 0 1]).jb.m_unsortedFrameBuffers
        (World.run StubDecoder StubRenderer World.init
          [packet [7] 1 0 1, packet [8] 0 0 1]).jb.m_lastDecodedFrameNumber [] =
      ((World.run StubDecoder StubRenderer World.init
          [packet [7] 1 0 1, packet [8] 0 0 1]).jb.RecycleExistingFrames.m_unsortedFrameBuffers,
        (World.run StubDecoder StubRenderer World.init
          [packet [7] 1 0 1,
            packet [8] 0 0 1]).jb.RecycleExistingFrames.m_lastDecodedFrameNumber,
        JitterBufferImpl.RecycleExistingFrames.tempArray
          (World.run StubDecoder StubRenderer World.init
            [packet [7] 1 0 1, packet [8] 0 0 1]).jb) :=
  (C24_pass_is_fixpoint StubDecoder StubRenderer [packet [7] 1 0 1, packet [8] 0 0 1]
    List.reverse (fun store => List.reverse_perm store) 3 (by decide)).1

end JitterBuffer

namespace JitterBuffer

/-! ## Claim on the lock discipline -/

theorem heldAfter_append (h : List Mutex) (a b : List Event) :
    heldAfter h (a ++ b) = heldAfter (heldAfter h a) b := by
  simp [heldAfter, List.foldl_append]

theorem heldAt_append (h : List Mutex) (a b : List Event) :
    heldAt h (a ++ b) = heldAt h a ++ heldAt (heldAfter h a) b := by
  induction a generalizing h with
  | nil => rfl
  | cons e a ih =>
    show (h, e) :: heldAt (e.held h) (a ++ b) = _
    rw [ih]
    rfl

theorem head_mem_heldAlong (h : List Mutex) (es : List Event) : h ∈ heldAlong h es := by
  cases es with
  | nil => simp [heldAlong]
  | cons e es => simp [heldAlong]

theorem mem_heldAlong_append (h : List Mutex) (a b : List Event) (x : List Mutex) :
    x ∈ heldAlong h (a ++ b) ↔ x ∈ heldAlong h a ∨ x ∈ heldAlong (heldAfter h a) b := by
  induction a generalizing h with
  | nil =>
    simp only [List.nil_append, heldAlong, List.mem_singleton, heldAfter, List.foldl_nil]
    constructor
    · exact fun hx => Or.inr hx
    · rintro (hx | hx)
      · rw [hx]; exact head_mem_heldAlong h b
      · exact hx
  | cons e a ih =>
    show x ∈ h :: heldAlong (e.held h) (a ++ b) ↔
      x ∈ h :: heldAlong (e.held h) a ∨ x ∈ heldAlong (heldAfter (e.held h) a) b
    rw [List.mem_cons, List.mem_cons, ih, or_assoc]

/-- A trace made of reads and writes only leaves the held mutexes as they are. -/
theorem held_of_accesses (h : List Mutex) (es : List Event)
    (hes : ∀ e ∈ es, ∃ x, e = Event.read x ∨ e = Event.write x) :
    heldAfter h es = h ∧ (∀ p ∈ heldAt h es, p.1 = h ∧ p.2 ∈ es) ∧
      (∀ x ∈ heldAlong h es, x = h) := by
  induction es with
  | nil => simp [heldAfter, heldAt, heldAlong]
  | cons e es ih =>
    obtain ⟨x, hx⟩ := hes e (List.mem_cons_self _ _)
    have he : e.held h = h := by
      rcases hx with hx | hx <;> rw [hx] <;> rfl
    obtain ⟨i1, i2, i3⟩ := ih (fun e he => hes e (List.mem_cons_of_mem _ he))
    refine ⟨?_, ?_, ?_⟩
    · show heldAfter (e.held h) es = h
      rw [he]; exact i1
    · intro p hp
      have hp2 : p ∈ (h, e) :: heldAt (e.held h) es := hp
      rw [he] at hp2
      rcases List.mem_cons.mp hp2 with hp3 | hp3
      · rw [hp3]; exact ⟨rfl, List.mem_cons_self _ _⟩
      · exact ⟨(i2 p hp3).1, List.mem_cons_of_mem _ (i2 p hp3).2⟩
    · intro y hy
      have hy2 : y ∈ h :: heldAlong (e.held h) es := hy
      rw [he] at hy2
      rcases List.mem_cons.mp hy2 with hy3 | hy3
      · exact hy3
      · exact i3 y hy3

theorem loopEvents_accesses (it : List (Int × FrameBuffer)) (last : Int) :
    ∀ e ∈ JitterBufferImpl.RecycleExistingFrames.loopEvents it last,
      ∃ x, e = Event.read x ∨ e = Event.write x := by
  induction it generalizing last with
  | nil => simp [JitterBufferImpl.RecycleExistingFrames.loopEvents]
  | cons e0 it ih =>
    obtain ⟨k, fb⟩ := e0
    intro e he
    unfold JitterBufferImpl.RecycleExistingFrames.loopEvents at he
    rcases List.mem_cons.mp he with h | h
    · exact ⟨_, Or.inl h⟩
    · split at h
      · rcases List.mem_cons.mp h with h | h
        · exact ⟨_, Or.inl h⟩
        · split at h
          · rcases List.mem_cons.mp h with h | h
            · exact ⟨_, Or.inr h⟩
            · rcases List.mem_cons.mp h with h | h
              · exact ⟨_, Or.inr h⟩
              · exact ih _ e h
          · exact ih _ e h
      · exact ih _ e h

theorem ReceivePacket_discipline (jb : JitterBufferImpl) (buffer : CharPtr)
    (length frameNumber fragmentNumber num : Int) :
    LockDiscipline (JitterBufferImpl.ReceivePacket.events jb buffer length frameNumber
      fragmentNumber num) ∧
    heldAfter [] (JitterBufferImpl.ReceivePacket.events jb buffer length frameNumber
      fragmentNumber num) = [] ∧
    Event.lock Mutex.m_sortedFrameBuffersGuard ∉
      JitterBufferImpl.ReceivePacket.events jb buffer length frameNumber fragmentNumber num := by
  unfold JitterBufferImpl.ReceivePacket.events LockDiscipline
  split_ifs <;> simp [heldAlong, heldAt, heldAfter, Event.held]

theorem RecycleExistingFrames_discipline (jb : JitterBufferImpl) :
    LockDiscipline (JitterBufferImpl.RecycleExistingFrames.events jb) ∧
    heldAfter [] (JitterBufferImpl.RecycleExistingFrames.events jb) = [] := by
  unfold JitterBufferImpl.RecycleExistingFrames.events
  by_cases hrun : jb.m_recyclerThread = some Thread.running
  · rw [if_pos hrun]
    by_cases hsh : jb.m_shutdownRequested = false
    · rw [if_pos hsh]
      have hloop := loopEvents_accesses jb.m_unsortedFrameBuffers jb.m_lastDecodedFrameNumber
      generalize JitterBufferImpl.RecycleExistingFrames.loopEvents jb.m_unsortedFrameBuffers
        jb.m_lastDecodedFrameNumber = L at hloop
      obtain ⟨a1, a2, a3⟩ := held_of_accesses [Mutex.m_unsortedFrameBuffersGuard] L hloop
      have hQ : ∃ Q : List Event,
          (Q = [Event.unlock Mutex.m_unsortedFrameBuffersGuard] ∨
            Q = [Event.unlock Mutex.m_unsortedFrameBuffersGuard,
              Event.lock Mutex.m_sortedFrameBuffersGuard,
              Event.write Member.m_sortedFrameBuffers,
              Event.unlock Mutex.m_sortedFrameBuffersGuard]) ∧
          Event.read Member.m_shutdownRequested ::
            ([Event.lock Mutex.m_unsortedFrameBuffersGuard,
                Event.unlock Mutex.m_unsortedFrameBuffersGuard,
                Event.lock Mutex.m_unsortedFrameBuffersGuard,
                Event.read Member.m_unsortedFrameBuffers] ++ L ++
              [Event.unlock Mutex.m_unsortedFrameBuffersGuard] ++
              (if (JitterBufferImpl.RecycleExistingFrames.tempArray jb).isEmpty = true then []
                else [Event.lock Mutex.m_sortedFrameBuffersGuard,
                  Event.write Member.m_sortedFrameBuffers,
                  Event.unlock Mutex.m_sortedFrameBuffersGuard])) =
            [Event.read Member.m_shutdownRequested,
              Event.lock Mutex.m_unsortedFrameBuffersGuard,
              Event.unlock Mutex.m_unsortedFrameBuffersGuard,
              Event.lock Mutex.m_unsortedFrameBuffersGuard,
              Event.read Member.m_unsortedFrameBuffers] ++ (L ++ Q) := by
        split_ifs
        · exact ⟨_, Or.inl rfl, by simp⟩
        · exact ⟨_, Or.inr rfl, by simp⟩
      obtain ⟨Q, hQ1, hQ2⟩ := hQ
      rw [hQ2]
      have e1 : heldAfter [] [Event.read Member.m_shutdownRequested,
          Event.lock Mutex.m_unsortedFrameBuffersGuard,
          Event.unlock Mutex.m_unsortedFrameBuffersGuard,
          Event.lock Mutex.m_unsortedFrameBuffersGuard,
          Event.read Member.m_unsortedFrameBuffers] = [Mutex.m_unsortedFrameBuffersGuard] := by
        decide
      refine ⟨⟨?_, ?_, ?_⟩, ?_⟩
      · intro x hx
        rw [mem_heldAlong_append, mem_heldAlong_append, e1, a1] at hx
        rcases hx with hx | hx | hx
        · revert x; decide
        · rw [a3 x hx]; decide
        · revert x
          rcases hQ1 with h | h <;> rw [h] <;> decide
      · intro p hp
        rw [heldAt_append, heldAt_append, e1, a1, List.mem_append, List.mem_append] at hp
        rcases hp with hp | hp | hp
        · revert p; decide
        · intro hcall
          obtain ⟨x, hx⟩ := hloop p.2 (a2 p hp).2
          rcases hcall with hc | hc <;> rw [hc] at hx <;> rcases hx with hx | hx <;> cases hx
        · revert p
          rcases hQ1 with h | h <;> rw [h] <;> decide
      · intro p hp
        rw [heldAt_append, heldAt_append, e1, a1, List.mem_append, List.mem_append] at hp
        rcases hp with hp | hp | hp
        · revert p; decide
        · intro hlock
          obtain ⟨x, hx⟩ := hloop p.2 (a2 p hp).2
          rw [hlock] at hx
          rcases hx with hx | hx <;> cases hx
        · revert p
          rcases hQ1 with h | h <;> rw [h] <;> decide
      · rw [heldAfter_append, heldAfter_append, e1, a1]
        rcases hQ1 with h | h <;> rw [h] <;> decide
    · rw [if_neg hsh]
      unfold LockDiscipline
      decide
  · rw [if_neg hrun]
    unfold LockDiscipline
    decide

theorem ProcessCompletedFrames_discipline (decoder : IDecoder) (renderer : IRenderer)
    (w : World) :
    LockDiscipline (JitterBufferImpl.ProcessCompletedFrames.events decoder renderer w) ∧
    heldAfter [] (JitterBufferImpl.ProcessCompletedFrames.events decoder renderer w) = [] ∧
    Event.lock Mutex.m_unsortedFrameBuffersGuard ∉
      JitterBufferImpl.ProcessCompletedFrames.events decoder renderer w := by
  unfold JitterBufferImpl.ProcessCompletedFrames.events LockDiscipline
  split_ifs
  · split
    · decide
    · split
      · decide
      · split <;> decide
  · decide
  · decide

/-- C30: lock discipline.  In a `ReceivePacket` call, in an iteration of the recycler and in
an iteration of the dispatcher, the thread of control never holds
`m_unsortedFrameBuffersGuard` and `m_sortedFrameBuffersGuard` at the same time, holds no
mutex while the decoder or the renderer runs, and ends holding no mutex; the recycler has
released `m_unsortedFrameBuffersGuard` when it takes `m_sortedFrameBuffersGuard`; ingress
never takes `m_sortedFrameBuffersGuard` and the dispatcher never takes
`m_unsortedFrameBuffersGuard`. -/
theorem C30_lock_discipline (decoder : IDecoder) (renderer : IRenderer) :
    (∀ (jb : JitterBufferImpl) (buffer : CharPtr)
        (length frameNumber fragmentNumber numFragmentsInThisFrame : Int),
      LockDiscipline (JitterBufferImpl.ReceivePacket.events jb buffer length frameNumber
        fragmentNumber numFragmentsInThisFrame) ∧
      heldAfter [] (JitterBufferImpl.ReceivePacket.events jb buffer length frameNumber
        fragmentNumber numFragmentsInThisFrame) = [] ∧
      Event.lock Mutex.m_sortedFrameBuffersGuard ∉
        JitterBufferImpl.ReceivePacket.events jb buffer length frameNumber fragmentNumber
          numFragmentsInThisFrame) ∧
    (∀ jb : JitterBufferImpl,
      LockDiscipline (JitterBufferImpl.RecycleExistingFrames.events jb) ∧
      heldAfter [] (JitterBufferImpl.RecycleExistingFrames.events jb) = []) ∧
    (∀ w : World,
      LockDiscipline (JitterBufferImpl.ProcessCompletedFrames.events decoder renderer w) ∧
      heldAfter [] (JitterBufferImpl.ProcessCompletedFrames.events decoder renderer w) = [] ∧
      Event.lock Mutex.m_unsortedFrameBuffersGuard ∉
        JitterBufferImpl.ProcessCompletedFrames.events decoder renderer w) :=
  ⟨fun jb buffer length frameNumber fragmentNumber num =>
      ReceivePacket_discipline jb buffer length frameNumber fragmentNumber num,
    fun jb => RecycleExistingFrames_discipline jb,
    fun w => ProcessCompletedFrames_discipline decoder renderer w⟩

end JitterBuffer

namespace JitterBuffer

/-! ## Claims on thread safety, on the dispatch of exceptions and on the order of the checks -/

theorem GuardedBy_append (m : Mutex) (x : Member) (a b : List Event) :
    GuardedBy m x (a ++ b) ↔
      GuardedBy m x a ∧ ∀ p ∈ heldAt (heldAfter [] a) b,
        (p.2 = Event.read x ∨ p.2 = Event.write x) → m ∈ p.1 := by
  unfold GuardedBy
  rw [heldAt_append]
  constructor
  · intro h
    exact ⟨fun p hp => h p (List.mem_append_left _ hp),
      fun p hp => h p (List.mem_append_right _ hp)⟩
  · rintro ⟨h1, h2⟩ p hp
    rcases List.mem_append.mp hp with hp | hp
    · exact h1 p hp
    · exact h2 p hp

theorem ReceivePacket_guards (jb : JitterBufferImpl) (buffer : CharPtr)
    (length frameNumber fragmentNumber num : Int) :
    GuardedBy Mutex.m_unsortedFrameBuffersGuard Member.m_unsortedFrameBuffers
      (JitterBufferImpl.ReceivePacket.events jb buffer length frameNumber fragmentNumber num) ∧
    GuardedBy Mutex.m_unsortedFrameBuffersGuard Member.m_lastDecodedFrameNumber
      (JitterBufferImpl.ReceivePacket.events jb buffer length frameNumber fragmentNumber num) ∧
    Unguarded Member.m_recycleTaskLaunched
      (JitterBufferImpl.ReceivePacket.events jb buffer length frameNumber fragmentNumber num) ∧
    Unguarded Member.m_dataProcessingTaskLaunched
      (JitterBufferImpl.ReceivePacket.events jb buffer length frameNumber
        fragmentNumber num) := by
  unfold JitterBufferImpl.ReceivePacket.events GuardedBy Unguarded
  split_ifs <;> simp [heldAt, Event.held]

theorem RecycleExistingFrames_guards (jb : JitterBufferImpl) :
    GuardedBy Mutex.m_unsortedFrameBuffersGuard Member.m_unsortedFrameBuffers
      (JitterBufferImpl.RecycleExistingFrames.events jb) ∧
    GuardedBy Mutex.m_unsortedFrameBuffersGuard Member.m_lastDecodedFrameNumber
      (JitterBufferImpl.RecycleExistingFrames.events jb) := by
  unfold JitterBufferImpl.RecycleExistingFrames.events
  by_cases hrun : jb.m_recyclerThread = some Thread.running
  · rw [if_pos hrun]
    by_cases hsh : jb.m_shutdownRequested = false
    · rw [if_pos hsh]
      have hloop := loopEvents_accesses jb.m_unsortedFrameBuffers jb.m_lastDecodedFrameNumber
      generalize JitterBufferImpl.RecycleExistingFrames.loopEvents jb.m_unsortedFrameBuffers
        jb.m_lastDecodedFrameNumber = L at hloop
      obtain ⟨a1, a2, _⟩ := held_of_accesses [Mutex.m_unsortedFrameBuffersGuard] L hloop
      have hQ : ∃ Q : List Event,
          (Q = [Event.unlock Mutex.m_unsortedFrameBuffersGuard] ∨
            Q = [Event.unlock Mutex.m_unsortedFrameBuffersGuard,
              Event.lock Mutex.m_sortedFrameBuffersGuard,
              Event.write Member.m_sortedFrameBuffers,
              Event.unlock Mutex.m_sortedFrameBuffersGuard]) ∧
          Event.read Member.m_shutdownRequested ::
            ([Event.lock Mutex.m_unsortedFrameBuffersGuard,
                Event.unlock Mutex.m_unsortedFrameBuffersGuard,
                Event.lock Mutex.m_unsortedFrameBuffersGuard,
                Event.read Member.m_unsortedFrameBuffers] ++ L ++
              [Event.unlock Mutex.m_unsortedFrameBuffersGuard] ++
              (if (JitterBufferImpl.RecycleExistingFrames.tempArray jb).isEmpty = true then []
                else [Event.lock Mutex.m_sortedFrameBuffersGuard,
                  Event.write Member.m_sortedFrameBuffers,
                  Event.unlock Mutex.m_sortedFrameBuffersGuard])) =
            [Event.read Member.m_shutdownRequested,
              Event.lock Mutex.m_unsortedFrameBuffersGuard,
              Event.unlock Mutex.m_unsortedFrameBuffersGuard,
              Event.lock Mutex.m_unsortedFrameBuffersGuard,
              Event.read Member.m_unsortedFrameBuffers] ++ (L ++ Q) := by
        split_ifs
        · exact ⟨_, Or.inl rfl, by simp⟩
        · exact ⟨_, Or.inr rfl, by simp⟩
      obtain ⟨Q, hQ1, hQ2⟩ := hQ
      rw [hQ2]
      have e1 : heldAfter [] [Event.read Member.m_shutdownRequested,
          Event.lock Mutex.m_unsortedFrameBuffersGuard,
          Event.unlock Mutex.m_unsortedFrameBuffersGuard,
          Event.lock Mutex.m_unsortedFrameBuffersGuard,
          Event.read Member.m_unsortedFrameBuffers] = [Mutex.m_unsortedFrameBuffersGuard] := by
        decide
      have key : ∀ x : Member, (x = Member.m_unsortedFrameBuffers ∨
          x = Member.m_lastDecodedFrameNumber) →
          GuardedBy Mutex.m_unsortedFrameBuffersGuard x
            ([Event.read Member.m_shutdownRequested,
              Event.lock Mutex.m_unsortedFrameBuffersGuard,
              Event.unlock Mutex.m_unsortedFrameBuffersGuard,
              Event.lock Mutex.m_unsortedFrameBuffersGuard,
              Event.read Member.m_unsortedFrameBuffers] ++ (L ++ Q)) := by
        intro x hx
        rw [GuardedBy_append, e1]
        refine ⟨?_, ?_⟩
        · unfold GuardedBy
          rcases hx with hx | hx <;> rw [hx] <;> decide
        · have hq : ∀ p ∈ heldAt [Mutex.m_unsortedFrameBuffersGuard] Q,
              (p.2 = Event.read x ∨ p.2 = Event.write x) →
                Mutex.m_unsortedFrameBuffersGuard ∈ p.1 := by
            rcases hQ1 with h | h <;> rcases hx with hx | hx <;> rw [h, hx] <;> decide
          intro p hp
          rw [heldAt_append, a1] at hp
          rcases List.mem_append.mp hp with hp2 | hp2
          · intro _
            rw [(a2 p hp2).1]
            exact List.mem_singleton.mpr rfl
          · exact hq p hp2
      exact ⟨key _ (Or.inl rfl), key _ (Or.inr rfl)⟩
    · rw [if_neg hsh]
      unfold GuardedBy
      exact ⟨by decide, by decide⟩
  · rw [if_neg hrun]
    unfold GuardedBy
    exact ⟨by decide, by decide⟩

theorem ReceivePacket_thread_once (jb : JitterBufferImpl) (buffer : CharPtr)
    (length frameNumber fragmentNumber num : Int) :
    (jb.m_recycleTaskLaunched = true →
      (jb.ReceivePacket buffer length frameNumber fragmentNumber num).1.m_recyclerThread =
        jb.m_recyclerThread) ∧
    (jb.m_dataProcessingTaskLaunched = true →
      (jb.ReceivePacket buffer length frameNumber fragmentNumber
        num).1.m_dataProcessingThread = jb.m_dataProcessingThread) := by
  rcases ReceivePacket_state jb buffer length frameNumber fragmentNumber num with
    hr | ⟨mem, _, _, _, _, _, ⟨_, hr⟩ | ⟨fb, _, hr⟩⟩
  · rw [hr]; exact ⟨fun _ => rfl, fun _ => rfl⟩
  · rw [hr]
    refine ⟨?_, ?_⟩
    · intro h
      rw [(launch_fields _).2.2.2.2.2.2.2.1]
      show (if jb.m_recycleTaskLaunched = true then jb.m_recyclerThread
        else some Thread.running) = _
      rw [if_pos h]
    · intro h
      rw [(launch_fields _).2.2.2.2.2.2.2.2]
      show (if jb.m_dataProcessingTaskLaunched = true then jb.m_dataProcessingThread
        else some Thread.running) = _
      rw [if_pos h]
  · rw [hr]
    refine ⟨?_, ?_⟩
    · intro h
      rw [(launch_fields _).2.2.2.2.2.2.2.1]
      show (if jb.m_recycleTaskLaunched = true then jb.m_recyclerThread
        else some Thread.running) = _
      rw [if_pos h]
    · intro h
      rw [(launch_fields _).2.2.2.2.2.2.2.2]
      show (if jb.m_dataProcessingTaskLaunched = true then jb.m_dataProcessingThread
        else some Thread.running) = _
      rw [if_pos h]

/-- C31 (as amended): in `ReceivePacket` and in the recycler, every read and write of the
unsorted store and of the last emitted frame number happens while
`m_unsortedFrameBuffersGuard` is held; the two worker-launched flags are read and written
by `ReceivePacket` after that mutex was released, with no mutex held; a `ReceivePacket` call
that starts when a flag is set leaves the thread of that worker as it is, so calls that do
not overlap start each worker at most once. -/
theorem C31_store_guarded_flags_not (jb : JitterBufferImpl) (buffer : CharPtr)
    (length frameNumber fragmentNumber numFragmentsInThisFrame : Int) :
    (GuardedBy Mutex.m_unsortedFrameBuffersGuard Member.m_unsortedFrameBuffers
      (JitterBufferImpl.ReceivePacket.events jb buffer length frameNumber fragmentNumber
        numFragmentsInThisFrame) ∧
    GuardedBy Mutex.m_unsortedFrameBuffersGuard Member.m_lastDecodedFrameNumber
      (JitterBufferImpl.ReceivePacket.events jb buffer length frameNumber fragmentNumber
        numFragmentsInThisFrame) ∧
    Unguarded Member.m_recycleTaskLaunched
      (JitterBufferImpl.ReceivePacket.events jb buffer length frameNumber fragmentNumber
        numFragmentsInThisFrame) ∧
    Unguarded Member.m_dataProcessingTaskLaunched
      (JitterBufferImpl.ReceivePacket.events jb buffer length frameNumber fragmentNumber
        numFragmentsInThisFrame)) ∧
    (GuardedBy Mutex.m_unsortedFrameBuffersGuard Member.m_unsortedFrameBuffers
      (JitterBufferImpl.RecycleExistingFrames.events jb) ∧
    GuardedBy Mutex.m_unsortedFrameBuffersGuard Member.m_lastDecodedFrameNumber
      (JitterBufferImpl.RecycleExistingFrames.events jb)) ∧
    ((jb.m_recycleTaskLaunched = true →
      (jb.ReceivePacket buffer length frameNumber fragmentNumber
        numFragmentsInThisFrame).1.m_recyclerThread = jb.m_recyclerThread) ∧
    (jb.m_dataProcessingTaskLaunched = true →
      (jb.ReceivePacket buffer length frameNumber fragmentNumber
        numFragmentsInThisFrame).1.m_dataProcessingThread = jb.m_dataProcessingThread)) :=
  ⟨ReceivePacket_guards jb buffer length frameNumber fragmentNumber numFragmentsInThisFrame,
    RecycleExistingFrames_guards jb,
    ReceivePacket_thread_once jb buffer length frameNumber fragmentNumber
      numFragmentsInThisFrame⟩

/-- C31, counterexample to the claim as stated: in the first call on a fresh instance the
flag `m_recycleTaskLaunched` is read, and then written, when the thread holds no mutex. -/
theorem C31_counterexample :
    (([] : List Mutex), Event.read Member.m_recycleTaskLaunched) ∈
      heldAt [] (JitterBufferImpl.ReceivePacket.events JitterBufferImpl.init (ptrOf [7])
        1 0 0 1) ∧
    (([] : List Mutex), Event.write Member.m_recycleTaskLaunched) ∈
      heldAt [] (JitterBufferImpl.ReceivePacket.events JitterBufferImpl.init (ptrOf [7])
        1 0 0 1) ∧
    ¬ GuardedBy Mutex.m_unsortedFrameBuffersGuard Member.m_recycleTaskLaunched
      (JitterBufferImpl.ReceivePacket.events JitterBufferImpl.init (ptrOf [7]) 1 0 0 1) := by
  refine ⟨by decide, by decide, ?_⟩
  unfold GuardedBy
  decide

end JitterBuffer

namespace JitterBuffer

/-- C32: `ExceptionDispatcher::Dispatch`, applied to the exception being handled, returns the
result code carried by the exception when it is a `BasicException`: the code given to
`THROW_BASIC_EXCEPTION` is reported unchanged, whatever text was appended with `operator<<`
(so `CHECK_ARGUMENT` is reported as `InvalidArgument`, and `OutOfSpace` and `Fail` as
themselves); it returns `Unexpected` for every other `std::exception`. -/
theorem C32_dispatch (ex : BasicException) :
    ExceptionDispatcher.Dispatch (StdException.basic ex) = ex.m_resultCode ∧
    (∀ obj : String,
      ExceptionDispatcher.Dispatch (StdException.basic (ex.shl obj)) =
        ExceptionDispatcher.Dispatch (StdException.basic ex)) ∧
    (∀ (resultCode : result_t) (objs : List String),
      ExceptionDispatcher.Dispatch
        (StdException.basic (objs.foldl BasicException.shl (THROW_BASIC_EXCEPTION resultCode)))
        = resultCode) ∧
    (∀ msg : String, ∃ e : StdException, CHECK_ARGUMENT false msg = .error e ∧
      ExceptionDispatcher.Dispatch e = result_code.eInvalidArgument) ∧
    (∀ what : String,
      ExceptionDispatcher.Dispatch (StdException.other what) = result_code.eUnexpected) := by
  refine ⟨rfl, fun _ => rfl, ?_, fun msg => ⟨_, rfl, rfl⟩, fun _ => rfl⟩
  intro resultCode objs
  have key : ∀ (objs : List String) (e : BasicException),
      (objs.foldl BasicException.shl e).m_resultCode = e.m_resultCode := by
    intro objs
    induction objs with
    | nil => intro e; rfl
    | cons o objs ih => intro e; exact ih (e.shl o)
  exact key objs (THROW_BASIC_EXCEPTION resultCode)

/-- C33: argument validation takes precedence over the error latch, and the latch over the
stale and capacity checks.  With the latch set, a `ReceivePacket` call with an invalid
argument fails with `InvalidArgument` (not `Fail`), and a call with valid arguments fails
with `Fail`, also when its frame number is stale (it does not return success) and when the
store is full (it does not report `OutOfSpace`). -/
theorem C33_check_precedence (jb : JitterBufferImpl) (buffer : CharPtr)
    (length frameNumber fragmentNumber numFragmentsInThisFrame : Int)
    (hlatch : jb.m_frameProcessingIsBlocked = true) :
    (¬ ValidArgs buffer length frameNumber fragmentNumber numFragmentsInThisFrame →
      CheckReceiverFunction (jb.ReceivePacket buffer length frameNumber fragmentNumber
        numFragmentsInThisFrame).2 = result_code.eInvalidArgument) ∧
    (ValidArgs buffer length frameNumber fragmentNumber numFragmentsInThisFrame →
      CheckReceiverFunction (jb.ReceivePacket buffer length frameNumber fragmentNumber
        numFragmentsInThisFrame).2 = result_code.eFail) ∧
    (ValidArgs buffer length frameNumber fragmentNumber numFragmentsInThisFrame →
      frameNumber ≤ jb.m_lastDecodedFrameNumber →
      CheckReceiverFunction (jb.ReceivePacket buffer length frameNumber fragmentNumber
        numFragmentsInThisFrame).2 = result_code.eFail) ∧
    (ValidArgs buffer length frameNumber fragmentNumber numFragmentsInThisFrame →
      (jb.m_unsortedFrameBuffers.length : Int) = MaxFrameNumber →
      CheckReceiverFunction (jb.ReceivePacket buffer length frameNumber fragmentNumber
        numFragmentsInThisFrame).2 = result_code.eFail) := by
  have hfail : ValidArgs buffer length frameNumber fragmentNumber numFragmentsInThisFrame →
      CheckReceiverFunction (jb.ReceivePacket buffer length frameNumber fragmentNumber
        numFragmentsInThisFrame).2 = result_code.eFail := by
    intro hv
    obtain ⟨ex, hex, hr⟩ := ReceivePacket_of_blocked jb buffer length frameNumber
      fragmentNumber numFragmentsInThisFrame hv hlatch
    rw [hr]
    exact hex
  refine ⟨?_, hfail, fun hv _ => hfail hv, fun hv _ => hfail hv⟩
  intro hv
  obtain ⟨ex, hex, hr⟩ := ReceivePacket_of_invalid jb buffer length frameNumber
    fragmentNumber numFragmentsInThisFrame hv
  rw [hr]
  exact hex

/-- C33, witness: after the decoder raised on frame 0 the latch is set and the last emitted
frame number is 0; a valid packet for the stale frame 0 is answered `Fail`, and a packet
with a null buffer is answered `InvalidArgument`. -/
theorem C33_check_precedence_witness :
    latchedWorld.jb.m_lastDecodedFrameNumber = 0 ∧
    CheckReceiverFunction (latchedWorld.jb.ReceivePacket (ptrOf [7]) 1 0 0 1).2 =
      result_code.eFail ∧
    CheckReceiverFunction (latchedWorld.jb.ReceivePacket none 1 0 0 1).2 =
      result_code.eInvalidArgument :=
  ⟨by decide,
    (C33_check_precedence latchedWorld.jb (ptrOf [7]) 1 0 0 1 (by decide)).2.2.1
      ⟨by simp [ptrOf], by decide, by decide, by decide, by decide⟩ (by decide),
    (C33_check_precedence latchedWorld.jb none 1 0 0 1 (by decide)).1
      (fun h => h.1 rfl)⟩

theorem checks_numFragments (jb : JitterBufferImpl) (buffer : CharPtr)
    (length frameNumber fragmentNumber n1 n2 : Int) (h1 : 1 ≤ n1) (h2 : 1 ≤ n2) :
    JitterBufferImpl.ReceivePacket.checks jb buffer length frameNumber fragmentNumber n1 =
      JitterBufferImpl.ReceivePacket.checks jb buffer length frameNumber fragmentNumber n2 := by
  have e1 : decide (n1 > 0) = true := by simp; omega
  have e2 : decide (n2 > 0) = true := by simp; omega
  unfold JitterBufferImpl.ReceivePacket.checks
  rw [e1, e2]

/-- C34: for a frame already resident in the unsorted store, the effect of `ReceivePacket`
does not depend on the packet's `numFragmentsInThisFrame`: two calls on the same state that
differ only in that argument (both `>= 1`) give the same state and the same result.  The
expected count of the resident frame stays the one fixed by its first packet, and a frame
becomes complete as soon as the number of stored (distinct) fragment numbers reaches it,
whatever the fragment numbers are. -/
theorem C34_count_of_first_packet (jb : JitterBufferImpl) (buffer : CharPtr)
    (length frameNumber fragmentNumber n1 n2 : Int) (resident : FrameBuffer)
    (h1 : 1 ≤ n1) (h2 : 1 ≤ n2)
    (hres : jb.m_unsortedFrameBuffers.find frameNumber = some resident) :
    jb.ReceivePacket buffer length frameNumber fragmentNumber n1 =
      jb.ReceivePacket buffer length frameNumber fragmentNumber n2 ∧
    (∀ fb, (jb.ReceivePacket buffer length frameNumber fragmentNumber
        n1).1.m_unsortedFrameBuffers.find frameNumber = some fb →
      fb.m_numFragmentsInThisFrame = resident.m_numFragmentsInThisFrame) ∧
    (∀ (fb : FrameBuffer) (buffer2 : Nat → Byte) (length2 k : Int),
      fb.IsFrameComplete = false →
      k ∉ fb.m_frameFragments.map FrameFragment.GetFragmentNumber →
      ((fb.AppendFragment buffer2 length2 k).IsFrameComplete = true ↔
        ((fb.m_frameFragments.length : Int) + 1 = fb.m_numFragmentsInThisFrame))) := by
  refine ⟨?_, ?_, ?_⟩
  · unfold JitterBufferImpl.ReceivePacket
    rw [checks_numFragments jb buffer length frameNumber fragmentNumber n1 n2 h1 h2]
    simp only [hres]
  · intro fb hfb
    rcases ReceivePacket_state jb buffer length frameNumber fragmentNumber n1 with
      hr | ⟨mem, _, _, _, _, _, ⟨hnone, _⟩ | ⟨fb0, hfind, hr⟩⟩
    · rw [hr, hres] at hfb
      cases hfb
      rfl
    · rw [hres] at hnone; cases hnone
    · rw [hr, (launch_fields _).1] at hfb
      have hfu := find_update jb.m_unsortedFrameBuffers frameNumber
        (fun fb => fb.AppendFragment mem length fragmentNumber) frameNumber
      simp only [hres] at hfu
      rw [hfu] at hfb
      simp only [if_true, Option.map_some', Option.some.injEq] at hfb
      rw [← hfb]
      exact (AppendFragment_frameNumber resident mem length fragmentNumber).2
  · intro fb buffer2 length2 k hc hk
    rw [AppendFragment_of_new fb buffer2 length2 k hc
      (fun f hf hfk => hk (List.mem_map.mpr ⟨f, hf, hfk⟩))]
    simp [FrameBuffer.IsFrameComplete]

/-- C34, witness: frame 3 is resident with an expected count of two fragments (it holds
fragment 0); the packet of fragment 7, announced once with 2 and once with 50 fragments,
has the same effect, and the frame is then complete. -/
theorem C34_count_of_first_packet_witness :
    (World.run StubDecoder StubRenderer World.init [packet [7] 3 0 2]).jb.ReceivePacket
        (ptrOf [8]) 1 3 7 2 =
      (World.run StubDecoder StubRenderer World.init [packet [7] 3 0 2]).jb.ReceivePacket
        (ptrOf [8]) 1 3 7 50 ∧
    (((World.run StubDecoder StubRenderer World.init [packet [7] 3 0 2]).jb.ReceivePacket
      (ptrOf [8]) 1 3 7 50).1.m_unsortedFrameBuffers.find 3).map FrameBuffer.IsFrameComplete =
        some true :=
  ⟨(C34_count_of_first_packet
    (World.run StubDecoder StubRenderer World.init [packet [7] 3 0 2]).jb (ptrOf [8]) 1 3 7
    2 50 (FrameBuffer.new (fun i => [7].getD i 0) 1 3 0 2) (by decide) (by decide)
    (by decide)).1, by decide⟩

end JitterBuffer

namespace JitterBuffer

/-! ## Claim on saturation -/

theorem recycle_loop_none (it : List (Int × FrameBuffer)) (unsorted : FrameBuffers)
    (last : Int) (temp : FrameList)
    (h : ∀ e ∈ it, ¬ (e.2.IsFrameComplete = true ∧ e.1 = last + 1)) :
    JitterBufferImpl.RecycleExistingFrames.loop it unsorted last temp =
      (unsorted, last, temp) := by
  induction it with
  | nil => rfl
  | cons e it ih =>
    obtain ⟨k, fb⟩ := e
    have hk := h (k, fb) (List.mem_cons_self _ _)
    unfold JitterBufferImpl.RecycleExistingFrames.loop
    rw [if_neg (by simpa using hk)]
    exact ih (fun e he => h e (List.mem_cons_of_mem _ he))

theorem not_ready_of_find (m : FrameBuffers) (last : Int)
    (hs : (m.map Prod.fst).Pairwise (fun a b => a < b))
    (hnext : (m.find (last + 1)).map FrameBuffer.IsFrameComplete ≠ some true) :
    ∀ e ∈ m, ¬ (e.2.IsFrameComplete = true ∧ e.1 = last + 1) := by
  rintro ⟨k, fb⟩ he ⟨hc, hk⟩
  apply hnext
  simp only at hc hk
  rw [← hk, find_of_mem m k fb hs he]
  simp [hc]

end JitterBuffer

namespace JitterBuffer

/-! ## The test helper `FragmentData` -/

theorem lt_blockCount_iff (n bs j : Nat) (hbs : 1 ≤ bs) :
    j < (n + bs - 1) / bs ↔ j * bs < n := by
  rw [Nat.lt_iff_add_one_le, Nat.le_div_iff_mul_le (by omega), Nat.add_mul, Nat.one_mul]
  omega

theorem take_min_succ {α : Type} (l : List α) (bs m : Nat) (h : l.length < m) :
    l.take (min bs m) = l.take bs := by
  rw [← List.take_take, List.take_of_length_le (show l.length ≤ m by omega)]

theorem FragmentData_loop_eq (inputData : List Byte) (blockSize : Nat) (hbs : 1 ≤ blockSize)
    (hbs64 : blockSize < 2 ^ 64) (hsize : inputData.length < 2 ^ 63) :
    ∀ (k fuel j : Nat) (fragmentedData : List (List Byte)),
      j + k = (inputData.length + blockSize - 1) / blockSize → k ≤ fuel →
      FragmentData.loop inputData blockSize fuel (j * blockSize) fragmentedData =
        fragmentedData ++ (List.range' j k).map
          (fun i => (inputData.drop (i * blockSize)).take blockSize) := by
  intro k
  induction k with
  | zero =>
    intro fuel j out hj _
    have hnot : ¬ j * blockSize < inputData.length := by
      rw [← lt_blockCount_iff _ _ _ hbs]
      omega
    cases fuel with
    | zero => simp [FragmentData.loop]
    | succ fuel =>
      unfold FragmentData.loop
      rw [if_neg hnot]
      simp
  | succ k ih =>
    intro fuel j out hj hfuel
    have hlt : j * blockSize < inputData.length := by
      rw [← lt_blockCount_iff _ _ _ hbs]
      omega
    cases fuel with
    | zero => omega
    | succ fuel =>
      have hle : j = 0 ∨ blockSize ≤ j * blockSize := by
        rcases Nat.eq_zero_or_pos j with h | h
        · exact Or.inl h
        · exact Or.inr (Nat.le_mul_of_pos_left _ h)
      have hw1 : size_t.wrap (inputData.length - j * blockSize + 1) =
          inputData.length - j * blockSize + 1 := by
        unfold size_t.wrap
        exact Nat.mod_eq_of_lt (by omega)
      have hw2 : size_t.wrap (j * blockSize + blockSize) = (j + 1) * blockSize := by
        unfold size_t.wrap
        rw [Nat.add_mul, Nat.one_mul]
        refine Nat.mod_eq_of_lt ?_
        rcases hle with h | h
        · subst h
          omega
        · omega
      unfold FragmentData.loop
      rw [if_pos hlt]
      simp only [hw1, hw2, substr]
      rw [take_min_succ _ _ _ (by rw [List.length_drop]; omega),
        ih fuel (j + 1) _ (by omega) (by omega), List.range'_succ, List.map_cons,
        List.append_assoc]
      rfl

theorem flatten_blocks {α : Type} (l : List α) (bs : Nat) :
    ∀ (k j : Nat),
      ((List.range' j k).map (fun i => (l.drop (i * bs)).take bs)).flatten =
        (l.drop (j * bs)).take (k * bs) := by
  intro k
  induction k with
  | zero => intro j; simp
  | succ k ih =>
    intro j
    rw [List.range'_succ, List.map_cons, List.flatten_cons, ih (j + 1)]
    have e1 : (k + 1) * bs = bs + k * bs := by rw [Nat.add_mul, Nat.one_mul, Nat.add_comm]
    have e2 : (j + 1) * bs = j * bs + bs := by rw [Nat.add_mul, Nat.one_mul]
    rw [e1, List.take_add, List.drop_drop, e2]

theorem blocksOf_eq_map (inputData : List Byte) (blockSize : Nat) :
    blocksOf inputData blockSize =
      (List.range' 0 ((inputData.length + blockSize - 1) / blockSize)).map
        (fun i => (inputData.drop (i * blockSize)).take blockSize) := by
  unfold blocksOf
  rw [List.range_eq_range']

theorem blocksOf_getElem? (inputData : List Byte) (blockSize i : Nat) (c : List Byte)
    (h : (blocksOf inputData blockSize)[i]? = some c) :
    i < (inputData.length + blockSize - 1) / blockSize ∧
    c = (inputData.drop (i * blockSize)).take blockSize := by
  unfold blocksOf at h
  rw [List.getElem?_map] at h
  by_cases hi : i < (inputData.length + blockSize - 1) / blockSize
  · rw [List.getElem?_range hi] at h
    simp only [Option.map_some'] at h
    exact ⟨hi, (Option.some.inj h).symm⟩
  · rw [List.getElem?_eq_none (by simpa using hi)] at h
    simp at h

/-- C36: the test helper `FragmentData(inputData, blockSize, out)` with `blockSize >= 1`
appends to `out` a clean partition of `inputData` (sizes being 64-bit values and a string
being shorter than `2 ^ 63` bytes, the `size - i + 1` count and the loop variable never wrap
around): the call returns, the appended chunks are the blocks of `blockSize` bytes of
`inputData`, they concatenate to exactly `inputData`, there are `ceil(size / blockSize)` of
them, each is non-empty, every chunk but the last has exactly `blockSize` bytes and the last
has `size - blockSize * (count - 1)` bytes. -/
theorem C36_FragmentData_partition (fuel : Nat) (inputData : List Byte) (blockSize : Nat)
    (fragmentedData : List (List Byte))
    (hbs : 1 ≤ blockSize) (hbs64 : blockSize < 2 ^ 64) (hsize : inputData.length < 2 ^ 63)
    (hfuel : inputData.length ≤ fuel) :
    FragmentData fuel inputData blockSize fragmentedData =
      fragmentedData ++ blocksOf inputData blockSize ∧
    (blocksOf inputData blockSize).flatten = inputData ∧
    (blocksOf inputData blockSize).length = (inputData.length + blockSize - 1) / blockSize ∧
    (inputData.length ≤ (blocksOf inputData blockSize).length * blockSize ∧
      (blocksOf inputData blockSize).length * blockSize < inputData.length + blockSize) ∧
    (∀ c ∈ blocksOf inputData blockSize, c ≠ []) ∧
    (∀ (i : Nat) (c : List Byte), (blocksOf inputData blockSize)[i]? = some c →
      (i + 1 < (blocksOf inputData blockSize).length → c.length = blockSize) ∧
      (i + 1 = (blocksOf inputData blockSize).length →
        c.length = inputData.length -
          blockSize * ((blocksOf inputData blockSize).length - 1))) := by
  have hlen : (blocksOf inputData blockSize).length =
      (inputData.length + blockSize - 1) / blockSize := by
    simp [blocksOf]
  have hge : inputData.length ≤ (inputData.length + blockSize - 1) / blockSize * blockSize := by
    have h := (lt_blockCount_iff inputData.length blockSize
      ((inputData.length + blockSize - 1) / blockSize) hbs).not.mp (lt_irrefl _)
    omega
  have hlt : (inputData.length + blockSize - 1) / blockSize * blockSize <
      inputData.length + blockSize := by
    have h := Nat.div_mul_le_self (inputData.length + blockSize - 1) blockSize
    omega
  have hcount : (inputData.length + blockSize - 1) / blockSize ≤ inputData.length := by
    by_contra hc
    have h := (lt_blockCount_iff inputData.length blockSize inputData.length hbs).mp
      (by omega)
    have h2 : inputData.length * 1 ≤ inputData.length * blockSize :=
      Nat.mul_le_mul_left _ hbs
    omega
  rw [hlen]
  refine ⟨?_, ?_, rfl, ⟨hge, hlt⟩, ?_, ?_⟩
  · unfold FragmentData
    have h := FragmentData_loop_eq inputData blockSize hbs hbs64 hsize
      ((inputData.length + blockSize - 1) / blockSize) fuel 0 fragmentedData (by omega)
      (by omega)
    rw [Nat.zero_mul] at h
    rw [h, blocksOf_eq_map]
  · rw [blocksOf_eq_map, flatten_blocks, Nat.zero_mul, List.drop_zero,
      List.take_of_length_le hge]
  · intro c hc
    obtain ⟨i, hi⟩ := List.getElem?_of_mem hc
    obtain ⟨hi1, hi2⟩ := blocksOf_getElem? inputData blockSize i c hi
    have h := (lt_blockCount_iff inputData.length blockSize i hbs).mp hi1
    intro hnil
    have hl : c.length = 0 := by rw [hnil]; rfl
    rw [hi2, List.length_take, List.length_drop] at hl
    omega
  · intro i c hi
    obtain ⟨hi1, hi2⟩ := blocksOf_getElem? inputData blockSize i c hi
    have hl : c.length = min blockSize (inputData.length - i * blockSize) := by
      rw [hi2, List.length_take, List.length_drop]
    refine ⟨?_, ?_⟩
    · intro hnext
      have h := (lt_blockCount_iff inputData.length blockSize (i + 1) hbs).mp hnext
      rw [Nat.add_mul, Nat.one_mul] at h
      omega
    · intro hlast
      have e : (inputData.length + blockSize - 1) / blockSize - 1 = i := by omega
      have e2 : (inputData.length + blockSize - 1) / blockSize * blockSize =
          i * blockSize + blockSize := by
        rw [← hlast, Nat.add_mul, Nat.one_mul]
      rw [e, hl, Nat.mul_comm blockSize i]
      omega

/-- C36, witness: 1024 bytes cut with `blockSize = 5` give 205 chunks, the last of 4
bytes. -/
theorem C36_FragmentData_partition_witness :
    FragmentData 1024 (List.replicate 1024 0) 5 [] =
      [] ++ blocksOf (List.replicate 1024 0) 5 ∧
    (blocksOf (List.replicate 1024 0) 5).length = 205 ∧
    (∀ c : List Byte, (blocksOf (List.replicate 1024 0) 5)[204]? = some c → c.length = 4) := by
  have h := C36_FragmentData_partition 1024 (List.replicate 1024 0) 5 [] (by decide)
    (by norm_num) (by simp) (by simp)
  have hlen : (blocksOf (List.replicate 1024 0) 5).length = 205 := by
    rw [h.2.2.1, List.length_replicate]
  refine ⟨h.1, hlen, ?_⟩
  intro c hc
  have h4 := (h.2.2.2.2.2 204 c hc).2 (by rw [hlen])
  rw [hlen, List.length_replicate] at h4
  exact h4

end JitterBuffer

namespace JitterBuffer

/-! ## Claims on the frame size -/

theorem FrameBuffer.new_eq (buffer : Nat → Byte)
    (length frameNumber fragmentNumber numFragmentsInThisFrame : Int) :
    FrameBuffer.new buffer length frameNumber fragmentNumber numFragmentsInThisFrame =
      { m_frameNumber := frameNumber
        m_numFragmentsInThisFrame := numFragmentsInThisFrame
        m_frameIsComplete := decide (((1 : Nat) : Int) = numFragmentsInThisFrame)
        m_currentFrameSize := int.wrap (0 + length)
        m_frameFragments := [FrameFragment.new buffer length fragmentNumber] } := by
  unfold FrameBuffer.new
  rw [AppendFragment_of_new _ _ _ _ rfl (by simp)]
  rfl

/-- What the size member records of a `FrameBuffer`: the sum of the stored lengths as an
`int` holds it; no stored length is negative and every fragment holds as many bytes as its
length says. -/
theorem AppendFragment_stored (fb : FrameBuffer) (buffer : Nat → Byte)
    (length fragmentNumber : Int)
    (hl : fb.m_frameIsComplete = true ∨
      (∃ f ∈ fb.m_frameFragments, f.m_fragmentNumber = fragmentNumber) ∨ 0 ≤ length)
    (h : fb.m_currentFrameSize = int.wrap fb.storedLength ∧
      ∀ f ∈ fb.m_frameFragments,
        0 ≤ f.m_bufferLength ∧ f.m_bufferData.length = f.m_bufferLength.toNat) :
    (fb.AppendFragment buffer length fragmentNumber).m_currentFrameSize =
      int.wrap (fb.AppendFragment buffer length fragmentNumber).storedLength ∧
    ∀ f ∈ (fb.AppendFragment buffer length fragmentNumber).m_frameFragments,
      0 ≤ f.m_bufferLength ∧ f.m_bufferData.length = f.m_bufferLength.toNat := by
  by_cases hc : fb.m_frameIsComplete = true
  · rw [AppendFragment_of_complete fb buffer length fragmentNumber hc]; exact h
  · by_cases hd : ∃ f ∈ fb.m_frameFragments, f.m_fragmentNumber = fragmentNumber
    · rw [AppendFragment_of_duplicate fb buffer length fragmentNumber hd]; exact h
    · have hlen : 0 ≤ length := by
        rcases hl with h1 | h1 | h1
        · exact absurd h1 hc
        · exact absurd h1 hd
        · exact h1
      push_neg at hd
      rw [AppendFragment_of_new fb buffer length fragmentNumber (by simpa using hc) hd]
      refine ⟨?_, ?_⟩
      · show int.wrap (fb.m_currentFrameSize + length) = _
        rw [h.1, int.wrap_add_wrap]
        simp only [FrameBuffer.storedLength, List.map_append, List.map_cons, List.map_nil,
          List.sum_append, List.sum_cons, List.sum_nil, add_zero]
        rfl
      · intro f hf
        rcases List.mem_append.mp hf with hf | hf
        · exact h.2 f hf
        · simp only [List.mem_singleton] at hf
          subst hf
          exact ⟨hlen, by simp [FrameFragment.new]⟩

theorem AppendFragment_call_ok (fb : FrameBuffer) (buffer : Nat → Byte)
    (length fragmentNumber : Int) :
    (FrameBuffer.AppendFragment.call fb buffer length fragmentNumber =
        (fb.AppendFragment buffer length fragmentNumber, .ok ()) ∧
      (fb.m_frameIsComplete = true ∨
        (∃ f ∈ fb.m_frameFragments, f.m_fragmentNumber = fragmentNumber) ∨ 0 ≤ length)) ∨
    (∃ ex, (FrameBuffer.AppendFragment.call fb buffer length fragmentNumber).2 = .error ex) := by
  by_cases hc : fb.m_frameIsComplete = true
  · left
    refine ⟨?_, Or.inl hc⟩
    rw [AppendFragment_of_complete fb buffer length fragmentNumber hc]
    simp [FrameBuffer.AppendFragment.call, hc]
  · by_cases hd : ∃ f ∈ fb.m_frameFragments, f.m_fragmentNumber = fragmentNumber
    · left
      refine ⟨?_, Or.inr (Or.inl hd)⟩
      have hcount : fb.m_frameFragments.countP (FragmentCompareEqual fragmentNumber) ≠ 0 := by
        intro h0
        rw [List.countP_eq_zero] at h0
        obtain ⟨f, hf, hn⟩ := hd
        exact h0 f hf (by simp [FragmentCompareEqual, FrameFragment.eqInt, hn])
      rw [AppendFragment_of_duplicate fb buffer length fragmentNumber hd]
      simp [FrameBuffer.AppendFragment.call, hc, hcount]
    · have hcount : fb.m_frameFragments.countP (FragmentCompareEqual fragmentNumber) = 0 := by
        rw [List.countP_eq_zero]
        intro f hf
        push_neg at hd
        simpa [FragmentCompareEqual, FrameFragment.eqInt] using hd f hf
      by_cases hl : length < 0
      · right
        exact ⟨.other "std::bad_alloc", by simp [FrameBuffer.AppendFragment.call, hc, hcount, hl]⟩
      · left
        refine ⟨?_, Or.inr (Or.inr (by omega))⟩
        simp [FrameBuffer.AppendFragment.call, hc, hcount, hl]

theorem AppendFragment_call_of_new (fb : FrameBuffer) (buffer : Nat → Byte)
    (length fragmentNumber : Int) (hc : fb.m_frameIsComplete = false)
    (hne : ∀ f ∈ fb.m_frameFragments, f.m_fragmentNumber ≠ fragmentNumber)
    (hl : 0 ≤ length) :
    FrameBuffer.AppendFragment.call fb buffer length fragmentNumber =
      (fb.AppendFragment buffer length fragmentNumber, .ok ()) := by
  have hcount : fb.m_frameFragments.countP (FragmentCompareEqual fragmentNumber) = 0 := by
    rw [List.countP_eq_zero]
    intro f hf
    simpa [FragmentCompareEqual, FrameFragment.eqInt] using hne f hf
  have hl3 : ¬ length < 0 := by omega
  simp [FrameBuffer.AppendFragment.call, hc, hcount, hl3]

theorem AppendFragments_call_stored (calls : List ((Nat → Byte) × Int × Int))
    (fb : FrameBuffer)
    (h : fb.m_currentFrameSize = int.wrap fb.storedLength ∧
      ∀ f ∈ fb.m_frameFragments,
        0 ≤ f.m_bufferLength ∧ f.m_bufferData.length = f.m_bufferLength.toNat)
    (hret : (FrameBuffer.AppendFragments.call fb calls).2 = []) :
    (FrameBuffer.AppendFragments.call fb calls).1.m_currentFrameSize =
      int.wrap (FrameBuffer.AppendFragments.call fb calls).1.storedLength ∧
    ∀ f ∈ (FrameBuffer.AppendFragments.call fb calls).1.m_frameFragments,
      0 ≤ f.m_bufferLength ∧ f.m_bufferData.length = f.m_bufferLength.toNat := by
  induction calls generalizing fb with
  | nil => exact h
  | cons c calls ih =>
    rcases AppendFragment_call_ok fb c.1 c.2.1 c.2.2 with ⟨hok, hl⟩ | ⟨ex, hex⟩
    · have hstep : FrameBuffer.AppendFragments.call fb (c :: calls) =
          FrameBuffer.AppendFragments.call (fb.AppendFragment c.1 c.2.1 c.2.2) calls := by
        simp only [FrameBuffer.AppendFragments.call, hok]
      rw [hstep] at hret ⊢
      exact ih _ (AppendFragment_stored fb c.1 c.2.1 c.2.2 hl h) hret
    · exfalso
      have hstep : (FrameBuffer.AppendFragments.call fb (c :: calls)).2 ≠ [] := by
        cases hcall : FrameBuffer.AppendFragment.call fb c.1 c.2.1 c.2.2 with
        | mk fb1 r =>
          rw [hcall] at hex
          simp only at hex
          subst hex
          simp [FrameBuffer.AppendFragments.call, hcall]
      exact hstep hret

theorem storedLength_nonneg (fb : FrameBuffer)
    (h : ∀ f ∈ fb.m_frameFragments, 0 ≤ f.m_bufferLength) : 0 ≤ fb.storedLength := by
  unfold FrameBuffer.storedLength
  apply List.sum_nonneg
  intro x hx
  obtain ⟨f, hf, rfl⟩ := List.mem_map.mp hx
  exact h f hf

theorem twoGiBFrame_eq :
    twoGiBFrame =
      { m_frameNumber := 0
        m_numFragmentsInThisFrame := 2
        m_frameIsComplete := true
        m_currentFrameSize := int.wrap (int.wrap (0 + 2 ^ 30) + 2 ^ 30)
        m_frameFragments :=
          [FrameFragment.new (fun _ => 0) (2 ^ 30) 0, FrameFragment.new (fun _ => 0) (2 ^ 30) 1] }
    := by
  unfold twoGiBFrame
  rw [FrameBuffer.new_eq, AppendFragment_of_new _ _ _ _ (by decide)
    (by
      intro f hf
      simp only [List.mem_singleton] at hf
      subst hf
      show (0 : Int) ≠ 1
      decide)]
  rfl

theorem twoGiBFrame_size : twoGiBFrame.GetCurrentFrameSize = -2147483648 := by
  rw [twoGiBFrame_eq]
  show int.wrap (int.wrap (0 + 2 ^ 30) + 2 ^ 30) = -2147483648
  rw [int.wrap_add_wrap]
  unfold int.wrap
  norm_num

theorem twoGiBFrame_stored : twoGiBFrame.storedLength = 2147483648 := by
  rw [twoGiBFrame_eq]
  show (2 : Int) ^ 30 + ((2 : Int) ^ 30 + 0) = 2147483648
  norm_num

/-- C19, counterexample to the claim as stated: a frame built by the constructor and one
more `AppendFragment` call, both returning normally, each with a fragment of `2^30` bytes.
The fragments it stores have `2^31` bytes together, and `GetCurrentFrameSize()` is
`-2147483648`. -/
theorem C19_counterexample :
    FrameBuffer.AppendFragments.call (FrameBuffer.new (fun _ => 0) (2 ^ 30) 0 0 2)
      [((fun _ => 0), 2 ^ 30, 1)] = (twoGiBFrame, []) ∧
    twoGiBFrame.storedLength = 2147483648 ∧
    twoGiBFrame.GetCurrentFrameSize = -2147483648 ∧
    twoGiBFrame.GetCurrentFrameSize ≠ twoGiBFrame.storedLength := by
  refine ⟨?_, twoGiBFrame_stored, twoGiBFrame_size, ?_⟩
  · have hok := AppendFragment_call_of_new (FrameBuffer.new (fun _ => 0) (2 ^ 30) 0 0 2)
      (fun _ => 0) (2 ^ 30) 1 (by rw [FrameBuffer.new_eq]; decide)
      (by
        rw [FrameBuffer.new_eq]
        intro f hf
        simp only [List.mem_singleton] at hf
        subst hf
        show (0 : Int) ≠ 1
        decide)
      (by norm_num)
    simp only [FrameBuffer.AppendFragments.call, hok]
    rfl
  · rw [twoGiBFrame_stored, twoGiBFrame_size]
    decide

/-- C19 (as amended): for every `FrameBuffer` reached by construction followed by any
sequence of `AppendFragment` calls that all return normally, and as long as the lengths of
the fragments it stores sum to less than `2^31`, `GetCurrentFrameSize()` equals that sum,
each stored fragment holding as many bytes as its length says; a rejected fragment (duplicate
fragment number, or arriving after completion) leaves the object as it was, so it adds
nothing, and an accepted fragment adds exactly its length as long as the sum stays below
`2^31`. -/
theorem C19_frame_size_is_sum (buffer : Nat → Byte)
    (length frameNumber fragmentNumber numFragmentsInThisFrame : Int)
    (calls : List ((Nat → Byte) × Int × Int))
    (hnew : 0 ≤ length)
    (hret : (FrameBuffer.AppendFragments.call (FrameBuffer.new buffer length frameNumber
      fragmentNumber numFragmentsInThisFrame) calls).2 = [])
    (hsmall : (FrameBuffer.AppendFragments.call (FrameBuffer.new buffer length frameNumber
      fragmentNumber numFragmentsInThisFrame) calls).1.storedLength < 2 ^ 31) :
    (FrameBuffer.AppendFragments.call (FrameBuffer.new buffer length frameNumber
        fragmentNumber numFragmentsInThisFrame) calls).1.GetCurrentFrameSize =
      (FrameBuffer.AppendFragments.call (FrameBuffer.new buffer length frameNumber
        fragmentNumber numFragmentsInThisFrame) calls).1.storedLength ∧
    (∀ f ∈ (FrameBuffer.AppendFragments.call (FrameBuffer.new buffer length frameNumber
        fragmentNumber numFragmentsInThisFrame) calls).1.m_frameFragments,
      f.GetBufferData.length = f.GetBufferLength.toNat) ∧
    (∀ (buffer2 : Nat → Byte) (length2 fragmentNumber2 : Int),
      ((FrameBuffer.AppendFragments.call (FrameBuffer.new buffer length frameNumber
          fragmentNumber numFragmentsInThisFrame) calls).1.IsFrameComplete = true ∨
        fragmentNumber2 ∈ (FrameBuffer.AppendFragments.call (FrameBuffer.new buffer length
          frameNumber fragmentNumber numFragmentsInThisFrame) calls).1.m_frameFragments.map
            FrameFragment.GetFragmentNumber) →
      FrameBuffer.AppendFragment.call (FrameBuffer.AppendFragments.call (FrameBuffer.new buffer
          length frameNumber fragmentNumber numFragmentsInThisFrame) calls).1 buffer2 length2
            fragmentNumber2 =
        ((FrameBuffer.AppendFragments.call (FrameBuffer.new buffer length frameNumber
          fragmentNumber numFragmentsInThisFrame) calls).1, .ok ())) ∧
    (∀ (buffer2 : Nat → Byte) (length2 fragmentNumber2 : Int),
      (FrameBuffer.AppendFragments.call (FrameBuffer.new buffer length frameNumber
          fragmentNumber numFragmentsInThisFrame) calls).1.IsFrameComplete = false →
      fragmentNumber2 ∉ (FrameBuffer.AppendFragments.call (FrameBuffer.new buffer length
          frameNumber fragmentNumber numFragmentsInThisFrame) calls).1.m_frameFragments.map
            FrameFragment.GetFragmentNumber →
      0 ≤ length2 →
      (FrameBuffer.AppendFragments.call (FrameBuffer.new buffer length frameNumber
          fragmentNumber numFragmentsInThisFrame) calls).1.storedLength + length2 < 2 ^ 31 →
      (FrameBuffer.AppendFragment.call (FrameBuffer.AppendFragments.call (FrameBuffer.new
          buffer length frameNumber fragmentNumber numFragmentsInThisFrame) calls).1 buffer2
            length2 fragmentNumber2).2 = .ok () ∧
      (FrameBuffer.AppendFragment.call (FrameBuffer.AppendFragments.call (FrameBuffer.new
          buffer length frameNumber fragmentNumber numFragmentsInThisFrame) calls).1 buffer2
            length2 fragmentNumber2).1.GetCurrentFrameSize =
        (FrameBuffer.AppendFragments.call (FrameBuffer.new buffer length frameNumber
          fragmentNumber numFragmentsInThisFrame) calls).1.GetCurrentFrameSize + length2) := by
  have h0 : (FrameBuffer.new buffer length frameNumber fragmentNumber
        numFragmentsInThisFrame).m_currentFrameSize =
        int.wrap (FrameBuffer.new buffer length frameNumber fragmentNumber
          numFragmentsInThisFrame).storedLength ∧
      ∀ f ∈ (FrameBuffer.new buffer length frameNumber fragmentNumber
          numFragmentsInThisFrame).m_frameFragments,
        0 ≤ f.m_bufferLength ∧ f.m_bufferData.length = f.m_bufferLength.toNat :=
    AppendFragment_stored _ buffer length fragmentNumber (Or.inr (Or.inr hnew))
      ⟨by simp [FrameBuffer.storedLength, int.wrap], by simp⟩
  have hinv := AppendFragments_call_stored calls _ h0 hret
  generalize (FrameBuffer.AppendFragments.call (FrameBuffer.new buffer length frameNumber
    fragmentNumber numFragmentsInThisFrame) calls).1 = fb at hinv hsmall
  have hnn := storedLength_nonneg fb (fun f hf => (hinv.2 f hf).1)
  have hsize : fb.m_currentFrameSize = fb.storedLength := by
    rw [hinv.1]
    exact int.wrap_of_range _ (le_trans (by norm_num) hnn) hsmall
  refine ⟨hsize, fun f hf => (hinv.2 f hf).2, ?_, ?_⟩
  · intro buffer2 length2 fragmentNumber2 hrej
    rcases hrej with hc | hd
    · have hc2 : fb.m_frameIsComplete = true := hc
      simp [FrameBuffer.AppendFragment.call, hc2]
    · obtain ⟨f, hf, hfn⟩ := List.mem_map.mp hd
      have hcount : fb.m_frameFragments.countP (FragmentCompareEqual fragmentNumber2) ≠ 0 := by
        intro h0
        rw [List.countP_eq_zero] at h0
        exact h0 f hf (by
          simp only [FragmentCompareEqual, FrameFragment.eqInt, decide_eq_true_eq]
          exact hfn)
      by_cases hc : fb.m_frameIsComplete = true
      · simp [FrameBuffer.AppendFragment.call, hc]
      · simp [FrameBuffer.AppendFragment.call, hc, hcount]
  · intro buffer2 length2 fragmentNumber2 hc hnew2 hl2 hsum
    have hc2 : fb.m_frameIsComplete = false := hc
    have hne : ∀ f ∈ fb.m_frameFragments, f.m_fragmentNumber ≠ fragmentNumber2 :=
      fun f hf hfn => hnew2 (List.mem_map.mpr ⟨f, hf, hfn⟩)
    rw [AppendFragment_call_of_new fb buffer2 length2 fragmentNumber2 hc2 hne hl2]
    refine ⟨rfl, ?_⟩
    rw [AppendFragment_of_new fb buffer2 length2 fragmentNumber2 hc2 hne]
    show int.wrap (fb.m_currentFrameSize + length2) = fb.m_currentFrameSize + length2
    rw [hsize]
    exact int.wrap_of_range _ (le_trans (by norm_num) (add_nonneg hnn hl2)) hsum

/-- C19, witness: a three-fragment frame built with fragment 0 (2 bytes), then fragment 1
(3 bytes) and a retransmission of fragment 1 (5 bytes): every call returns, and the size is
5. -/
theorem C19_frame_size_is_sum_witness :
    (FrameBuffer.AppendFragments.call (FrameBuffer.new (fun _ => 1) 2 0 0 3)
      [((fun _ => 2), 3, 1), ((fun _ => 3), 5, 1)]).1.GetCurrentFrameSize = 5 ∧
    (FrameBuffer.AppendFragments.call (FrameBuffer.new (fun _ => 1) 2 0 0 3)
      [((fun _ => 2), 3, 1), ((fun _ => 3), 5, 1)]).1.storedLength = 5 :=
  ⟨(C19_frame_size_is_sum (fun _ => 1) 2 0 0 3 [((fun _ => 2), 3, 1), ((fun _ => 3), 5, 1)]
      (by decide) (by decide) (by decide)).1.trans (by decide),
    by decide⟩

end JitterBuffer

namespace JitterBuffer

/-! ## Claim on the assembled data -/

theorem Built.size_nonneg {fb : FrameBuffer} (h : fb.Built)
    (hsmall : (fb.m_frameFragments.map FrameFragment.m_bufferLength).sum < 2 ^ 31) :
    0 ≤ fb.GetCurrentFrameSize := by
  have hlen := (GetAssembledData_of_consistent fb (Built.consistent h) hsmall).2
  rw [← hlen]
  exact Int.natCast_nonneg _

theorem FrameFragment.new_bytes (buffer : Nat → Byte) (length fragmentNumber : Int) :
    (FrameFragment.new buffer length fragmentNumber).GetBufferData.length = length.toNat := by
  unfold FrameFragment.new FrameFragment.GetBufferData
  rw [List.length_map, List.length_range]

theorem twoGiBFrame_bytes :
    (((twoGiBFrame.m_frameFragments.map FrameFragment.GetBufferData).flatten.length : Nat)
      : Int) = 2147483648 := by
  rw [twoGiBFrame_eq, List.length_flatten]
  simp only [List.map_cons, List.map_nil, List.sum_cons, List.sum_nil,
    FrameFragment.new_bytes]
  have h : ((2 : Int) ^ 30).toNat = 1073741824 := by decide
  rw [h]
  rfl

/-- C6, counterexample to the claim as stated: the two fragments of `twoGiBFrame` have
distinct fragment numbers and `2^31` bytes together, which is what `GetAssembledData` copies,
while `GetCurrentFrameSize()` is `-2147483648`; the dispatcher, holding this frame, throws at
`new char[currentFrameSize]`, makes no `DecodeFrame` call and sets the latch. -/
theorem C6_counterexample :
    (twoGiBFrame.m_frameFragments.map FrameFragment.m_fragmentNumber).Nodup ∧
    twoGiBFrame.GetCurrentFrameSize = -2147483648 ∧
    (((twoGiBFrame.m_frameFragments.map FrameFragment.GetBufferData).flatten.length : Nat)
      : Int) = 2147483648 ∧
    (∀ (decoder : video_engine.IDecoder) (s : System),
      (JitterBufferImpl.ProcessCompletedFrames.decode decoder s twoGiBFrame).calls = s.calls ∧
      (JitterBufferImpl.ProcessCompletedFrames.decode decoder s
        twoGiBFrame).jb.m_frameProcessingIsBlocked = true) := by
  refine ⟨?_, twoGiBFrame_size, ?_, ?_⟩
  · rw [twoGiBFrame_eq]
    show [(0 : Int), 1].Nodup
    decide
  · exact twoGiBFrame_bytes
  · intro decoder s
    have hneg : twoGiBFrame.GetCurrentFrameSize < 0 := by
      rw [twoGiBFrame_size]; decide
    unfold JitterBufferImpl.ProcessCompletedFrames.decode
    simp only [hneg, if_true]
    exact ⟨rfl, rfl⟩

/-- C6 (as amended): for every `FrameBuffer` built by the constructor and `AppendFragment`
calls that returned normally (its fragments have pairwise distinct fragment numbers) whose
fragments have less than `2^31` bytes together, `GetAssembledData` writes exactly
`GetCurrentFrameSize()` bytes into the output, and those bytes are the concatenation of the
stored fragments' payloads in ascending fragment-number order, whatever the order in which
the fragments were appended; the dispatcher, holding the frame, passes exactly these bytes
and this length to `DecodeFrame`. -/
theorem C6_assembled_data (fb : FrameBuffer) (hfb : fb.Built)
    (hsmall : (fb.m_frameFragments.map FrameFragment.m_bufferLength).sum < 2 ^ 31) :
    (fb.m_frameFragments.map FrameFragment.m_fragmentNumber).Nodup ∧
    ∃ ascending : List FrameFragment,
      ascending.Perm fb.m_frameFragments ∧
      ascending.Pairwise (fun a b => a.m_fragmentNumber < b.m_fragmentNumber) ∧
      (FrameBuffer.GetAssembledData.loop (stdSort fb.m_frameFragments)
          (List.replicate fb.GetCurrentFrameSize.toNat 0) 0).2 = fb.GetCurrentFrameSize ∧
      fb.GetAssembledData (List.replicate fb.GetCurrentFrameSize.toNat 0) =
        (ascending.map FrameFragment.GetBufferData).flatten ∧
      (((ascending.map FrameFragment.GetBufferData).flatten.length : Nat) : Int) =
        fb.GetCurrentFrameSize ∧
      (∀ fb2 : FrameBuffer, fb2.Built → fb2.m_frameFragments.Perm fb.m_frameFragments →
        fb2.GetAssembledData (List.replicate fb2.GetCurrentFrameSize.toNat 0) =
          fb.GetAssembledData (List.replicate fb.GetCurrentFrameSize.toNat 0)) ∧
      (∀ (decoder : video_engine.IDecoder) (s : System),
        (JitterBufferImpl.ProcessCompletedFrames.decode decoder s fb).calls =
          s.calls ++ [Call.DecodeFrame fb.GetFrameNumber
            ((ascending.map FrameFragment.GetBufferData).flatten)
            fb.GetCurrentFrameSize]) := by
  have hc := Built.consistent hfb
  obtain ⟨hloop, hlength⟩ := GetAssembledData_of_consistent fb hc hsmall
  have hdata : fb.GetAssembledData (List.replicate fb.GetCurrentFrameSize.toNat 0) =
      ((stdSort fb.m_frameFragments).map FrameFragment.GetBufferData).flatten := by
    simp only [FrameBuffer.GetAssembledData, hloop]
    rfl
  refine ⟨hc.1, stdSort fb.m_frameFragments, stdSort_perm _, stdSort_strict _ hc.1, ?_, hdata,
    hlength, ?_, ?_⟩
  · rw [hloop]
  · intro fb2 hfb2 hperm
    have hc2 := Built.consistent hfb2
    obtain ⟨hloop2, _⟩ := GetAssembledData_of_consistent fb2 hc2
      (by rw [(hperm.map FrameFragment.m_bufferLength).sum_eq]; exact hsmall)
    have hdata2 : fb2.GetAssembledData (List.replicate fb2.GetCurrentFrameSize.toNat 0) =
        ((stdSort fb2.m_frameFragments).map FrameFragment.GetBufferData).flatten := by
      simp only [FrameBuffer.GetAssembledData, hloop2]
      rfl
    have heq : stdSort fb2.m_frameFragments = stdSort fb.m_frameFragments :=
      strict_sorted_unique _ _ (stdSort_strict _ hc2.1) (stdSort_strict _ hc.1)
        (((stdSort_perm _).trans hperm).trans (stdSort_perm _).symm)
    rw [hdata2, hdata, heq]
  · intro decoder s
    have hnn : ¬ fb.GetCurrentFrameSize < 0 := not_lt.mpr (Built.size_nonneg hfb hsmall)
    unfold JitterBufferImpl.ProcessCompletedFrames.decode
    simp only [hnn, if_false, hdata]
    cases decoder.DecodeFrame s.calls
        ((stdSort fb.m_frameFragments).map FrameFragment.GetBufferData).flatten
        fb.GetCurrentFrameSize s.decodedData with
    | returns r => rfl
    | throwsStd => rfl
    | throwsOther => rfl

/-- C6, witness: a frame of two fragments appended in the order 1, 0; the bytes assembled are
those of fragment 0 followed by those of fragment 1. -/
theorem C6_assembled_data_witness :
    (((FrameBuffer.new (fun _ => 2) 2 0 1 2).AppendFragment (fun _ => 1) 1 0).m_frameFragments.map
      FrameFragment.m_fragmentNumber).Nodup ∧
    ((FrameBuffer.new (fun _ => 2) 2 0 1 2).AppendFragment (fun _ => 1) 1 0).GetAssembledData
      (List.replicate 3 0) = [1, 2, 2] :=
  ⟨(C6_assembled_data
    ((FrameBuffer.new (fun _ => 2) 2 0 1 2).AppendFragment (fun _ => 1) 1 0)
    (FrameBuffer.Built.append _ _ _ _ (by decide)
      (FrameBuffer.Built.new _ _ _ _ _ (by decide))) (by decide)).1, by decide⟩

end JitterBuffer

namespace JitterBuffer

/-! ## The threads: preservation of the invariant -/

/-- The structural invariant depends on the store, the ready queue and the watermark only,
apart from its two clauses on the flags. -/
theorem inv_congr {jb jb2 : JitterBufferImpl} (h : jb.Inv)
    (h1 : jb2.m_unsortedFrameBuffers = jb.m_unsortedFrameBuffers)
    (h2 : jb2.m_sortedFrameBuffers = jb.m_sortedFrameBuffers)
    (h3 : jb2.m_lastDecodedFrameNumber = jb.m_lastDecodedFrameNumber)
    (hR : jb2.m_recycleTaskLaunched = false → jb2.m_recyclerThread = none)
    (hD : jb2.m_dataProcessingTaskLaunched = false → jb2.m_dataProcessingThread = none) :
    jb2.Inv :=
  { sorted := by rw [h1]; exact h.sorted
    keyEq := by rw [h1]; exact h.keyEq
    above := by rw [h1, h3]; exact h.above
    queue := by rw [h2, h3]; exact h.queue
    lastLB := by rw [h2, h3]; exact h.lastLB
    flagR := hR
    flagD := hD }

theorem checks_sorted (jb : JitterBufferImpl) (q : FrameList) (buffer : CharPtr)
    (length frameNumber fragmentNumber num : Int) :
    JitterBufferImpl.ReceivePacket.checks { jb with m_sortedFrameBuffers := q } buffer length
        frameNumber fragmentNumber num =
      JitterBufferImpl.ReceivePacket.checks jb buffer length frameNumber fragmentNumber num :=
  rfl

theorem launch_sorted (jb : JitterBufferImpl) (q : FrameList) :
    JitterBufferImpl.ReceivePacket.launch { jb with m_sortedFrameBuffers := q } =
      { JitterBufferImpl.ReceivePacket.launch jb with m_sortedFrameBuffers := q } := by
  unfold JitterBufferImpl.ReceivePacket.launch
  cases h1 : jb.m_recycleTaskLaunched <;> cases h2 : jb.m_dataProcessingTaskLaunched <;>
    simp [h1, h2]

/-- `ReceivePacket` does not read the ready queue: it has the same effect on an instance
whose ready queue is another one. -/
theorem ReceivePacket_sorted (jb : JitterBufferImpl) (q : FrameList) (buffer : CharPtr)
    (length frameNumber fragmentNumber num : Int) :
    (JitterBufferImpl.ReceivePacket { jb with m_sortedFrameBuffers := q } buffer length
        frameNumber fragmentNumber num).1 =
      { (jb.ReceivePacket buffer length frameNumber fragmentNumber num).1 with
        m_sortedFrameBuffers := q } := by
  unfold JitterBufferImpl.ReceivePacket
  rw [checks_sorted]
  cases JitterBufferImpl.ReceivePacket.checks jb buffer length frameNumber fragmentNumber
      num with
  | error ex => rfl
  | ok u =>
    simp only []
    by_cases h1 : frameNumber ≤ jb.m_lastDecodedFrameNumber
    · simp only [h1, if_true]
    · simp only [h1, if_false]
      by_cases h2 : (jb.m_unsortedFrameBuffers.length : Int) = MaxFrameNumber
      · simp only [h2, if_true]
      · simp only [h2, if_false]
        exact launch_sorted { jb with m_unsortedFrameBuffers := _ } q

theorem settled_ReceivePacket (s : System) (buffer : CharPtr)
    (length frameNumber fragmentNumber num : Int) :
    System.settled { s with jb := (s.jb.ReceivePacket buffer length frameNumber fragmentNumber
        num).1 } =
      (s.settled.ReceivePacket buffer length frameNumber fragmentNumber num).1 := by
  have h := ReceivePacket_sorted s.jb (s.jb.m_sortedFrameBuffers ++ s.recycler.tempArray)
    buffer length frameNumber fragmentNumber num
  have hq := (ReceivePacket_frame s.jb buffer length frameNumber fragmentNumber num).1
  show ({ (s.jb.ReceivePacket buffer length frameNumber fragmentNumber num).1 with
      m_sortedFrameBuffers :=
        (s.jb.ReceivePacket buffer length frameNumber fragmentNumber
          num).1.m_sortedFrameBuffers ++ s.recycler.tempArray } : JitterBufferImpl) = _
  rw [hq]
  exact h.symm

theorem taken_eq (s : System) (h : s.settled.Inv) :
    (s.taken : Int) = s.jb.m_lastDecodedFrameNumber + 1 -
      (s.jb.m_sortedFrameBuffers.length : Int) - (s.recycler.tempArray.length : Int) := by
  have hlb := h.lastLB
  simp only [System.settled, List.length_append, Nat.cast_add] at hlb
  unfold System.taken
  rw [Int.toNat_of_nonneg (by omega)]

theorem expectedShape_ne (a k : Nat) : expectedShape a ≠ expectedShape k ++ [some (k : Int)] := by
  intro h
  have hl := congrArg List.length h
  rw [List.length_append, expectedShape_length, expectedShape_length] at hl
  simp only [List.length_singleton] at hl
  omega

end JitterBuffer

namespace JitterBuffer

/-- What a `ReceivePacket` call does to the workers: nothing, or both flags are set and a
worker that was not started is running. -/
theorem ReceivePacket_workers (jb : JitterBufferImpl) (buffer : CharPtr)
    (length frameNumber fragmentNumber num : Int) :
    (jb.ReceivePacket buffer length frameNumber fragmentNumber num).1 = jb ∨
    ((jb.ReceivePacket buffer length frameNumber fragmentNumber
        num).1.m_recycleTaskLaunched = true ∧
      (jb.ReceivePacket buffer length frameNumber fragmentNumber
        num).1.m_dataProcessingTaskLaunched = true ∧
      (jb.ReceivePacket buffer length frameNumber fragmentNumber num).1.m_recyclerThread =
        (if jb.m_recycleTaskLaunched then jb.m_recyclerThread else some Thread.running) ∧
      (jb.ReceivePacket buffer length frameNumber fragmentNumber
        num).1.m_dataProcessingThread =
        (if jb.m_dataProcessingTaskLaunched then jb.m_dataProcessingThread
          else some Thread.running)) := by
  rcases ReceivePacket_state jb buffer length frameNumber fragmentNumber num with
    hr | ⟨mem, _, _, _, _, _, ⟨_, hr⟩ | ⟨fb, _, hr⟩⟩
  · exact Or.inl hr
  · right
    rw [hr]
    have hf := launch_fields { jb with m_unsortedFrameBuffers :=
      (jb.m_unsortedFrameBuffers.assign frameNumber
        (FrameBuffer.new mem length frameNumber fragmentNumber num)) }
    exact ⟨hf.2.2.2.2.2.1, hf.2.2.2.2.2.2.1, hf.2.2.2.2.2.2.2.1, hf.2.2.2.2.2.2.2.2⟩
  · right
    rw [hr]
    have hf := launch_fields { jb with m_unsortedFrameBuffers :=
      (jb.m_unsortedFrameBuffers.update frameNumber
        (fun fb => fb.AppendFragment mem length fragmentNumber)) }
    exact ⟨hf.2.2.2.2.2.1, hf.2.2.2.2.2.2.1, hf.2.2.2.2.2.2.2.1, hf.2.2.2.2.2.2.2.2⟩

/-- A `ReceivePacket` call leaves the thread of the dispatcher as it is once the dispatcher
was started, and the flag stays set. -/
theorem ReceivePacket_dispatcher (jb : JitterBufferImpl) (buffer : CharPtr)
    (length frameNumber fragmentNumber num : Int)
    (hflag : jb.m_dataProcessingTaskLaunched = true) :
    (jb.ReceivePacket buffer length frameNumber fragmentNumber num).1.m_dataProcessingThread =
      jb.m_dataProcessingThread ∧
    (jb.ReceivePacket buffer length frameNumber fragmentNumber
      num).1.m_dataProcessingTaskLaunched = true := by
  rcases ReceivePacket_workers jb buffer length frameNumber fragmentNumber num with
    hr | ⟨_, h2, _, h4⟩
  · rw [hr]; exact ⟨rfl, hflag⟩
  · rw [h4, hflag]; exact ⟨rfl, h2⟩

theorem Stopped_ReceivePacket (s : System) (buffer : CharPtr)
    (length frameNumber fragmentNumber num : Int) (h : s.Stopped) :
    System.Stopped { s with jb := (s.jb.ReceivePacket buffer length frameNumber fragmentNumber
      num).1 } := by
  rcases h with h | ⟨h1, h2⟩
  · exact Or.inl h
  · right
    have hd := ReceivePacket_dispatcher s.jb buffer length frameNumber fragmentNumber num h2
    exact ⟨hd.1.trans h1, hd.2⟩

theorem inv_ReceivePacket (s : System) (buffer : CharPtr)
    (length frameNumber fragmentNumber num : Int) (h : s.Inv) :
    System.Inv { s with jb := (s.jb.ReceivePacket buffer length frameNumber fragmentNumber
      num).1 } := by
  have hfr := ReceivePacket_frame s.jb buffer length frameNumber fragmentNumber num
  have htaken : System.taken { s with jb := (s.jb.ReceivePacket buffer length frameNumber
      fragmentNumber num).1 } = s.taken := by
    unfold System.taken
    simp only [hfr.1, hfr.2.1]
  have hflagD : s.jb.m_dataProcessingThread ≠ none → s.jb.m_dataProcessingTaskLaunched = true := by
    intro hne
    by_contra hf
    exact hne (h.jb.flagD (by simpa using hf))
  refine ⟨?_, ?_, ?_, h.shape, ?_⟩
  · rw [settled_ReceivePacket]
    exact ReceivePacket_inv _ _ _ _ _ _ h.jb
  · intro hb
    have hb2 : s.jb.m_frameProcessingIsBlocked = true := by rw [← hfr.2.2.1]; exact hb
    have hfin := h.latch hb2
    have hd := ReceivePacket_dispatcher s.jb buffer length frameNumber fragmentNumber num
      (hflagD (by rw [hfin]; simp))
    exact hd.1.trans hfin
  · intro hnf
    have hnf2 : s.NoFailure := ⟨by rw [← hfr.2.2.1]; exact hnf.1, hnf.2⟩
    have hl := h.live hnf2
    rw [htaken]
    exact hl
  · intro hk
    rcases h.pendingRender hk with hst | ⟨fb, n, hpc, hrun, hterm⟩
    · exact Or.inl (Stopped_ReceivePacket s buffer length frameNumber fragmentNumber num hst)
    · right
      have hd := ReceivePacket_dispatcher s.jb buffer length frameNumber fragmentNumber num
        (hflagD (by rw [hrun]; simp))
      exact ⟨fb, n, hpc, hd.1.trans hrun, hterm⟩

theorem inv_Destructor (s : System) (h : s.Inv) :
    System.Inv { s with jb := s.jb.Destructor } := by
  refine ⟨?_, h.latch, h.live, h.shape, h.pendingRender⟩
  exact inv_congr h.jb rfl rfl rfl h.jb.flagR h.jb.flagD

end JitterBuffer

namespace JitterBuffer

/-- A step that leaves the dispatcher, the record, the latch and the number of frames taken
as they are keeps the invariant, given the structural invariant of the new state. -/
theorem Inv.of_unchanged (s s2 : System) (h : s.Inv) (hjb : s2.settled.Inv)
    (hd : s2.dispatcher = s.dispatcher) (hc : s2.calls = s.calls)
    (ht : s2.terminated = s.terminated)
    (hb : s2.jb.m_frameProcessingIsBlocked = s.jb.m_frameProcessingIsBlocked)
    (hth : s2.jb.m_dataProcessingThread = s.jb.m_dataProcessingThread)
    (hfl : s2.jb.m_dataProcessingTaskLaunched = s.jb.m_dataProcessingTaskLaunched)
    (htk : s2.taken = s.taken) : s2.Inv := by
  refine ⟨hjb, ?_, ?_, ?_, ?_⟩
  · rw [hb, hth]; exact h.latch
  · intro hnf
    rw [hd, hc, htk]
    exact h.live ⟨by rw [← hb]; exact hnf.1, by rw [← ht]; exact hnf.2⟩
  · rw [hc]; exact h.shape
  · rw [hc]
    intro hk
    rcases h.pendingRender hk with hst | ⟨fb, n, hpc, hrun, hterm⟩
    · left
      rcases hst with hst | ⟨h1, h2⟩
      · exact Or.inl (by rw [ht]; exact hst)
      · exact Or.inr ⟨by rw [hth]; exact h1, by rw [hfl]; exact h2⟩
    · exact Or.inr ⟨fb, n, by rw [hd]; exact hpc, by rw [hth]; exact hrun,
        by rw [ht]; exact hterm⟩

theorem flag_of_recycler (jb : JitterBufferImpl) (h : jb.Inv)
    (hrun : jb.m_recyclerThread = some Thread.running) : jb.m_recycleTaskLaunched = true := by
  by_contra hf
  have := h.flagR (by simpa using hf)
  rw [hrun] at this
  cases this

theorem flag_of_dispatcher (jb : JitterBufferImpl) (h : jb.Inv)
    (hrun : jb.m_dataProcessingThread = some Thread.running) :
    jb.m_dataProcessingTaskLaunched = true := by
  by_contra hf
  have := h.flagD (by simpa using hf)
  rw [hrun] at this
  cases this

/-- The first block of the recycler: what it does to the store, the watermark and
`tempArray`, for a store in ascending key order above the watermark. -/
theorem block1_eq (s : System) (h : s.settled.Inv) :
    (JitterBufferImpl.RecycleExistingFrames.block1 s).jb.m_unsortedFrameBuffers =
      s.jb.m_unsortedFrameBuffers.drop
        (readyRun s.jb.m_unsortedFrameBuffers s.jb.m_lastDecodedFrameNumber) ∧
    (JitterBufferImpl.RecycleExistingFrames.block1 s).jb.m_lastDecodedFrameNumber =
      s.jb.m_lastDecodedFrameNumber +
        (readyRun s.jb.m_unsortedFrameBuffers s.jb.m_lastDecodedFrameNumber : Int) ∧
    (JitterBufferImpl.RecycleExistingFrames.block1 s).recycler.tempArray =
      (s.jb.m_unsortedFrameBuffers.take
        (readyRun s.jb.m_unsortedFrameBuffers s.jb.m_lastDecodedFrameNumber)).map Prod.snd ∧
    (JitterBufferImpl.RecycleExistingFrames.block1 s).jb.m_sortedFrameBuffers =
      s.jb.m_sortedFrameBuffers := by
  have hloop := recycle_loop_eq s.jb.m_unsortedFrameBuffers s.jb.m_lastDecodedFrameNumber []
    h.sorted h.above
  unfold JitterBufferImpl.RecycleExistingFrames.block1
  simp only [hloop, List.nil_append]
  refine ⟨trivial, trivial, ?_, trivial⟩
  split
  · rename_i he
    simp only [Recycler.tempArray]
    exact (List.isEmpty_iff.mp he).symm
  · rfl

theorem inv_recycler (s : System) (h : s.Inv) :
    (JitterBufferImpl.RecycleExistingFrames.next s).Inv := by
  unfold JitterBufferImpl.RecycleExistingFrames.next
  by_cases hrun : s.jb.m_recyclerThread = some Thread.running
  swap
  · rw [if_neg hrun]; exact h
  rw [if_pos hrun]
  have hflag : s.jb.m_recycleTaskLaunched = true := flag_of_recycler s.settled h.jb hrun
  cases hpc : s.recycler with
  | test =>
    simp only []
    unfold JitterBufferImpl.RecycleExistingFrames.test
    cases hsd : s.jb.m_shutdownRequested with
    | true =>
      simp only [if_true]
      refine Inv.of_unchanged s _ h ?_ rfl rfl rfl rfl rfl rfl rfl
      exact inv_congr h.jb rfl rfl rfl
        (fun hf => absurd hflag (by rw [show s.jb.m_recycleTaskLaunched = false from hf]; simp))
        h.jb.flagD
    | false =>
      simp only [Bool.false_eq_true, if_false]
      refine Inv.of_unchanged s _ h ?_ rfl rfl rfl rfl rfl rfl ?_
      · have hs : System.settled { s with recycler := Recycler.block1 } = s.settled := by
          unfold System.settled
          rw [hpc]
          rfl
        rw [hs]; exact h.jb
      · unfold System.taken
        rw [hpc]
        rfl
  | block1 =>
    simp only []
    have hset : s.settled = { s.jb with m_sortedFrameBuffers := s.jb.m_sortedFrameBuffers ++ [] } := by
      unfold System.settled
      rw [hpc]
      rfl
    obtain ⟨h1, h2, h3, h4⟩ := block1_eq s h.jb
    have hspec := readyRun_spec s.jb.m_unsortedFrameBuffers s.jb.m_lastDecodedFrameNumber
    have hlen : (JitterBufferImpl.RecycleExistingFrames.block1 s).recycler.tempArray.length =
        readyRun s.jb.m_unsortedFrameBuffers s.jb.m_lastDecodedFrameNumber := by
      rw [h3, List.length_map, List.length_take]
      exact Nat.min_eq_left hspec.1
    refine Inv.of_unchanged s _ h ?_ rfl rfl rfl rfl rfl rfl ?_
    · -- the settled instance after the block is the one after a whole pass
      have hA : JitterBufferImpl.Inv { s.settled with
          m_recyclerThread := some Thread.running, m_shutdownRequested := false } :=
        inv_congr h.jb rfl rfl rfl
          (fun hf => absurd hflag (by
            rw [show s.jb.m_recycleTaskLaunched = false from hf]; simp))
          h.jb.flagD
      have hB := RecycleExistingFrames_inv _ hA
      have hbatch := RecycleExistingFrames_batch { s.settled with
          m_recyclerThread := some Thread.running, m_shutdownRequested := false }
      have hloop := recycle_loop_eq s.jb.m_unsortedFrameBuffers s.jb.m_lastDecodedFrameNumber []
        h.jb.sorted h.jb.above
      have htemp : JitterBufferImpl.RecycleExistingFrames.tempArray { s.settled with
          m_recyclerThread := some Thread.running, m_shutdownRequested := false } =
          (s.jb.m_unsortedFrameBuffers.take
            (readyRun s.jb.m_unsortedFrameBuffers s.jb.m_lastDecodedFrameNumber)).map
              Prod.snd := by
        unfold JitterBufferImpl.RecycleExistingFrames.tempArray
        simp only [and_self, if_true]
        show (JitterBufferImpl.RecycleExistingFrames.loop s.jb.m_unsortedFrameBuffers
          s.jb.m_unsortedFrameBuffers s.jb.m_lastDecodedFrameNumber []).2.2 = _
        rw [hloop]
        rfl
      have hstore : (JitterBufferImpl.RecycleExistingFrames { s.settled with
          m_recyclerThread := some Thread.running,
          m_shutdownRequested := false }).m_unsortedFrameBuffers =
          s.jb.m_unsortedFrameBuffers.drop
            (readyRun s.jb.m_unsortedFrameBuffers s.jb.m_lastDecodedFrameNumber) := by
        unfold JitterBufferImpl.RecycleExistingFrames
        simp only [and_self, if_true]
        show (JitterBufferImpl.RecycleExistingFrames.loop s.jb.m_unsortedFrameBuffers
          s.jb.m_unsortedFrameBuffers s.jb.m_lastDecodedFrameNumber []).1 = _
        rw [hloop]
      refine inv_congr hB ?_ ?_ ?_ ?_ ?_
      · show (JitterBufferImpl.RecycleExistingFrames.block1 s).jb.m_unsortedFrameBuffers = _
        rw [h1, hstore]
      · show (JitterBufferImpl.RecycleExistingFrames.block1 s).jb.m_sortedFrameBuffers ++
          (JitterBufferImpl.RecycleExistingFrames.block1 s).recycler.tempArray = _
        rw [hbatch.2, htemp, h3, h4]
        show _ = (s.jb.m_sortedFrameBuffers ++ s.recycler.tempArray) ++ _
        rw [hpc]
        simp [Recycler.tempArray]
      · show (JitterBufferImpl.RecycleExistingFrames.block1 s).jb.m_lastDecodedFrameNumber = _
        rw [h2, hbatch.1, htemp, List.length_map, List.length_take,
          Nat.min_eq_left hspec.1]
        rfl
      · exact fun hf => absurd hflag (by
          rw [show s.jb.m_recycleTaskLaunched = false from hf]; simp)
      · exact h.jb.flagD
    · unfold System.taken
      rw [h2, h4, hlen, hpc]
      simp only [Recycler.tempArray, List.length_nil, Nat.cast_zero]
      congr 1
      omega
  | block2 tempArray =>
    simp only []
    unfold JitterBufferImpl.RecycleExistingFrames.block2
    refine Inv.of_unchanged s _ h ?_ rfl rfl rfl rfl rfl rfl ?_
    · have hs : System.settled { s with
          jb := { s.jb with m_sortedFrameBuffers := s.jb.m_sortedFrameBuffers ++ tempArray }
          recycler := Recycler.test } = s.settled := by
        unfold System.settled
        rw [hpc]
        simp [Recycler.tempArray]
      rw [hs]; exact h.jb
    · unfold System.taken
      rw [hpc]
      simp only [Recycler.tempArray, List.length_append, List.length_nil, Nat.cast_add,
        Nat.cast_zero]
      congr 1
      omega

end JitterBuffer

namespace JitterBuffer

theorem callShape_decode (calls : List Call) (n : Int) (buffer : List Byte) (length : Int) :
    callShape (calls ++ [Call.DecodeFrame n buffer length]) = callShape calls ++ [some n] := by
  simp [callShape]

theorem callShape_render (calls : List Call) (buffer : List Byte) (length : Int) :
    callShape (calls ++ [Call.RenderFrame buffer length]) = callShape calls ++ [none] := by
  simp [callShape]

/-- The state left by the `catch` block of the dispatcher satisfies the invariant. -/
theorem inv_handler (s : System) (c : List Call) (h : s.settled.Inv)
    (hrun : s.jb.m_dataProcessingThread = some Thread.running)
    (hshape : ∃ k : Nat, callShape c = expectedShape k ∨
      callShape c = expectedShape k ++ [some (k : Int)]) :
    (JitterBufferImpl.ProcessCompletedFrames.handler { s with calls := c }).Inv := by
  have hflag : s.jb.m_dataProcessingTaskLaunched = true := flag_of_dispatcher s.settled h hrun
  refine ⟨?_, ?_, ?_, hshape, ?_⟩
  · exact inv_congr h rfl rfl rfl h.flagR
      (fun hf => absurd hflag (by
        rw [show s.jb.m_dataProcessingTaskLaunched = false from hf]; simp))
  · intro _; rfl
  · intro hnf
    have h1 := hnf.1
    simp [JitterBufferImpl.ProcessCompletedFrames.handler,
      JitterBufferImpl.ProcessCompletedFrames.caught] at h1
  · intro _
    exact Or.inl (Or.inr ⟨rfl, hflag⟩)

/-- The state of a terminated process satisfies the invariant. -/
theorem inv_terminate (s : System) (c : List Call) (h : s.Inv)
    (hshape : ∃ k : Nat, callShape c = expectedShape k ∨
      callShape c = expectedShape k ++ [some (k : Int)]) :
    System.Inv { s with calls := c, terminated := true } := by
  refine ⟨h.jb, h.latch, ?_, hshape, ?_⟩
  · intro hnf
    have h2 := hnf.2
    simp at h2
  · intro _
    exact Or.inl (Or.inl rfl)

theorem inv_dispatcher (decoder : video_engine.IDecoder) (renderer : video_engine.IRenderer)
    (s : System) (h : s.Inv) (ht : s.terminated = false) :
    (JitterBufferImpl.ProcessCompletedFrames.next decoder renderer s).Inv := by
  unfold JitterBufferImpl.ProcessCompletedFrames.next
  by_cases hrun : s.jb.m_dataProcessingThread = some Thread.running
  swap
  · rw [if_neg hrun]; exact h
  rw [if_pos hrun]
  have hflag : s.jb.m_dataProcessingTaskLaunched = true := flag_of_dispatcher s.settled h.jb hrun
  have hlatch : s.jb.m_frameProcessingIsBlocked = false := by
    by_contra hb
    have := h.latch (by simpa using hb)
    rw [hrun] at this
    cases this
  have hnf : s.NoFailure := ⟨hlatch, ht⟩
  have hlive := h.live hnf
  have htk := taken_eq s h.jb
  cases hpc : s.dispatcher with
  | test =>
    rw [hpc] at hlive
    simp only []
    unfold JitterBufferImpl.ProcessCompletedFrames.test
    cases hsd : s.jb.m_shutdownRequested with
    | true =>
      simp only [if_true]
      refine ⟨?_, fun _ => rfl, ?_, h.shape, ?_⟩
      · exact inv_congr h.jb rfl rfl rfl h.jb.flagR
          (fun hf => absurd hflag (by
            rw [show s.jb.m_dataProcessingTaskLaunched = false from hf]; simp))
      · intro _
        show s.dispatcher.Record s.calls s.taken
        rw [hpc]; exact hlive
      · intro _
        exact Or.inl (Or.inr ⟨rfl, hflag⟩)
    | false =>
      simp only [Bool.false_eq_true, if_false]
      refine ⟨h.jb, h.latch, ?_, h.shape, ?_⟩
      · intro _
        exact hlive
      · intro hk
        obtain ⟨k, hk⟩ := hk
        exfalso
        have hl : callShape s.calls = expectedShape s.taken := hlive
        rw [hl] at hk
        exact expectedShape_ne _ _ hk
  | block =>
    rw [hpc] at hlive
    have hl : callShape s.calls = expectedShape s.taken := hlive
    simp only []
    unfold JitterBufferImpl.ProcessCompletedFrames.block
    cases hq : s.jb.m_sortedFrameBuffers with
    | nil =>
      simp only []
      refine ⟨h.jb, h.latch, ?_, h.shape, ?_⟩
      · intro _
        exact hlive
      · intro hk
        obtain ⟨k, hk⟩ := hk
        exfalso
        rw [hl] at hk
        exact expectedShape_ne _ _ hk
    | cons fb rest =>
      simp only []
      have hq2 : s.settled.m_sortedFrameBuffers = fb :: (rest ++ s.recycler.tempArray) := by
        show s.jb.m_sortedFrameBuffers ++ s.recycler.tempArray = _
        rw [hq]; rfl
      obtain ⟨hnum, hinv⟩ := pop_inv s.settled fb (rest ++ s.recycler.tempArray) h.jb hq2
      rw [hq] at htk
      simp only [List.length_cons, Nat.cast_add, Nat.cast_one] at htk
      have htk2 : System.taken { s with
          jb := { s.jb with m_sortedFrameBuffers := rest }
          dispatcher := Dispatcher.decode fb } = s.taken + 1 := by
        have hlb := hinv.lastLB
        simp only [List.length_append, Nat.cast_add] at hlb
        unfold System.taken
        show (s.jb.m_lastDecodedFrameNumber + 1 - (rest.length : Int) -
          (s.recycler.tempArray.length : Int)).toNat = s.taken + 1
        have : ((s.taken + 1 : Nat) : Int) = s.jb.m_lastDecodedFrameNumber + 1 -
            (rest.length : Int) - (s.recycler.tempArray.length : Int) := by
          push_cast; omega
        rw [← this, Int.toNat_ofNat]
      refine ⟨hinv, h.latch, ?_, h.shape, ?_⟩
      · intro _
        show (Dispatcher.decode fb).Record s.calls _
        rw [htk2]
        refine ⟨by omega, ?_, ?_⟩
        · rw [hnum]
          show s.jb.m_lastDecodedFrameNumber + 1 - _ = _
          simp only [List.length_append, Nat.cast_add]
          push_cast
          omega
        · rw [Nat.add_sub_cancel]; exact hl
      · intro hk
        obtain ⟨k, hk⟩ := hk
        exfalso
        have hk2 : callShape s.calls = expectedShape k ++ [some (k : Int)] := hk
        rw [hl] at hk2
        exact expectedShape_ne _ _ hk2
  | decode fb =>
    rw [hpc] at hlive
    obtain ⟨hpos, hnum, hl⟩ := hlive
    simp only []
    unfold JitterBufferImpl.ProcessCompletedFrames.decode
    simp only []
    by_cases hneg : fb.GetCurrentFrameSize < 0
    · rw [if_pos hneg]
      have := inv_handler s s.calls h.jb hrun h.shape
      exact this
    · rw [if_neg hneg]
      have hcast : ((s.taken - 1 : Nat) : Int) = (s.taken : Int) - 1 := by omega
      have hshape2 : callShape (s.calls ++ [Call.DecodeFrame fb.GetFrameNumber
          (fb.GetAssembledData (List.replicate fb.GetCurrentFrameSize.toNat 0))
          fb.GetCurrentFrameSize]) =
          expectedShape (s.taken - 1) ++ [some (((s.taken - 1 : Nat)) : Int)] := by
        rw [callShape_decode, hl, hcast]
        show _ ++ [some fb.m_frameNumber] = _
        rw [hnum]
      cases hdec : decoder.DecodeFrame s.calls
          (fb.GetAssembledData (List.replicate fb.GetCurrentFrameSize.toNat 0))
          fb.GetCurrentFrameSize s.decodedData with
      | returns r =>
        obtain ⟨decodedData, decodedBufferSize⟩ := r
        simp only []
        refine ⟨h.jb, h.latch, ?_, ⟨s.taken - 1, Or.inr hshape2⟩, ?_⟩
        · intro _
          show (Dispatcher.render fb decodedBufferSize).Record _ s.taken
          refine ⟨hpos, hnum, ?_⟩
          rw [hshape2, hcast]
        · intro _
          exact Or.inr ⟨fb, decodedBufferSize, rfl, hrun, ht⟩
      | throwsStd =>
        simp only []
        exact inv_handler s _ h.jb hrun ⟨s.taken - 1, Or.inr hshape2⟩
      | throwsOther =>
        simp only []
        exact inv_terminate s _ h ⟨s.taken - 1, Or.inr hshape2⟩
  | render fb decodedBufferSize =>
    rw [hpc] at hlive
    obtain ⟨hpos, hnum, hl⟩ := hlive
    simp only []
    unfold JitterBufferImpl.ProcessCompletedFrames.render
    simp only []
    have hcast : ((s.taken - 1 : Nat) : Int) = (s.taken : Int) - 1 := by omega
    have hshape2 : callShape (s.calls ++ [Call.RenderFrame
        (bytesAt s.decodedData decodedBufferSize) decodedBufferSize]) =
        expectedShape s.taken := by
      rw [callShape_render, hl]
      have hs := expectedShape_succ (s.taken - 1)
      rw [Nat.sub_add_cancel hpos] at hs
      rw [hs, hcast, List.append_assoc]
      rfl
    cases hren : renderer.RenderFrame s.calls s.decodedData decodedBufferSize with
    | returns u =>
      simp only []
      refine ⟨h.jb, h.latch, ?_, ⟨s.taken, Or.inl hshape2⟩, ?_⟩
      · intro _
        exact hshape2
      · intro hk
        obtain ⟨k, hk⟩ := hk
        exfalso
        have hk2 : callShape (s.calls ++ [Call.RenderFrame
          (bytesAt s.decodedData decodedBufferSize) decodedBufferSize]) =
            expectedShape k ++ [some (k : Int)] := hk
        rw [hshape2] at hk2
        exact expectedShape_ne _ _ hk2
    | throwsStd =>
      simp only []
      exact inv_handler s _ h.jb hrun ⟨s.taken, Or.inl hshape2⟩
    | throwsOther =>
      simp only []
      exact inv_terminate s _ h ⟨s.taken, Or.inl hshape2⟩

theorem instance_init_inv : JitterBufferImpl.init.Inv := by
  constructor <;> simp [JitterBufferImpl.init]

theorem system_init_inv (memory : Nat → Byte) : (System.init memory).Inv := by
  refine ⟨?_, ?_, ?_, ⟨0, Or.inl rfl⟩, ?_⟩
  · exact inv_congr instance_init_inv rfl rfl rfl (fun _ => rfl) (fun _ => rfl)
  · intro hb
    cases hb
  · intro _
    rfl
  · intro hk
    obtain ⟨k, hk⟩ := hk
    exfalso
    have hk2 : expectedShape 0 = expectedShape k ++ [some (k : Int)] := hk
    exact expectedShape_ne _ _ hk2

theorem system_step_inv (decoder : video_engine.IDecoder) (renderer : video_engine.IRenderer)
    (s : System) (a : Action) (h : s.Inv) : (s.step decoder renderer a).Inv := by
  unfold System.step
  by_cases ht : s.terminated = true
  · rw [if_pos ht]; exact h
  · rw [if_neg ht]
    have ht2 : s.terminated = false := by simpa using ht
    cases a with
    | ReceivePacket buffer length frameNumber fragmentNumber num =>
      exact inv_ReceivePacket s buffer length frameNumber fragmentNumber num h
    | Destructor => exact inv_Destructor s h
    | RecycleExistingFrames => exact inv_recycler s h
    | ProcessCompletedFrames => exact inv_dispatcher decoder renderer s h ht2

theorem system_run_inv (decoder : video_engine.IDecoder) (renderer : video_engine.IRenderer)
    (t : List Action) (s : System) (h : s.Inv) : (s.run decoder renderer t).Inv := by
  induction t generalizing s with
  | nil => exact h
  | cons a t ih => exact ih _ (system_step_inv decoder renderer s a h)

theorem system_run_append (decoder : video_engine.IDecoder) (renderer : video_engine.IRenderer)
    (s : System) (a b : List Action) :
    s.run decoder renderer (a ++ b) = (s.run decoder renderer a).run decoder renderer b := by
  simp [System.run, List.foldl_append]

theorem system_run_cons (decoder : video_engine.IDecoder) (renderer : video_engine.IRenderer)
    (s : System) (a : Action) (t : List Action) :
    s.run decoder renderer (a :: t) = (s.step decoder renderer a).run decoder renderer t := rfl

end JitterBuffer

namespace JitterBuffer

/-! ## Claims on the ready queue and the render count, on the threads -/

/-- A step of the recycler touches neither the record of calls nor anything of the
dispatcher. -/
theorem recycler_keeps (s : System) :
    (JitterBufferImpl.RecycleExistingFrames.next s).calls = s.calls ∧
    (JitterBufferImpl.RecycleExistingFrames.next s).decodedData = s.decodedData ∧
    (JitterBufferImpl.RecycleExistingFrames.next s).terminated = s.terminated ∧
    (JitterBufferImpl.RecycleExistingFrames.next s).dispatcher = s.dispatcher ∧
    (JitterBufferImpl.RecycleExistingFrames.next s).jb.m_dataProcessingThread =
      s.jb.m_dataProcessingThread ∧
    (JitterBufferImpl.RecycleExistingFrames.next s).jb.m_dataProcessingTaskLaunched =
      s.jb.m_dataProcessingTaskLaunched ∧
    (JitterBufferImpl.RecycleExistingFrames.next s).jb.m_frameProcessingIsBlocked =
      s.jb.m_frameProcessingIsBlocked ∧
    (JitterBufferImpl.RecycleExistingFrames.next s).jb.m_shutdownRequested =
      s.jb.m_shutdownRequested := by
  unfold JitterBufferImpl.RecycleExistingFrames.next
  split
  · cases s.recycler with
    | test =>
      simp only [JitterBufferImpl.RecycleExistingFrames.test]
      split <;> exact ⟨rfl, rfl, rfl, rfl, rfl, rfl, rfl, rfl⟩
    | block1 => exact ⟨rfl, rfl, rfl, rfl, rfl, rfl, rfl, rfl⟩
    | block2 tempArray => exact ⟨rfl, rfl, rfl, rfl, rfl, rfl, rfl, rfl⟩
  · exact ⟨rfl, rfl, rfl, rfl, rfl, rfl, rfl, rfl⟩

/-- Once the dispatcher makes no call any more, no action changes the record of calls, the
error latch or whether the process was terminated. -/
theorem stopped_step (decoder : video_engine.IDecoder) (renderer : video_engine.IRenderer)
    (s : System) (a : Action) (h : s.Stopped) :
    (s.step decoder renderer a).Stopped ∧ (s.step decoder renderer a).calls = s.calls ∧
    (s.step decoder renderer a).jb.m_frameProcessingIsBlocked =
      s.jb.m_frameProcessingIsBlocked ∧
    (s.step decoder renderer a).terminated = s.terminated := by
  unfold System.step
  by_cases ht : s.terminated = true
  · rw [if_pos ht]; exact ⟨h, rfl, rfl, rfl⟩
  · rw [if_neg ht]
    rcases h with h | ⟨h1, h2⟩
    · exact absurd h ht
    · cases a with
      | ReceivePacket buffer length frameNumber fragmentNumber num =>
        exact ⟨Stopped_ReceivePacket s buffer length frameNumber fragmentNumber num
          (Or.inr ⟨h1, h2⟩), rfl,
          (ReceivePacket_frame s.jb buffer length frameNumber fragmentNumber num).2.2.1, rfl⟩
      | Destructor => exact ⟨Or.inr ⟨h1, h2⟩, rfl, rfl, rfl⟩
      | RecycleExistingFrames =>
        obtain ⟨k1, _, k3, _, k5, k6, k7, _⟩ := recycler_keeps s
        exact ⟨Or.inr ⟨k5.trans h1, k6.trans h2⟩, k1, k7, k3⟩
      | ProcessCompletedFrames =>
        have hn : JitterBufferImpl.ProcessCompletedFrames.next decoder renderer s = s := by
          unfold JitterBufferImpl.ProcessCompletedFrames.next
          rw [if_neg (by rw [h1]; simp)]
        simp only []
        rw [hn]
        exact ⟨Or.inr ⟨h1, h2⟩, rfl, rfl, rfl⟩

theorem stopped_run (decoder : video_engine.IDecoder) (renderer : video_engine.IRenderer)
    (t : List Action) (s : System) (h : s.Stopped) :
    (s.run decoder renderer t).Stopped ∧ (s.run decoder renderer t).calls = s.calls ∧
    (s.run decoder renderer t).jb.m_frameProcessingIsBlocked =
      s.jb.m_frameProcessingIsBlocked ∧
    (s.run decoder renderer t).terminated = s.terminated := by
  induction t generalizing s with
  | nil => exact ⟨h, rfl, rfl, rfl⟩
  | cons a t ih =>
    obtain ⟨h1, h2, h3, h4⟩ := stopped_step decoder renderer s a h
    obtain ⟨g1, g2, g3, g4⟩ := ih (s.step decoder renderer a) h1
    exact ⟨g1, g2.trans h2, g3.trans h3, g4.trans h4⟩

/-- The frame numbers of the ready queue: `n` consecutive numbers that end where the
recycler's `tempArray` begins. -/
theorem queue_numbers (s : System) (h : s.settled.Inv) :
    s.jb.m_sortedFrameBuffers.map FrameBuffer.m_frameNumber =
      (List.range s.jb.m_sortedFrameBuffers.length).map
        (fun (i : Nat) => s.jb.m_lastDecodedFrameNumber + 1 -
          (s.jb.m_sortedFrameBuffers.length : Int) - (s.recycler.tempArray.length : Int) +
            (i : Int)) := by
  have hq := h.queue
  have hq2 : (s.jb.m_sortedFrameBuffers ++ s.recycler.tempArray).map FrameBuffer.m_frameNumber =
      (List.range (s.jb.m_sortedFrameBuffers ++ s.recycler.tempArray).length).map
        (fun (i : Nat) => s.jb.m_lastDecodedFrameNumber + 1 -
          ((s.jb.m_sortedFrameBuffers ++ s.recycler.tempArray).length : Int) + (i : Int)) := hq
  apply List.ext_getElem
  · simp
  · intro i h1 h2
    have hi : i < s.jb.m_sortedFrameBuffers.length := by simpa using h1
    have e := congrArg (fun l => l[i]?) hq2
    simp only [List.map_append, List.length_append] at e
    rw [List.getElem?_append_left (by simpa using hi)] at e
    rw [List.getElem?_eq_getElem (by simpa using hi),
      List.getElem?_eq_getElem (by simp; omega)] at e
    simp only [List.getElem_map, List.getElem_range, Option.some.injEq] at e
    simp only [List.getElem_map, List.getElem_range]
    rw [e]
    push_cast
    omega

/-- C17 (as amended): in every reachable state in which the ready queue
(`m_sortedFrameBuffers`) is non-empty, the frame number of its front element equals the last
emitted frame number + 1 minus the number of frames in the ready queue minus the number of
frames the recycler has taken out of the store and not yet appended to the ready queue. -/
theorem C17_ready_queue_front (decoder : video_engine.IDecoder)
    (renderer : video_engine.IRenderer) (memory : Nat → Byte) (t : List Action)
    (front : FrameBuffer) (rest : FrameList)
    (hq : ((System.init memory).run decoder renderer t).jb.m_sortedFrameBuffers =
      front :: rest) :
    front.GetFrameNumber =
      ((System.init memory).run decoder renderer t).jb.m_lastDecodedFrameNumber + 1 -
        (((System.init memory).run decoder renderer t).jb.m_sortedFrameBuffers.length : Int) -
        (((System.init memory).run decoder renderer t).recycler.tempArray.length : Int) := by
  have hinv := (system_run_inv decoder renderer t _ (system_init_inv memory)).jb
  generalize (System.init memory).run decoder renderer t = s at hinv hq
  have h := queue_numbers s hinv
  rw [hq] at h
  simp only [List.map_cons, List.length_cons, List.range_succ_eq_map, List.map_cons,
    List.cons.injEq] at h
  rw [hq]
  simp only [List.length_cons]
  have h1 := h.1
  show front.m_frameNumber = _
  rw [h1]
  push_cast
  omega

/-- C17, witness: frame 0 waits in the ready queue and frame 1 is in the recycler's
`tempArray`; the watermark is 1 and the front element's number is `1 + 1 - 1 - 1`. -/
theorem C17_ready_queue_front_witness :
    ((System.init (fun _ => 0)).run test.StubDecoder test.StubRenderer
      overlapTrace).jb.m_sortedFrameBuffers = [FrameBuffer.new (fun i => [7].getD i 0) 1 0 0 1] ∧
    (FrameBuffer.new (fun i => [7].getD i 0) 1 0 0 1).GetFrameNumber =
      ((System.init (fun _ => 0)).run test.StubDecoder test.StubRenderer
        overlapTrace).jb.m_lastDecodedFrameNumber + 1 -
      (((System.init (fun _ => 0)).run test.StubDecoder test.StubRenderer
        overlapTrace).jb.m_sortedFrameBuffers.length : Int) -
      (((System.init (fun _ => 0)).run test.StubDecoder test.StubRenderer
        overlapTrace).recycler.tempArray.length : Int) :=
  ⟨by decide, C17_ready_queue_front test.StubDecoder test.StubRenderer (fun _ => 0)
    overlapTrace _ [] (by decide)⟩

/-- C17, counterexample to the claim as stated: after frame 0 (one fragment) was received
and promoted, the ready queue holds exactly frame 0 and the last emitted frame number is 0,
so the front element's frame number (0) is not the last emitted frame number + 1.  And
when frame 1 has then been received and taken out of the store by the first locked block
of the recycler, the ready queue still holds exactly frame 0 while the last emitted frame
number is 1, so the front element's frame number is not the last emitted frame number + 1
minus the length of the queue either. -/
theorem C17_counterexample :
    ((System.init (fun _ => 0)).run test.StubDecoder test.StubRenderer
      (Action.packet [7] 0 0 1 :: Action.recyclerPass)).jb.m_sortedFrameBuffers.map
        FrameBuffer.GetFrameNumber = [0] ∧
    ((System.init (fun _ => 0)).run test.StubDecoder test.StubRenderer
      (Action.packet [7] 0 0 1 :: Action.recyclerPass)).jb.m_lastDecodedFrameNumber = 0 ∧
    ((System.init (fun _ => 0)).run test.StubDecoder test.StubRenderer
      (Action.packet [7] 0 0 1 :: Action.recyclerPass)).jb.m_sortedFrameBuffers.head?.map
        FrameBuffer.GetFrameNumber ≠
      some (((System.init (fun _ => 0)).run test.StubDecoder test.StubRenderer
        (Action.packet [7] 0 0 1 :: Action.recyclerPass)).jb.m_lastDecodedFrameNumber + 1) ∧
    ((System.init (fun _ => 0)).run test.StubDecoder test.StubRenderer
      overlapTrace).jb.m_sortedFrameBuffers.map FrameBuffer.GetFrameNumber = [0] ∧
    ((System.init (fun _ => 0)).run test.StubDecoder test.StubRenderer
      overlapTrace).jb.m_lastDecodedFrameNumber = 1 ∧
    ((System.init (fun _ => 0)).run test.StubDecoder test.StubRenderer
      overlapTrace).jb.m_sortedFrameBuffers.head?.map FrameBuffer.GetFrameNumber ≠
      some (((System.init (fun _ => 0)).run test.StubDecoder test.StubRenderer
        overlapTrace).jb.m_lastDecodedFrameNumber + 1 -
        (((System.init (fun _ => 0)).run test.StubDecoder test.StubRenderer
          overlapTrace).jb.m_sortedFrameBuffers.length : Int)) := by
  refine ⟨by decide, by decide, by decide, by decide, by decide, by decide⟩

/-- C18 (as amended): in every reachable state the frame numbers of the elements of the
ready queue, read front to back, are strictly ascending and consecutive (each is its
predecessor plus one), and when the queue is non-empty its back element's frame number
equals the last emitted frame number minus the number of frames the recycler has taken out
of the store and not yet appended to the ready queue. -/
theorem C18_ready_queue_consecutive (decoder : video_engine.IDecoder)
    (renderer : video_engine.IRenderer) (memory : Nat → Byte) (t : List Action) :
    (((System.init memory).run decoder renderer t).jb.m_sortedFrameBuffers.map
      FrameBuffer.GetFrameNumber).Chain' (fun a b => b = a + 1) ∧
    (((System.init memory).run decoder renderer t).jb.m_sortedFrameBuffers.map
      FrameBuffer.GetFrameNumber).Pairwise (fun a b => a < b) ∧
    (∀ back ∈ ((System.init memory).run decoder renderer t).jb.m_sortedFrameBuffers.getLast?,
      back.GetFrameNumber =
        ((System.init memory).run decoder renderer t).jb.m_lastDecodedFrameNumber -
          (((System.init memory).run decoder renderer t).recycler.tempArray.length : Int)) := by
  have hinv := (system_run_inv decoder renderer t _ (system_init_inv memory)).jb
  generalize (System.init memory).run decoder renderer t = s at hinv
  have hqueue := queue_numbers s hinv
  have hnum : s.jb.m_sortedFrameBuffers.map FrameBuffer.GetFrameNumber =
      s.jb.m_sortedFrameBuffers.map FrameBuffer.m_frameNumber := rfl
  refine ⟨?_, ?_, ?_⟩
  · rw [hnum, hqueue, List.chain'_iff_get]
    intro i hi
    simp only [List.get_eq_getElem, List.getElem_map, List.getElem_range]
    push_cast
    omega
  · rw [hnum, hqueue, List.pairwise_map]
    refine List.Pairwise.imp ?_ (List.pairwise_lt_range _)
    intro a b hab
    omega
  · intro back hback
    rw [Option.mem_def] at hback
    have h2 := congrArg List.getLast? hqueue
    rw [List.getLast?_map, hback] at h2
    cases hn : s.jb.m_sortedFrameBuffers.length with
    | zero =>
      rw [List.length_eq_zero.mp hn] at hback
      cases hback
    | succ n =>
      rw [hn, List.range_succ, List.map_append, List.map_singleton,
        List.getLast?_append_of_ne_nil _ (List.cons_ne_nil _ _)] at h2
      simp only [Option.map_some', List.getLast?_singleton, Option.some.injEq] at h2
      show back.m_frameNumber = _
      rw [h2]
      push_cast
      omega

/-- C18, counterexample to the claim as stated: frame 0 waits in the ready queue while the
recycler, between its two locked blocks, has already taken frame 1 out of the store and
advanced the watermark to 1.  The back element of the queue is frame 0, not frame 1. -/
theorem C18_counterexample :
    ((System.init (fun _ => 0)).run test.StubDecoder test.StubRenderer
      overlapTrace).jb.m_sortedFrameBuffers.map FrameBuffer.GetFrameNumber = [0] ∧
    ((System.init (fun _ => 0)).run test.StubDecoder test.StubRenderer
      overlapTrace).jb.m_unsortedFrameBuffers = [] ∧
    ((System.init (fun _ => 0)).run test.StubDecoder test.StubRenderer
      overlapTrace).recycler.tempArray.map FrameBuffer.GetFrameNumber = [1] ∧
    ((System.init (fun _ => 0)).run test.StubDecoder test.StubRenderer
      overlapTrace).jb.m_lastDecodedFrameNumber = 1 ∧
    ((System.init (fun _ => 0)).run test.StubDecoder test.StubRenderer
      overlapTrace).jb.m_sortedFrameBuffers.getLast?.map FrameBuffer.GetFrameNumber ≠
      some ((System.init (fun _ => 0)).run test.StubDecoder test.StubRenderer
        overlapTrace).jb.m_lastDecodedFrameNumber := by
  refine ⟨by decide, by decide, by decide, by decide, by decide⟩

theorem renderCount_append_decode (k : Nat) (n : Int) :
    (expectedShape k ++ [some n]).count none = k := by
  rw [List.count_append, expectedShape_count]
  simp

/-- C16 (as amended): in every trace without a worker failure (the error latch is clear and
the process was not terminated), the number of `RenderFrame` invocations made so far equals
the last emitted frame number + 1 minus the number of frames waiting in the ready queue
minus the number of frames in transit (taken out of the store by the recycler and not yet
appended to the ready queue, or taken from the ready queue by the dispatcher and not yet
rendered); so when the ready queue is empty and no frame is in transit, the number of
renderer invocations equals the last emitted frame number + 1. -/
theorem C16_render_count (decoder : video_engine.IDecoder) (renderer : video_engine.IRenderer)
    (memory : Nat → Byte) (t : List Action)
    (hclear : ((System.init memory).run decoder renderer t).NoFailure) :
    (renderCount ((System.init memory).run decoder renderer t).calls : Int) =
      ((System.init memory).run decoder renderer t).jb.m_lastDecodedFrameNumber + 1 -
        (((System.init memory).run decoder renderer t).jb.m_sortedFrameBuffers.length : Int) -
        (((System.init memory).run decoder renderer t).inTransit : Int) ∧
    (((System.init memory).run decoder renderer t).jb.m_sortedFrameBuffers = [] →
      ((System.init memory).run decoder renderer t).inTransit = 0 →
      (renderCount ((System.init memory).run decoder renderer t).calls : Int) =
        ((System.init memory).run decoder renderer t).jb.m_lastDecodedFrameNumber + 1) := by
  have hinv := system_run_inv decoder renderer t _ (system_init_inv memory)
  generalize (System.init memory).run decoder renderer t = s at hinv hclear
  have hlive := hinv.live hclear
  have htk := taken_eq s hinv.jb
  have hcount : (renderCount s.calls : Int) =
      s.jb.m_lastDecodedFrameNumber + 1 - (s.jb.m_sortedFrameBuffers.length : Int) -
        (s.inTransit : Int) := by
    rw [renderCount_eq_count]
    unfold System.inTransit
    cases hpc : s.dispatcher with
    | test =>
      rw [hpc] at hlive
      have hl : callShape s.calls = expectedShape s.taken := hlive
      rw [hl, expectedShape_count]
      simp only [Dispatcher.frameBuffer, Option.toList, List.length_nil]
      push_cast
      omega
    | block =>
      rw [hpc] at hlive
      have hl : callShape s.calls = expectedShape s.taken := hlive
      rw [hl, expectedShape_count]
      simp only [Dispatcher.frameBuffer, Option.toList, List.length_nil]
      push_cast
      omega
    | decode fb =>
      rw [hpc] at hlive
      obtain ⟨hpos, _, hl⟩ := hlive
      rw [hl, expectedShape_count]
      simp only [Dispatcher.frameBuffer, Option.toList, List.length_singleton]
      push_cast
      omega
    | render fb n =>
      rw [hpc] at hlive
      obtain ⟨hpos, _, hl⟩ := hlive
      rw [hl, renderCount_append_decode]
      simp only [Dispatcher.frameBuffer, Option.toList, List.length_singleton]
      push_cast
      omega
  refine ⟨hcount, ?_⟩
  intro hq ht
  rw [hcount, hq, ht]
  simp

/-- C16, witness: two frames received, promoted and dispatched with the test stubs; no
worker has failed, the ready queue is empty, no frame is in transit, the last emitted frame
number is 1 and the renderer was invoked twice. -/
theorem C16_render_count_witness :
    ((System.init (fun _ => 0)).run test.StubDecoder test.StubRenderer
      (twoFrameTrace [7] [8])).NoFailure ∧
    ((System.init (fun _ => 0)).run test.StubDecoder test.StubRenderer
      (twoFrameTrace [7] [8])).jb.m_lastDecodedFrameNumber = 1 ∧
    (renderCount ((System.init (fun _ => 0)).run test.StubDecoder test.StubRenderer
      (twoFrameTrace [7] [8])).calls : Int) =
      ((System.init (fun _ => 0)).run test.StubDecoder test.StubRenderer
        (twoFrameTrace [7] [8])).jb.m_lastDecodedFrameNumber + 1 :=
  ⟨⟨by decide, by decide⟩, by decide,
    (C16_render_count test.StubDecoder test.StubRenderer (fun _ => 0) (twoFrameTrace [7] [8])
      ⟨by decide, by decide⟩).2 (by decide) (by decide)⟩

/-- C16, counterexample to the claim as stated: frame 0 (one fragment) is received and the
recycler goes through its first locked block, which takes the frame out of the store and
advances the watermark to 0.  No worker has failed, the ready queue is still empty and no
`RenderFrame` call was made, so the number of renderer invocations (0) is not the last
emitted frame number + 1 minus the length of the ready queue (1).  The same holds two steps
of the dispatcher after the recycler has appended the frame to the ready queue: the
dispatcher has taken the frame from the queue and has not rendered it yet. -/
theorem C16_counterexample :
    ((System.init (fun _ => 0)).run test.StubDecoder test.StubRenderer
      [Action.packet [7] 0 0 1, Action.RecycleExistingFrames,
        Action.RecycleExistingFrames]).NoFailure ∧
    ((System.init (fun _ => 0)).run test.StubDecoder test.StubRenderer
      [Action.packet [7] 0 0 1, Action.RecycleExistingFrames,
        Action.RecycleExistingFrames]).jb.m_lastDecodedFrameNumber = 0 ∧
    ((System.init (fun _ => 0)).run test.StubDecoder test.StubRenderer
      [Action.packet [7] 0 0 1, Action.RecycleExistingFrames,
        Action.RecycleExistingFrames]).jb.m_sortedFrameBuffers = [] ∧
    renderCount ((System.init (fun _ => 0)).run test.StubDecoder test.StubRenderer
      [Action.packet [7] 0 0 1, Action.RecycleExistingFrames,
        Action.RecycleExistingFrames]).calls = 0 ∧
    (renderCount ((System.init (fun _ => 0)).run test.StubDecoder test.StubRenderer
      [Action.packet [7] 0 0 1, Action.RecycleExistingFrames,
        Action.RecycleExistingFrames]).calls : Int) ≠
      ((System.init (fun _ => 0)).run test.StubDecoder test.StubRenderer
        [Action.packet [7] 0 0 1, Action.RecycleExistingFrames,
          Action.RecycleExistingFrames]).jb.m_lastDecodedFrameNumber + 1 -
        (((System.init (fun _ => 0)).run test.StubDecoder test.StubRenderer
          [Action.packet [7] 0 0 1, Action.RecycleExistingFrames,
            Action.RecycleExistingFrames]).jb.m_sortedFrameBuffers.length : Int) ∧
    ((System.init (fun _ => 0)).run test.StubDecoder test.StubRenderer
      (Action.packet [7] 0 0 1 :: (Action.recyclerPass ++
        [Action.ProcessCompletedFrames, Action.ProcessCompletedFrames]))).NoFailure ∧
    ((System.init (fun _ => 0)).run test.StubDecoder test.StubRenderer
      (Action.packet [7] 0 0 1 :: (Action.recyclerPass ++
        [Action.ProcessCompletedFrames, Action.ProcessCompletedFrames]))).recycler.tempArray
          = [] ∧
    (renderCount ((System.init (fun _ => 0)).run test.StubDecoder test.StubRenderer
      (Action.packet [7] 0 0 1 :: (Action.recyclerPass ++
        [Action.ProcessCompletedFrames, Action.ProcessCompletedFrames]))).calls : Int) ≠
      ((System.init (fun _ => 0)).run test.StubDecoder test.StubRenderer
        (Action.packet [7] 0 0 1 :: (Action.recyclerPass ++
          [Action.ProcessCompletedFrames,
            Action.ProcessCompletedFrames]))).jb.m_lastDecodedFrameNumber + 1 -
        (((System.init (fun _ => 0)).run test.StubDecoder test.StubRenderer
          (Action.packet [7] 0 0 1 :: (Action.recyclerPass ++
            [Action.ProcessCompletedFrames,
              Action.ProcessCompletedFrames]))).jb.m_sortedFrameBuffers.length : Int) :=
  ⟨⟨by decide, by decide⟩, by decide, by decide, by decide, by decide,
    ⟨by decide, by decide⟩, by decide, by decide⟩

end JitterBuffer

namespace JitterBuffer

/-! ## Completeness of what leaves the store -/

theorem decodeCalls_decode (calls : List Call) (fb : FrameBuffer) :
    decodeCalls (calls ++ [Call.DecodeFrame fb.GetFrameNumber
      (fb.GetAssembledData (List.replicate fb.GetCurrentFrameSize.toNat 0))
      fb.GetCurrentFrameSize]) = decodeCalls calls ++ [fb.decodeArgs] := by
  rw [decodeCalls_append]; rfl

theorem decodeCalls_render (calls : List Call) (buffer : List Byte) (length : Int) :
    decodeCalls (calls ++ [Call.RenderFrame buffer length]) = decodeCalls calls := by
  rw [decodeCalls_append]
  simp [decodeCalls]

theorem step_dispatcher (decoder : video_engine.IDecoder) (renderer : video_engine.IRenderer)
    (s : System) (ht : s.terminated = false)
    (hrun : s.jb.m_dataProcessingThread = some Thread.running) :
    s.step decoder renderer Action.ProcessCompletedFrames =
      (match s.dispatcher with
        | .test => JitterBufferImpl.ProcessCompletedFrames.test s
        | .block => JitterBufferImpl.ProcessCompletedFrames.block s
        | .decode frameBuffer =>
          JitterBufferImpl.ProcessCompletedFrames.decode decoder s frameBuffer
        | .render _ decodedBufferSize =>
          JitterBufferImpl.ProcessCompletedFrames.render renderer s decodedBufferSize) := by
  unfold System.step
  rw [if_neg (by rw [ht]; simp)]
  simp only []
  unfold JitterBufferImpl.ProcessCompletedFrames.next
  rw [if_pos hrun]

theorem render_calls (renderer : video_engine.IRenderer) (s : System)
    (decodedBufferSize : Int) :
    (JitterBufferImpl.ProcessCompletedFrames.render renderer s decodedBufferSize).calls =
      s.calls ++ [Call.RenderFrame (bytesAt s.decodedData decodedBufferSize)
        decodedBufferSize] := by
  unfold JitterBufferImpl.ProcessCompletedFrames.render
  simp only []
  cases renderer.RenderFrame s.calls s.decodedData decodedBufferSize <;> rfl

theorem decode_calls (decoder : video_engine.IDecoder) (s : System) (fb : FrameBuffer)
    (h : 0 ≤ fb.GetCurrentFrameSize) :
    (JitterBufferImpl.ProcessCompletedFrames.decode decoder s fb).calls =
      s.calls ++ [Call.DecodeFrame fb.GetFrameNumber
        (fb.GetAssembledData (List.replicate fb.GetCurrentFrameSize.toNat 0))
        fb.GetCurrentFrameSize] := by
  unfold JitterBufferImpl.ProcessCompletedFrames.decode
  simp only []
  rw [if_neg (by omega)]
  cases decoder.DecodeFrame s.calls
    (fb.GetAssembledData (List.replicate fb.GetCurrentFrameSize.toNat 0))
    fb.GetCurrentFrameSize s.decodedData <;> rfl

/-- What the `DecodeFrame` step of the dispatcher leads to: the position before
`RenderFrame` when the call returns, a dispatcher that makes no call any more when it does
not. -/
theorem decode_outcome (decoder : video_engine.IDecoder) (s : System) (fb : FrameBuffer)
    (h : 0 ≤ fb.GetCurrentFrameSize)
    (hrun : s.jb.m_dataProcessingThread = some Thread.running)
    (hflag : s.jb.m_dataProcessingTaskLaunched = true) (ht : s.terminated = false) :
    ((∃ r, decoder.DecodeFrame s.calls
        (fb.GetAssembledData (List.replicate fb.GetCurrentFrameSize.toNat 0))
        fb.GetCurrentFrameSize s.decodedData = Outcome.returns r) →
      ∃ n, (JitterBufferImpl.ProcessCompletedFrames.decode decoder s fb).dispatcher =
          Dispatcher.render fb n ∧
        (JitterBufferImpl.ProcessCompletedFrames.decode decoder s
          fb).jb.m_dataProcessingThread = some Thread.running ∧
        (JitterBufferImpl.ProcessCompletedFrames.decode decoder s fb).terminated = false) ∧
    ((∀ r, decoder.DecodeFrame s.calls
        (fb.GetAssembledData (List.replicate fb.GetCurrentFrameSize.toNat 0))
        fb.GetCurrentFrameSize s.decodedData ≠ Outcome.returns r) →
      (JitterBufferImpl.ProcessCompletedFrames.decode decoder s fb).Stopped) := by
  unfold JitterBufferImpl.ProcessCompletedFrames.decode
  simp only []
  rw [if_neg (by omega)]
  cases hdec : decoder.DecodeFrame s.calls
      (fb.GetAssembledData (List.replicate fb.GetCurrentFrameSize.toNat 0))
      fb.GetCurrentFrameSize s.decodedData with
  | returns r =>
    obtain ⟨decodedData, decodedBufferSize⟩ := r
    refine ⟨fun _ => ⟨decodedBufferSize, rfl, hrun, ht⟩, fun hne => ?_⟩
    exact absurd rfl (hne (decodedData, decodedBufferSize))
  | throwsStd =>
    exact ⟨fun ⟨r, hr⟩ => (by cases hr), fun _ => Or.inr ⟨rfl, hflag⟩⟩
  | throwsOther =>
    exact ⟨fun ⟨r, hr⟩ => (by cases hr), fun _ => Or.inl rfl⟩

/-- C5 (as amended): in every trace from a fresh instance, the list of frame numbers of the
frames handed to `DecodeFrame` so far is exactly `[0, 1, ..., k-1]` for some `k >= 0`:
strictly increasing, starting at 0, with no gap and no repeat.  `RenderFrame` is invoked
once after each `DecodeFrame` call that returns, in the same order: the record of calls
consists of a `DecodeFrame` call followed by a `RenderFrame` call for each frame, except
that its last `DecodeFrame` call may have no `RenderFrame` call yet; then either the
dispatcher stands right before that `RenderFrame` call (its next step makes it), or the
dispatcher makes no call any more.  A `DecodeFrame` call that returns leads to the first
case, a `DecodeFrame` call that does not return (it raises) to the second: it is followed
by no call at all. -/
theorem C5_decode_order (decoder : video_engine.IDecoder) (renderer : video_engine.IRenderer)
    (memory : Nat → Byte) (t : List Action) (s : System)
    (hreach : s = (System.init memory).run decoder renderer t) :
    (∃ k : Nat,
      decodedFrameNumbers s.calls = (List.range k).map (fun (i : Nat) => (i : Int)) ∧
      (callShape s.calls = expectedShape k ∨
        ∃ j : Nat, k = j + 1 ∧ callShape s.calls = expectedShape j ++ [some (j : Int)] ∧
          ((∃ frameBuffer decodedBufferSize,
              s.dispatcher = Dispatcher.render frameBuffer decodedBufferSize ∧
              s.jb.m_dataProcessingThread = some Thread.running ∧ s.terminated = false ∧
              callShape (s.step decoder renderer Action.ProcessCompletedFrames).calls =
                expectedShape (j + 1)) ∨
            (s.Stopped ∧ ∀ t2 : List Action, (s.run decoder renderer t2).calls = s.calls)))) ∧
    (∀ frameBuffer : FrameBuffer, s.dispatcher = Dispatcher.decode frameBuffer →
      s.jb.m_dataProcessingThread = some Thread.running → s.terminated = false →
      0 ≤ frameBuffer.GetCurrentFrameSize →
      (s.step decoder renderer Action.ProcessCompletedFrames).calls =
        s.calls ++ [Call.DecodeFrame frameBuffer.GetFrameNumber
          (frameBuffer.GetAssembledData
            (List.replicate frameBuffer.GetCurrentFrameSize.toNat 0))
          frameBuffer.GetCurrentFrameSize] ∧
      ((∃ r, decoder.DecodeFrame s.calls
          (frameBuffer.GetAssembledData
            (List.replicate frameBuffer.GetCurrentFrameSize.toNat 0))
          frameBuffer.GetCurrentFrameSize s.decodedData = Outcome.returns r) →
        ∃ decodedBufferSize,
          (s.step decoder renderer Action.ProcessCompletedFrames).dispatcher =
            Dispatcher.render frameBuffer decodedBufferSize ∧
          (s.step decoder renderer Action.ProcessCompletedFrames).jb.m_dataProcessingThread =
            some Thread.running ∧
          (s.step decoder renderer Action.ProcessCompletedFrames).terminated = false) ∧
      ((∀ r, decoder.DecodeFrame s.calls
          (frameBuffer.GetAssembledData
            (List.replicate frameBuffer.GetCurrentFrameSize.toNat 0))
          frameBuffer.GetCurrentFrameSize s.decodedData ≠ Outcome.returns r) →
        ∀ t2 : List Action,
          ((s.step decoder renderer Action.ProcessCompletedFrames).run decoder renderer
            t2).calls =
            s.calls ++ [Call.DecodeFrame frameBuffer.GetFrameNumber
              (frameBuffer.GetAssembledData
                (List.replicate frameBuffer.GetCurrentFrameSize.toNat 0))
              frameBuffer.GetCurrentFrameSize])) := by
  have hinv : s.Inv := by
    rw [hreach]
    exact system_run_inv decoder renderer t _ (system_init_inv memory)
  refine ⟨?_, ?_⟩
  · obtain ⟨k, hk | hk⟩ := hinv.shape
    · exact ⟨k, by rw [decodedFrameNumbers, hk, expectedShape_reduceOption], Or.inl hk⟩
    · refine ⟨k + 1, ?_, Or.inr ⟨k, rfl, hk, ?_⟩⟩
      · rw [decodedFrameNumbers, hk, List.reduceOption_append, expectedShape_reduceOption,
          List.range_succ, List.map_append]
        simp [List.reduceOption]
      · rcases hinv.pendingRender ⟨k, hk⟩ with hs | ⟨fb, n, hpc, hrun, ht⟩
        · exact Or.inr ⟨hs, fun t2 => (stopped_run decoder renderer t2 s hs).2.1⟩
        · refine Or.inl ⟨fb, n, hpc, hrun, ht, ?_⟩
          rw [step_dispatcher decoder renderer s ht hrun, hpc]
          simp only []
          rw [render_calls, callShape_render, hk, expectedShape_succ, List.append_assoc]
          rfl
  · intro fb hpc hrun ht hsize
    have hflag : s.jb.m_dataProcessingTaskLaunched = true :=
      flag_of_dispatcher s.settled hinv.jb hrun
    have hstep : s.step decoder renderer Action.ProcessCompletedFrames =
        JitterBufferImpl.ProcessCompletedFrames.decode decoder s fb := by
      rw [step_dispatcher decoder renderer s ht hrun, hpc]
    rw [hstep]
    obtain ⟨h1, h2⟩ := decode_outcome decoder s fb hsize hrun hflag ht
    refine ⟨decode_calls decoder s fb hsize, h1, ?_⟩
    intro hne t2
    rw [(stopped_run decoder renderer t2 _ (h2 hne)).2.1]
    exact decode_calls decoder s fb hsize

/-- C5, witness: one frame handled by the test stubs; the decoder has received frame 0. -/
theorem C5_decode_order_witness :
    ∃ k : Nat,
      decodedFrameNumbers ((System.init (fun _ => 0)).run test.StubDecoder test.StubRenderer
        (singleFrameTrace [7])).calls = (List.range k).map (fun (i : Nat) => (i : Int)) :=
  match (C5_decode_order test.StubDecoder test.StubRenderer (fun _ => 0)
    (singleFrameTrace [7]) _ rfl).1 with
  | ⟨k, h, _⟩ => ⟨k, h⟩

/-- C5, counterexample to the claim as stated: with a decoder that raises, frame 0 is handed
to `DecodeFrame` and no `RenderFrame` call follows, whatever happens afterwards. -/
theorem C5_counterexample :
    ((System.init (fun _ => 0)).run raisingDecoder test.StubRenderer
      (Action.packet [7] 0 0 1 :: (Action.recyclerPass ++
        [Action.ProcessCompletedFrames, Action.ProcessCompletedFrames,
          Action.ProcessCompletedFrames]))).calls = [Call.DecodeFrame 0 [7] 1] ∧
    ∀ t2 : List Action,
      renderCount (((System.init (fun _ => 0)).run raisingDecoder test.StubRenderer
        (Action.packet [7] 0 0 1 :: (Action.recyclerPass ++
          [Action.ProcessCompletedFrames, Action.ProcessCompletedFrames,
            Action.ProcessCompletedFrames]))).run raisingDecoder test.StubRenderer
              t2).calls = 0 := by
  have h : ((System.init (fun _ => 0)).run raisingDecoder test.StubRenderer
      (Action.packet [7] 0 0 1 :: (Action.recyclerPass ++
        [Action.ProcessCompletedFrames, Action.ProcessCompletedFrames,
          Action.ProcessCompletedFrames]))).calls = [Call.DecodeFrame 0 [7] 1] := by decide
  have hs : ((System.init (fun _ => 0)).run raisingDecoder test.StubRenderer
      (Action.packet [7] 0 0 1 :: (Action.recyclerPass ++
        [Action.ProcessCompletedFrames, Action.ProcessCompletedFrames,
          Action.ProcessCompletedFrames]))).Stopped := Or.inr ⟨by decide, by decide⟩
  refine ⟨h, ?_⟩
  intro t2
  rw [(stopped_run raisingDecoder test.StubRenderer t2 _ hs).2.1, h]
  rfl

/-- C26 (as amended): if `DecodeFrame` or `RenderFrame` throws an exception derived from
`std::exception` while the dispatcher processes a frame, the failure is caught: the error
latch becomes true, the routine of the dispatcher returns and the process goes on (nothing
is re-raised).  In every later state the record of decoder and renderer calls is the one
left by the failing call (no later frame is decoded or rendered), the latch is set, and
every `ReceivePacket` call with valid arguments fails with `Fail`. -/
theorem C26_dispatcher_failure_latches (decoder : video_engine.IDecoder)
    (renderer : video_engine.IRenderer) (memory : Nat → Byte) (t : List Action) (s : System)
    (hreach : s = (System.init memory).run decoder renderer t)
    (hrun : s.jb.m_dataProcessingThread = some Thread.running)
    (hterm : s.terminated = false)
    (hfail : (∃ frameBuffer, s.dispatcher = Dispatcher.decode frameBuffer ∧
        0 ≤ frameBuffer.GetCurrentFrameSize ∧
        decoder.DecodeFrame s.calls
          (frameBuffer.GetAssembledData
            (List.replicate frameBuffer.GetCurrentFrameSize.toNat 0))
          frameBuffer.GetCurrentFrameSize s.decodedData = Outcome.throwsStd) ∨
      (∃ frameBuffer decodedBufferSize,
        s.dispatcher = Dispatcher.render frameBuffer decodedBufferSize ∧
        renderer.RenderFrame s.calls s.decodedData decodedBufferSize = Outcome.throwsStd)) :
    (s.step decoder renderer Action.ProcessCompletedFrames).jb.m_frameProcessingIsBlocked =
      true ∧
    (s.step decoder renderer Action.ProcessCompletedFrames).jb.m_dataProcessingThread =
      some Thread.finished ∧
    (s.step decoder renderer Action.ProcessCompletedFrames).terminated = false ∧
    (∀ t2 : List Action,
      ((s.step decoder renderer Action.ProcessCompletedFrames).run decoder renderer
        t2).calls = (s.step decoder renderer Action.ProcessCompletedFrames).calls ∧
      ((s.step decoder renderer Action.ProcessCompletedFrames).run decoder renderer
        t2).jb.m_frameProcessingIsBlocked = true ∧
      ((s.step decoder renderer Action.ProcessCompletedFrames).run decoder renderer
        t2).terminated = false ∧
      ∀ (buffer : CharPtr) (length frameNumber fragmentNumber numFragmentsInThisFrame : Int),
        ValidArgs buffer length frameNumber fragmentNumber numFragmentsInThisFrame →
        CheckReceiverFunction (((s.step decoder renderer
          Action.ProcessCompletedFrames).run decoder renderer t2).jb.ReceivePacket
            buffer length frameNumber fragmentNumber numFragmentsInThisFrame).2 =
          result_code.eFail) := by
  have hinv : s.Inv := by
    rw [hreach]
    exact system_run_inv decoder renderer t _ (system_init_inv memory)
  have hflag : s.jb.m_dataProcessingTaskLaunched = true :=
    flag_of_dispatcher s.settled hinv.jb hrun
  have hstop : (s.step decoder renderer Action.ProcessCompletedFrames).jb.m_frameProcessingIsBlocked
        = true ∧
      (s.step decoder renderer Action.ProcessCompletedFrames).jb.m_dataProcessingThread =
        some Thread.finished ∧
      (s.step decoder renderer Action.ProcessCompletedFrames).terminated = false ∧
      (s.step decoder renderer Action.ProcessCompletedFrames).jb.m_dataProcessingTaskLaunched
        = true := by
    rw [step_dispatcher decoder renderer s hterm hrun]
    rcases hfail with ⟨fb, hpc, hsize, hdec⟩ | ⟨fb, n, hpc, hren⟩
    · rw [hpc]
      simp only []
      unfold JitterBufferImpl.ProcessCompletedFrames.decode
      simp only []
      rw [if_neg (by omega), hdec]
      exact ⟨rfl, rfl, hterm, hflag⟩
    · rw [hpc]
      simp only []
      unfold JitterBufferImpl.ProcessCompletedFrames.render
      simp only []
      rw [hren]
      exact ⟨rfl, rfl, hterm, hflag⟩
  refine ⟨hstop.1, hstop.2.1, hstop.2.2.1, ?_⟩
  intro t2
  obtain ⟨_, h2, h3, h4⟩ := stopped_run decoder renderer t2 _
    (Or.inr ⟨hstop.2.1, hstop.2.2.2⟩)
  refine ⟨h2, h3.trans hstop.1, h4.trans hstop.2.2.1, ?_⟩
  intro buffer length frameNumber fragmentNumber num hvalid
  obtain ⟨ex, hex, hr⟩ := ReceivePacket_of_blocked _ buffer length frameNumber fragmentNumber
    num hvalid (h3.trans hstop.1)
  rw [hr]
  exact hex

/-- C26, witness: frame 0 was taken from the ready queue by the dispatcher.  With a decoder
that throws a `std::exception` on it, the latch is set after the `DecodeFrame` step; with
the stub decoder and a renderer that throws a `std::exception`, the latch is set after the
`RenderFrame` step. -/
theorem C26_dispatcher_failure_latches_witness :
    (((System.init (fun _ => 0)).run raisingDecoder test.StubRenderer
      (Action.packet [7] 0 0 1 :: (Action.recyclerPass ++
        [Action.ProcessCompletedFrames, Action.ProcessCompletedFrames]))).step
          raisingDecoder test.StubRenderer
            Action.ProcessCompletedFrames).jb.m_frameProcessingIsBlocked = true ∧
    (((System.init (fun _ => 0)).run test.StubDecoder raisingRenderer
      (Action.packet [7] 0 0 1 :: (Action.recyclerPass ++
        [Action.ProcessCompletedFrames, Action.ProcessCompletedFrames,
          Action.ProcessCompletedFrames]))).step
          test.StubDecoder raisingRenderer
            Action.ProcessCompletedFrames).jb.m_frameProcessingIsBlocked = true :=
  ⟨(C26_dispatcher_failure_latches raisingDecoder test.StubRenderer (fun _ => 0)
    (Action.packet [7] 0 0 1 :: (Action.recyclerPass ++
      [Action.ProcessCompletedFrames, Action.ProcessCompletedFrames])) _ rfl
    (by decide) (by decide)
    (Or.inl ⟨FrameBuffer.new (fun i => [7].getD i 0) 1 0 0 1, by decide, by decide, rfl⟩)).1,
  (C26_dispatcher_failure_latches test.StubDecoder raisingRenderer (fun _ => 0)
    (Action.packet [7] 0 0 1 :: (Action.recyclerPass ++
      [Action.ProcessCompletedFrames, Action.ProcessCompletedFrames,
        Action.ProcessCompletedFrames])) _ rfl
    (by decide) (by decide)
    (Or.inr ⟨FrameBuffer.new (fun i => [7].getD i 0) 1 0 0 1, 1, by decide, rfl⟩)).1⟩

/-- C26, counterexample to the claim as stated: the decoder throws something that is not a
`std::exception` on frame 0.  The `catch (const std::exception&)` block of the dispatcher
does not catch it: the process is terminated, and the error latch was never set. -/
theorem C26_counterexample :
    ((System.init (fun _ => 0)).run foreignDecoder test.StubRenderer
      (Action.packet [7] 0 0 1 :: (Action.recyclerPass ++
        [Action.ProcessCompletedFrames, Action.ProcessCompletedFrames,
          Action.ProcessCompletedFrames]))).calls = [Call.DecodeFrame 0 [7] 1] ∧
    ((System.init (fun _ => 0)).run foreignDecoder test.StubRenderer
      (Action.packet [7] 0 0 1 :: (Action.recyclerPass ++
        [Action.ProcessCompletedFrames, Action.ProcessCompletedFrames,
          Action.ProcessCompletedFrames]))).terminated = true ∧
    ((System.init (fun _ => 0)).run foreignDecoder test.StubRenderer
      (Action.packet [7] 0 0 1 :: (Action.recyclerPass ++
        [Action.ProcessCompletedFrames, Action.ProcessCompletedFrames,
          Action.ProcessCompletedFrames]))).jb.m_frameProcessingIsBlocked = false :=
  ⟨by decide, by decide, by decide⟩

end JitterBuffer

namespace JitterBuffer

/-! ## Claim on saturation, on the threads -/

/-- In a saturated state (full store, next frame not ready) no action changes the store or
the watermark, and an action either leaves the list of `DecodeFrame` calls and the frames
that wait for `DecodeFrame` as they are, or hands the first of these frames to
`DecodeFrame`; unless the dispatcher makes no call any more. -/
theorem saturated_step (decoder : video_engine.IDecoder) (renderer : video_engine.IRenderer)
    (s : System) (a : Action) (hinv : s.Inv) (hsat : s.jb.Saturated) :
    (s.step decoder renderer a).jb.m_unsortedFrameBuffers = s.jb.m_unsortedFrameBuffers ∧
    (s.step decoder renderer a).jb.m_lastDecodedFrameNumber = s.jb.m_lastDecodedFrameNumber ∧
    ((decodeCalls (s.step decoder renderer a).calls = decodeCalls s.calls ∧
        ((s.step decoder renderer a).Stopped ∨
          (s.step decoder renderer a).pending = s.pending)) ∨
      (∃ fb rest, s.pending = fb :: rest ∧
        decodeCalls (s.step decoder renderer a).calls =
          decodeCalls s.calls ++ [fb.decodeArgs] ∧
        ((s.step decoder renderer a).Stopped ∨
          (s.step decoder renderer a).pending = rest))) := by
  obtain ⟨hfull, hnext⟩ := hsat
  unfold System.step
  by_cases ht : s.terminated = true
  · rw [if_pos ht]
    exact ⟨(by trivial), (by trivial), Or.inl ⟨(by trivial), Or.inr (by trivial)⟩⟩
  rw [if_neg ht]
  have ht2 : s.terminated = false := by simpa using ht
  cases a with
  | ReceivePacket buffer length frameNumber fragmentNumber num =>
    have hsame : (s.jb.ReceivePacket buffer length frameNumber fragmentNumber num).1 =
        s.jb := by
      rcases ReceivePacket_state s.jb buffer length frameNumber fragmentNumber num with
        hr | ⟨mem, _, _, _, _, hne, _⟩
      · exact hr
      · exact absurd hfull hne
    simp only []
    rw [hsame]
    exact ⟨(by trivial), (by trivial), Or.inl ⟨(by trivial), Or.inr (by trivial)⟩⟩
  | Destructor => exact ⟨(by trivial), (by trivial), Or.inl ⟨(by trivial), Or.inr (by trivial)⟩⟩
  | RecycleExistingFrames =>
    simp only []
    unfold JitterBufferImpl.RecycleExistingFrames.next
    split
    swap
    · exact ⟨(by trivial), (by trivial), Or.inl ⟨(by trivial), Or.inr (by trivial)⟩⟩
    cases hpc : s.recycler with
    | test =>
      simp only [JitterBufferImpl.RecycleExistingFrames.test]
      split
      · exact ⟨(by trivial), (by trivial), Or.inl ⟨(by trivial), Or.inr (by trivial)⟩⟩
      · refine ⟨(by trivial), (by trivial), Or.inl ⟨(by trivial), Or.inr ?_⟩⟩
        simp only [System.pending, hpc, Recycler.tempArray]
    | block1 =>
      have hsorted : (s.jb.m_unsortedFrameBuffers.map Prod.fst).Pairwise
          (fun a b => a < b) := hinv.jb.sorted
      have hloop := recycle_loop_none s.jb.m_unsortedFrameBuffers s.jb.m_unsortedFrameBuffers
        s.jb.m_lastDecodedFrameNumber []
        (not_ready_of_find s.jb.m_unsortedFrameBuffers s.jb.m_lastDecodedFrameNumber
          hsorted hnext)
      simp only [JitterBufferImpl.RecycleExistingFrames.block1, hloop]
      refine ⟨(by trivial), (by trivial), Or.inl ⟨(by trivial), Or.inr ?_⟩⟩
      simp [System.pending, hpc, Recycler.tempArray]
    | block2 tempArray =>
      simp only [JitterBufferImpl.RecycleExistingFrames.block2]
      refine ⟨(by trivial), (by trivial), Or.inl ⟨(by trivial), Or.inr ?_⟩⟩
      simp [System.pending, hpc, Recycler.tempArray]
  | ProcessCompletedFrames =>
    simp only []
    unfold JitterBufferImpl.ProcessCompletedFrames.next
    by_cases hrun : s.jb.m_dataProcessingThread = some Thread.running
    swap
    · rw [if_neg hrun]
      exact ⟨(by trivial), (by trivial), Or.inl ⟨(by trivial), Or.inr (by trivial)⟩⟩
    rw [if_pos hrun]
    have hflag : s.jb.m_dataProcessingTaskLaunched = true :=
      flag_of_dispatcher s.settled hinv.jb hrun
    cases hpc : s.dispatcher with
    | test =>
      simp only [JitterBufferImpl.ProcessCompletedFrames.test]
      split
      · exact ⟨(by trivial), (by trivial), Or.inl ⟨(by trivial), Or.inl (Or.inr ⟨rfl, hflag⟩)⟩⟩
      · refine ⟨(by trivial), (by trivial), Or.inl ⟨(by trivial), Or.inr ?_⟩⟩
        simp [System.pending, hpc, Dispatcher.undecoded]
    | block =>
      simp only [JitterBufferImpl.ProcessCompletedFrames.block]
      cases hq : s.jb.m_sortedFrameBuffers with
      | nil =>
        simp only []
        refine ⟨(by trivial), (by trivial), Or.inl ⟨(by trivial), Or.inr ?_⟩⟩
        simp [System.pending, hpc, Dispatcher.undecoded]
      | cons fb rest =>
        simp only []
        refine ⟨(by trivial), (by trivial), Or.inl ⟨(by trivial), Or.inr ?_⟩⟩
        simp [System.pending, hpc, hq, Dispatcher.undecoded]
    | decode fb =>
      have hpend : s.pending = fb :: (s.jb.m_sortedFrameBuffers ++ s.recycler.tempArray) := by
        simp [System.pending, hpc, Dispatcher.undecoded]
      simp only []
      unfold JitterBufferImpl.ProcessCompletedFrames.decode
      simp only []
      by_cases hneg : fb.GetCurrentFrameSize < 0
      · rw [if_pos hneg]
        exact ⟨(by trivial), (by trivial), Or.inl ⟨(by trivial), Or.inl (Or.inr ⟨rfl, hflag⟩)⟩⟩
      · rw [if_neg hneg]
        cases hdec : decoder.DecodeFrame s.calls
            (fb.GetAssembledData (List.replicate fb.GetCurrentFrameSize.toNat 0))
            fb.GetCurrentFrameSize s.decodedData with
        | returns r =>
          obtain ⟨decodedData, decodedBufferSize⟩ := r
          simp only []
          refine ⟨(by trivial), (by trivial), Or.inr ⟨fb, _, hpend, decodeCalls_decode _ _, Or.inr ?_⟩⟩
          simp [System.pending, Dispatcher.undecoded]
        | throwsStd =>
          simp only []
          exact ⟨(by trivial), (by trivial), Or.inr ⟨fb, _, hpend, decodeCalls_decode _ _,
            Or.inl (Or.inr ⟨rfl, hflag⟩)⟩⟩
        | throwsOther =>
          simp only []
          exact ⟨(by trivial), (by trivial), Or.inr ⟨fb, _, hpend, decodeCalls_decode _ _, Or.inl (Or.inl rfl)⟩⟩
    | render fb decodedBufferSize =>
      simp only []
      unfold JitterBufferImpl.ProcessCompletedFrames.render
      simp only []
      cases hren : renderer.RenderFrame s.calls s.decodedData decodedBufferSize with
      | returns u =>
        simp only []
        refine ⟨(by trivial), (by trivial), Or.inl ⟨decodeCalls_render _ _ _, Or.inr ?_⟩⟩
        simp [System.pending, hpc, Dispatcher.undecoded]
      | throwsStd =>
        simp only []
        exact ⟨(by trivial), (by trivial), Or.inl ⟨decodeCalls_render _ _ _, Or.inl (Or.inr ⟨rfl, hflag⟩)⟩⟩
      | throwsOther =>
        simp only []
        exact ⟨(by trivial), (by trivial), Or.inl ⟨decodeCalls_render _ _ _, Or.inl (Or.inl rfl)⟩⟩

theorem stopped_decodeCalls (decoder : video_engine.IDecoder)
    (renderer : video_engine.IRenderer) (t : List Action) (s : System) (h : s.Stopped) :
    decodeCalls (s.run decoder renderer t).calls = decodeCalls s.calls := by
  rw [(stopped_run decoder renderer t s h).2.1]

theorem stopped_saturated (decoder : video_engine.IDecoder)
    (renderer : video_engine.IRenderer) (t : List Action) (s : System) (hinv : s.Inv)
    (hsat : s.jb.Saturated) :
    (s.run decoder renderer t).jb.m_unsortedFrameBuffers = s.jb.m_unsortedFrameBuffers ∧
    (s.run decoder renderer t).jb.m_lastDecodedFrameNumber = s.jb.m_lastDecodedFrameNumber := by
  induction t generalizing s with
  | nil => exact ⟨rfl, rfl⟩
  | cons a t ih =>
    obtain ⟨h1, h2, _⟩ := saturated_step decoder renderer s a hinv hsat
    have hsat1 : (s.step decoder renderer a).jb.Saturated := by
      unfold JitterBufferImpl.Saturated
      rw [h1, h2]
      exact hsat
    obtain ⟨g1, g2⟩ := ih (s.step decoder renderer a)
      (system_step_inv decoder renderer s a hinv) hsat1
    exact ⟨g1.trans h1, g2.trans h2⟩

/-- In a saturated state the frames handed to `DecodeFrame` from then on are taken, in
order, from the frames that had already left the store. -/
theorem saturated_run (decoder : video_engine.IDecoder) (renderer : video_engine.IRenderer)
    (t : List Action) (s : System) (hinv : s.Inv) (hsat : s.jb.Saturated) :
    ∃ n : Nat, decodeCalls (s.run decoder renderer t).calls =
        decodeCalls s.calls ++ (s.pending.take n).map FrameBuffer.decodeArgs ∧
      ((s.run decoder renderer t).Stopped ∨
        (s.run decoder renderer t).pending = s.pending.drop n) := by
  induction t generalizing s with
  | nil => exact ⟨0, by simp [System.run], Or.inr rfl⟩
  | cons a t ih =>
    obtain ⟨h1, h2, h3⟩ := saturated_step decoder renderer s a hinv hsat
    have hsat1 : (s.step decoder renderer a).jb.Saturated := by
      unfold JitterBufferImpl.Saturated
      rw [h1, h2]
      exact hsat
    have hinv1 := system_step_inv decoder renderer s a hinv
    rw [system_run_cons]
    rcases h3 with ⟨hc, hs | hp⟩ | ⟨fb, rest, hpend, hc, hs | hp⟩
    · refine ⟨0, ?_, Or.inl (stopped_run decoder renderer t _ hs).1⟩
      rw [stopped_decodeCalls decoder renderer t _ hs, hc]
      simp
    · obtain ⟨n, g1, g2⟩ := ih (s.step decoder renderer a) hinv1 hsat1
      rw [hc, hp] at g1
      rw [hp] at g2
      exact ⟨n, g1, g2⟩
    · refine ⟨1, ?_, Or.inl (stopped_run decoder renderer t _ hs).1⟩
      rw [stopped_decodeCalls decoder renderer t _ hs, hc, hpend]
      simp
    · obtain ⟨n, g1, g2⟩ := ih (s.step decoder renderer a) hinv1 hsat1
      rw [hc, hp] at g1
      rw [hp] at g2
      refine ⟨n + 1, ?_, ?_⟩
      · rw [g1, hpend]
        simp
      · rw [hpend]
        exact g2

/-- C35 (as amended): saturation is absorbing.  From any reachable state in which the
unsorted store holds exactly 100 entries and frame `last_emitted_frame + 1` is absent from
the store or incomplete, in every later state the store and the last emitted frame number
are what they were; every `ReceivePacket` call with valid arguments and a frame number above
the last emitted one fails (also for a resident frame) and changes nothing, with
`OutOfSpace` as long as the error latch is clear and with `Fail` once it is set; the first
locked block of the recycler promotes nothing; and no frame is handed to `DecodeFrame`
beyond those that had already left the store (the frame the dispatcher holds, the ready
queue and the recycler's `tempArray`), which are decoded in this order. -/
theorem C35_saturation_absorbing (decoder : video_engine.IDecoder)
    (renderer : video_engine.IRenderer) (memory : Nat → Byte) (t0 t : List Action)
    (s0 s : System) (hreach : s0 = (System.init memory).run decoder renderer t0)
    (hlater : s = s0.run decoder renderer t)
    (hfull : (s0.jb.m_unsortedFrameBuffers.length : Int) = MaxFrameNumber)
    (hnext : (s0.jb.m_unsortedFrameBuffers.find (s0.jb.m_lastDecodedFrameNumber + 1)).map
      FrameBuffer.IsFrameComplete ≠ some true) :
    s.jb.m_unsortedFrameBuffers = s0.jb.m_unsortedFrameBuffers ∧
    s.jb.m_lastDecodedFrameNumber = s0.jb.m_lastDecodedFrameNumber ∧
    (∀ (buffer : CharPtr) (length frameNumber fragmentNumber numFragmentsInThisFrame : Int),
      ValidArgs buffer length frameNumber fragmentNumber numFragmentsInThisFrame →
      s0.jb.m_lastDecodedFrameNumber < frameNumber →
      CheckReceiverFunction (s.jb.ReceivePacket buffer length frameNumber fragmentNumber
          numFragmentsInThisFrame).2 =
        (if s.jb.m_frameProcessingIsBlocked = true then result_code.eFail
          else result_code.eOutOfSpace) ∧
      (s.jb.ReceivePacket buffer length frameNumber fragmentNumber
        numFragmentsInThisFrame).1 = s.jb) ∧
    ((JitterBufferImpl.RecycleExistingFrames.block1 s).jb = s.jb ∧
      (JitterBufferImpl.RecycleExistingFrames.block1 s).recycler = Recycler.test) ∧
    (∃ n : Nat, decodeCalls s.calls =
      decodeCalls s0.calls ++ (s0.pending.take n).map FrameBuffer.decodeArgs) := by
  have hinv0 : s0.Inv := by
    rw [hreach]
    exact system_run_inv decoder renderer t0 _ (system_init_inv memory)
  have hinv : s.Inv := by
    rw [hlater]
    exact system_run_inv decoder renderer t _ hinv0
  obtain ⟨h1, h2⟩ := stopped_saturated decoder renderer t s0 hinv0 ⟨hfull, hnext⟩
  obtain ⟨n, h3, _⟩ := saturated_run decoder renderer t s0 hinv0 ⟨hfull, hnext⟩
  rw [← hlater] at h1 h2 h3
  have hfull2 : (s.jb.m_unsortedFrameBuffers.length : Int) = MaxFrameNumber := by
    rw [h1]; exact hfull
  refine ⟨h1, h2, ?_, ?_, ⟨n, h3⟩⟩
  · intro buffer length frameNumber fragmentNumber num hvalid hnew
    by_cases hb : s.jb.m_frameProcessingIsBlocked = true
    · obtain ⟨ex, hex, hr⟩ := ReceivePacket_of_blocked s.jb buffer length frameNumber
        fragmentNumber num hvalid hb
      rw [hr, if_pos hb]
      exact ⟨hex, rfl⟩
    · obtain ⟨ex, hex, hr⟩ := ReceivePacket_of_full s.jb buffer length frameNumber
        fragmentNumber num hvalid (by simpa using hb) (by rw [h2]; exact hnew) hfull2
      rw [hr, if_neg hb]
      exact ⟨hex, rfl⟩
  · have hloop := recycle_loop_none s.jb.m_unsortedFrameBuffers s.jb.m_unsortedFrameBuffers
      s.jb.m_lastDecodedFrameNumber []
      (not_ready_of_find s.jb.m_unsortedFrameBuffers s.jb.m_lastDecodedFrameNumber
        hinv.jb.sorted (by rw [h1, h2]; exact hnext))
    unfold JitterBufferImpl.RecycleExistingFrames.block1
    rw [hloop]
    exact ⟨rfl, rfl⟩

/-- C35, witness: with the test stubs, frame 0 was taken out of the store by the recycler and
fragment 0 of each of the two-fragment frames `1..100` was received.  After the recycler has
appended frame 0 to the ready queue and the dispatcher has decoded and rendered it, the store
is unchanged and a valid call for frame 1 is answered `OutOfSpace`. -/
theorem C35_saturation_absorbing_witness :
    CheckReceiverFunction ((((System.init (fun _ => 0)).run test.StubDecoder test.StubRenderer
        saturatingTrace).run test.StubDecoder test.StubRenderer
          (Action.RecycleExistingFrames :: Action.dispatcherPass)).jb.ReceivePacket
            (ptrOf [7]) 1 1 1 2).2 = result_code.eOutOfSpace :=
  (((C35_saturation_absorbing test.StubDecoder test.StubRenderer (fun _ => 0) saturatingTrace
      (Action.RecycleExistingFrames :: Action.dispatcherPass) _ _ rfl rfl (by decide)
        (by decide)).2.2.1 (ptrOf [7]) 1 1 1 2
          ⟨by simp [ptrOf], by decide, by decide, by decide, by decide⟩ (by decide)).1).trans
      (if_neg (by decide))

/-- C35, counterexample to the claim as stated: with a decoder that raises, frame 0 was taken
out of the store by the recycler (it is in `tempArray`, the ready queue is empty) and
fragment 0 of each of the two-fragment frames `1..100` was received: the store holds 100
entries and frame `last_emitted_frame + 1 = 1` is resident and incomplete.  The recycler
then appends frame 0 to the ready queue and the dispatcher hands it to `DecodeFrame`: a frame
is decoded that was not in the ready queue.  The decoder raises, the error latch is set, and
the later call for frame 1 with valid arguments is answered `Fail`, not `OutOfSpace`. -/
theorem C35_counterexample :
    (((System.init (fun _ => 0)).run raisingDecoder test.StubRenderer
      saturatingTrace).jb.m_unsortedFrameBuffers.length : Int) = MaxFrameNumber ∧
    (((System.init (fun _ => 0)).run raisingDecoder test.StubRenderer
      saturatingTrace).jb.m_unsortedFrameBuffers.find
        (((System.init (fun _ => 0)).run raisingDecoder test.StubRenderer
          saturatingTrace).jb.m_lastDecodedFrameNumber + 1)).map
            FrameBuffer.IsFrameComplete = some false ∧
    ((System.init (fun _ => 0)).run raisingDecoder test.StubRenderer
      saturatingTrace).jb.m_sortedFrameBuffers = [] ∧
    decodeCalls ((System.init (fun _ => 0)).run raisingDecoder test.StubRenderer
      saturatingTrace).calls = [] ∧
    decodeCalls (((System.init (fun _ => 0)).run raisingDecoder test.StubRenderer
      saturatingTrace).run raisingDecoder test.StubRenderer
        [Action.RecycleExistingFrames, Action.ProcessCompletedFrames,
          Action.ProcessCompletedFrames, Action.ProcessCompletedFrames]).calls =
      [(0, [7], 1)] ∧
    ValidArgs (ptrOf [7]) 1 1 1 2 ∧
    ((System.init (fun _ => 0)).run raisingDecoder test.StubRenderer
      saturatingTrace).jb.m_lastDecodedFrameNumber < 1 ∧
    CheckReceiverFunction ((((System.init (fun _ => 0)).run raisingDecoder test.StubRenderer
      saturatingTrace).run raisingDecoder test.StubRenderer
        [Action.RecycleExistingFrames, Action.ProcessCompletedFrames,
          Action.ProcessCompletedFrames, Action.ProcessCompletedFrames]).jb.ReceivePacket
            (ptrOf [7]) 1 1 1 2).2 = result_code.eFail ∧
    result_code.eFail ≠ result_code.eOutOfSpace :=
  ⟨by decide, by decide, by decide, by decide, by decide,
    ⟨by simp [ptrOf], by decide, by decide, by decide, by decide⟩,
    by decide, by decide, by decide⟩

end JitterBuffer

namespace JitterBuffer

/-! ## The round trip of a frame larger than the decoded-data array -/

theorem step_recycler (decoder : video_engine.IDecoder) (renderer : video_engine.IRenderer)
    (s : System) (ht : s.terminated = false)
    (hrun : s.jb.m_recyclerThread = some Thread.running) :
    s.step decoder renderer Action.RecycleExistingFrames =
      (match s.recycler with
        | .test => JitterBufferImpl.RecycleExistingFrames.test s
        | .block1 => JitterBufferImpl.RecycleExistingFrames.block1 s
        | .block2 tempArray => JitterBufferImpl.RecycleExistingFrames.block2 s tempArray) := by
  unfold System.step
  rw [if_neg (by rw [ht]; simp)]
  simp only []
  unfold JitterBufferImpl.RecycleExistingFrames.next
  rw [if_pos hrun]

/-- One whole iteration of the recycler that promotes the frames of `temp`. -/
theorem recyclerPass_batch (decoder : video_engine.IDecoder)
    (renderer : video_engine.IRenderer) (s : System) (store : FrameBuffers) (last : Int)
    (temp : FrameList) (hrun : s.jb.m_recyclerThread = some Thread.running)
    (hshut : s.jb.m_shutdownRequested = false) (ht : s.terminated = false)
    (hpc : s.recycler = Recycler.test)
    (hloop : JitterBufferImpl.RecycleExistingFrames.loop s.jb.m_unsortedFrameBuffers
      s.jb.m_unsortedFrameBuffers s.jb.m_lastDecodedFrameNumber [] = (store, last, temp))
    (hne : temp.isEmpty = false) :
    s.run decoder renderer Action.recyclerPass =
      { s with
        jb := { s.jb with
          m_unsortedFrameBuffers := store
          m_lastDecodedFrameNumber := last
          m_sortedFrameBuffers := s.jb.m_sortedFrameBuffers ++ temp }
        recycler := Recycler.test } := by
  have e1 : s.step decoder renderer Action.RecycleExistingFrames =
      { s with recycler := Recycler.block1 } := by
    rw [step_recycler decoder renderer s ht hrun, hpc]
    show JitterBufferImpl.RecycleExistingFrames.test s = _
    unfold JitterBufferImpl.RecycleExistingFrames.test
    rw [hshut]
    rfl
  have e2 : ({ s with recycler := Recycler.block1 } : System).step decoder renderer
      Action.RecycleExistingFrames =
      { s with
        jb := { s.jb with m_unsortedFrameBuffers := store, m_lastDecodedFrameNumber := last }
        recycler := Recycler.block2 temp } := by
    rw [step_recycler decoder renderer { s with recycler := Recycler.block1 } ht hrun]
    show JitterBufferImpl.RecycleExistingFrames.block1 _ = _
    unfold JitterBufferImpl.RecycleExistingFrames.block1
    show ({ s with
      jb := { s.jb with
        m_unsortedFrameBuffers := (JitterBufferImpl.RecycleExistingFrames.loop
          s.jb.m_unsortedFrameBuffers s.jb.m_unsortedFrameBuffers
          s.jb.m_lastDecodedFrameNumber []).1
        m_lastDecodedFrameNumber := (JitterBufferImpl.RecycleExistingFrames.loop
          s.jb.m_unsortedFrameBuffers s.jb.m_unsortedFrameBuffers
          s.jb.m_lastDecodedFrameNumber []).2.1 }
      recycler := if (JitterBufferImpl.RecycleExistingFrames.loop
          s.jb.m_unsortedFrameBuffers s.jb.m_unsortedFrameBuffers
          s.jb.m_lastDecodedFrameNumber []).2.2.isEmpty then Recycler.test
        else Recycler.block2 (JitterBufferImpl.RecycleExistingFrames.loop
          s.jb.m_unsortedFrameBuffers s.jb.m_unsortedFrameBuffers
          s.jb.m_lastDecodedFrameNumber []).2.2 } : System) = _
    rw [hloop]
    show ({ s with
      jb := { s.jb with m_unsortedFrameBuffers := store, m_lastDecodedFrameNumber := last }
      recycler := if temp.isEmpty then Recycler.test else Recycler.block2 temp } : System) = _
    rw [hne]
    rfl
  have e3 : ({ s with
        jb := { s.jb with m_unsortedFrameBuffers := store, m_lastDecodedFrameNumber := last }
        recycler := Recycler.block2 temp } : System).step decoder renderer
      Action.RecycleExistingFrames =
      { s with
        jb := { s.jb with
          m_unsortedFrameBuffers := store
          m_lastDecodedFrameNumber := last
          m_sortedFrameBuffers := s.jb.m_sortedFrameBuffers ++ temp }
        recycler := Recycler.test } := by
    rw [step_recycler decoder renderer { s with
      jb := { s.jb with m_unsortedFrameBuffers := store, m_lastDecodedFrameNumber := last }
      recycler := Recycler.block2 temp } ht hrun]
    rfl
  show ((s.step decoder renderer Action.RecycleExistingFrames).step decoder renderer
    Action.RecycleExistingFrames).step decoder renderer Action.RecycleExistingFrames = _
  rw [e1, e2, e3]

/-- One whole iteration of the dispatcher, with the test stubs, on the frame at the front of
the ready queue. -/
theorem dispatcherPass_stub (s : System) (fb : FrameBuffer) (rest : FrameList)
    (hrun : s.jb.m_dataProcessingThread = some Thread.running)
    (hshut : s.jb.m_shutdownRequested = false) (ht : s.terminated = false)
    (hpc : s.dispatcher = Dispatcher.test)
    (hq : s.jb.m_sortedFrameBuffers = fb :: rest) (hsize : 0 ≤ fb.GetCurrentFrameSize) :
    s.run test.StubDecoder test.StubRenderer Action.dispatcherPass =
      { s with
        jb := { s.jb with m_sortedFrameBuffers := rest }
        decodedData := (test.StubDecoder.DecodeFrame
          (fb.GetAssembledData (List.replicate fb.GetCurrentFrameSize.toNat 0))
          fb.GetCurrentFrameSize s.decodedData).1
        calls := s.calls ++ [Call.DecodeFrame fb.GetFrameNumber
            (fb.GetAssembledData (List.replicate fb.GetCurrentFrameSize.toNat 0))
            fb.GetCurrentFrameSize,
          Call.RenderFrame (bytesAt (test.StubDecoder.DecodeFrame
            (fb.GetAssembledData (List.replicate fb.GetCurrentFrameSize.toNat 0))
            fb.GetCurrentFrameSize s.decodedData).1 fb.GetCurrentFrameSize)
            fb.GetCurrentFrameSize]
        dispatcher := Dispatcher.test } := by
  have e1 : s.step test.StubDecoder test.StubRenderer Action.ProcessCompletedFrames =
      { s with dispatcher := Dispatcher.block } := by
    rw [step_dispatcher _ _ s ht hrun, hpc]
    show JitterBufferImpl.ProcessCompletedFrames.test s = _
    unfold JitterBufferImpl.ProcessCompletedFrames.test
    rw [hshut]
    rfl
  have e2 : ({ s with dispatcher := Dispatcher.block } : System).step test.StubDecoder
      test.StubRenderer Action.ProcessCompletedFrames =
      { s with
        jb := { s.jb with m_sortedFrameBuffers := rest }
        dispatcher := Dispatcher.decode fb } := by
    rw [step_dispatcher _ _ { s with dispatcher := Dispatcher.block } ht hrun]
    show JitterBufferImpl.ProcessCompletedFrames.block _ = _
    unfold JitterBufferImpl.ProcessCompletedFrames.block
    show (match s.jb.m_sortedFrameBuffers with
      | [] => ({ s with dispatcher := Dispatcher.test } : System)
      | frameBuffer :: rest =>
        { s with
          jb := { s.jb with m_sortedFrameBuffers := rest }
          dispatcher := Dispatcher.decode frameBuffer }) = _
    rw [hq]
  have e3 : ({ s with
        jb := { s.jb with m_sortedFrameBuffers := rest }
        dispatcher := Dispatcher.decode fb } : System).step test.StubDecoder
      test.StubRenderer Action.ProcessCompletedFrames =
      { s with
        jb := { s.jb with m_sortedFrameBuffers := rest }
        decodedData := (test.StubDecoder.DecodeFrame
          (fb.GetAssembledData (List.replicate fb.GetCurrentFrameSize.toNat 0))
          fb.GetCurrentFrameSize s.decodedData).1
        calls := s.calls ++ [Call.DecodeFrame fb.GetFrameNumber
            (fb.GetAssembledData (List.replicate fb.GetCurrentFrameSize.toNat 0))
            fb.GetCurrentFrameSize]
        dispatcher := Dispatcher.render fb fb.GetCurrentFrameSize } := by
    rw [step_dispatcher _ _ { s with
      jb := { s.jb with m_sortedFrameBuffers := rest }
      dispatcher := Dispatcher.decode fb } ht hrun]
    show JitterBufferImpl.ProcessCompletedFrames.decode _ _ fb = _
    unfold JitterBufferImpl.ProcessCompletedFrames.decode
    simp only []
    rw [if_neg (by omega)]
    rfl
  have e4 : ({ s with
        jb := { s.jb with m_sortedFrameBuffers := rest }
        decodedData := (test.StubDecoder.DecodeFrame
          (fb.GetAssembledData (List.replicate fb.GetCurrentFrameSize.toNat 0))
          fb.GetCurrentFrameSize s.decodedData).1
        calls := s.calls ++ [Call.DecodeFrame fb.GetFrameNumber
            (fb.GetAssembledData (List.replicate fb.GetCurrentFrameSize.toNat 0))
            fb.GetCurrentFrameSize]
        dispatcher := Dispatcher.render fb fb.GetCurrentFrameSize } : System).step
      test.StubDecoder test.StubRenderer Action.ProcessCompletedFrames =
      { s with
        jb := { s.jb with m_sortedFrameBuffers := rest }
        decodedData := (test.StubDecoder.DecodeFrame
          (fb.GetAssembledData (List.replicate fb.GetCurrentFrameSize.toNat 0))
          fb.GetCurrentFrameSize s.decodedData).1
        calls := s.calls ++ [Call.DecodeFrame fb.GetFrameNumber
            (fb.GetAssembledData (List.replicate fb.GetCurrentFrameSize.toNat 0))
            fb.GetCurrentFrameSize,
          Call.RenderFrame (bytesAt (test.StubDecoder.DecodeFrame
            (fb.GetAssembledData (List.replicate fb.GetCurrentFrameSize.toNat 0))
            fb.GetCurrentFrameSize s.decodedData).1 fb.GetCurrentFrameSize)
            fb.GetCurrentFrameSize]
        dispatcher := Dispatcher.test } := by
    rw [step_dispatcher _ _ { s with
      jb := { s.jb with m_sortedFrameBuffers := rest }
      decodedData := (test.StubDecoder.DecodeFrame
        (fb.GetAssembledData (List.replicate fb.GetCurrentFrameSize.toNat 0))
        fb.GetCurrentFrameSize s.decodedData).1
      calls := s.calls ++ [Call.DecodeFrame fb.GetFrameNumber
          (fb.GetAssembledData (List.replicate fb.GetCurrentFrameSize.toNat 0))
          fb.GetCurrentFrameSize]
      dispatcher := Dispatcher.render fb fb.GetCurrentFrameSize } ht hrun]
    show JitterBufferImpl.ProcessCompletedFrames.render _ _ _ = _
    unfold JitterBufferImpl.ProcessCompletedFrames.render
    simp only [test.StubRenderer, List.append_assoc, List.singleton_append]
  show (((s.step test.StubDecoder test.StubRenderer Action.ProcessCompletedFrames).step
    test.StubDecoder test.StubRenderer Action.ProcessCompletedFrames).step
    test.StubDecoder test.StubRenderer Action.ProcessCompletedFrames).step
    test.StubDecoder test.StubRenderer Action.ProcessCompletedFrames = _
  rw [e1, e2, e3, e4]

/-- Two whole iterations of the dispatcher, with the test stubs, on the two frames at the
front of the ready queue. -/
theorem dispatcherPass_stub_twice (s : System) (fb0 fb1 : FrameBuffer) (rest : FrameList)
    (hrun : s.jb.m_dataProcessingThread = some Thread.running)
    (hshut : s.jb.m_shutdownRequested = false) (ht : s.terminated = false)
    (hpc : s.dispatcher = Dispatcher.test)
    (hq : s.jb.m_sortedFrameBuffers = fb0 :: fb1 :: rest)
    (hsize0 : 0 ≤ fb0.GetCurrentFrameSize) (hsize1 : 0 ≤ fb1.GetCurrentFrameSize) :
    (s.run test.StubDecoder test.StubRenderer Action.dispatcherPass).run test.StubDecoder
        test.StubRenderer Action.dispatcherPass =
      { s with
        jb := { s.jb with m_sortedFrameBuffers := rest }
        decodedData := (test.StubDecoder.DecodeFrame
          (fb1.GetAssembledData (List.replicate fb1.GetCurrentFrameSize.toNat 0))
          fb1.GetCurrentFrameSize (test.StubDecoder.DecodeFrame
            (fb0.GetAssembledData (List.replicate fb0.GetCurrentFrameSize.toNat 0))
            fb0.GetCurrentFrameSize s.decodedData).1).1
        calls := s.calls ++ [Call.DecodeFrame fb0.GetFrameNumber
            (fb0.GetAssembledData (List.replicate fb0.GetCurrentFrameSize.toNat 0))
            fb0.GetCurrentFrameSize,
          Call.RenderFrame (bytesAt (test.StubDecoder.DecodeFrame
            (fb0.GetAssembledData (List.replicate fb0.GetCurrentFrameSize.toNat 0))
            fb0.GetCurrentFrameSize s.decodedData).1 fb0.GetCurrentFrameSize)
            fb0.GetCurrentFrameSize,
          Call.DecodeFrame fb1.GetFrameNumber
            (fb1.GetAssembledData (List.replicate fb1.GetCurrentFrameSize.toNat 0))
            fb1.GetCurrentFrameSize,
          Call.RenderFrame (bytesAt (test.StubDecoder.DecodeFrame
            (fb1.GetAssembledData (List.replicate fb1.GetCurrentFrameSize.toNat 0))
            fb1.GetCurrentFrameSize (test.StubDecoder.DecodeFrame
              (fb0.GetAssembledData (List.replicate fb0.GetCurrentFrameSize.toNat 0))
              fb0.GetCurrentFrameSize s.decodedData).1).1 fb1.GetCurrentFrameSize)
            fb1.GetCurrentFrameSize]
        dispatcher := Dispatcher.test } := by
  rw [dispatcherPass_stub s fb0 (fb1 :: rest) hrun hshut ht hpc hq hsize0]
  rw [dispatcherPass_stub _ fb1 rest]
  · simp only [List.append_assoc, List.cons_append, List.nil_append]
  · exact hrun
  · exact hshut
  · exact ht
  · rfl
  · rfl
  · exact hsize1

/-- A frame that consists of one fragment of `length` bytes. -/
theorem singleFragment_frame (mem : Nat → Byte) (length frameNumber : Int)
    (h0 : 0 ≤ length) (h1 : length < 2 ^ 31) :
    (FrameBuffer.new mem length frameNumber 0 1).IsFrameComplete = true ∧
    (FrameBuffer.new mem length frameNumber 0 1).GetFrameNumber = frameNumber ∧
    (FrameBuffer.new mem length frameNumber 0 1).GetCurrentFrameSize = length ∧
    (FrameBuffer.new mem length frameNumber 0 1).GetAssembledData
      (List.replicate length.toNat 0) = bytesAt mem length := by
  have hb : (FrameBuffer.new mem length frameNumber 0 1).Built :=
    FrameBuffer.Built.new mem length frameNumber 0 1 h0
  have hfr : (FrameBuffer.new mem length frameNumber 0 1).m_frameFragments =
      [FrameFragment.new mem length 0] := by rw [FrameBuffer.new_eq]
  have hsmall : ((FrameBuffer.new mem length frameNumber 0 1).m_frameFragments.map
      FrameFragment.m_bufferLength).sum < 2 ^ 31 := by
    rw [hfr]
    simp only [List.map_cons, List.map_nil, List.sum_cons, List.sum_nil, add_zero]
    exact h1
  have hsize : (FrameBuffer.new mem length frameNumber 0 1).GetCurrentFrameSize = length := by
    rw [FrameBuffer.new_eq]
    show int.wrap (0 + length) = length
    rw [zero_add]
    exact int.wrap_of_range _ (le_trans (by norm_num) h0) h1
  obtain ⟨ha, _⟩ := GetAssembledData_of_consistent _ (Built.consistent hb) hsmall
  rw [hsize, hfr] at ha
  refine ⟨by rw [FrameBuffer.new_eq]; rfl, by rw [FrameBuffer.new_eq]; rfl, hsize, ?_⟩
  unfold FrameBuffer.GetAssembledData
  rw [hfr, ha]
  simp [stdSort, sortInsert, FrameFragment.new, bytesAt]

/-- The run of one frame delivered in a single packet to a fresh instance, handled by the
workers with the test stubs: the final state is quiescent and the record holds one
`DecodeFrame` call on the payload and one `RenderFrame` call on the bytes found at the
decoded-data pointer. -/
theorem singleFrame_run (memory mem : Nat → Byte) (length : Int) (h0 : 0 < length)
    (h1 : length < 2 ^ 31) :
    ((System.init memory).run test.StubDecoder test.StubRenderer
      (Action.ReceivePacket (some mem) length 0 0 1 ::
        (Action.recyclerPass ++ Action.dispatcherPass))).calls =
      [Call.DecodeFrame 0 (bytesAt mem length) length,
        Call.RenderFrame (bytesAt (test.StubDecoder.DecodeFrame (bytesAt mem length) length
          memory).1 length) length] ∧
    ((System.init memory).run test.StubDecoder test.StubRenderer
      (Action.ReceivePacket (some mem) length 0 0 1 ::
        (Action.recyclerPass ++ Action.dispatcherPass))).jb.m_unsortedFrameBuffers = [] ∧
    ((System.init memory).run test.StubDecoder test.StubRenderer
      (Action.ReceivePacket (some mem) length 0 0 1 ::
        (Action.recyclerPass ++ Action.dispatcherPass))).jb.m_sortedFrameBuffers = [] ∧
    ((System.init memory).run test.StubDecoder test.StubRenderer
      (Action.ReceivePacket (some mem) length 0 0 1 ::
        (Action.recyclerPass ++ Action.dispatcherPass))).recycler = Recycler.test ∧
    ((System.init memory).run test.StubDecoder test.StubRenderer
      (Action.ReceivePacket (some mem) length 0 0 1 ::
        (Action.recyclerPass ++ Action.dispatcherPass))).dispatcher = Dispatcher.test := by
  obtain ⟨hc, hn, hs, ha⟩ := singleFragment_frame mem length 0 (le_of_lt h0) h1
  generalize hfb : FrameBuffer.new mem length 0 0 1 = fb at hc hn hs ha
  have e1 : (System.init memory).step test.StubDecoder test.StubRenderer
      (Action.ReceivePacket (some mem) length 0 0 1) =
      { System.init memory with
        jb := { JitterBufferImpl.init with
          m_unsortedFrameBuffers := [(0, fb)]
          m_recycleTaskLaunched := true
          m_dataProcessingTaskLaunched := true
          m_recyclerThread := some Thread.running
          m_dataProcessingThread := some Thread.running } } := by
    show ({ System.init memory with
      jb := ((System.init memory).jb.ReceivePacket (some mem) length 0 0 1).1 } : System) = _
    rw [ReceivePacket_of_absent (System.init memory).jb mem length 0 0 1
      ⟨by simp, h0, le_refl _, le_refl _, by norm_num⟩ rfl
      (show (-1 : Int) < 0 by decide)
      (show (([] : FrameBuffers).length : Int) ≠ MaxFrameNumber by decide) rfl, hfb]
    rfl
  have hloop : JitterBufferImpl.RecycleExistingFrames.loop [((0 : Int), fb)] [((0 : Int), fb)]
      (-1) [] = ([], 0, [fb]) := by
    simp [JitterBufferImpl.RecycleExistingFrames.loop, FrameBuffers.erase, hc]
  rw [system_run_cons, system_run_append, e1,
    recyclerPass_batch test.StubDecoder test.StubRenderer _ [] 0 [fb] rfl rfl rfl rfl hloop rfl,
    dispatcherPass_stub _ fb [] rfl rfl rfl rfl rfl (by rw [hs]; exact le_of_lt h0)]
  rw [hs, ha, hn]
  exact ⟨rfl, rfl, rfl, rfl, rfl⟩

/-- The run of two frames, each delivered in a single packet, frame 1 before frame 0, to a
fresh instance, handled by the workers with the test stubs: both calls succeed, the final
state is quiescent and the record holds the calls for frame 0 and then those for frame 1. -/
theorem twoFrame_run (memory mem0 mem1 : Nat → Byte) (length0 length1 : Int)
    (h0 : 0 < length0) (h1 : length0 < 2 ^ 31) (k0 : 0 < length1) (k1 : length1 < 2 ^ 31) :
    CheckReceiverFunction ((System.init memory).jb.ReceivePacket (some mem1) length1 1 0 1).2 =
      result_code.sOk ∧
    CheckReceiverFunction (((System.init memory).step test.StubDecoder test.StubRenderer
      (Action.ReceivePacket (some mem1) length1 1 0 1)).jb.ReceivePacket
        (some mem0) length0 0 0 1).2 = result_code.sOk ∧
    ((System.init memory).run test.StubDecoder test.StubRenderer
      (Action.ReceivePacket (some mem1) length1 1 0 1 ::
        Action.ReceivePacket (some mem0) length0 0 0 1 ::
          (Action.recyclerPass ++ Action.dispatcherPass ++ Action.dispatcherPass))).calls =
      [Call.DecodeFrame 0 (bytesAt mem0 length0) length0,
        Call.RenderFrame (bytesAt (test.StubDecoder.DecodeFrame (bytesAt mem0 length0) length0
          memory).1 length0) length0,
        Call.DecodeFrame 1 (bytesAt mem1 length1) length1,
        Call.RenderFrame (bytesAt (test.StubDecoder.DecodeFrame (bytesAt mem1 length1) length1
          (test.StubDecoder.DecodeFrame (bytesAt mem0 length0) length0 memory).1).1 length1)
          length1] ∧
    ((System.init memory).run test.StubDecoder test.StubRenderer
      (Action.ReceivePacket (some mem1) length1 1 0 1 ::
        Action.ReceivePacket (some mem0) length0 0 0 1 ::
          (Action.recyclerPass ++ Action.dispatcherPass ++
            Action.dispatcherPass))).jb.m_unsortedFrameBuffers = [] ∧
    ((System.init memory).run test.StubDecoder test.StubRenderer
      (Action.ReceivePacket (some mem1) length1 1 0 1 ::
        Action.ReceivePacket (some mem0) length0 0 0 1 ::
          (Action.recyclerPass ++ Action.dispatcherPass ++
            Action.dispatcherPass))).jb.m_sortedFrameBuffers = [] ∧
    ((System.init memory).run test.StubDecoder test.StubRenderer
      (Action.ReceivePacket (some mem1) length1 1 0 1 ::
        Action.ReceivePacket (some mem0) length0 0 0 1 ::
          (Action.recyclerPass ++ Action.dispatcherPass ++
            Action.dispatcherPass))).recycler = Recycler.test ∧
    ((System.init memory).run test.StubDecoder test.StubRenderer
      (Action.ReceivePacket (some mem1) length1 1 0 1 ::
        Action.ReceivePacket (some mem0) length0 0 0 1 ::
          (Action.recyclerPass ++ Action.dispatcherPass ++
            Action.dispatcherPass))).dispatcher = Dispatcher.test := by
  obtain ⟨hc0, hn0, hs0, ha0⟩ := singleFragment_frame mem0 length0 0 (le_of_lt h0) h1
  obtain ⟨hc1, hn1, hs1, ha1⟩ := singleFragment_frame mem1 length1 1 (le_of_lt k0) k1
  generalize hfb0 : FrameBuffer.new mem0 length0 0 0 1 = fb0 at hc0 hn0 hs0 ha0
  generalize hfb1 : FrameBuffer.new mem1 length1 1 0 1 = fb1 at hc1 hn1 hs1 ha1
  have r1 := ReceivePacket_of_absent (System.init memory).jb mem1 length1 1 0 1
    ⟨by simp, k0, by norm_num, le_refl _, by norm_num⟩ rfl
    (show (-1 : Int) < 1 by decide)
    (show (([] : FrameBuffers).length : Int) ≠ MaxFrameNumber by decide) rfl
  have e1 : (System.init memory).step test.StubDecoder test.StubRenderer
      (Action.ReceivePacket (some mem1) length1 1 0 1) =
      { System.init memory with
        jb := { JitterBufferImpl.init with
          m_unsortedFrameBuffers := [(1, fb1)]
          m_recycleTaskLaunched := true
          m_dataProcessingTaskLaunched := true
          m_recyclerThread := some Thread.running
          m_dataProcessingThread := some Thread.running } } := by
    show ({ System.init memory with
      jb := ((System.init memory).jb.ReceivePacket (some mem1) length1 1 0 1).1 } : System) = _
    rw [r1, hfb1]
    rfl
  have r2 := ReceivePacket_of_absent
    ({ JitterBufferImpl.init with
      m_unsortedFrameBuffers := [(1, fb1)]
      m_recycleTaskLaunched := true
      m_dataProcessingTaskLaunched := true
      m_recyclerThread := some Thread.running
      m_dataProcessingThread := some Thread.running } : JitterBufferImpl) mem0 length0 0 0 1
    ⟨by simp, h0, le_refl _, le_refl _, by norm_num⟩ rfl
    (show (-1 : Int) < 0 by decide)
    (show ((1 : Nat) : Int) ≠ MaxFrameNumber by decide) rfl
  have e2 : ({ System.init memory with
        jb := { JitterBufferImpl.init with
          m_unsortedFrameBuffers := [(1, fb1)]
          m_recycleTaskLaunched := true
          m_dataProcessingTaskLaunched := true
          m_recyclerThread := some Thread.running
          m_dataProcessingThread := some Thread.running } } : System).step test.StubDecoder
        test.StubRenderer (Action.ReceivePacket (some mem0) length0 0 0 1) =
      { System.init memory with
        jb := { JitterBufferImpl.init with
          m_unsortedFrameBuffers := [(0, fb0), (1, fb1)]
          m_recycleTaskLaunched := true
          m_dataProcessingTaskLaunched := true
          m_recyclerThread := some Thread.running
          m_dataProcessingThread := some Thread.running } } := by
    show ({ System.init memory with
      jb := (({ JitterBufferImpl.init with
        m_unsortedFrameBuffers := [(1, fb1)]
        m_recycleTaskLaunched := true
        m_dataProcessingTaskLaunched := true
        m_recyclerThread := some Thread.running
        m_dataProcessingThread := some Thread.running } : JitterBufferImpl).ReceivePacket
          (some mem0) length0 0 0 1).1 } : System) = _
    rw [r2, hfb0]
    rfl
  have hloop : JitterBufferImpl.RecycleExistingFrames.loop
      [((0 : Int), fb0), ((1 : Int), fb1)] [((0 : Int), fb0), ((1 : Int), fb1)] (-1) [] =
        ([], 1, [fb0, fb1]) := by
    simp [JitterBufferImpl.RecycleExistingFrames.loop, FrameBuffers.erase, hc0, hc1]
  refine ⟨by rw [r1]; rfl, by rw [e1]; show CheckReceiverFunction (JitterBufferImpl.ReceivePacket
    _ (some mem0) length0 0 0 1).2 = _; rw [r2]; rfl, ?_⟩
  rw [system_run_cons, system_run_cons, system_run_append, system_run_append, e1, e2,
    recyclerPass_batch test.StubDecoder test.StubRenderer _ [] 1 [fb0, fb1] rfl rfl rfl rfl
      hloop rfl,
    dispatcherPass_stub_twice _ fb0 fb1 [] rfl rfl rfl rfl rfl
      (by rw [hs0]; exact le_of_lt h0) (by rw [hs1]; exact le_of_lt k0)]
  rw [hs0, ha0, hn0, hs1, ha1, hn1]
  exact ⟨rfl, rfl, rfl, rfl, rfl⟩

/-! ### What the stub renderer holds after a record -/

theorem bytesAt_length (m : Nat → Byte) (l : Int) : (bytesAt m l).length = l.toNat := by
  simp [bytesAt]

theorem bytesAt_getD (m : Nat → Byte) (l : Int) :
    bytesAt (fun i => (bytesAt m l).getD i 0) l = bytesAt m l := by
  have h := ptrOf_copy (bytesAt m l)
  rw [bytesAt_length] at h
  exact h

theorem bytesAt_ptrOf (B : List Byte) : bytesAt (fun i => B.getD i 0) (B.length : Int) = B := by
  unfold bytesAt
  rw [Int.toNat_ofNat]
  exact ptrOf_copy B

theorem rendered_one (n : Int) (x : List Byte) (l l2 : Int) (m : Nat → Byte) :
    test.GetRenderedData [Call.DecodeFrame n x l, Call.RenderFrame (bytesAt m l2) l2] =
      bytesAt m l2 := by
  simp only [test.GetRenderedData, test.StubRenderer.after, List.foldl,
    test.StubRenderer.RenderFrame, bytesAt_getD, List.nil_append]

theorem rendered_two (n n2 : Int) (x x2 : List Byte) (l l2 k k2 : Int) (m m2 : Nat → Byte) :
    test.GetRenderedData [Call.DecodeFrame n x l, Call.RenderFrame (bytesAt m l2) l2,
      Call.DecodeFrame n2 x2 k, Call.RenderFrame (bytesAt m2 k2) k2] =
      bytesAt m l2 ++ bytesAt m2 k2 := by
  simp only [test.GetRenderedData, test.StubRenderer.after, List.foldl,
    test.StubRenderer.RenderFrame, bytesAt_getD, List.nil_append]

/-- The stub decoder on a payload one byte larger than its limit: it copies `N` bytes. -/
theorem stub_oversize (memory : Nat → Byte) (N : Nat) (hN : (N : Int) = DecoderMaxOutputSize)
    (B : List Byte) :
    (test.StubDecoder.DecodeFrame B ((N + 1 : Nat) : Int) memory).1 =
      memcpy.mem memory B (N : Int) := by
  unfold test.StubDecoder.DecodeFrame
  simp only []
  rw [← hN, if_neg (by push_cast; omega)]

/-- The `N + 1` bytes found at the decoded-data pointer after the stub decoder has copied the
first `N` bytes of a payload of `N` zero bytes and a last byte: the zero bytes and the byte
that was already in memory at offset `N`. -/
theorem oversize_bytes (memory : Nat → Byte) (N : Nat) (last : Byte) :
    bytesAt (memcpy.mem memory (List.replicate N 0 ++ [last]) (N : Int)) ((N + 1 : Nat) : Int) =
      List.replicate N 0 ++ [memory N] := by
  unfold bytesAt
  rw [Int.toNat_ofNat, List.range_succ, List.map_append]
  congr 1
  · apply List.ext_getElem
    · simp
    · intro i h1 h2
      have hi : i < N := by simpa using h1
      simp only [List.getElem_map, List.getElem_range, List.getElem_replicate, memcpy.mem]
      rw [if_pos (by exact_mod_cast hi), List.getD_eq_getElem?_getD,
        List.getElem?_append_left (by simpa using hi),
        List.getElem?_eq_getElem (by simpa using hi)]
      simp
  · simp [memcpy.mem]

end JitterBuffer

namespace JitterBuffer

theorem oversizePayload_length (last : Byte) : (oversizePayload last).length = 1048576 + 1 := by
  unfold oversizePayload
  rw [List.length_append, List.length_replicate, List.length_singleton]

theorem oversizePayload_size (last : Byte) :
    ((oversizePayload last).length : Int) = 1048577 := by
  rw [oversizePayload_length]
  norm_num

theorem DecoderMaxOutputSize_cast : ((1048576 : Nat) : Int) = DecoderMaxOutputSize := by
  unfold DecoderMaxOutputSize
  norm_num

theorem oversize_size_cast : (1048577 : Int) = ((1048576 + 1 : Nat) : Int) := by
  norm_num

/-- C3, the code at the failing input: one frame of 1 MiB + 1 bytes (1 MiB of zero bytes
and a last byte `last`) is delivered in a single packet to a fresh instance and the workers
run, with the test stubs, until neither can progress.  The decoder receives exactly the
payload, once.  The stub decoder copies 1 MiB to the decoded-data array (which holds
`MaxDecodedBufferSize` = 1 MiB bytes) and returns
1 MiB + 1, and the dispatcher hands that size to `RenderFrame`, so the renderer reads one
byte past the array: it observes the 1 MiB of zero bytes followed by whatever byte `memory`
holds behind the array, which is the payload only if that byte happens to be `last`. -/
theorem C3_oversize_frame_over_read (memory : Nat → Byte) (last : Byte) :
    MaxDecodedBufferSize = 1048576 ∧
    ((System.init memory).run test.StubDecoder test.StubRenderer
      (singleFrameTrace (oversizePayload last))).jb.m_unsortedFrameBuffers = [] ∧
    ((System.init memory).run test.StubDecoder test.StubRenderer
      (singleFrameTrace (oversizePayload last))).jb.m_sortedFrameBuffers = [] ∧
    ((System.init memory).run test.StubDecoder test.StubRenderer
      (singleFrameTrace (oversizePayload last))).recycler = Recycler.test ∧
    ((System.init memory).run test.StubDecoder test.StubRenderer
      (singleFrameTrace (oversizePayload last))).dispatcher = Dispatcher.test ∧
    decodeCalls ((System.init memory).run test.StubDecoder test.StubRenderer
      (singleFrameTrace (oversizePayload last))).calls =
        [(0, oversizePayload last, 1048577)] ∧
    test.GetRenderedData ((System.init memory).run test.StubDecoder test.StubRenderer
      (singleFrameTrace (oversizePayload last))).calls =
        List.replicate 1048576 0 ++ [memory 1048576] ∧
    (memory 1048576 ≠ last →
      test.GetRenderedData ((System.init memory).run test.StubDecoder test.StubRenderer
        (singleFrameTrace (oversizePayload last))).calls ≠ oversizePayload last) := by
  have h := singleFrame_run memory (fun i => (oversizePayload last).getD i 0)
    ((oversizePayload last).length : Int)
    (by rw [oversizePayload_size]; norm_num) (by rw [oversizePayload_size]; norm_num)
  rw [bytesAt_ptrOf, oversizePayload_size] at h
  obtain ⟨hcalls, h2, h3, h4, h5⟩ := h
  have hcalls2 : ((System.init memory).run test.StubDecoder test.StubRenderer
      (singleFrameTrace (oversizePayload last))).calls =
      [Call.DecodeFrame 0 (oversizePayload last) 1048577,
        Call.RenderFrame (bytesAt (test.StubDecoder.DecodeFrame (oversizePayload last) 1048577
          memory).1 1048577) 1048577] := by
    have e : singleFrameTrace (oversizePayload last) =
        Action.ReceivePacket (some fun i => (oversizePayload last).getD i 0) 1048577 0 0 1 ::
          (Action.recyclerPass ++ Action.dispatcherPass) := by
      unfold singleFrameTrace Action.packet ptrOf
      rw [oversizePayload_size]
    rw [e]
    exact hcalls
  have hstate : (System.init memory).run test.StubDecoder test.StubRenderer
      (singleFrameTrace (oversizePayload last)) =
      (System.init memory).run test.StubDecoder test.StubRenderer
        (Action.ReceivePacket (some fun i => (oversizePayload last).getD i 0) 1048577 0 0 1 ::
          (Action.recyclerPass ++ Action.dispatcherPass)) := by
    unfold singleFrameTrace Action.packet ptrOf
    rw [oversizePayload_size]
  have hrendered : test.GetRenderedData ((System.init memory).run test.StubDecoder
      test.StubRenderer (singleFrameTrace (oversizePayload last))).calls =
      List.replicate 1048576 0 ++ [memory 1048576] := by
    rw [hcalls2, rendered_one, oversize_size_cast,
      stub_oversize memory 1048576 DecoderMaxOutputSize_cast]
    exact oversize_bytes memory 1048576 last
  refine ⟨by decide, ?_, ?_, ?_, ?_, ?_, hrendered, ?_⟩
  · rw [hstate]; exact h2
  · rw [hstate]; exact h3
  · rw [hstate]; exact h4
  · rw [hstate]; exact h5
  · rw [hcalls2]
    rfl
  · intro hne heq
    rw [hrendered] at heq
    have h1 : [memory 1048576] = [last] :=
      List.append_cancel_left (heq : _ = List.replicate 1048576 0 ++ [last])
    exact hne (List.cons.inj h1).1

/-- C4, the code at the failing input: two frames, frame 1 of 1 MiB + 1 bytes (1 MiB of zero
bytes and a last byte `last`) and frame 0 of the single byte 7, each delivered in a single
packet, frame 1 first, to a fresh instance; then the workers run, with the test stubs, until
neither can progress.  Both `ReceivePacket` calls succeed and the frames are decoded in frame
order, each with exactly its payload.  For frame 1 the renderer reads one byte past the
decoded-data array: it observes the byte 7, the 1 MiB of zero bytes and then whatever byte
`memory` holds behind the array, which is `B_0 ++ B_1` only if that byte happens to be
`last`. -/
theorem C4_oversize_frame_over_read (memory : Nat → Byte) (last : Byte) :
    MaxDecodedBufferSize = 1048576 ∧
    CheckReceiverFunction ((System.init memory).jb.ReceivePacket
      (ptrOf (oversizePayload last)) 1048577 1 0 1).2 = result_code.sOk ∧
    CheckReceiverFunction (((System.init memory).step test.StubDecoder test.StubRenderer
      (Action.packet (oversizePayload last) 1 0 1)).jb.ReceivePacket
        (ptrOf [7]) 1 0 0 1).2 = result_code.sOk ∧
    ((System.init memory).run test.StubDecoder test.StubRenderer
      (twoFrameTrace [7] (oversizePayload last))).jb.m_unsortedFrameBuffers = [] ∧
    ((System.init memory).run test.StubDecoder test.StubRenderer
      (twoFrameTrace [7] (oversizePayload last))).jb.m_sortedFrameBuffers = [] ∧
    ((System.init memory).run test.StubDecoder test.StubRenderer
      (twoFrameTrace [7] (oversizePayload last))).recycler = Recycler.test ∧
    ((System.init memory).run test.StubDecoder test.StubRenderer
      (twoFrameTrace [7] (oversizePayload last))).dispatcher = Dispatcher.test ∧
    decodeCalls ((System.init memory).run test.StubDecoder test.StubRenderer
      (twoFrameTrace [7] (oversizePayload last))).calls =
        [(0, [7], 1), (1, oversizePayload last, 1048577)] ∧
    test.GetRenderedData ((System.init memory).run test.StubDecoder test.StubRenderer
      (twoFrameTrace [7] (oversizePayload last))).calls =
        [7] ++ (List.replicate 1048576 0 ++ [memory 1048576]) ∧
    (memory 1048576 ≠ last →
      test.GetRenderedData ((System.init memory).run test.StubDecoder test.StubRenderer
        (twoFrameTrace [7] (oversizePayload last))).calls ≠ [7] ++ oversizePayload last) := by
  have h := twoFrame_run memory (fun i => ([7] : List Byte).getD i 0)
    (fun i => (oversizePayload last).getD i 0) ((([7] : List Byte).length : Nat) : Int)
    ((oversizePayload last).length : Int) (by decide) (by decide)
    (by rw [oversizePayload_size]; norm_num) (by rw [oversizePayload_size]; norm_num)
  rw [bytesAt_ptrOf, bytesAt_ptrOf, oversizePayload_size] at h
  have hone : ((([7] : List Byte).length : Nat) : Int) = 1 := rfl
  rw [hone] at h
  obtain ⟨r1, r2, hcalls, h2, h3, h4, h5⟩ := h
  have hpacket : Action.packet (oversizePayload last) 1 0 1 =
      Action.ReceivePacket (some fun i => (oversizePayload last).getD i 0) 1048577 1 0 1 := by
    unfold Action.packet ptrOf
    rw [oversizePayload_size]
  have htrace : twoFrameTrace [7] (oversizePayload last) =
      Action.ReceivePacket (some fun i => (oversizePayload last).getD i 0) 1048577 1 0 1 ::
        Action.ReceivePacket (some fun i => ([7] : List Byte).getD i 0) 1 0 0 1 ::
          (Action.recyclerPass ++ Action.dispatcherPass ++ Action.dispatcherPass) := by
    unfold twoFrameTrace
    rw [hpacket]
    rfl
  have hm1 : (test.StubDecoder.DecodeFrame [7] 1 memory).1 1048576 = memory 1048576 := by
    simp [test.StubDecoder.DecodeFrame, memcpy.mem, DecoderMaxOutputSize]
  have hb1 : bytesAt (test.StubDecoder.DecodeFrame [7] 1 memory).1 1 = [7] := by
    simp [test.StubDecoder.DecodeFrame, memcpy.mem, DecoderMaxOutputSize, bytesAt,
      List.range_succ]
  have hrendered : test.GetRenderedData ((System.init memory).run test.StubDecoder
      test.StubRenderer (twoFrameTrace [7] (oversizePayload last))).calls =
      [7] ++ (List.replicate 1048576 0 ++ [memory 1048576]) := by
    rw [htrace, hcalls, rendered_two, hb1, oversize_size_cast,
      stub_oversize _ 1048576 DecoderMaxOutputSize_cast, ← hm1]
    exact congrArg (fun l => [7] ++ l) (oversize_bytes _ 1048576 last)
  refine ⟨by decide, r1, ?_, ?_, ?_, ?_, ?_, ?_, hrendered, ?_⟩
  · rw [hpacket]; exact r2
  · rw [htrace]; exact h2
  · rw [htrace]; exact h3
  · rw [htrace]; exact h4
  · rw [htrace]; exact h5
  · rw [htrace, hcalls]
    rfl
  · intro hne heq
    rw [hrendered] at heq
    have h0 : List.replicate 1048576 0 ++ [memory 1048576] = oversizePayload last :=
      List.append_cancel_left heq
    have h1 : [memory 1048576] = [last] :=
      List.append_cancel_left (h0 : _ = List.replicate 1048576 0 ++ [last])
    exact hne (List.cons.inj h1).1

end JitterBuffer
